import Mathlib

/-!
# Recommendation engine: graph store, similarity caches, recommenders

A shallow embedding of `BipartiteGraph`, `PageRank`, `Collaborative`, `Content` and `Hybrid`
(C++ sources `BipartiteGraph.cpp`, `PageRank.cpp`, `Collabrative.cpp`, `Content.cpp`,
`Hybrid.cpp`).

Modelling conventions.

* `float` / `double` scores are elements of an arbitrary linearly ordered field `F`
  (exact arithmetic, no rounding, no NaN); `std::sqrt` and `std::exp` are parameters
  `sqrt exp : F → F`, and theorems state the properties of `exp` they use (positive,
  monotone).
* `int` ids, lengths and tiers are `Int`; `size_t` counts are `Nat`; `uint64_t` cache
  keys are `Nat` reduced modulo `2 ^ 64`.
* `std::unordered_map` is an association list in insertion order (`Map`), its iteration
  order is the list order; `std::unordered_set` is a duplicate-free list (`USet`).
* `std::sort (first, last, comp)` is an insertion sort (`stdSort`); elements that compare
  equal come out in the reverse of their input order (`std::sort` leaves it unspecified).
* Range-based `for` loops are `List.foldl` over the iterated container.
* Member functions that mutate a cache return the new object next to their result.
-/

/-! ## Containers -/

/-- Association-list model of `std::unordered_map<K, V>`. -/
abbrev Map (K V : Type) := List (K × V)

namespace Map

variable {K V : Type} [DecidableEq K]

/-- Lookup, `m.find(k)`: the stored value, or `none` for `m.end()`. -/
def find : Map K V → K → Option V
  | [], _ => none
  | (k', v) :: t, k => if k' = k then some v else find t k

/-- Assignment `m[k] = v`: overwrite the entry of `k`, or create it. -/
def insert : Map K V → K → V → Map K V
  | [], k, v => [(k, v)]
  | (k', v') :: t, k, v => if k' = k then (k, v) :: t else (k', v') :: insert t k v

/-- Read-modify-write through `m[k]`: a missing entry is value-initialised to `d` first. -/
def modify (m : Map K V) (k : K) (d : V) (f : V → V) : Map K V :=
  insert m k (f ((find m k).getD d))

/-- Removal `m.erase(k)`. -/
def erase (m : Map K V) (k : K) : Map K V :=
  m.filter (fun e => decide (e.1 ≠ k))

end Map

/-- List model of `std::unordered_set<K>`: no element is stored twice. -/
abbrev USet (K : Type) := List K

namespace USet

variable {K : Type} [DecidableEq K]

/-- Insertion `s.insert(k)`. -/
def insert (s : USet K) (k : K) : USet K :=
  if k ∈ s then s else s ++ [k]

/-- Membership count `s.count(k)`, which is 0 or 1. -/
def count (s : USet K) (k : K) : Nat :=
  if k ∈ s then 1 else 0

/-- Range constructor `std::unordered_set<K> s(first, last)`. -/
def ofList (l : List K) : USet K :=
  l.foldl insert []

end USet

/-! ## Sorting -/

/-- Insert `x` in front of the first element that `comp` puts after it. -/
def stdInsert {α : Type} (comp : α → α → Bool) (x : α) : List α → List α
  | [] => [x]
  | y :: t => if comp x y then x :: y :: t else y :: stdInsert comp x t

/-- Model of `std::sort(first, last, comp)`. -/
def stdSort {α : Type} (comp : α → α → Bool) : List α → List α
  | [] => []
  | x :: t => stdInsert comp x (stdSort comp t)

/-- The comparator `[](const auto &a, const auto &b) { return a.second > b.second; }`. -/
def bySecondDesc {α F : Type} [LinearOrderedField F] (a b : α × F) : Bool :=
  decide (a.2 > b.2)

/-- The comparator `[](const auto &a, const auto &b) { return a.second < b.second; }`. -/
def bySecondAsc {α : Type} (a b : α × Int) : Bool :=
  decide (a.2 < b.2)

/-- Truncation `if (v.size() > n) v.resize(n);`. -/
def truncate {α : Type} (v : List α) (n : Nat) : List α :=
  if v.length > n then v.take n else v

/-! ## Graph store (`BipartiteGraph.h`, `BipartiteGraph.cpp`) -/

/-- The record `BipartiteGraph::Item`. -/
structure BipartiteGraph.Item (F : Type) where
  id : Int
  genres : List String
  length : Int
  imdb : F
  rating : Int

/-- The class `BipartiteGraph`: both adjacency maps and the item table. -/
structure BipartiteGraph (F : Type) where
  user_to_items : Map Int (List (Int × F))
  item_to_users : Map Int (List (Int × F))
  items : Map Int (BipartiteGraph.Item F)

namespace BipartiteGraph

variable {F : Type}

/-- A default-constructed graph. -/
def empty : BipartiteGraph F :=
  { user_to_items := [], item_to_users := [], items := [] }

/-- Source: `BipartiteGraph::addUser`. -/
def addUser (g : BipartiteGraph F) (id : Int) (ratings : List (Int × F)) : BipartiteGraph F :=
  let validRatings : List (Int × F) :=
    ratings.foldl
      (fun acc e => if (Map.find g.items e.1).isSome then acc ++ [(e.1, e.2)] else acc) []
  let user_to_items := Map.insert g.user_to_items id validRatings
  let item_to_users :=
    validRatings.foldl
      (fun m e => Map.modify m e.1 [] (fun users => users ++ [(id, e.2)])) g.item_to_users
  { g with user_to_items := user_to_items, item_to_users := item_to_users }

/-- Source: `BipartiteGraph::addItem`. -/
def addItem (g : BipartiteGraph F) (id : Int) (genres : List String) (length : Int) (imdb : F)
    (rating : Int) : BipartiteGraph F :=
  let item : Item F :=
    { id := id, genres := genres, length := length, imdb := imdb, rating := rating }
  { g with items := Map.insert g.items id item }

/-- The record `BipartiteGraph::User` as `getAllUsers` fills it; the field `pr` is not
assigned there and is left out. -/
structure User (F : Type) where
  id : Int
  movie_watched : List (Int × Int)
  rating : List (Int × F)

/-- Source: `BipartiteGraph::getAllUsers`. -/
def getAllUsers (g : BipartiteGraph F) : List (User F) :=
  g.user_to_items.foldl
    (fun allUsers u =>
      let user : User F :=
        u.2.foldl
          (fun user e =>
            if (Map.find g.items e.1).isSome then
              { user with
                rating := user.rating ++ [(e.1, e.2)],
                movie_watched := user.movie_watched ++ [(e.1, 1)] }
            else user)
          { id := u.1, movie_watched := [], rating := [] }
      allUsers ++ [user])
    []

/-- One ingest call, `addItem` or `addUser`. -/
inductive Op (F : Type) where
  | addItem (id : Int) (genres : List String) (length : Int) (imdb : F) (rating : Int)
  | addUser (id : Int) (ratings : List (Int × F))

/-- Run one ingest call. -/
def step (g : BipartiteGraph F) : Op F → BipartiteGraph F
  | Op.addItem id genres length imdb rating => g.addItem id genres length imdb rating
  | Op.addUser id ratings => g.addUser id ratings

/-- The graph reached from the empty graph by a sequence of ingest calls. -/
def run (ops : List (Op F)) : BipartiteGraph F :=
  ops.foldl step empty

/-- The triple `(u, i, r)` is an edge of the user→items map. -/
def edgeUserItem (g : BipartiteGraph F) (u i : Int) (r : F) : Prop :=
  ∃ l, Map.find g.user_to_items u = some l ∧ (i, r) ∈ l

/-- The triple `(u, i, r)` is an edge of the item→users map. -/
def edgeItemUser (g : BipartiteGraph F) (u i : Int) (r : F) : Prop :=
  ∃ l, Map.find g.item_to_users i = some l ∧ (u, r) ∈ l

end BipartiteGraph

/-! ## Rank engine (`PageRank.h`, `PageRank.cpp`) -/

/-- The class `PageRank`: the rank table computed at construction. -/
structure PageRank (F : Type) where
  ranks : Map Int F

namespace PageRank

variable {F : Type} [LinearOrderedField F]

/-- The constant `MIN_RANK = 0.0001`. -/
def MIN_RANK : F := 1 / 10000

/-- Source: `PageRank::getPageRank`. -/
def getPageRank (pr : PageRank F) (userId : Int) : F :=
  match Map.find pr.ranks userId with
  | some rank => rank
  | none => MIN_RANK

/-- The constant `DAMPING = 0.85`. -/
def DAMPING : F := 85 / 100

/-- The constant `MAX_ITERATIONS`. -/
def MAX_ITERATIONS : Nat := 50

/-- The constant `CONVERGENCE_THRESHOLD = 0.0001`. -/
def CONVERGENCE_THRESHOLD : F := 1 / 10000

/-- The constant `CORE_ACTIVITY_THRESHOLD = 0.5`. -/
def CORE_ACTIVITY_THRESHOLD : F := 1 / 2

/-- The constant `ACTIVITY_BOOST = 3.0`. -/
def ACTIVITY_BOOST : F := 3

/-- Source: `PageRank::initializeRanks`. -/
def initializeRanks (g : BipartiteGraph F) (pr : PageRank F) : PageRank F :=
  let users := g.user_to_items
  if users.isEmpty then pr
  else
    let initialRank : F := 1 / (users.length : F)
    { ranks := users.foldl (fun ranks u => Map.insert ranks u.1 initialRank) [] }

/-- Source: `PageRank::normalizeRanks`. -/
def normalizeRanks (ranks : Map Int F) : Map Int F :=
  let sum : F := ranks.foldl (fun sum e => sum + e.2) 0
  if sum > 0 then ranks.map (fun e => (e.1, max MIN_RANK (e.2 / sum))) else ranks

/-- Source: `PageRank::calculateActivityScore`; `exp` stands for `std::exp`. -/
def calculateActivityScore (exp : F → F) (numRatings maxRatings : Nat) : F :=
  if maxRatings = 0 then 1
  else
    let activityRatio : F := (numRatings : F) / (maxRatings : F)
    if activityRatio ≥ CORE_ACTIVITY_THRESHOLD then ACTIVITY_BOOST
    else 1 + (ACTIVITY_BOOST - 1) / (1 + exp (-10 * (activityRatio - CORE_ACTIVITY_THRESHOLD)))

/-- The count `sharedMovies` of `calculatePageRanks`: the entries of `otherRatings` whose
movie is in `userMovies`. -/
def sharedMovies (userMovies : USet Int) (otherRatings : List (Int × F)) : Int :=
  otherRatings.foldl (fun n e => if USet.count userMovies e.1 > 0 then n + 1 else n) 0

/-- Body of the loop of `calculatePageRanks` over the other users. The read `ranks[otherId]`
yields `0.0` for a missing key (the entry `operator[]` then creates is dropped with the old
table at the end of the round). -/
def addContribution (ranks : Map Int F) (userId : Int) (userMovies : USet Int)
    (activityScore : F) (newRank : F) (o : Int × List (Int × F)) : F :=
  if o.1 = userId then newRank
  else
    let shared := sharedMovies userMovies o.2
    if shared > 0 then
      let contribution : F := (Map.find ranks o.1).getD 0 * (shared : F) / (o.2.length : F)
      newRank + DAMPING * activityScore * contribution
    else newRank

/-- The set `userMovies` of `calculatePageRanks`: the rated movies found in the item table. -/
def userMoviesOf (g : BipartiteGraph F) (userRatings : List (Int × F)) : USet Int :=
  userRatings.foldl (fun s e => if (Map.find g.items e.1).isSome then USet.insert s e.1 else s) []

/-- The value `newRank` that one round of `calculatePageRanks` computes for user `u`. -/
def newRankOf (exp : F → F) (g : BipartiteGraph F) (ranks : Map Int F) (maxRatings : Nat)
    (u : Int × List (Int × F)) : F :=
  let activityScore := calculateActivityScore exp u.2.length maxRatings
  let newRank : F := (1 - DAMPING) / (g.user_to_items.length : F)
  let userMovies := userMoviesOf g u.2
  g.user_to_items.foldl (addContribution ranks u.1 userMovies activityScore) newRank

/-- Body of the loop of `calculatePageRanks` over the users; the accumulator is
`(newRanks, totalDiff)`. -/
def rankStep (exp : F → F) (g : BipartiteGraph F) (ranks : Map Int F) (maxRatings : Nat)
    (acc : Map Int F × F) (u : Int × List (Int × F)) : Map Int F × F :=
  let newRank := newRankOf exp g ranks maxRatings u
  (Map.insert acc.1 u.1 newRank, acc.2 + |newRank - (Map.find ranks u.1).getD 0|)

/-- The loop `for (iteration = 0; iteration < MAX_ITERATIONS; iteration++)` with its
`break`; the first argument counts the iterations that are left. -/
def iterate (exp : F → F) (g : BipartiteGraph F) (maxRatings : Nat) : Nat → Map Int F → Map Int F
  | 0, ranks => ranks
  | k + 1, ranks =>
    let r := g.user_to_items.foldl (rankStep exp g ranks maxRatings) ([], 0)
    let newRanks := normalizeRanks r.1
    if r.2 < CONVERGENCE_THRESHOLD then newRanks else iterate exp g maxRatings k newRanks

/-- The number of times the body of the loop
`for (iteration = 0; iteration < MAX_ITERATIONS; iteration++)` of `calculatePageRanks` runs,
its `break` included; the first argument counts the iterations that are left. -/
def roundsRun (exp : F → F) (g : BipartiteGraph F) (maxRatings : Nat) : Nat → Map Int F → Nat
  | 0, _ => 0
  | k + 1, ranks =>
    let r := g.user_to_items.foldl (rankStep exp g ranks maxRatings) ([], 0)
    let newRanks := normalizeRanks r.1
    if r.2 < CONVERGENCE_THRESHOLD then 1 else 1 + roundsRun exp g maxRatings k newRanks

/-- Source: `PageRank::calculatePageRanks`. -/
def calculatePageRanks (exp : F → F) (g : BipartiteGraph F) (pr : PageRank F) : PageRank F :=
  if g.user_to_items.isEmpty ∨ g.items.isEmpty then pr
  else
    let pr := initializeRanks g pr
    let maxRatings : Nat := g.user_to_items.foldl (fun m u => max m u.2.length) 0
    { ranks := iterate exp g maxRatings MAX_ITERATIONS pr.ranks }

/-- Source: the constructor `PageRank::PageRank (bg)`. -/
def construct (exp : F → F) (g : BipartiteGraph F) : PageRank F :=
  calculatePageRanks exp g { ranks := [] }

end PageRank

/-! ## Cache keys -/

/-- The conversion `static_cast<uint64_t>(id)` of an `int`. -/
def toUInt64 (id : Int) : Nat :=
  (id % (2 ^ 64 : Int)).toNat

/-- The 64-bit shift `x << 32`. -/
def shl32 (x : Nat) : Nat :=
  (x <<< 32) % 2 ^ 64

/-! ## Collaborative engine (`Collabrative.h`, `Collabrative.cpp`) -/

/-- The mutable members of class `Collaborative`: the similarity cache and its access
counts. The graph and the rank table it refers to are passed to each member function. -/
structure Collaborative (F : Type) where
  similarityCache : Map Nat F
  cacheAccessCount : Map Nat Int

namespace Collaborative

variable {F : Type} [LinearOrderedField F]

/-- The constant `MAX_CACHE_SIZE`. -/
def MAX_CACHE_SIZE : Nat := 10000

/-- The constant `MIN_INFLUENTIAL_USERS`. -/
def MIN_INFLUENTIAL_USERS : Nat := 5

/-- The constant `MIN_PAGERANK_SCORE = 0.01`. -/
def MIN_PAGERANK_SCORE : F := 1 / 100

/-- Source: `Collaborative::createPairKey`. -/
def createPairKey (id1 id2 : Int) : Nat :=
  let p : Int × Int := if id1 > id2 then (id2, id1) else (id1, id2)
  shl32 (toUInt64 p.1) ||| toUInt64 p.2

/-- Source: `Collaborative::evictCache`. The count `numToRemove` is computed in `size_t`
arithmetic, modulo `2 ^ 64`. -/
def evictCache (c : Collaborative F) : Collaborative F :=
  let cacheStats : List (Nat × Int) :=
    c.cacheAccessCount.foldl (fun acc e => acc ++ [(e.1, e.2)]) []
  let cacheStats := stdSort bySecondAsc cacheStats
  let numToRemove : Nat := (c.similarityCache.length + 2 ^ 64 - MAX_CACHE_SIZE / 2) % 2 ^ 64
  (cacheStats.take numToRemove).foldl
    (fun c e =>
      { similarityCache := Map.erase c.similarityCache e.1,
        cacheAccessCount := Map.erase c.cacheAccessCount e.1 })
    c

/-- Body of the second loop of `Collaborative::calculateSimilarity`, over `ratings2`; the
accumulator is `(dotProduct, norm2, commonMovies)`. -/
def dotStep (user1Ratings : Map Int F) (a : F × F × Int) (e : Int × F) : F × F × Int :=
  match Map.find user1Ratings e.1 with
  | some r1 => (a.1 + r1 * e.2, a.2.1 + e.2 * e.2, a.2.2 + 1)
  | none => (a.1, a.2.1 + e.2 * e.2, a.2.2)

/-- Source: `Collaborative::calculateSimilarity`. -/
def calculateSimilarity (sqrt : F → F) (g : BipartiteGraph F) (user1Id user2Id : Int) : F :=
  if user1Id = user2Id then 1
  else
    match Map.find g.user_to_items user1Id, Map.find g.user_to_items user2Id with
    | some ratings1, some ratings2 =>
      if ratings1.isEmpty ∨ ratings2.isEmpty then 0
      else
        let user1Ratings : Map Int F :=
          ratings1.foldl (fun m e => Map.insert m e.1 e.2) []
        let acc : F × F × Int := ratings2.foldl (dotStep user1Ratings) (0, 0, 0)
        let dotProduct := acc.1
        let norm2 := acc.2.1
        let commonMovies := acc.2.2
        let norm1 : F := ratings1.foldl (fun n e => n + e.2 * e.2) 0
        if norm1 = 0 ∨ norm2 = 0 ∨ commonMovies < 1 then 0
        else dotProduct / (sqrt norm1 * sqrt norm2)
    | _, _ => 0

/-- Source: `Collaborative::getCachedSimilarity`. -/
def getCachedSimilarity (c : Collaborative F) (userId1 userId2 : Int) : F × Collaborative F :=
  if userId1 = userId2 then (1, c)
  else
    let key := createPairKey userId1 userId2
    match Map.find c.similarityCache key with
    | some v =>
      (v, { c with cacheAccessCount := Map.modify c.cacheAccessCount key 0 (fun n => n + 1) })
    | none => (0, c)

end Collaborative

/-! ## Content engine (`Content.h`, `Content.cpp`) -/

/-- The mutable members of class `Content`: the similarity cache and its access counts. -/
structure Content (F : Type) where
  similarityCache : Map Nat F
  cacheAccessCount : Map Nat Int

namespace Content

variable {F : Type} [LinearOrderedField F]

/-- The constant `MAX_CACHE_SIZE`. -/
def MAX_CACHE_SIZE : Nat := 10000

/-- Source: `Content::createPairKey`. -/
def createPairKey (id1 id2 : Int) : Nat :=
  let p : Int × Int := if id1 > id2 then (id2, id1) else (id1, id2)
  shl32 (toUInt64 p.1) ||| toUInt64 p.2

/-- Source: `Content::evictCache`. The count `numToRemove` is computed in `size_t`
arithmetic, modulo `2 ^ 64`. -/
def evictCache (c : Content F) : Content F :=
  let cacheStats : List (Nat × Int) :=
    c.cacheAccessCount.foldl (fun acc e => acc ++ [(e.1, e.2)]) []
  let cacheStats := stdSort bySecondAsc cacheStats
  let numToRemove : Nat := (c.similarityCache.length + 2 ^ 64 - MAX_CACHE_SIZE / 2) % 2 ^ 64
  (cacheStats.take numToRemove).foldl
    (fun c e =>
      { similarityCache := Map.erase c.similarityCache e.1,
        cacheAccessCount := Map.erase c.cacheAccessCount e.1 })
    c

/-- Source: `Content::calculateSimilarity`. -/
def calculateSimilarity (g : BipartiteGraph F) (item1Id item2Id : Int) : F :=
  if item1Id = item2Id then 1
  else
    match Map.find g.items item1Id, Map.find g.items item2Id with
    | some item1, some item2 =>
      let genreSimilarity : F :=
        if ¬ item1.genres.isEmpty ∧ ¬ item2.genres.isEmpty then
          let genres1 := USet.ofList item1.genres
          let genres2 := USet.ofList item2.genres
          let intersection : Nat :=
            genres1.foldl (fun n genre => if USet.count genres2 genre > 0 then n + 1 else n) 0
          (intersection : F) / ((genres1.length + genres2.length - intersection : Nat) : F)
        else 0
      let ratingDiff : F := |item1.imdb - item2.imdb| / 10
      let ratingSimiliarity : F := 1 - ratingDiff
      let yearDiff : F := |((item1.rating - item2.rating : Int) : F)| / 4
      let yearSimilarity : F := 1 - yearDiff
      let lengthDiff : F := |((item1.length - item2.length : Int) : F)| / 180
      let lengthSimilarity : F := 1 - lengthDiff
      let GENRE_WEIGHT : F := 6 / 10
      let RATING_WEIGHT : F := 2 / 10
      let YEAR_WEIGHT : F := 1 / 10
      let LENGTH_WEIGHT : F := 1 / 10
      GENRE_WEIGHT * genreSimilarity + RATING_WEIGHT * ratingSimiliarity
        + YEAR_WEIGHT * yearSimilarity + LENGTH_WEIGHT * lengthSimilarity
    | _, _ => 0

/-- Source: `Content::getCachedSimilarity`. -/
def getCachedSimilarity (c : Content F) (itemId1 itemId2 : Int) : F × Content F :=
  if itemId1 = itemId2 then (1, c)
  else
    let key := createPairKey itemId1 itemId2
    match Map.find c.similarityCache key with
    | some v =>
      (v, { c with cacheAccessCount := Map.modify c.cacheAccessCount key 0 (fun n => n + 1) })
    | none => (0, c)

end Content

/-! ## Similarity precomputation (`preComputeSimilarities`)

The worker threads run concurrently; every loop iteration of `processPairs` computes one
similarity (which reads the graph only) and performs its insert in one critical section
under `cacheMutex`. The order in which these critical sections take effect is a parameter
`schedule`, which merges the slices of the spawned threads into one sequence; the schedule
that runs the threads one after another in spawn order is `List.flatten`. The thread count
is a `Nat`: the source takes an `int` and divides by it, so it must be at least 1. -/

/-- The index range `[start, end)` of `processPairs`, cut at `pairs.size()`. -/
def pairSlice (pairs : List (Int × Int)) (start stop : Nat) : List (Int × Int) :=
  (pairs.take stop).drop start

/-- The slices handed to the worker threads, in spawn order: thread `i` gets
`[i * pairsPerThread, min (i * pairsPerThread + pairsPerThread, size))` when that range is
not empty, with `pairsPerThread = (size + numThreads - 1) / numThreads`. -/
def threadSlices (pairs : List (Int × Int)) (numThreads : Nat) : List (List (Int × Int)) :=
  let pairsPerThread := (pairs.length + numThreads - 1) / numThreads
  (List.range numThreads).foldl
    (fun threads i =>
      let start := i * pairsPerThread
      let stop := min (start + pairsPerThread) pairs.length
      if start < stop then threads ++ [pairSlice pairs start stop] else threads)
    []

/-- The list of id pairs `(id1, id2)` with `id1 < id2`, enumerated by the two nested loops
over the keys of `table`. -/
def orderedPairs {V : Type} (table : Map Int V) : List (Int × Int) :=
  table.foldl
    (fun acc e1 =>
      table.foldl (fun acc e2 => if e1.1 < e2.1 then acc ++ [(e1.1, e2.1)] else acc) acc)
    []

namespace Collaborative

variable {F : Type} [LinearOrderedField F]

/-- One loop iteration of the lambda `processPairs`. -/
def processPair (sqrt : F → F) (g : BipartiteGraph F) (c : Collaborative F) (p : Int × Int) :
    Collaborative F :=
  let similarity := calculateSimilarity sqrt g p.1 p.2
  if similarity > 0 then
    let key := createPairKey p.1 p.2
    { similarityCache := Map.insert c.similarityCache key similarity,
      cacheAccessCount := Map.insert c.cacheAccessCount key 1 }
  else c

/-- Source: `Collaborative::preComputeSimilarities`. -/
def preComputeSimilarities (sqrt : F → F) (g : BipartiteGraph F) (c : Collaborative F)
    (numThreads : Nat) (schedule : List (List (Int × Int)) → List (Int × Int)) :
    Collaborative F :=
  let userPairs := orderedPairs g.user_to_items
  let threads := threadSlices userPairs numThreads
  let c := (schedule threads).foldl (processPair sqrt g) c
  if c.similarityCache.length > MAX_CACHE_SIZE then evictCache c else c

end Collaborative

namespace Content

variable {F : Type} [LinearOrderedField F]

/-- One loop iteration of the lambda `processPairs`. -/
def processPair (g : BipartiteGraph F) (c : Content F) (p : Int × Int) : Content F :=
  let similarity := calculateSimilarity g p.1 p.2
  if similarity > 0 then
    let key := createPairKey p.1 p.2
    { similarityCache := Map.insert c.similarityCache key similarity,
      cacheAccessCount := Map.insert c.cacheAccessCount key 1 }
  else c

/-- Source: `Content::preComputeSimilarities`. -/
def preComputeSimilarities (g : BipartiteGraph F) (c : Content F) (numThreads : Nat)
    (schedule : List (List (Int × Int)) → List (Int × Int)) : Content F :=
  let itemPairs := orderedPairs g.items
  let threads := threadSlices itemPairs numThreads
  let c := (schedule threads).foldl (processPair g) c
  if c.similarityCache.length > MAX_CACHE_SIZE then evictCache c else c

end Content

/-! ## Recommendations (`Collabrative.cpp`, `Content.cpp`, `Hybrid.cpp`) -/

namespace Collaborative

variable {F : Type} [LinearOrderedField F]

/-- Body of the rating loops of `getInfluentialRecommendations` and `getRecommendations`:
skip a movie that does not exist or that the user has rated, else
`weighted[movieId].first += rating * weight; weighted[movieId].second += weight;`. -/
def accumulateRating (items : Map Int (BipartiteGraph.Item F)) (userMovies : USet Int) (weight : F)
    (weighted : Map Int (F × F)) (e : Int × F) : Map Int (F × F) :=
  if (Map.find items e.1).isNone ∨ USet.count userMovies e.1 > 0 then weighted
  else
    let weighted1 := Map.modify weighted e.1 (0, 0) (fun p => (p.1 + e.2 * weight, p.2))
    Map.modify weighted1 e.1 (0, 0) (fun p => (p.1, p.2 + weight))

/-- Body of the conversion loops: an entry with positive weight sum becomes the pair
`(movieId, wScore * (first / second) + wQuality * imdb)`, the blend being applied when the
movie is found in the item table. -/
def toRecommendation (items : Map Int (BipartiteGraph.Item F)) (wScore wQuality : F)
    (recommendations : List (Int × F)) (e : Int × (F × F)) : List (Int × F) :=
  if e.2.2 > 0 then
    let score : F := e.2.1 / e.2.2
    let score : F :=
      match Map.find items e.1 with
      | some movie => wScore * score + wQuality * movie.imdb
      | none => score
    recommendations ++ [(e.1, score)]
  else recommendations

/-- Source: `Collaborative::getInfluentialRecommendations`. -/
def getInfluentialRecommendations (g : BipartiteGraph F) (pageRank : PageRank F)
    (userMovies : USet Int) (n : Nat) : List (Int × F) :=
  let users := g.user_to_items
  let items := g.items
  let usersByRank : List (Int × F) :=
    users.foldl
      (fun acc u =>
        let rank := pageRank.getPageRank u.1
        if rank ≥ MIN_PAGERANK_SCORE then acc ++ [(u.1, rank)] else acc)
      []
  let usersByRank := stdSort bySecondDesc usersByRank
  if usersByRank.length < MIN_INFLUENTIAL_USERS then []
  else
    let weightedRecs : Map Int (F × F) :=
      usersByRank.foldl
        (fun weighted ur =>
          match Map.find users ur.1 with
          | none => weighted
          | some userRatings => userRatings.foldl (accumulateRating items userMovies ur.2) weighted)
        []
    let recommendations := weightedRecs.foldl (toRecommendation items (7 / 10) (3 / 10)) []
    truncate (stdSort bySecondDesc recommendations) n

/-- Body of the neighbour search of `getRecommendations`: look the pair up in the cache and
keep it when the cached similarity is positive. -/
def collectSimilar (userId : Int) (acc : List (Int × F) × Collaborative F)
    (u : Int × List (Int × F)) : List (Int × F) × Collaborative F :=
  if u.1 = userId then acc
  else
    let r := acc.2.getCachedSimilarity userId u.1
    if r.1 > 0 then (acc.1 ++ [(u.1, r.1)], r.2) else (acc.1, r.2)

/-- Source: `Collaborative::getRecommendations`. -/
def getRecommendations (c : Collaborative F) (g : BipartiteGraph F) (pageRank : PageRank F)
    (userId : Int) (n : Nat) : List (Int × F) × Collaborative F :=
  let users := g.user_to_items
  let items := g.items
  let userIt := Map.find users userId
  let userMovies : USet Int :=
    match userIt with
    | some ratings =>
      ratings.foldl (fun s e => if (Map.find items e.1).isSome then USet.insert s e.1 else s) []
    | none => []
  if userIt.isNone ∨ (userIt.getD []).isEmpty then
    let recommendations := getInfluentialRecommendations g pageRank userMovies n
    if ¬ recommendations.isEmpty then (recommendations, c)
    else
      let recommendations :=
        items.foldl
          (fun acc it => if USet.count userMovies it.1 = 0 then acc ++ [(it.1, it.2.imdb)] else acc)
          recommendations
      (truncate (stdSort bySecondDesc recommendations) n, c)
  else
    let found := users.foldl (collectSimilar userId) ([], c)
    let similarUsers := truncate (stdSort bySecondDesc found.1) 10
    let weightedScores : Map Int (F × F) :=
      similarUsers.foldl
        (fun weighted os =>
          match Map.find users os.1 with
          | none => weighted
          | some ratings =>
            let weight := os.2 * pageRank.getPageRank os.1
            ratings.foldl (accumulateRating items userMovies weight) weighted)
        []
    let recommendations := weightedScores.foldl (toRecommendation items (8 / 10) (2 / 10)) []
    (truncate (stdSort bySecondDesc recommendations) n, found.2)

end Collaborative

namespace Content

variable {F : Type} [LinearOrderedField F]

/-- Body of the first loop of `Content::getRecommendations`, over the user's ratings; the
accumulator is `(genreStats, watchedMovies)`. -/
def collectGenreStats (items : Map Int (BipartiteGraph.Item F))
    (acc : Map String (F × Int) × USet Int) (e : Int × F) : Map String (F × Int) × USet Int :=
  match Map.find items e.1 with
  | some movie =>
    (movie.genres.foldl
        (fun stats genre =>
          Map.modify (Map.modify stats genre (0, 0) (fun p => (p.1 + e.2, p.2))) genre (0, 0)
            (fun p => (p.1, p.2 + 1)))
        acc.1,
      USet.insert acc.2 e.1)
  | none => acc

/-- Body of the preference loop; the accumulator is `(genrePreferences, maxPreference)` and
`std::pow (count, 0.5)` is `sqrt count`. -/
def collectPreference (sqrt : F → F) (acc : Map String F × F) (e : String × (F × Int)) :
    Map String F × F :=
  if e.2.2 > 0 then
    let avgRating : F := e.2.1 / (e.2.2 : F)
    let preference : F := avgRating * sqrt (e.2.2 : F)
    (Map.insert acc.1 e.1 preference, max acc.2 preference)
  else acc

/-- Body of the scoring loop over the item table. -/
def scoreItem (genrePreferences : Map String F) (watchedMovies : USet Int)
    (recommendations : List (Int × F)) (it : Int × BipartiteGraph.Item F) : List (Int × F) :=
  if USet.count watchedMovies it.1 > 0 then recommendations
  else
    -- accumulators: (genreScore, totalWeight)
    let acc : F × F :=
      it.2.genres.foldl
        (fun a genre =>
          match Map.find genrePreferences genre with
          | some p => (a.1 + p, a.2 + 1)
          | none => a)
        (0, 0)
    let genreScore : F := if acc.2 > 0 then acc.1 / acc.2 else acc.1
    let score : F := 8 / 10 * genreScore + 2 / 10 * (it.2.imdb / 10)
    recommendations ++ [(it.1, score)]

/-- Source: `Content::getRecommendations`. -/
def getRecommendations (sqrt : F → F) (g : BipartiteGraph F) (userId : Int) (n : Nat) :
    List (Int × F) :=
  let users := g.user_to_items
  let items := g.items
  let userIt := Map.find users userId
  if userIt.isNone ∨ (userIt.getD []).isEmpty then
    let recommendations : List (Int × F) :=
      items.foldl (fun acc it => acc ++ [(it.1, it.2.imdb)]) []
    truncate (stdSort bySecondDesc recommendations) n
  else
    let stats := (userIt.getD []).foldl (collectGenreStats items) ([], [])
    let genreStats := stats.1
    let watchedMovies := stats.2
    let prefs := genreStats.foldl (collectPreference sqrt) ([], 0)
    let maxPreference := prefs.2
    let genrePreferences : Map String F :=
      if maxPreference > 0 then prefs.1.map (fun e => (e.1, e.2 / maxPreference)) else prefs.1
    let recommendations := items.foldl (scoreItem genrePreferences watchedMovies) []
    truncate (stdSort bySecondDesc recommendations) n

end Content

/-- The mutable members of class `Hybrid`: its own rank table and the hybrid score cache.
The graph, the `Collaborative` object and the rank table that object refers to are passed
to each member function. -/
structure Hybrid (F : Type) where
  pageRank : PageRank F
  hybridScoreCache : Map Nat F

namespace Hybrid

variable {F : Type} [LinearOrderedField F]

/-- Source: `Hybrid::createKey`. -/
def createKey (userId movieId : Int) : Nat :=
  shl32 (toUInt64 userId) ||| toUInt64 movieId

/-- Source: `Hybrid::calculateHybridScore`. The result is `none` when
`graph.getUserItems().at(userId)` throws. -/
def calculateHybridScore (h : Hybrid F) (g : BipartiteGraph F) (collaborative : Collaborative F)
    (collabRank : PageRank F) (userId movieId : Int) : Option F × Hybrid F × Collaborative F :=
  let cacheKey := createKey userId movieId
  match Map.find h.hybridScoreCache cacheKey with
  | some v => (some v, h, collaborative)
  | none =>
    let collabRecs := collaborative.getRecommendations g collabRank userId 5
    let collabScore : F :=
      match collabRecs.1.find? (fun r => decide (r.1 = movieId)) with
      | some r => r.2
      | none => 0
    match Map.find g.user_to_items userId with
    | none => (none, h, collabRecs.2)
    | some userRatings =>
      -- accumulators: (contentScore, ratingWeight)
      let acc : F × F :=
        userRatings.foldl
          (fun a e =>
            let similarity := Content.calculateSimilarity g e.1 movieId
            (a.1 + similarity * e.2, a.2 + e.2))
          (0, 0)
      let contentScore : F := if acc.2 > 0 then acc.1 / acc.2 else acc.1
      let userRank := h.pageRank.getPageRank userId
      let BASE_COLLAB_WEIGHT : F := 6 / 10
      let BASE_CONTENT_WEIGHT : F := 4 / 10
      let adjustedCollabWeight := BASE_COLLAB_WEIGHT * (1 + userRank)
      let adjustedContentWeight := BASE_CONTENT_WEIGHT
      let totalWeight := adjustedCollabWeight + adjustedContentWeight
      let adjustedCollabWeight := adjustedCollabWeight / totalWeight
      let adjustedContentWeight := adjustedContentWeight / totalWeight
      let hybridScore := adjustedCollabWeight * collabScore + adjustedContentWeight * contentScore
      (some hybridScore,
        { h with hybridScoreCache := Map.insert h.hybridScoreCache cacheKey hybridScore },
        collabRecs.2)

/-- Body of the scoring loop of `Hybrid::getRecommendations`; the first component of the
accumulator turns `none` when a call of `calculateHybridScore` throws, and the remaining
iterations are then skipped. -/
def scoreUnwatched (g : BipartiteGraph F) (collabRank : PageRank F) (userId : Int)
    (watchedMovies : USet Int) (acc : Option (List (Int × F)) × Hybrid F × Collaborative F)
    (it : Int × BipartiteGraph.Item F) : Option (List (Int × F)) × Hybrid F × Collaborative F :=
  match acc.1 with
  | none => acc
  | some recommendations =>
    if USet.count watchedMovies it.1 = 0 then
      let r := calculateHybridScore acc.2.1 g acc.2.2 collabRank userId it.1
      match r.1 with
      | some score => (some (recommendations ++ [(it.1, score)]), r.2)
      | none => (none, r.2)
    else acc

/-- Source: `Hybrid::getRecommendations`. The result is `none` when
`graph.getUserItems().at(userId)` throws. -/
def getRecommendations (h : Hybrid F) (g : BipartiteGraph F) (collaborative : Collaborative F)
    (collabRank : PageRank F) (userId : Int) (n : Nat) :
    Option (List (Int × F)) × Hybrid F × Collaborative F :=
  let items := g.items
  match Map.find g.user_to_items userId with
  | none => (none, h, collaborative)
  | some userRatings =>
    let watchedMovies : USet Int := userRatings.foldl (fun s e => USet.insert s e.1) []
    let scored :=
      items.foldl (scoreUnwatched g collabRank userId watchedMovies) (some [], h, collaborative)
    match scored.1 with
    | none => scored
    | some recommendations => (some (truncate (stdSort bySecondDesc recommendations) n), scored.2)

end Hybrid

/-! ## Specification-side definitions -/

/-- The Jaccard index as the specification words it: `|G1 ∩ G2| / |G1 ∪ G2|` of the two
genre sets, and `0` when either set is empty. -/
def jaccardSpec {F : Type} [LinearOrderedField F] (G1 G2 : Finset String) : F :=
  if G1 = ∅ ∨ G2 = ∅ then 0 else ((G1 ∩ G2).card : F) / ((G1 ∪ G2).card : F)

/-- The content similarity as the specification words it:
`0.6·J + 0.2·(1 − |q1 − q2| / 10) + 0.1·(1 − |t1 − t2| / 4) + 0.1·(1 − |len1 − len2| / 180)`. -/
def contentSimilaritySpec {F : Type} [LinearOrderedField F] (a b : BipartiteGraph.Item F) : F :=
  6 / 10 * jaccardSpec a.genres.toFinset b.genres.toFinset
    + 2 / 10 * (1 - |a.imdb - b.imdb| / 10)
    + 1 / 10 * (1 - |((a.rating : F) - (b.rating : F))| / 4)
    + 1 / 10 * (1 - |((a.length : F) - (b.length : F))| / 180)

/-- The set of item ids that occur in a rating list. -/
def ratedItems {F : Type} (r : List (Int × F)) : Finset Int :=
  (r.map Prod.fst).toFinset

/-- The rating a rating list holds for item `i`, and `0` when it holds none. -/
def ratingOf {F : Type} [LinearOrderedField F] (r : List (Int × F)) (i : Int) : F :=
  (Map.find r i).getD 0

/-- The user similarity as the specification words it: the cosine of the two rating vectors
restricted to the commonly rated items,
`(Σ_common r1·r2) / (sqrt (Σ_common r1²) · sqrt (Σ_common r2²))`. -/
def cosineOverCommonSpec {F : Type} [LinearOrderedField F] (sqrt : F → F)
    (r1 r2 : List (Int × F)) : F :=
  Finset.sum (ratedItems r1 ∩ ratedItems r2) (fun i => ratingOf r1 i * ratingOf r2 i)
    / (sqrt (Finset.sum (ratedItems r1 ∩ ratedItems r2) (fun i => ratingOf r1 i * ratingOf r1 i))
        * sqrt (Finset.sum (ratedItems r1 ∩ ratedItems r2)
            (fun i => ratingOf r2 i * ratingOf r2 i)))

/-- The cosine of the two full rating vectors: the dot product runs over the commonly rated
items, each norm over all items its user rated,
`(Σ_common r1·r2) / (sqrt (Σ_all r1²) · sqrt (Σ_all r2²))`. -/
def cosineSpec {F : Type} [LinearOrderedField F] (sqrt : F → F) (r1 r2 : List (Int × F)) : F :=
  Finset.sum (ratedItems r1 ∩ ratedItems r2) (fun i => ratingOf r1 i * ratingOf r2 i)
    / (sqrt (Finset.sum (ratedItems r1) (fun i => ratingOf r1 i * ratingOf r1 i))
        * sqrt (Finset.sum (ratedItems r2) (fun i => ratingOf r2 i * ratingOf r2 i)))

/-- Scores in non-increasing order from first to last. -/
abbrev SortedDesc {α F : Type} [LinearOrderedField F] (l : List (α × F)) : Prop :=
  l.Pairwise (fun a b => b.2 ≤ a.2)

/-- User `u` has a stored rating for item `i`. -/
def hasRated {F : Type} (g : BipartiteGraph F) (u i : Int) : Prop :=
  ∃ ratings r, Map.find g.user_to_items u = some ratings ∧ (i, r) ∈ ratings

/-- The quality fallback as the specification words it: `result` holds `min n |Items|`
pairs `(itemId, quality score)` of items of the graph, in non-increasing order of quality,
and no omitted item (the pairs in `rest`) has a higher quality than an included one. -/
def IsQualityTopN {F : Type} [LinearOrderedField F] (g : BipartiteGraph F) (n : Nat)
    (result : List (Int × F)) : Prop :=
  result.length = min n g.items.length
    ∧ SortedDesc result
    ∧ ∃ rest, (result ++ rest).Perm (g.items.map (fun it => (it.1, it.2.imdb)))
        ∧ ∀ x ∈ result, ∀ y ∈ rest, y.2 ≤ x.2

/-- The two maps of a similarity cache have the same key set, each key once. -/
def CacheConsistent {F : Type} (similarityCache : Map Nat F) (cacheAccessCount : Map Nat Int) :
    Prop :=
  (similarityCache.map Prod.fst).Nodup ∧ (cacheAccessCount.map Prod.fst).Nodup
    ∧ ∀ k, k ∈ similarityCache.map Prod.fst ↔ k ∈ cacheAccessCount.map Prod.fst

/-- The entries an eviction pass removes: the first `size - MAX_CACHE_SIZE / 2` entries of
the access counts sorted ascending by count. -/
def evictedEntries {F : Type} (similarityCache : Map Nat F) (cacheAccessCount : Map Nat Int) :
    List (Nat × Int) :=
  (stdSort bySecondAsc cacheAccessCount).take
    ((similarityCache.length + 2 ^ 64 - 10000 / 2) % 2 ^ 64)

/-- An eviction pass from the maps `(sim, cnt)` to `(sim2, cnt2)` is least-frequently-used:
some set `removed` of `|sim| - MAX_CACHE_SIZE / 2` cached keys is deleted from both maps,
every other key keeps its similarity and its access count, and no removed key had a higher
access count than a surviving key. -/
def IsLfuEviction {F : Type} (sim : Map Nat F) (cnt : Map Nat Int) (sim2 : Map Nat F)
    (cnt2 : Map Nat Int) : Prop :=
  ∃ removed : List Nat, removed.Nodup ∧ removed.length = sim.length - 10000 / 2
    ∧ (∀ k ∈ removed, (Map.find sim k).isSome ∧ Map.find sim2 k = none ∧ Map.find cnt2 k = none)
    ∧ (∀ k, k ∉ removed → Map.find sim2 k = Map.find sim k ∧ Map.find cnt2 k = Map.find cnt k)
    ∧ (∀ k ∈ removed, ∀ k2, k2 ∉ removed → ∀ a b, Map.find cnt k = some a →
        Map.find cnt k2 = some b → a ≤ b)

/-- The sum of the ranks stored in a rank table. -/
def rankSum {F : Type} [LinearOrderedField F] (ranks : Map Int F) : F :=
  (ranks.map Prod.snd).sum

/-- The similarity the cache holds for the pair `(a, b)`, read without touching the access
counts: `1` for equal ids, the cached value on a hit and `0` on a miss. -/
def cachedValue {F : Type} [LinearOrderedField F] (c : Collaborative F) (a b : Int) : F :=
  if a = b then 1 else (Map.find c.similarityCache (Collaborative.createPairKey a b)).getD 0

/-- The neighbours of `userId` as the specification words them: the (at most 10) other
users with the highest positive cached similarity to `userId`, each with that similarity. -/
def neighbours {F : Type} [LinearOrderedField F] (c : Collaborative F) (g : BipartiteGraph F)
    (userId : Int) : List (Int × F) :=
  truncate
    (stdSort bySecondDesc
      ((g.user_to_items.filter
          (fun u => decide (u.1 ≠ userId) && decide (cachedValue c userId u.1 > 0))).map
        (fun u => (u.1, cachedValue c userId u.1))))
    10

/-- The users with rank `≥ MIN_PAGERANK_SCORE = 0.01`, each with its rank, sorted by rank
descending. -/
def qualifyingUsers {F : Type} [LinearOrderedField F] (g : BipartiteGraph F)
    (pageRank : PageRank F) : List (Int × F) :=
  stdSort bySecondDesc
    ((g.user_to_items.filter
        (fun u => decide (pageRank.getPageRank u.1 ≥ Collaborative.MIN_PAGERANK_SCORE))).map
      (fun u => (u.1, pageRank.getPageRank u.1)))

/-- The rating edges `(item, rating)` of the users in `voters`, each paired with the weight
`weight N` of the user `N` that holds it. -/
def weightedRatings {F : Type} (g : BipartiteGraph F) (voters : List (Int × F))
    (weight : Int × F → F) : List ((Int × F) × F) :=
  (voters.map (fun N =>
    ((Map.find g.user_to_items N.1).getD []).map (fun e => (e, weight N)))).flatten

/-- The quality list: the pairs `(itemId, quality score)` of all items, sorted by quality
score descending and cut to `n`. -/
def qualityList {F : Type} [LinearOrderedField F] (g : BipartiteGraph F) (n : Nat) :
    List (Int × F) :=
  truncate (stdSort bySecondDesc (g.items.map (fun it => (it.1, it.2.imdb)))) n

/-- The amount the loop body `addContribution` adds to `newRank` for the other user `o`:
nothing for the user itself or without shared movies, else
`DAMPING * activityScore * (ranks[o] * shared / |ratings (o)|)`. -/
def contributionOf {F : Type} [LinearOrderedField F] (ranks : Map Int F) (userId : Int)
    (userMovies : USet Int) (activityScore : F) (o : Int × List (Int × F)) : F :=
  if o.1 = userId then 0
  else if PageRank.sharedMovies userMovies o.2 > 0 then
    PageRank.DAMPING * activityScore
      * ((Map.find ranks o.1).getD 0 * (PageRank.sharedMovies userMovies o.2 : F)
          / (o.2.length : F))
  else 0

/-- The squared magnitude `Σ r²` of a rating list. -/
def squareSum {F : Type} [LinearOrderedField F] (r : List (Int × F)) : F :=
  (r.map (fun e => e.2 * e.2)).sum

/-- The number of ratings in `r2` whose item also occurs in `r1`. -/
def commonCount {F : Type} (r1 r2 : List (Int × F)) : Nat :=
  (r2.filter (fun e => decide (e.1 ∈ r1.map Prod.fst))).length

/-- The guards of `Collaborative::calculateSimilarity` that return `0` before the division:
an empty rating list, a zero squared magnitude, or no commonly rated item. -/
def DegenerateRatings {F : Type} [LinearOrderedField F] (r1 r2 : List (Int × F)) : Prop :=
  r1 = [] ∨ r2 = [] ∨ squareSum r1 = 0 ∨ squareSum r2 = 0 ∨ commonCount r1 r2 < 1

/-- The collaborative contribution `C`: the score paired with `itemId` in the list `recs`,
and 0 when `itemId` is not in the list. -/
def collabContribution {F : Type} [LinearOrderedField F] (recs : List (Int × F))
    (itemId : Int) : F :=
  (Map.find recs itemId).getD 0

/-- The sum `Σ_j Content.calculateSimilarity (j, itemId) · r_j` over the stored ratings
`(j, r_j)`. -/
def contentSum {F : Type} [LinearOrderedField F] (g : BipartiteGraph F)
    (ratings : List (Int × F)) (itemId : Int) : F :=
  (ratings.map (fun e => Content.calculateSimilarity g e.1 itemId * e.2)).sum

/-- The sum `Σ_j r_j` of the stored ratings. -/
def ratingSum {F : Type} [LinearOrderedField F] (ratings : List (Int × F)) : F :=
  (ratings.map Prod.snd).sum

/-- The weight `wc = 0.6·(1 + rank) / (0.6·(1 + rank) + 0.4)`. -/
def collabWeight {F : Type} [LinearOrderedField F] (rank : F) : F :=
  6 / 10 * (1 + rank) / (6 / 10 * (1 + rank) + 4 / 10)

/-- The weight `wt = 0.4 / (0.6·(1 + rank) + 0.4)`. -/
def contentWeight {F : Type} [LinearOrderedField F] (rank : F) : F :=
  4 / 10 / (6 / 10 * (1 + rank) + 4 / 10)

/-- The hybrid score as the specification words it: `wc·C + wt·T` with
`T = Σ_j sim (j, itemId)·r_j / Σ_j r_j`. -/
def hybridScoreSpec {F : Type} [LinearOrderedField F] (g : BipartiteGraph F)
    (recs : List (Int × F)) (ratings : List (Int × F)) (rank : F) (itemId : Int) : F :=
  collabWeight rank * collabContribution recs itemId
    + contentWeight rank * (contentSum g ratings itemId / ratingSum ratings)

/-- The content contribution as the code computes it: the quotient when the rating sum is
positive, the undivided sum otherwise. -/
def contentContribution {F : Type} [LinearOrderedField F] (g : BipartiteGraph F)
    (ratings : List (Int × F)) (itemId : Int) : F :=
  if ratingSum ratings > 0 then contentSum g ratings itemId / ratingSum ratings
  else contentSum g ratings itemId

/-- The Hybrid object `h2` is a later state of the Hybrid object `h`: it is reached from `h`
by any number of calls of `calculateHybridScore` and `getRecommendations`, each with any
graph state, collaborative state, rank table and arguments. -/
inductive Hybrid.Later {F : Type} [LinearOrderedField F] (h : Hybrid F) : Hybrid F → Prop where
  | refl : Hybrid.Later h h
  | score (h2 : Hybrid F) (g : BipartiteGraph F) (c : Collaborative F) (collabRank : PageRank F)
      (userId movieId : Int) :
      Hybrid.Later h h2 →
      Hybrid.Later h (h2.calculateHybridScore g c collabRank userId movieId).2.1
  | recommend (h2 : Hybrid F) (g : BipartiteGraph F) (c : Collaborative F)
      (collabRank : PageRank F) (userId : Int) (n : Nat) :
      Hybrid.Later h h2 →
      Hybrid.Later h (h2.getRecommendations g c collabRank userId n).2.1

/-- The ids of the stored items that do not occur in the rating list `ratings`, in the
order of the item table. -/
def unratedItems {F : Type} (g : BipartiteGraph F) (ratings : List (Int × F)) : List Int :=
  (g.items.map Prod.fst).filter (fun i => decide (i ∉ ratings.map Prod.fst))

/-- The genre occurrences of a rating list: one pair `(genre, rating)` for every stored
rating `(j, r)` of a stored item `j` and every entry of the genre list of `j`. The genres
of an item are a set, so this is one pair per rating and genre of the rated item. -/
def genreOccurrences {F : Type} (g : BipartiteGraph F) (ratings : List (Int × F)) :
    List (String × F) :=
  (ratings.map
    (fun e =>
      match Map.find g.items e.1 with
      | some movie => movie.genres.map (fun genre => (genre, e.2))
      | none => [])).flatten

/-- The user's ratings over the rated items having the genre `genre`. -/
def genreRatings {F : Type} (g : BipartiteGraph F) (ratings : List (Int × F))
    (genre : String) : List F :=
  ((genreOccurrences g ratings).filter (fun o => decide (o.1 = genre))).map Prod.snd

/-- The preference `pref (genre)`: the average of the user's ratings over the rated items
having that genre, times `sqrt` of the number of such ratings. -/
def genrePref {F : Type} [LinearOrderedField F] (sqrt : F → F) (g : BipartiteGraph F)
    (ratings : List (Int × F)) (genre : String) : F :=
  (genreRatings g ratings genre).sum / ((genreRatings g ratings genre).length : F)
    * sqrt ((genreRatings g ratings genre).length : F)

/-- The genres of the user's preference map: those of the rated items. -/
def ratedGenres {F : Type} (g : BipartiteGraph F) (ratings : List (Int × F)) : List String :=
  (genreOccurrences g ratings).map Prod.fst

/-- The largest of 0 and the preferences of all genres of the preference map; when it is
positive it is the maximum preference. -/
def maxPref {F : Type} [LinearOrderedField F] (sqrt : F → F) (g : BipartiteGraph F)
    (ratings : List (Int × F)) : F :=
  ((ratedGenres g ratings).map (genrePref sqrt g ratings)).foldl max 0

/-- The normalised preference as the code computes it: `pref` divided by the maximum
preference when that maximum is positive, `pref` itself otherwise. -/
def normPref {F : Type} [LinearOrderedField F] (sqrt : F → F) (g : BipartiteGraph F)
    (ratings : List (Int × F)) (genre : String) : F :=
  if maxPref sqrt g ratings > 0 then genrePref sqrt g ratings genre / maxPref sqrt g ratings
  else genrePref sqrt g ratings genre

/-- The maximum preference over all genres of the preference map as the specification
words it (0 for an empty map). -/
def maxPrefSpec {F : Type} [LinearOrderedField F] (sqrt : F → F) (g : BipartiteGraph F)
    (ratings : List (Int × F)) : F :=
  match (ratedGenres g ratings).map (genrePref sqrt g ratings) with
  | [] => 0
  | p :: ps => ps.foldl max p

/-- The normalised preference as the specification words it: `pref` divided by the maximum
preference over all genres. -/
def normPrefSpec {F : Type} [LinearOrderedField F] (sqrt : F → F) (g : BipartiteGraph F)
    (ratings : List (Int × F)) (genre : String) : F :=
  genrePref sqrt g ratings genre / maxPrefSpec sqrt g ratings

/-- The genre score `g` of an item under the normalised preferences `norm`: the mean of
`norm` over those genres of the item that are in the preference map, and 0 when none is. -/
def genreScore {F : Type} [LinearOrderedField F] (norm : String → F) (g : BipartiteGraph F)
    (ratings : List (Int × F)) (item : BipartiteGraph.Item F) : F :=
  if item.genres.filter (fun genre => decide (genre ∈ ratedGenres g ratings)) = [] then 0
  else
    ((item.genres.filter (fun genre => decide (genre ∈ ratedGenres g ratings))).map norm).sum
      / ((item.genres.filter (fun genre => decide (genre ∈ ratedGenres g ratings))).length : F)

/-- The score `0.8·g + 0.2·(quality / 10)` of an item. -/
def contentScore {F : Type} [LinearOrderedField F] (norm : String → F) (g : BipartiteGraph F)
    (ratings : List (Int × F)) (item : BipartiteGraph.Item F) : F :=
  8 / 10 * genreScore norm g ratings item + 2 / 10 * (item.imdb / 10)

/-- The items the user has not rated, each paired with its score, in table order. -/
def contentScored {F : Type} [LinearOrderedField F] (norm : String → F) (g : BipartiteGraph F)
    (ratings : List (Int × F)) : List (Int × F) :=
  (g.items.filter (fun it => decide (it.1 ∉ ratings.map Prod.fst))).map
    (fun it => (it.1, contentScore norm g ratings it.2))
/-- The two statements `genreStats[genre].first += rating; genreStats[genre].second++` of
`Content::getRecommendations` for one genre occurrence. -/
def Content.bumpGenre {F : Type} [LinearOrderedField F] (stats : Map String (F × Int))
    (o : String × F) : Map String (F × Int) :=
  Map.modify (Map.modify stats o.1 (0, 0) (fun p => (p.1 + o.2, p.2))) o.1 (0, 0)
    (fun p => (p.1, p.2 + 1))

/-- The preference the second loop of `Content::getRecommendations` computes from an entry
`(total, count)` of `genreStats`. -/
def Content.prefOf {F : Type} [LinearOrderedField F] (sqrt : F → F) (s : F × Int) : F :=
  s.1 / (s.2 : F) * sqrt (s.2 : F)
/-- The stored item `j` has the genre `genre`. -/
def hasGenre {F : Type} (g : BipartiteGraph F) (j : Int) (genre : String) : Bool :=
  match Map.find g.items j with
  | some movie => decide (genre ∈ movie.genres)
  | none => false

/-- The cache states of a `Collaborative` object that are reachable from the empty cache by
calls of `preComputeSimilarities` (on any graph state, with any thread count and any order
of the inserts), `getCachedSimilarity` and `evictCache`. -/
inductive Collaborative.Reachable {F : Type} [LinearOrderedField F] (sqrt : F → F) :
    Collaborative F → Prop where
  | empty : Collaborative.Reachable sqrt { similarityCache := [], cacheAccessCount := [] }
  | precompute (c : Collaborative F) (g : BipartiteGraph F) (numThreads : Nat)
      (schedule : List (List (Int × Int)) → List (Int × Int)) :
      Collaborative.Reachable sqrt c →
      Collaborative.Reachable sqrt
        (Collaborative.preComputeSimilarities sqrt g c numThreads schedule)
  | lookup (c : Collaborative F) (userId1 userId2 : Int) :
      Collaborative.Reachable sqrt c →
      Collaborative.Reachable sqrt (c.getCachedSimilarity userId1 userId2).2
  | evict (c : Collaborative F) :
      Collaborative.Reachable sqrt c → Collaborative.Reachable sqrt (Collaborative.evictCache c)

/-- The cache states of a `Content` object that are reachable from the empty cache by calls
of `preComputeSimilarities`, `getCachedSimilarity` and `evictCache`. -/
inductive Content.Reachable {F : Type} [LinearOrderedField F] : Content F → Prop where
  | empty : Content.Reachable { similarityCache := [], cacheAccessCount := [] }
  | precompute (c : Content F) (g : BipartiteGraph F) (numThreads : Nat)
      (schedule : List (List (Int × Int)) → List (Int × Int)) :
      Content.Reachable c →
      Content.Reachable (Content.preComputeSimilarities g c numThreads schedule)
  | lookup (c : Content F) (itemId1 itemId2 : Int) :
      Content.Reachable c → Content.Reachable (c.getCachedSimilarity itemId1 itemId2).2
  | evict (c : Content F) : Content.Reachable c → Content.Reachable (Content.evictCache c)

/-- The invariant of a similarity cache: both maps hold the same keys, each once, every
access count is at least 1 and every cached similarity is positive. -/
def CacheInvariant {F : Type} [LinearOrderedField F] (similarityCache : Map Nat F)
    (cacheAccessCount : Map Nat Int) : Prop :=
  CacheConsistent similarityCache cacheAccessCount
    ∧ (∀ e ∈ cacheAccessCount, 1 ≤ e.2) ∧ (∀ e ∈ similarityCache, 0 < e.2)

/-- The chunk size `pairsPerThread = (L + threadCount - 1) / threadCount` of
`preComputeSimilarities`, which is `ceil (L / threadCount)`. -/
def pairsPerThread (L threadCount : Nat) : Nat :=
  (L + threadCount - 1) / threadCount

/-- The activity factor as the specification words it: `3.0` when
`ratio = |ratings (U)| / maxRatings` is at least `0.5`, and
`1.0 + 2.0 / (1 + e ^ (-10·(ratio - 0.5)))` otherwise. -/
def activitySpec {F : Type} [LinearOrderedField F] (exp : F → F) (numRatings maxRatings : Nat) :
    F :=
  if (numRatings : F) / (maxRatings : F) ≥ 1 / 2 then 3
  else 1 + 2 / (1 + exp (-10 * ((numRatings : F) / (maxRatings : F) - 1 / 2)))

/-- The largest number of ratings any user has. -/
def maxRatingsOf {F : Type} (g : BipartiteGraph F) : Nat :=
  g.user_to_items.foldl (fun m u => max m u.2.length) 0

/-- The rank the table `R` holds for an id, `0.0` when it holds none (the value the read
`ranks[id]` yields). -/
def rankOf {F : Type} [LinearOrderedField F] (R : Map Int F) (id : Int) : F :=
  (Map.find R id).getD 0

/-- The new rank of user `U` as the specification words it:
`(1 - d) / |Users| + d · activity (U) · Σ_O rank (O) · shared (U, O) / |ratings (O)|` over all
other users `O`, with `d = 0.85` and `shared (U, O)` the number of items rated by both `U`
and `O`. -/
def newRankSpec {F : Type} [LinearOrderedField F] (exp : F → F) (g : BipartiteGraph F)
    (R : Map Int F) (U : Int × List (Int × F)) : F :=
  (1 - 85 / 100) / (g.user_to_items.length : F)
    + 85 / 100 * activitySpec exp U.2.length (maxRatingsOf g)
      * ((g.user_to_items.filter (fun O => decide (O.1 ≠ U.1))).map
          (fun O => rankOf R O.1 * ((ratedItems U.2 ∩ ratedItems O.2).card : F)
            / (O.2.length : F))).sum

/-- The new rank of user `U` with the shared count taken per stored rating:
`(1 - d) / |Users| + d · activity (U) · Σ_O rank (O) · shared (U, O) / |ratings (O)|` over all
other users `O`, with `d = 0.85` and `shared (U, O)` the number of stored ratings of `O`
whose item `U` has rated. -/
def newRankPerRating {F : Type} [LinearOrderedField F] (exp : F → F) (g : BipartiteGraph F)
    (R : Map Int F) (U : Int × List (Int × F)) : F :=
  (1 - 85 / 100) / (g.user_to_items.length : F)
    + 85 / 100 * activitySpec exp U.2.length (maxRatingsOf g)
      * ((g.user_to_items.filter (fun O => decide (O.1 ≠ U.1))).map
          (fun O => rankOf R O.1 * (commonCount U.2 O.2 : F) / (O.2.length : F))).sum

/-- The rank table after `k` rounds that all ran to their end: each round replaces the table
by the normalised, floored new ranks. -/
def tableAfter {F : Type} [LinearOrderedField F] (exp : F → F) (g : BipartiteGraph F)
    (maxRatings : Nat) : Nat → Map Int F → Map Int F
  | 0, R => R
  | k + 1, R =>
    tableAfter exp g maxRatings k
      (PageRank.normalizeRanks
        (g.user_to_items.foldl (PageRank.rankStep exp g R maxRatings) ([], 0)).1)

/-- The summed absolute change of rank across all users between the ranks stored before a
round and the new ranks the round computes, before they are normalised and floored. -/
def rawChange {F : Type} [LinearOrderedField F] (exp : F → F) (g : BipartiteGraph F)
    (maxRatings : Nat) (R : Map Int F) : F :=
  (g.user_to_items.map
    (fun u => |PageRank.newRankOf exp g R maxRatings u - rankOf R u.1|)).sum

/-- The summed absolute change of rank across all users between the ranks stored before a
round and the normalised, floored ranks stored after it. -/
def storedChange {F : Type} [LinearOrderedField F] (exp : F → F) (g : BipartiteGraph F)
    (maxRatings : Nat) (R : Map Int F) : F :=
  (g.user_to_items.map
    (fun u => |rankOf (tableAfter exp g maxRatings 1 R) u.1 - rankOf R u.1|)).sum

/-! ## Example states -/

/-- Two items and four users: user 1 rated both items, user 2 only item 1, user 3 has two
ratings of item 1, user 4 one rating of item 1. -/
def cosineGraph (F : Type) [LinearOrderedField F] : BipartiteGraph F :=
  BipartiteGraph.run
    [BipartiteGraph.Op.addItem 1 ["Action"] 120 8 2,
     BipartiteGraph.Op.addItem 2 ["Drama"] 110 7 2,
     BipartiteGraph.Op.addUser 1 [(1, 3), (2, 4)],
     BipartiteGraph.Op.addUser 2 [(1, 3)],
     BipartiteGraph.Op.addUser 3 [(1, 3), (1, 4)],
     BipartiteGraph.Op.addUser 4 [(1, 1)]]

/-- The graph of `test_ContentBasedFiltering_SimilarGenresGetHigherScores`. -/
def similarGenresGraph : BipartiteGraph ℚ :=
  ((BipartiteGraph.empty.addItem 1 ["Action", "Adventure"] 120 8 2020).addItem 2
      ["Action", "Adventure"] 115 (15 / 2) 2020).addItem 3 ["Drama", "Romance"] 110 7 2020

/-- Two items that agree in every attribute and have no genre. -/
def noGenreGraph : BipartiteGraph ℚ :=
  (BipartiteGraph.empty.addItem 1 [] 120 8 2).addItem 2 [] 120 8 2

/-- A Collaborative cache holding the pair of users 3 and 7. -/
def exampleUserCache : Collaborative ℚ :=
  { similarityCache := [(3 * 2 ^ 32 + 7, 1 / 2)], cacheAccessCount := [(3 * 2 ^ 32 + 7, 1)] }

/-- A Content cache holding the pair of items 1 and 2. -/
def exampleItemCache : Content ℚ :=
  { similarityCache := [(1 * 2 ^ 32 + 2, 3 / 4)], cacheAccessCount := [(1 * 2 ^ 32 + 2, 4)] }

/-- Two items that agree in every attribute and have the genre set {Action, Drama},
listed in different orders. -/
def twinGraph : BipartiteGraph ℚ :=
  (BipartiteGraph.empty.addItem 1 ["Action", "Drama"] 120 8 2).addItem 2
    ["Drama", "Action"] 120 8 2

/-- Two items and one user who rated item 1. -/
def hybridGraph : BipartiteGraph ℚ :=
  BipartiteGraph.run
    [BipartiteGraph.Op.addItem 1 ["Action"] 120 8 2,
     BipartiteGraph.Op.addItem 2 ["Action"] 120 8 2,
     BipartiteGraph.Op.addUser 1 [(1, 5)]]

/-- A Collaborative object whose cache is empty. -/
def emptyCollaborative : Collaborative ℚ :=
  { similarityCache := [], cacheAccessCount := [] }

/-- A rank table without entries. -/
def emptyPageRank : PageRank ℚ :=
  { ranks := [] }

/-- A Hybrid object whose score cache and rank table are empty. -/
def emptyHybrid : Hybrid ℚ :=
  { pageRank := emptyPageRank, hybridScoreCache := [] }

/-- A Collaborative cache with `n` entries; the pair with key `k` has access count `k`. -/
def rangeUserCache (n : Nat) : Collaborative ℚ :=
  { similarityCache := (List.range n).map (fun k : Nat => (k, (1 / 2 : ℚ))),
    cacheAccessCount := (List.range n).map (fun k : Nat => (k, Int.ofNat k)) }

/-- A Content cache with `n` entries; the pair with key `k` has access count `k`. -/
def rangeItemCache (n : Nat) : Content ℚ :=
  { similarityCache := (List.range n).map (fun k : Nat => (k, (1 / 2 : ℚ))),
    cacheAccessCount := (List.range n).map (fun k : Nat => (k, Int.ofNat k)) }

/-- The graph of `test_PageRank_HandlesIsolatedUsers`: two users who rated different
items. -/
def isolatedGraph (F : Type) [LinearOrderedField F] : BipartiteGraph F :=
  BipartiteGraph.run
    [BipartiteGraph.Op.addItem 1 ["Action"] 120 8 2020,
     BipartiteGraph.Op.addItem 2 ["Drama"] 115 (15 / 2) 2020,
     BipartiteGraph.Op.addUser 1 [(1, 5)],
     BipartiteGraph.Op.addUser 2 [(2, 4)]]

/-- Six items and two users: user 1 rated items 1, 4 and 6; the rating list of user 2
holds item 1 three times and items 2, 3 and 5 once each. -/
def repeatGraph (F : Type) [LinearOrderedField F] : BipartiteGraph F :=
  BipartiteGraph.run
    [BipartiteGraph.Op.addItem 1 ["Action"] 120 8 2020,
     BipartiteGraph.Op.addItem 2 ["Action"] 120 8 2020,
     BipartiteGraph.Op.addItem 3 ["Action"] 120 8 2020,
     BipartiteGraph.Op.addItem 4 ["Action"] 120 8 2020,
     BipartiteGraph.Op.addItem 5 ["Action"] 120 8 2020,
     BipartiteGraph.Op.addItem 6 ["Action"] 120 8 2020,
     BipartiteGraph.Op.addUser 1 [(1, 5), (4, 5), (6, 5)],
     BipartiteGraph.Op.addUser 2 [(1, 5), (1, 4), (1, 3), (2, 5), (3, 5), (5, 5)]]

/-- The graph of `test_CollaborativeFiltering_HandlesNewUserWithNoRatings`: user 1 rated
both items, user 2 rated nothing. -/
def newUserGraph (F : Type) [LinearOrderedField F] : BipartiteGraph F :=
  BipartiteGraph.run
    [BipartiteGraph.Op.addItem 1 ["Action"] 120 8 2020,
     BipartiteGraph.Op.addItem 2 ["Action"] 115 (15 / 2) 2020,
     BipartiteGraph.Op.addUser 1 [(1, 5), (2, 24 / 5)],
     BipartiteGraph.Op.addUser 2 []]

/-- The graph of `test_ContentBasedFiltering_HandlesEmptyGenres`: item 1 has no genre,
item 2 has one. -/
def emptyGenresGraph (F : Type) [LinearOrderedField F] : BipartiteGraph F :=
  BipartiteGraph.run
    [BipartiteGraph.Op.addItem 1 [] 120 8 2020,
     BipartiteGraph.Op.addItem 2 ["Action"] 115 (15 / 2) 2020]

/-- Two items that agree in every attribute and one user who rated item 1 with `-1`. -/
def dislikeGraph (F : Type) [LinearOrderedField F] : BipartiteGraph F :=
  BipartiteGraph.run
    [BipartiteGraph.Op.addItem 1 ["Action"] 120 8 2020,
     BipartiteGraph.Op.addItem 2 ["Action"] 120 8 2020,
     BipartiteGraph.Op.addUser 1 [(1, -1)]]

/-- The graph of `test_Hybrid_HandlesEdgeCases`: one item and one user who rated it. -/
def singleGraph (F : Type) [LinearOrderedField F] : BipartiteGraph F :=
  BipartiteGraph.run
    [BipartiteGraph.Op.addItem 1 ["Action"] 120 8 2020,
     BipartiteGraph.Op.addUser 1 [(1, 5)]]

/-- The graph of `test_Hybrid_CombinesAllComponents`: two action items rated by user 1 and
one drama item rated by user 2. -/
def combinedGraph (F : Type) [LinearOrderedField F] : BipartiteGraph F :=
  BipartiteGraph.run
    [BipartiteGraph.Op.addItem 1 ["Action"] 120 8 2020,
     BipartiteGraph.Op.addItem 2 ["Action"] 115 (15 / 2) 2020,
     BipartiteGraph.Op.addItem 3 ["Drama"] 110 7 2020,
     BipartiteGraph.Op.addUser 1 [(1, 5), (2, 24 / 5)],
     BipartiteGraph.Op.addUser 2 [(3, 9 / 2)]]

/-- An action item rated 4 by user 1, and an unrated item of the genres Action and Drama. -/
def likeGraph (F : Type) [LinearOrderedField F] : BipartiteGraph F :=
  BipartiteGraph.run
    [BipartiteGraph.Op.addItem 1 ["Action"] 120 8 2020,
     BipartiteGraph.Op.addItem 2 ["Action", "Drama"] 115 (15 / 2) 2020,
     BipartiteGraph.Op.addUser 1 [(1, 4)]]

/-- Two users with three ratings each who share exactly one item. -/
def overlapGraph (F : Type) [LinearOrderedField F] : BipartiteGraph F :=
  BipartiteGraph.run
    [BipartiteGraph.Op.addItem 1 ["Action"] 120 8 2020,
     BipartiteGraph.Op.addItem 2 ["Drama"] 115 (15 / 2) 2020,
     BipartiteGraph.Op.addItem 3 ["Comedy"] 100 7 2019,
     BipartiteGraph.Op.addItem 4 ["Action"] 110 6 2018,
     BipartiteGraph.Op.addItem 5 ["Drama"] 95 9 2021,
     BipartiteGraph.Op.addUser 1 [(1, 5), (2, 4), (3, 3)],
     BipartiteGraph.Op.addUser 2 [(1, 4), (4, 5), (5, 3)]]

/-! ## Theorems -/

section MapLemmas

variable {K V : Type} [DecidableEq K]

@[simp]
theorem Map.find_insert_self (m : Map K V) (k : K) (v : V) :
    Map.find (Map.insert m k v) k = some v := by
  induction m with
  | nil => simp [Map.insert, Map.find]
  | cons e t ih =>
    obtain ⟨k', v'⟩ := e
    by_cases h : k' = k
    · simp [Map.insert, Map.find, h]
    · simp [Map.insert, Map.find, h, ih]

theorem Map.find_insert_ne (m : Map K V) (k k2 : K) (v : V) (h : k2 ≠ k) :
    Map.find (Map.insert m k v) k2 = Map.find m k2 := by
  induction m with
  | nil => simp [Map.insert, Map.find, h.symm]
  | cons e t ih =>
    obtain ⟨k', v'⟩ := e
    by_cases h1 : k' = k
    · subst h1
      simp [Map.insert, Map.find, h.symm]
    · by_cases h2 : k' = k2
      · subst h2
        simp [Map.insert, Map.find, h1]
      · simp [Map.insert, Map.find, h1, h2, ih]

end MapLemmas

theorem foldl_push_eq_filter {α : Type} (p : α → Bool) (l acc : List α) :
    l.foldl (fun acc e => if p e then acc ++ [e] else acc) acc = acc ++ l.filter p := by
  induction l generalizing acc with
  | nil => simp
  | cons x t ih =>
    by_cases h : p x
    · simp [List.foldl, ih, h, List.filter]
    · simp [List.foldl, ih, h, List.filter]

/-- C4: after `addUser id ratings` the sequence stored for `id` in the user→items map is
exactly the sub-list of `ratings` whose item id is in the item table, in the original
order, whatever was stored for `id` before. -/
theorem addUser_stores_filtered_ratings {F : Type} (g : BipartiteGraph F) (id : Int)
    (ratings : List (Int × F)) :
    Map.find (g.addUser id ratings).user_to_items id
      = some (ratings.filter (fun e => (Map.find g.items e.1).isSome)) := by
  simp only [BipartiteGraph.addUser, Map.find_insert_self]
  have h := foldl_push_eq_filter (fun e : Int × F => (Map.find g.items e.1).isSome) ratings []
  simpa using h

/-- C3 (failing input): after `addItem 1; addUser 1 [(1,5)]; addUser 1 [(1,3)]` the triple
`(user 1, item 1, rating 5)` is still an edge of the item→users map although it is no
longer an edge of the user→items map. -/
theorem readd_user_leaves_stale_reverse_edge :
    let g : BipartiteGraph ℚ :=
      BipartiteGraph.run
        [BipartiteGraph.Op.addItem 1 ["Action"] 120 8 2,
         BipartiteGraph.Op.addUser 1 [(1, 5)],
         BipartiteGraph.Op.addUser 1 [(1, 3)]]
    g.edgeItemUser 1 1 5 ∧ ¬ g.edgeUserItem 1 1 5 := by
  simp [BipartiteGraph.run, BipartiteGraph.step, BipartiteGraph.empty, BipartiteGraph.addItem,
    BipartiteGraph.addUser, BipartiteGraph.edgeItemUser, BipartiteGraph.edgeUserItem,
    Map.insert, Map.find, Map.modify]

/-- C8: self-similarity. For every id `x` and every graph, whether or not `x` is in it,
`Collaborative.calculateSimilarity x x` and `Content.calculateSimilarity x x` are `1`. -/
theorem calculateSimilarity_self {F : Type} [LinearOrderedField F] (sqrt : F → F)
    (g : BipartiteGraph F) (x : Int) :
    Collaborative.calculateSimilarity sqrt g x x = 1 ∧ Content.calculateSimilarity g x x = 1 := by
  constructor
  · simp [Collaborative.calculateSimilarity]
  · simp [Content.calculateSimilarity]

section CacheLemmas

variable {K V : Type} [DecidableEq K]

theorem Map.find_modify_self (m : Map K V) (k : K) (d : V) (f : V → V) :
    Map.find (Map.modify m k d f) k = some (f ((Map.find m k).getD d)) := by
  simp [Map.modify]

theorem Map.find_modify_ne (m : Map K V) (k k2 : K) (d : V) (f : V → V) (h : k2 ≠ k) :
    Map.find (Map.modify m k d f) k2 = Map.find m k2 := by
  simp [Map.modify, Map.find_insert_ne _ _ _ _ h]

end CacheLemmas

theorem toUInt64_of_nonneg (a : Int) (h0 : 0 ≤ a) (h1 : a < 2 ^ 31) :
    toUInt64 a = a.toNat := by
  unfold toUInt64
  rw [Int.emod_eq_of_lt h0 (by omega)]

theorem pack_of_nonneg (a b : Int) (ha : 0 ≤ a) (hab : a ≤ b) (hb : b < 2 ^ 31) :
    shl32 (toUInt64 a) ||| toUInt64 b = a.toNat * 2 ^ 32 + b.toNat := by
  rw [toUInt64_of_nonneg a ha (by omega), toUInt64_of_nonneg b (by omega) hb]
  have h1 : a.toNat < 2 ^ 31 := by omega
  have h2 : b.toNat < 2 ^ 32 := by omega
  have h3 : shl32 a.toNat = 2 ^ 32 * a.toNat := by
    unfold shl32
    rw [Nat.shiftLeft_eq, Nat.mod_eq_of_lt (by omega)]
    ring
  rw [h3, ← Nat.mul_add_lt_is_or h2]
  ring

theorem collaborative_createPairKey_comm (a b : Int) :
    Collaborative.createPairKey a b = Collaborative.createPairKey b a := by
  unfold Collaborative.createPairKey
  rcases lt_trichotomy a b with h | h | h
  · simp [h, not_lt.mpr h.le]
  · simp [h]
  · simp [h, not_lt.mpr h.le]

theorem content_createPairKey_comm (a b : Int) :
    Content.createPairKey a b = Content.createPairKey b a := by
  unfold Content.createPairKey
  rcases lt_trichotomy a b with h | h | h
  · simp [h, not_lt.mpr h.le]
  · simp [h]
  · simp [h, not_lt.mpr h.le]

/-- C9: cached-similarity symmetry. In both engines `createPairKey a b = createPairKey b a`
for all ids, so `getCachedSimilarity a b` and `getCachedSimilarity b a` run in the same
cache state return the same value (and leave the same state); for ids in `[0, 2^31)` the
key is `min a b * 2^32 + max a b`, the smaller id in the high 32 bits. -/
theorem cached_similarity_symmetric {F : Type} [LinearOrderedField F] (cu : Collaborative F)
    (ct : Content F) (a b : Int) :
    Collaborative.createPairKey a b = Collaborative.createPairKey b a
    ∧ Content.createPairKey a b = Content.createPairKey b a
    ∧ cu.getCachedSimilarity a b = cu.getCachedSimilarity b a
    ∧ ct.getCachedSimilarity a b = ct.getCachedSimilarity b a
    ∧ (0 ≤ min a b → max a b < 2 ^ 31 →
        Collaborative.createPairKey a b = (min a b).toNat * 2 ^ 32 + (max a b).toNat
        ∧ Content.createPairKey a b = (min a b).toNat * 2 ^ 32 + (max a b).toNat
        ∧ Collaborative.createPairKey a b / 2 ^ 32 = (min a b).toNat
        ∧ Content.createPairKey a b / 2 ^ 32 = (min a b).toNat) := by
  refine ⟨collaborative_createPairKey_comm a b, content_createPairKey_comm a b, ?_, ?_, ?_⟩
  · unfold Collaborative.getCachedSimilarity
    by_cases h : a = b
    · simp [h]
    · have h2 : ¬ b = a := fun e => h e.symm
      simp only [h, h2, if_false, collaborative_createPairKey_comm a b]
  · unfold Content.getCachedSimilarity
    by_cases h : a = b
    · simp [h]
    · have h2 : ¬ b = a := fun e => h e.symm
      simp only [h, h2, if_false, content_createPairKey_comm a b]
  · intro hmin hmax
    have key : shl32 (toUInt64 (min a b)) ||| toUInt64 (max a b)
        = (min a b).toNat * 2 ^ 32 + (max a b).toNat :=
      pack_of_nonneg (min a b) (max a b) hmin min_le_max hmax
    have hc : Collaborative.createPairKey a b
        = shl32 (toUInt64 (min a b)) ||| toUInt64 (max a b) := by
      unfold Collaborative.createPairKey
      by_cases h : a > b
      · simp [h, min_eq_right h.le, max_eq_left h.le]
      · simp [h, min_eq_left (not_lt.mp h), max_eq_right (not_lt.mp h)]
    have ht : Content.createPairKey a b
        = shl32 (toUInt64 (min a b)) ||| toUInt64 (max a b) := by
      unfold Content.createPairKey
      by_cases h : a > b
      · simp [h, min_eq_right h.le, max_eq_left h.le]
      · simp [h, min_eq_left (not_lt.mp h), max_eq_right (not_lt.mp h)]
    have hlow : (max a b).toNat < 2 ^ 32 := by omega
    refine ⟨hc.trans key, ht.trans key, ?_, ?_⟩
    · rw [hc, key]
      omega
    · rw [ht, key]
      omega

/-- C9 at ids 7 and 3 with one cached pair: both orders read the value cached under the
key `3 * 2^32 + 7`. -/
theorem cached_similarity_symmetric_witness :
    Collaborative.getCachedSimilarity exampleUserCache 7 3
      = Collaborative.getCachedSimilarity exampleUserCache 3 7
    ∧ Collaborative.createPairKey 7 3 = 3 * 2 ^ 32 + 7 :=
  have h := cached_similarity_symmetric exampleUserCache exampleItemCache 7 3
  ⟨h.2.2.1, (h.2.2.2.2 (by decide) (by decide)).1⟩

/-- C10: `getCachedSimilarity a b` never computes. For `a = b` it returns `1` and the cache
object is unchanged; on a hit it returns the stored similarity, leaves the similarity map
unchanged, sets the access count of the key to its old value (0 when it had none) plus 1
and leaves the count of every other key unchanged; on a miss it returns `0` and the cache
object is unchanged. This holds for the Collaborative and the Content cache. -/
theorem getCachedSimilarity_effect {F : Type} [LinearOrderedField F] (cu : Collaborative F)
    (ct : Content F) (a b : Int) :
    ((a = b → cu.getCachedSimilarity a b = (1, cu))
      ∧ (a ≠ b → ∀ v, Map.find cu.similarityCache (Collaborative.createPairKey a b) = some v →
          (cu.getCachedSimilarity a b).1 = v
          ∧ (cu.getCachedSimilarity a b).2.similarityCache = cu.similarityCache
          ∧ Map.find (cu.getCachedSimilarity a b).2.cacheAccessCount
                (Collaborative.createPairKey a b)
              = some ((Map.find cu.cacheAccessCount (Collaborative.createPairKey a b)).getD 0 + 1)
          ∧ ∀ k, k ≠ Collaborative.createPairKey a b →
              Map.find (cu.getCachedSimilarity a b).2.cacheAccessCount k
                = Map.find cu.cacheAccessCount k)
      ∧ (a ≠ b → Map.find cu.similarityCache (Collaborative.createPairKey a b) = none →
          cu.getCachedSimilarity a b = (0, cu)))
    ∧ ((a = b → ct.getCachedSimilarity a b = (1, ct))
      ∧ (a ≠ b → ∀ v, Map.find ct.similarityCache (Content.createPairKey a b) = some v →
          (ct.getCachedSimilarity a b).1 = v
          ∧ (ct.getCachedSimilarity a b).2.similarityCache = ct.similarityCache
          ∧ Map.find (ct.getCachedSimilarity a b).2.cacheAccessCount (Content.createPairKey a b)
              = some ((Map.find ct.cacheAccessCount (Content.createPairKey a b)).getD 0 + 1)
          ∧ ∀ k, k ≠ Content.createPairKey a b →
              Map.find (ct.getCachedSimilarity a b).2.cacheAccessCount k
                = Map.find ct.cacheAccessCount k)
      ∧ (a ≠ b → Map.find ct.similarityCache (Content.createPairKey a b) = none →
          ct.getCachedSimilarity a b = (0, ct))) := by
  refine ⟨⟨?_, ?_, ?_⟩, ⟨?_, ?_, ?_⟩⟩
  · intro h
    simp [Collaborative.getCachedSimilarity, h]
  · intro h v hv
    simp only [Collaborative.getCachedSimilarity, h, if_false, hv]
    refine ⟨trivial, trivial, Map.find_modify_self _ _ _ _, ?_⟩
    intro k hk
    exact Map.find_modify_ne _ _ _ _ _ hk
  · intro h hv
    simp [Collaborative.getCachedSimilarity, h, hv]
  · intro h
    simp [Content.getCachedSimilarity, h]
  · intro h v hv
    simp only [Content.getCachedSimilarity, h, if_false, hv]
    refine ⟨trivial, trivial, Map.find_modify_self _ _ _ _, ?_⟩
    intro k hk
    exact Map.find_modify_ne _ _ _ _ _ hk
  · intro h hv
    simp [Content.getCachedSimilarity, h, hv]

/-- C10 on a hit: users 3 and 7 are cached with similarity 1/2 and access count 1. -/
theorem getCachedSimilarity_effect_witness :
    (Collaborative.getCachedSimilarity exampleUserCache 3 7).1 = 1 / 2
    ∧ Map.find (Collaborative.getCachedSimilarity exampleUserCache 3 7).2.cacheAccessCount
          (Collaborative.createPairKey 3 7)
        = some ((Map.find exampleUserCache.cacheAccessCount
            (Collaborative.createPairKey 3 7)).getD 0 + 1) :=
  have h := (getCachedSimilarity_effect exampleUserCache exampleItemCache 3 7).1.2.1
    (by decide) (1 / 2) (by rfl)
  ⟨h.1, h.2.2.1⟩

section USetLemmas

variable {K : Type} [DecidableEq K]

theorem USet.mem_foldl_insert (l acc : List K) (x : K) :
    x ∈ l.foldl USet.insert acc ↔ x ∈ acc ∨ x ∈ l := by
  induction l generalizing acc with
  | nil => simp
  | cons y t ih =>
    simp only [List.foldl, ih, List.mem_cons]
    unfold USet.insert
    by_cases h : y ∈ acc
    · simp only [h, if_true]
      constructor
      · rintro (h1 | h1)
        · exact Or.inl h1
        · exact Or.inr (Or.inr h1)
      · rintro (h1 | h1 | h1)
        · exact Or.inl h1
        · exact Or.inl (h1 ▸ h)
        · exact Or.inr h1
    · simp only [h, if_false, List.mem_append, List.mem_singleton]
      tauto

theorem USet.nodup_foldl_insert (l acc : List K) (h : acc.Nodup) :
    (l.foldl USet.insert acc).Nodup := by
  induction l generalizing acc with
  | nil => simpa using h
  | cons y t ih =>
    simp only [List.foldl]
    apply ih
    unfold USet.insert
    by_cases hy : y ∈ acc
    · simpa [hy] using h
    · simp only [hy, if_false]
      rw [List.nodup_append]
      refine ⟨h, List.nodup_singleton y, ?_⟩
      intro a ha hb
      rw [List.mem_singleton] at hb
      exact hy (hb ▸ ha)

theorem USet.mem_ofList (l : List K) (x : K) : x ∈ USet.ofList l ↔ x ∈ l := by
  simp [USet.ofList, USet.mem_foldl_insert]

theorem USet.nodup_ofList (l : List K) : (USet.ofList l).Nodup :=
  USet.nodup_foldl_insert l [] List.nodup_nil

theorem USet.toFinset_ofList (l : List K) : (USet.ofList l).toFinset = l.toFinset := by
  ext x
  simp [USet.mem_ofList]

theorem USet.length_ofList (l : List K) : (USet.ofList l).length = l.toFinset.card := by
  rw [← USet.toFinset_ofList, List.toFinset_card_of_nodup (USet.nodup_ofList l)]

theorem USet.foldl_count (s : USet K) (l : List K) (n : Nat) :
    l.foldl (fun n x => if USet.count s x > 0 then n + 1 else n) n
      = n + (l.filter (fun x => decide (x ∈ s))).length := by
  induction l generalizing n with
  | nil => simp
  | cons y t ih =>
    simp only [List.foldl, ih]
    by_cases h : y ∈ s
    · simp [USet.count, h, List.filter]
      omega
    · simp [USet.count, h, List.filter]

theorem USet.intersection_card (l1 l2 : List K) :
    (USet.ofList l1).foldl (fun n x => if USet.count (USet.ofList l2) x > 0 then n + 1 else n) 0
      = (l1.toFinset ∩ l2.toFinset).card := by
  rw [USet.foldl_count, Nat.zero_add]
  have hnd : ((USet.ofList l1).filter (fun x => decide (x ∈ USet.ofList l2))).Nodup :=
    (USet.nodup_ofList l1).filter _
  rw [← List.toFinset_card_of_nodup hnd]
  congr 1
  ext x
  simp [USet.mem_ofList]

end USetLemmas

section ContentSimilarity

variable {F : Type} [LinearOrderedField F]

theorem Content.genre_similarity_eq (l1 l2 : List String) :
    (if ¬ l1.isEmpty ∧ ¬ l2.isEmpty then
        (((USet.ofList l1).foldl
            (fun n genre => if USet.count (USet.ofList l2) genre > 0 then n + 1 else n) 0 : Nat) : F)
          / (((USet.ofList l1).length + (USet.ofList l2).length
              - (USet.ofList l1).foldl
                  (fun n genre => if USet.count (USet.ofList l2) genre > 0 then n + 1 else n) 0
              : Nat) : F)
      else 0)
      = jaccardSpec l1.toFinset l2.toFinset := by
  unfold jaccardSpec
  by_cases h1 : l1 = []
  · simp [h1]
  · by_cases h2 : l2 = []
    · simp [h2]
    · have e1 : ¬ (l1.toFinset = ∅) := by simpa using h1
      have e2 : ¬ (l2.toFinset = ∅) := by simpa using h2
      have c1 : ¬ (l1.isEmpty = true) := by simpa using h1
      have c2 : ¬ (l2.isEmpty = true) := by simpa using h2
      have hu : (USet.ofList l1).length + (USet.ofList l2).length
          - (l1.toFinset ∩ l2.toFinset).card = (l1.toFinset ∪ l2.toFinset).card := by
        have := Finset.card_union_add_card_inter l1.toFinset l2.toFinset
        rw [USet.length_ofList, USet.length_ofList]
        omega
      rw [USet.intersection_card, hu]
      simp [c1, c2, e1, e2]

theorem Content.calculateSimilarity_eq_spec (g : BipartiteGraph F) (i1 i2 : Int)
    (a b : BipartiteGraph.Item F) (hne : i1 ≠ i2) (h1 : Map.find g.items i1 = some a)
    (h2 : Map.find g.items i2 = some b) :
    Content.calculateSimilarity g i1 i2 = contentSimilaritySpec a b := by
  unfold Content.calculateSimilarity contentSimilaritySpec
  simp only [hne, if_false, h1, h2]
  rw [Content.genre_similarity_eq a.genres b.genres]
  push_cast
  ring

theorem Content.calculateSimilarity_missing (g : BipartiteGraph F) (i1 i2 : Int) (hne : i1 ≠ i2)
    (h : Map.find g.items i1 = none ∨ Map.find g.items i2 = none) :
    Content.calculateSimilarity g i1 i2 = 0 := by
  unfold Content.calculateSimilarity
  simp only [hne, if_false]
  rcases h with h | h
  · rw [h]
  · rw [h]
    cases Map.find g.items i1 <;> rfl

end ContentSimilarity

theorem similarGenres_score_12 :
    Content.calculateSimilarity similarGenresGraph 1 2 = 1777 / 1800 := by
  rw [Content.calculateSimilarity_eq_spec similarGenresGraph 1 2 _ _ (by decide) rfl rfl]
  norm_num [contentSimilaritySpec, jaccardSpec, abs_div]

theorem similarGenres_score_13 :
    Content.calculateSimilarity similarGenresGraph 1 3 = 337 / 900 := by
  rw [Content.calculateSimilarity_eq_spec similarGenresGraph 1 3 _ _ (by decide) rfl rfl]
  have e1 : (["Action", "Adventure"].toFinset ∩ ["Drama", "Romance"].toFinset
      : Finset String).card = 0 := by decide
  simp only [contentSimilaritySpec, jaccardSpec, e1]
  norm_num [abs_div]

/-- C6: for distinct item ids, `Content.calculateSimilarity` is `0` when either item is
missing and otherwise equals
`0.6·J + 0.2·(1 − |q1 − q2|/10) + 0.1·(1 − |t1 − t2|/4) + 0.1·(1 − |len1 − len2|/180)`
with `J = |G1 ∩ G2| / |G1 ∪ G2|`, and `J = 0` when either genre set is empty. For equal
quality, tier and length differences a pair with a larger `J` never scores lower; in the
test graph items 1, 2 score above `0.7` and above items 1, 3. -/
theorem content_similarity_formula {F : Type} [LinearOrderedField F] (g : BipartiteGraph F)
    (i1 i2 : Int) :
    (i1 ≠ i2 → (Map.find g.items i1 = none ∨ Map.find g.items i2 = none) →
        Content.calculateSimilarity g i1 i2 = 0)
    ∧ (∀ a b, i1 ≠ i2 → Map.find g.items i1 = some a → Map.find g.items i2 = some b →
        Content.calculateSimilarity g i1 i2
            = 6 / 10 * jaccardSpec a.genres.toFinset b.genres.toFinset
              + 2 / 10 * (1 - |a.imdb - b.imdb| / 10)
              + 1 / 10 * (1 - |((a.rating : F) - (b.rating : F))| / 4)
              + 1 / 10 * (1 - |((a.length : F) - (b.length : F))| / 180)
          ∧ ((a.genres = [] ∨ b.genres = []) →
              (jaccardSpec a.genres.toFinset b.genres.toFinset : F) = 0)
          ∧ (a.genres ≠ [] → b.genres ≠ [] →
              (jaccardSpec a.genres.toFinset b.genres.toFinset : F)
                = ((a.genres.toFinset ∩ b.genres.toFinset).card : F)
                  / ((a.genres.toFinset ∪ b.genres.toFinset).card : F)))
    ∧ (∀ j1 j2 a b c d, i1 ≠ i2 → j1 ≠ j2 →
        Map.find g.items i1 = some a → Map.find g.items i2 = some b →
        Map.find g.items j1 = some c → Map.find g.items j2 = some d →
        |a.imdb - b.imdb| = |c.imdb - d.imdb| →
        |a.rating - b.rating| = |c.rating - d.rating| →
        |a.length - b.length| = |c.length - d.length| →
        (jaccardSpec a.genres.toFinset b.genres.toFinset : F)
          ≤ jaccardSpec c.genres.toFinset d.genres.toFinset →
        Content.calculateSimilarity g i1 i2 ≤ Content.calculateSimilarity g j1 j2)
    ∧ (Content.calculateSimilarity similarGenresGraph 1 2 > 7 / 10
        ∧ Content.calculateSimilarity similarGenresGraph 1 2
            > Content.calculateSimilarity similarGenresGraph 1 3) := by
  refine ⟨?_, ?_, ?_, ?_⟩
  · intro hne h
    exact Content.calculateSimilarity_missing g i1 i2 hne h
  · intro a b hne h1 h2
    refine ⟨?_, ?_, ?_⟩
    · rw [Content.calculateSimilarity_eq_spec g i1 i2 a b hne h1 h2]
      rfl
    · intro h
      unfold jaccardSpec
      rcases h with h | h
      · simp [h]
      · simp [h]
    · intro ha hb
      unfold jaccardSpec
      simp [ha, hb]
  · intro j1 j2 a b c d hi hj h1 h2 h3 h4 hq ht hl hJ
    rw [Content.calculateSimilarity_eq_spec g i1 i2 a b hi h1 h2,
      Content.calculateSimilarity_eq_spec g j1 j2 c d hj h3 h4]
    unfold contentSimilaritySpec
    have ht2 : |((a.rating : F) - (b.rating : F))| = |((c.rating : F) - (d.rating : F))| := by
      have := congrArg (fun z : Int => (z : F)) ht
      simpa [Int.cast_abs] using this
    have hl2 : |((a.length : F) - (b.length : F))| = |((c.length : F) - (d.length : F))| := by
      have := congrArg (fun z : Int => (z : F)) hl
      simpa [Int.cast_abs] using this
    rw [hq, ht2, hl2]
    linarith
  · rw [similarGenres_score_12, similarGenres_score_13]
    constructor <;> norm_num

/-- C6 on the test graph: items 1 and 2 (same two genres, quality 8.0 and 7.5, lengths 120
and 115) score `0.6·1 + 0.2·(1 − 0.5/10) + 0.1·1 + 0.1·(1 − 5/180)`. -/
theorem content_similarity_formula_witness :
    Content.calculateSimilarity similarGenresGraph 1 2
      = 6 / 10 * jaccardSpec ["Action", "Adventure"].toFinset ["Action", "Adventure"].toFinset
        + 2 / 10 * (1 - |(8 : ℚ) - 15 / 2| / 10)
        + 1 / 10 * (1 - |(((2020 : Int) : ℚ) - ((2020 : Int) : ℚ))| / 4)
        + 1 / 10 * (1 - |(((120 : Int) : ℚ) - ((115 : Int) : ℚ))| / 180) :=
  ((content_similarity_formula similarGenresGraph 1 2).2.1 _ _ (by decide) rfl rfl).1

/-- C7 (counterexample): items 1 and 2 of `noGenreGraph` are both present, have distinct
ids and agree in genre set (empty), length, tier and quality score, yet their similarity
is `0.4`, not `1`. -/
theorem identical_items_without_genres_score :
    (∃ a b, Map.find noGenreGraph.items 1 = some a ∧ Map.find noGenreGraph.items 2 = some b
        ∧ a.genres.toFinset = b.genres.toFinset ∧ a.length = b.length ∧ a.rating = b.rating
        ∧ a.imdb = b.imdb)
    ∧ Content.calculateSimilarity noGenreGraph 1 2 = 2 / 5
    ∧ Content.calculateSimilarity noGenreGraph 1 2 ≠ 1 := by
  have h : Content.calculateSimilarity noGenreGraph 1 2 = 2 / 5 := by
    rw [Content.calculateSimilarity_eq_spec noGenreGraph 1 2 _ _ (by decide) rfl rfl]
    norm_num [contentSimilaritySpec, jaccardSpec]
  refine ⟨⟨_, _, rfl, rfl, rfl, rfl, rfl, rfl⟩, h, ?_⟩
  rw [h]
  norm_num

/-- C7 (amended): two items with distinct ids, both present, with identical non-empty genre
sets, identical length, identical tier and identical quality score have similarity `1`. -/
theorem identical_items_similarity_one {F : Type} [LinearOrderedField F] (g : BipartiteGraph F)
    (i1 i2 : Int) (a b : BipartiteGraph.Item F) (hne : i1 ≠ i2)
    (h1 : Map.find g.items i1 = some a) (h2 : Map.find g.items i2 = some b)
    (hg : a.genres.toFinset = b.genres.toFinset) (hnonempty : a.genres ≠ [])
    (hl : a.length = b.length) (ht : a.rating = b.rating) (hq : a.imdb = b.imdb) :
    Content.calculateSimilarity g i1 i2 = 1 := by
  rw [Content.calculateSimilarity_eq_spec g i1 i2 a b hne h1 h2]
  unfold contentSimilaritySpec jaccardSpec
  have hb : ¬ (b.genres.toFinset = ∅) := by
    rw [← hg]
    simpa using hnonempty
  have hcard : ((b.genres.toFinset.card : Nat) : F) ≠ 0 := by
    have : b.genres.toFinset.card ≠ 0 := by
      simpa [Finset.card_eq_zero] using hb
    exact_mod_cast this
  rw [hg, hl, ht, hq]
  simp only [hb, or_self, if_false, Finset.inter_self, Finset.union_self, sub_self, abs_zero,
    zero_div, sub_zero, div_self hcard]
  norm_num

/-- C7 (amended) on `twinGraph`: items 1 and 2 carry the genre set {Action, Drama}. -/
theorem identical_items_similarity_one_witness :
    Content.calculateSimilarity twinGraph 1 2 = 1 :=
  identical_items_similarity_one twinGraph 1 2 _ _ (by decide) rfl rfl (by decide) (by decide)
    rfl rfl rfl

section RatingLists

variable {F : Type} [LinearOrderedField F]

theorem Map.find_of_mem_nodup {K V : Type} [DecidableEq K] (r : Map K V)
    (hnd : (r.map Prod.fst).Nodup) (i : K) (v : V) (h : (i, v) ∈ r) :
    Map.find r i = some v := by
  induction r with
  | nil => simp at h
  | cons e t ih =>
    obtain ⟨k, w⟩ := e
    simp only [List.map_cons, List.nodup_cons] at hnd
    rcases List.mem_cons.mp h with h1 | h1
    · cases h1
      simp [Map.find]
    · have hk : k ≠ i := by
        intro e
        apply hnd.1
        rw [e]
        exact List.mem_map_of_mem Prod.fst h1
      simp [Map.find, hk, ih hnd.2 h1]

theorem Map.find_eq_none_of_not_mem {K V : Type} [DecidableEq K] (r : Map K V) (i : K)
    (h : i ∉ r.map Prod.fst) : Map.find r i = none := by
  induction r with
  | nil => rfl
  | cons e t ih =>
    obtain ⟨k, w⟩ := e
    simp only [List.map_cons, List.mem_cons, not_or] at h
    simp [Map.find, Ne.symm h.1, ih h.2]

theorem Map.find_isSome_iff {K V : Type} [DecidableEq K] (r : Map K V) (i : K) :
    (Map.find r i).isSome ↔ i ∈ r.map Prod.fst := by
  induction r with
  | nil => simp [Map.find]
  | cons e t ih =>
    obtain ⟨k, w⟩ := e
    by_cases hk : k = i
    · simp [Map.find, hk]
    · simp only [Map.find, hk, if_false, ih, List.map_cons, List.mem_cons]
      constructor
      · exact Or.inr
      · rintro (h | h)
        · exact absurd h.symm hk
        · exact h

theorem Map.find_foldl_insert_of_not_mem {V : Type} (r : List (Int × V)) (m : Map Int V)
    (i : Int) (h : i ∉ r.map Prod.fst) :
    Map.find (r.foldl (fun m e => Map.insert m e.1 e.2) m) i = Map.find m i := by
  induction r generalizing m with
  | nil => rfl
  | cons e t ih =>
    simp only [List.map_cons, List.mem_cons, not_or] at h
    simp only [List.foldl]
    rw [ih _ h.2, Map.find_insert_ne _ _ _ _ h.1]

theorem Map.find_foldl_insert_of_mem {V : Type} (r : List (Int × V)) (m : Map Int V)
    (hnd : (r.map Prod.fst).Nodup) (i : Int) (v : V) (h : (i, v) ∈ r) :
    Map.find (r.foldl (fun m e => Map.insert m e.1 e.2) m) i = some v := by
  induction r generalizing m with
  | nil => simp at h
  | cons e t ih =>
    simp only [List.map_cons, List.nodup_cons] at hnd
    simp only [List.foldl]
    rcases List.mem_cons.mp h with h1 | h1
    · subst h1
      rw [Map.find_foldl_insert_of_not_mem _ _ _ hnd.1]
      exact Map.find_insert_self _ _ _
    · exact ih _ hnd.2 h1

theorem Map.find_foldl_insert_nil {V : Type} (r : List (Int × V))
    (hnd : (r.map Prod.fst).Nodup) (i : Int) :
    Map.find (r.foldl (fun m e => Map.insert m e.1 e.2) ([] : Map Int V)) i = Map.find r i := by
  by_cases h : i ∈ r.map Prod.fst
  · obtain ⟨e, he, rfl⟩ := List.mem_map.mp h
    rw [Map.find_foldl_insert_of_mem r [] hnd e.1 e.2 he, Map.find_of_mem_nodup r hnd e.1 e.2 he]
  · rw [Map.find_foldl_insert_of_not_mem r [] i h, Map.find_eq_none_of_not_mem r i h]
    rfl

end RatingLists

section UserSimilarity

variable {F : Type} [LinearOrderedField F]

theorem Collaborative.foldl_dotStep (m : Map Int F) (r2 : List (Int × F)) (a : F × F × Int) :
    r2.foldl (Collaborative.dotStep m) a
      = (a.1 + (r2.map (fun e => (Map.find m e.1).getD 0 * e.2)).sum,
         a.2.1 + (r2.map (fun e => e.2 * e.2)).sum,
         a.2.2 + ((r2.filter (fun e => (Map.find m e.1).isSome)).length : Int)) := by
  induction r2 generalizing a with
  | nil => simp
  | cons e t ih =>
    simp only [List.foldl, ih, List.map_cons, List.sum_cons]
    unfold Collaborative.dotStep
    cases h : Map.find m e.1 with
    | none =>
      simp only [Option.getD_none, zero_mul, zero_add, List.filter, h, Option.isSome_none]
      ext <;> simp [add_assoc]
    | some r1 =>
      simp only [Option.getD_some, List.filter, h, Option.isSome_some, List.length_cons]
      ext <;> simp [add_assoc]
      ring

theorem foldl_add_sq (r : List (Int × F)) (n : F) :
    r.foldl (fun n e => n + e.2 * e.2) n = n + (r.map (fun e => e.2 * e.2)).sum := by
  induction r generalizing n with
  | nil => simp
  | cons e t ih => simp [List.foldl, ih, add_assoc]

theorem sum_map_eq_sum_ratedItems (r : List (Int × F)) (hnd : (r.map Prod.fst).Nodup)
    (f : Int → F → F) :
    (r.map (fun e => f e.1 e.2)).sum = Finset.sum (ratedItems r) (fun i => f i (ratingOf r i)) := by
  unfold ratedItems
  rw [List.sum_toFinset _ hnd, List.map_map]
  congr 1
  apply List.map_congr_left
  intro e he
  simp only [Function.comp, ratingOf]
  rw [Map.find_of_mem_nodup r hnd e.1 e.2 he]
  rfl

end UserSimilarity

section UserSimilarityMain

variable {F : Type} [LinearOrderedField F]

theorem Collaborative.calculateSimilarity_unfold (sqrt : F → F) (g : BipartiteGraph F)
    (u1 u2 : Int) (r1 r2 : List (Int × F)) (hne : u1 ≠ u2)
    (h1 : Map.find g.user_to_items u1 = some r1) (h2 : Map.find g.user_to_items u2 = some r2)
    (he1 : r1 ≠ []) (he2 : r2 ≠ []) :
    Collaborative.calculateSimilarity sqrt g u1 u2
      = if r1.foldl (fun n e => n + e.2 * e.2) 0 = 0
            ∨ (r2.foldl (Collaborative.dotStep (r1.foldl (fun m e => Map.insert m e.1 e.2) []))
                (0, 0, 0)).2.1 = 0
            ∨ (r2.foldl (Collaborative.dotStep (r1.foldl (fun m e => Map.insert m e.1 e.2) []))
                (0, 0, 0)).2.2 < 1
        then 0
        else (r2.foldl (Collaborative.dotStep (r1.foldl (fun m e => Map.insert m e.1 e.2) []))
                (0, 0, 0)).1
              / (sqrt (r1.foldl (fun n e => n + e.2 * e.2) 0)
                  * sqrt (r2.foldl
                      (Collaborative.dotStep (r1.foldl (fun m e => Map.insert m e.1 e.2) []))
                      (0, 0, 0)).2.1) := by
  have c1 : ¬ (r1.isEmpty = true) := by simpa using he1
  have c2 : ¬ (r2.isEmpty = true) := by simpa using he2
  unfold Collaborative.calculateSimilarity
  simp only [hne, if_false, h1, h2, c1, c2, or_self, Bool.false_eq_true]

theorem Collaborative.dot_eq_sum_common (r1 r2 : List (Int × F))
    (hnd1 : (r1.map Prod.fst).Nodup) (hnd2 : (r2.map Prod.fst).Nodup) :
    (r2.map (fun e =>
        (Map.find (r1.foldl (fun m e => Map.insert m e.1 e.2) ([] : Map Int F)) e.1).getD 0
          * e.2)).sum
      = Finset.sum (ratedItems r1 ∩ ratedItems r2) (fun i => ratingOf r1 i * ratingOf r2 i) := by
  have e1 : (r2.map (fun e =>
        (Map.find (r1.foldl (fun m e => Map.insert m e.1 e.2) ([] : Map Int F)) e.1).getD 0
          * e.2))
      = r2.map (fun e => (fun i v => ratingOf r1 i * v) e.1 e.2) := by
    apply List.map_congr_left
    intro e _
    simp only [ratingOf, Map.find_foldl_insert_nil r1 hnd1]
  rw [e1, sum_map_eq_sum_ratedItems r2 hnd2 (fun i v => ratingOf r1 i * v)]
  symm
  apply Finset.sum_subset Finset.inter_subset_right
  intro i _ hi
  have hi1 : i ∉ r1.map Prod.fst := by
    intro h
    apply hi
    rw [Finset.mem_inter]
    refine ⟨?_, by assumption⟩
    simpa [ratedItems] using h
  simp [ratingOf, Map.find_eq_none_of_not_mem r1 i hi1]

end UserSimilarityMain

theorem Collaborative.common_count_pos {F : Type} (r1 r2 : List (Int × F))
    (hnd1 : (r1.map Prod.fst).Nodup) (hc : (ratedItems r1 ∩ ratedItems r2).Nonempty) :
    ¬ (((r2.filter (fun e =>
        (Map.find (r1.foldl (fun m e => Map.insert m e.1 e.2) ([] : Map Int F)) e.1).isSome)).length
          : Int) < 1) := by
  obtain ⟨i, hi⟩ := hc
  rw [Finset.mem_inter] at hi
  have hi1 : i ∈ r1.map Prod.fst := by simpa [ratedItems] using hi.1
  have hi2 : i ∈ r2.map Prod.fst := by simpa [ratedItems] using hi.2
  obtain ⟨e, he, rfl⟩ := List.mem_map.mp hi2
  have hmem : e ∈ r2.filter (fun e =>
      (Map.find (r1.foldl (fun m e => Map.insert m e.1 e.2) ([] : Map Int F)) e.1).isSome) := by
    rw [List.mem_filter]
    refine ⟨he, ?_⟩
    rw [Map.find_foldl_insert_nil r1 hnd1]
    exact (Map.find_isSome_iff r1 e.1).mpr hi1
  have hpos := List.length_pos_of_mem hmem
  omega

section UserSimilarityCosine

variable {F : Type} [LinearOrderedField F]

theorem Collaborative.calculateSimilarity_eq_cosine (sqrt : F → F) (g : BipartiteGraph F)
    (u1 u2 : Int) (r1 r2 : List (Int × F)) (hne : u1 ≠ u2)
    (h1 : Map.find g.user_to_items u1 = some r1) (h2 : Map.find g.user_to_items u2 = some r2)
    (hnd1 : (r1.map Prod.fst).Nodup) (hnd2 : (r2.map Prod.fst).Nodup)
    (hc : (ratedItems r1 ∩ ratedItems r2).Nonempty) :
    Collaborative.calculateSimilarity sqrt g u1 u2
      = if Finset.sum (ratedItems r1) (fun i => ratingOf r1 i * ratingOf r1 i) = 0
            ∨ Finset.sum (ratedItems r2) (fun i => ratingOf r2 i * ratingOf r2 i) = 0
        then 0 else cosineSpec sqrt r1 r2 := by
  have he1 : r1 ≠ [] := by
    rintro rfl
    obtain ⟨i, hi⟩ := hc
    simp [ratedItems] at hi
  have he2 : r2 ≠ [] := by
    rintro rfl
    obtain ⟨i, hi⟩ := hc
    simp [ratedItems] at hi
  rw [Collaborative.calculateSimilarity_unfold sqrt g u1 u2 r1 r2 hne h1 h2 he1 he2]
  rw [Collaborative.foldl_dotStep, foldl_add_sq]
  have hcount := Collaborative.common_count_pos r1 r2 hnd1 hc
  have hn1 := sum_map_eq_sum_ratedItems r1 hnd1 (fun _ v => v * v)
  have hn2 := sum_map_eq_sum_ratedItems r2 hnd2 (fun _ v => v * v)
  simp only [hcount, or_false, zero_add, Collaborative.dot_eq_sum_common r1 r2 hnd1 hnd2]
  rw [hn1, hn2]
  rfl

end UserSimilarityCosine

theorem cosineGraph_users (F : Type) [LinearOrderedField F] :
    (cosineGraph F).user_to_items
      = [(1, [(1, 3), (2, 4)]), (2, [(1, 3)]), (3, [(1, 3), (1, 4)]), (4, [(1, 1)])] := by
  simp [cosineGraph, BipartiteGraph.run, BipartiteGraph.step, BipartiteGraph.addItem,
    BipartiteGraph.addUser, BipartiteGraph.empty, Map.insert, Map.find, Map.modify]

theorem cosineGraph_similarity_12 (F : Type) [LinearOrderedField F] (sqrt : F → F) :
    Collaborative.calculateSimilarity sqrt (cosineGraph F) 1 2 = 9 / (sqrt 25 * sqrt 9) := by
  rw [Collaborative.calculateSimilarity_unfold sqrt (cosineGraph F) 1 2 [(1, 3), (2, 4)] [(1, 3)]
    (by decide) (by simp [cosineGraph_users, Map.find]) (by simp [cosineGraph_users, Map.find])
    (by simp) (by simp)]
  norm_num [List.foldl, Collaborative.dotStep, Map.insert, Map.find]

theorem cosineGraph_similarity_43 (F : Type) [LinearOrderedField F] (sqrt : F → F) :
    Collaborative.calculateSimilarity sqrt (cosineGraph F) 4 3 = 7 / (sqrt 1 * sqrt 25) := by
  rw [Collaborative.calculateSimilarity_unfold sqrt (cosineGraph F) 4 3 [(1, 1)] [(1, 3), (1, 4)]
    (by decide) (by simp [cosineGraph_users, Map.find]) (by simp [cosineGraph_users, Map.find])
    (by simp) (by simp)]
  norm_num [List.foldl, Collaborative.dotStep, Map.insert, Map.find]

theorem cosineOverCommon_12 (F : Type) [LinearOrderedField F] (sqrt : F → F) :
    cosineOverCommonSpec sqrt [((1 : Int), (3 : F)), (2, 4)] [((1 : Int), (3 : F))]
      = 9 / (sqrt 9 * sqrt 9) := by
  have h : ratedItems [((1 : Int), (3 : F)), (2, 4)] ∩ ratedItems [((1 : Int), (3 : F))] = {1} := by
    simp [ratedItems]
  simp only [cosineOverCommonSpec, h, Finset.sum_singleton]
  norm_num [ratingOf, Map.find]

theorem cosineOverCommon_43 (F : Type) [LinearOrderedField F] (sqrt : F → F) :
    cosineOverCommonSpec sqrt [((1 : Int), (1 : F))] [((1 : Int), (3 : F)), (1, 4)]
      = 3 / (sqrt 1 * sqrt 9) := by
  have h : ratedItems [((1 : Int), (1 : F))] ∩ ratedItems [((1 : Int), (3 : F)), (1, 4)] = {1} := by
    simp [ratedItems]
  simp only [cosineOverCommonSpec, h, Finset.sum_singleton]
  norm_num [ratingOf, Map.find]

theorem real_sqrt_values : Real.sqrt 1 = 1 ∧ Real.sqrt 9 = 3 ∧ Real.sqrt 25 = 5 := by
  refine ⟨Real.sqrt_one, ?_, ?_⟩
  · rw [show (9 : ℝ) = 3 ^ 2 by norm_num]
    exact Real.sqrt_sq (by norm_num)
  · rw [show (25 : ℝ) = 5 ^ 2 by norm_num]
    exact Real.sqrt_sq (by norm_num)

/-- C5 (counterexample), over the reals with the real square root. Users 1 and 2 of
`cosineGraph` are distinct, both exist and share item 1: the code returns
`9 / (sqrt 25 · sqrt 9) = 3/5`, the cosine restricted to the common item is `1`.
Users 4 and 3 share item 1, which user 3 rated twice: the code returns `7/5`, the cosine
restricted to the common item is `1`. -/
theorem user_similarity_not_cosine_over_common :
    (Map.find (cosineGraph ℝ).user_to_items 1 = some [(1, 3), (2, 4)]
      ∧ Map.find (cosineGraph ℝ).user_to_items 2 = some [(1, 3)]
      ∧ Collaborative.calculateSimilarity Real.sqrt (cosineGraph ℝ) 1 2 = 3 / 5
      ∧ cosineOverCommonSpec Real.sqrt [((1 : Int), (3 : ℝ)), (2, 4)] [((1 : Int), (3 : ℝ))] = 1)
    ∧ (Map.find (cosineGraph ℝ).user_to_items 4 = some [(1, 1)]
      ∧ Map.find (cosineGraph ℝ).user_to_items 3 = some [(1, 3), (1, 4)]
      ∧ Collaborative.calculateSimilarity Real.sqrt (cosineGraph ℝ) 4 3 = 7 / 5
      ∧ cosineOverCommonSpec Real.sqrt [((1 : Int), (1 : ℝ))] [((1 : Int), (3 : ℝ)), (1, 4)]
          = 1) := by
  obtain ⟨s1, s9, s25⟩ := real_sqrt_values
  refine ⟨⟨?_, ?_, ?_, ?_⟩, ⟨?_, ?_, ?_, ?_⟩⟩
  · simp [cosineGraph_users, Map.find]
  · simp [cosineGraph_users, Map.find]
  · rw [cosineGraph_similarity_12, s25, s9]
    norm_num
  · rw [cosineOverCommon_12, s9]
    norm_num
  · simp [cosineGraph_users, Map.find]
  · simp [cosineGraph_users, Map.find]
  · rw [cosineGraph_similarity_43, s25, s1]
    norm_num
  · rw [cosineOverCommon_43, s9, s1]
    norm_num

/-- C5 (amended): for two distinct users that both exist, whose rating lists hold no item id
twice and that have at least one commonly rated item, `Collaborative.calculateSimilarity`
is `(Σ_common r1·r2) / (sqrt (Σ_all r1²) · sqrt (Σ_all r2²))`, each sum of squares running
over all items that user rated, when both sums of squares are non-zero, and `0` when one of
them is zero. -/
theorem user_similarity_is_full_cosine {F : Type} [LinearOrderedField F] (sqrt : F → F)
    (g : BipartiteGraph F) (u1 u2 : Int) (r1 r2 : List (Int × F)) (hne : u1 ≠ u2)
    (h1 : Map.find g.user_to_items u1 = some r1) (h2 : Map.find g.user_to_items u2 = some r2)
    (hnd1 : (r1.map Prod.fst).Nodup) (hnd2 : (r2.map Prod.fst).Nodup)
    (hc : (ratedItems r1 ∩ ratedItems r2).Nonempty) :
    (Finset.sum (ratedItems r1) (fun i => ratingOf r1 i * ratingOf r1 i) ≠ 0 →
      Finset.sum (ratedItems r2) (fun i => ratingOf r2 i * ratingOf r2 i) ≠ 0 →
      Collaborative.calculateSimilarity sqrt g u1 u2
        = Finset.sum (ratedItems r1 ∩ ratedItems r2) (fun i => ratingOf r1 i * ratingOf r2 i)
          / (sqrt (Finset.sum (ratedItems r1) (fun i => ratingOf r1 i * ratingOf r1 i))
              * sqrt (Finset.sum (ratedItems r2) (fun i => ratingOf r2 i * ratingOf r2 i))))
    ∧ ((Finset.sum (ratedItems r1) (fun i => ratingOf r1 i * ratingOf r1 i) = 0
          ∨ Finset.sum (ratedItems r2) (fun i => ratingOf r2 i * ratingOf r2 i) = 0) →
        Collaborative.calculateSimilarity sqrt g u1 u2 = 0) := by
  have key := Collaborative.calculateSimilarity_eq_cosine sqrt g u1 u2 r1 r2 hne h1 h2 hnd1 hnd2 hc
  constructor
  · intro hn1 hn2
    rw [key, if_neg (by tauto)]
    rfl
  · intro h
    rw [key, if_pos h]

/-- C5 (amended) on users 1 and 2 of `cosineGraph` over the reals: the similarity is
`9 / (sqrt 25 · sqrt 9)`. -/
theorem user_similarity_is_full_cosine_witness :
    Collaborative.calculateSimilarity Real.sqrt (cosineGraph ℝ) 1 2
      = Finset.sum (ratedItems [((1 : Int), (3 : ℝ)), (2, 4)] ∩ ratedItems [((1 : Int), (3 : ℝ))])
          (fun i => ratingOf [((1 : Int), (3 : ℝ)), (2, 4)] i * ratingOf [((1 : Int), (3 : ℝ))] i)
        / (Real.sqrt (Finset.sum (ratedItems [((1 : Int), (3 : ℝ)), (2, 4)])
              (fun i => ratingOf [((1 : Int), (3 : ℝ)), (2, 4)] i
                * ratingOf [((1 : Int), (3 : ℝ)), (2, 4)] i))
            * Real.sqrt (Finset.sum (ratedItems [((1 : Int), (3 : ℝ))])
              (fun i => ratingOf [((1 : Int), (3 : ℝ))] i * ratingOf [((1 : Int), (3 : ℝ))] i))) :=
  (user_similarity_is_full_cosine Real.sqrt (cosineGraph ℝ) 1 2 [(1, 3), (2, 4)] [(1, 3)]
    (by decide) (by simp [cosineGraph_users, Map.find]) (by simp [cosineGraph_users, Map.find])
    (by simp) (by simp) (by simp [ratedItems])).1
    (by norm_num [ratedItems, ratingOf, Map.find])
    (by norm_num [ratedItems, ratingOf, Map.find])

section Sorting

variable {α F : Type} [LinearOrderedField F]

theorem stdInsert_perm {β : Type} (comp : β → β → Bool) (x : β) (l : List β) :
    (stdInsert comp x l).Perm (x :: l) := by
  induction l with
  | nil => exact List.Perm.refl _
  | cons y t ih =>
    unfold stdInsert
    by_cases h : comp x y = true
    · simp [h]
    · simp only [h]
      exact (List.Perm.cons y ih).trans (List.Perm.swap x y t)

theorem stdSort_perm {β : Type} (comp : β → β → Bool) (l : List β) :
    (stdSort comp l).Perm l := by
  induction l with
  | nil => exact List.Perm.refl _
  | cons x t ih =>
    unfold stdSort
    exact (stdInsert_perm comp x _).trans (List.Perm.cons x ih)

theorem stdInsert_sortedDesc (x : α × F) (l : List (α × F)) (h : SortedDesc l) :
    SortedDesc (stdInsert bySecondDesc x l) := by
  induction l with
  | nil => simp [stdInsert, SortedDesc]
  | cons y t ih =>
    have hy : ∀ b ∈ t, b.2 ≤ y.2 := (List.pairwise_cons.mp h).1
    have ht : SortedDesc t := (List.pairwise_cons.mp h).2
    unfold stdInsert
    by_cases hc : bySecondDesc x y = true
    · have hxy : y.2 < x.2 := by simpa [bySecondDesc] using hc
      simp only [hc, if_true]
      refine List.pairwise_cons.mpr ⟨?_, h⟩
      intro b hb
      rcases List.mem_cons.mp hb with rfl | hb
      · exact hxy.le
      · exact (hy b hb).trans hxy.le
    · have hxy : x.2 ≤ y.2 := by simpa [bySecondDesc] using hc
      simp only [hc]
      refine List.pairwise_cons.mpr ⟨?_, ih ht⟩
      intro b hb
      rcases List.mem_cons.mp ((stdInsert_perm bySecondDesc x t).subset hb) with rfl | hb
      · exact hxy
      · exact hy b hb

theorem stdSort_sortedDesc (l : List (α × F)) : SortedDesc (stdSort bySecondDesc l) := by
  induction l with
  | nil => simp [stdSort, SortedDesc]
  | cons x t ih =>
    unfold stdSort
    exact stdInsert_sortedDesc x _ ih

theorem truncate_length_le {β : Type} (v : List β) (n : Nat) : (truncate v n).length ≤ n := by
  unfold truncate
  by_cases h : v.length > n
  · simp only [h, if_true, List.length_take]
    exact Nat.min_le_left _ _
  · simp only [h, if_false]
    exact Nat.le_of_not_lt h

theorem truncate_sublist {β : Type} (v : List β) (n : Nat) : (truncate v n).Sublist v := by
  unfold truncate
  by_cases h : v.length > n
  · simp only [h, if_true]
    exact List.take_sublist n v
  · simp only [h, if_false]
    exact List.Sublist.refl v

theorem mem_of_mem_truncate_sort {β : Type} (comp : β → β → Bool) (l : List β) (n : Nat) (x : β)
    (h : x ∈ truncate (stdSort comp l) n) : x ∈ l :=
  (stdSort_perm comp l).subset ((truncate_sublist _ n).subset h)

theorem topN_truncate_sort (l : List (α × F)) (n : Nat) :
    (truncate (stdSort bySecondDesc l) n).length ≤ n
      ∧ SortedDesc (truncate (stdSort bySecondDesc l) n) :=
  ⟨truncate_length_le _ n, List.Pairwise.sublist (truncate_sublist _ n) (stdSort_sortedDesc l)⟩

end Sorting

section TopN

variable {F : Type} [LinearOrderedField F]

theorem Collaborative.getInfluentialRecommendations_topN (g : BipartiteGraph F)
    (pageRank : PageRank F) (userMovies : USet Int) (n : Nat) :
    (Collaborative.getInfluentialRecommendations g pageRank userMovies n).length ≤ n
      ∧ SortedDesc (Collaborative.getInfluentialRecommendations g pageRank userMovies n) := by
  simp only [Collaborative.getInfluentialRecommendations]
  split_ifs
  · exact ⟨Nat.zero_le n, List.Pairwise.nil⟩
  · exact topN_truncate_sort _ n

theorem Collaborative.collabRecs_topN (c : Collaborative F) (g : BipartiteGraph F)
    (pageRank : PageRank F) (userId : Int) (n : Nat) :
    (c.getRecommendations g pageRank userId n).1.length ≤ n
      ∧ SortedDesc (c.getRecommendations g pageRank userId n).1 := by
  simp only [Collaborative.getRecommendations]
  split_ifs
  · exact topN_truncate_sort _ n
  · exact Collaborative.getInfluentialRecommendations_topN g pageRank _ n
  · exact topN_truncate_sort _ n

theorem Content.contentRecs_topN (sqrt : F → F) (g : BipartiteGraph F) (userId : Int)
    (n : Nat) :
    (Content.getRecommendations sqrt g userId n).length ≤ n
      ∧ SortedDesc (Content.getRecommendations sqrt g userId n) := by
  simp only [Content.getRecommendations]
  split_ifs
  · exact topN_truncate_sort _ n
  · exact topN_truncate_sort _ n
  · exact topN_truncate_sort _ n

theorem Hybrid.calculateHybridScore_isSome (h : Hybrid F) (g : BipartiteGraph F)
    (collaborative : Collaborative F) (collabRank : PageRank F) (userId movieId : Int)
    (ratings : List (Int × F)) (hu : Map.find g.user_to_items userId = some ratings) :
    ∃ score, (h.calculateHybridScore g collaborative collabRank userId movieId).1 = some score := by
  unfold Hybrid.calculateHybridScore
  cases hk : Map.find h.hybridScoreCache (Hybrid.createKey userId movieId) with
  | some v => exact ⟨v, by simp [hk]⟩
  | none => simp [hk, hu]

theorem Hybrid.foldl_scoreUnwatched_isSome (g : BipartiteGraph F) (collabRank : PageRank F)
    (userId : Int) (watchedMovies : USet Int) (ratings : List (Int × F))
    (hu : Map.find g.user_to_items userId = some ratings)
    (items : List (Int × BipartiteGraph.Item F))
    (acc : Option (List (Int × F)) × Hybrid F × Collaborative F) (recs : List (Int × F))
    (hacc : acc.1 = some recs) :
    ∃ recs2, (items.foldl (Hybrid.scoreUnwatched g collabRank userId watchedMovies) acc).1
      = some recs2 := by
  induction items generalizing acc recs with
  | nil => exact ⟨recs, hacc⟩
  | cons it t ih =>
    simp only [List.foldl]
    by_cases hw : USet.count watchedMovies it.1 = 0
    · obtain ⟨score, hs⟩ := Hybrid.calculateHybridScore_isSome acc.2.1 g acc.2.2 collabRank userId
        it.1 ratings hu
      apply ih _ (recs ++ [(it.1, score)])
      simp [Hybrid.scoreUnwatched, hacc, hw, hs]
    · apply ih _ recs
      simp [Hybrid.scoreUnwatched, hacc, hw]

theorem Hybrid.hybridRecs_topN (h : Hybrid F) (g : BipartiteGraph F)
    (collaborative : Collaborative F) (collabRank : PageRank F) (userId : Int) (n : Nat)
    (ratings : List (Int × F)) (hu : Map.find g.user_to_items userId = some ratings) :
    ∃ recs, (h.getRecommendations g collaborative collabRank userId n).1 = some recs
      ∧ recs.length ≤ n ∧ SortedDesc recs := by
  obtain ⟨recs2, h2⟩ := Hybrid.foldl_scoreUnwatched_isSome g collabRank userId
    (ratings.foldl (fun s e => USet.insert s e.1) []) ratings hu g.items
    (some [], h, collaborative) [] rfl
  refine ⟨truncate (stdSort bySecondDesc recs2) n, ?_, topN_truncate_sort recs2 n⟩
  simp only [Hybrid.getRecommendations, hu, h2]

end TopN

/-- C1: for every graph, cache state, user id and `n`, the lists returned by
`Collaborative.getRecommendations` and `Content.getRecommendations`, and by
`Hybrid.getRecommendations` for a user present in the graph (where the call returns a list),
have at most `n` entries and scores in non-increasing order from first to last. -/
theorem recommendations_bounded_and_sorted {F : Type} [LinearOrderedField F]
    (g : BipartiteGraph F) (pageRank : PageRank F) (c : Collaborative F) (h : Hybrid F)
    (userId : Int) (n : Nat) :
    ((c.getRecommendations g pageRank userId n).1.length ≤ n
      ∧ SortedDesc (c.getRecommendations g pageRank userId n).1)
    ∧ (∀ sqrt : F → F, (Content.getRecommendations sqrt g userId n).length ≤ n
      ∧ SortedDesc (Content.getRecommendations sqrt g userId n))
    ∧ (∀ ratings, Map.find g.user_to_items userId = some ratings →
        ∃ recs, (h.getRecommendations g c pageRank userId n).1 = some recs
          ∧ recs.length ≤ n ∧ SortedDesc recs) :=
  ⟨Collaborative.collabRecs_topN c g pageRank userId n,
    fun sqrt => Content.contentRecs_topN sqrt g userId n,
    fun ratings hu => Hybrid.hybridRecs_topN h g c pageRank userId n ratings hu⟩

theorem hybridGraph_users : hybridGraph.user_to_items = [(1, [(1, 5)])] := by
  simp [hybridGraph, BipartiteGraph.run, BipartiteGraph.step, BipartiteGraph.addItem,
    BipartiteGraph.addUser, BipartiteGraph.empty, Map.insert, Map.find, Map.modify]

theorem hybridGraph_items :
    hybridGraph.items
      = [(1, { id := 1, genres := ["Action"], length := 120, imdb := 8, rating := 2 }),
         (2, { id := 2, genres := ["Action"], length := 120, imdb := 8, rating := 2 })] := by
  simp [hybridGraph, BipartiteGraph.run, BipartiteGraph.step, BipartiteGraph.addItem,
    BipartiteGraph.addUser, BipartiteGraph.empty, Map.insert, Map.find, Map.modify]

theorem hybridGraph_recommendations :
    (Hybrid.getRecommendations emptyHybrid hybridGraph emptyCollaborative emptyPageRank 1 10).1
      = some [(2, 20000 / 50003)] := by
  have hs : Content.calculateSimilarity hybridGraph 1 2 = 1 := by
    rw [Content.calculateSimilarity_eq_spec hybridGraph 1 2 _ _ (by decide) rfl rfl]
    norm_num [contentSimilaritySpec, jaccardSpec]
  simp only [Hybrid.getRecommendations, hybridGraph_users, Map.find, if_true, List.foldl,
    hybridGraph_items, Hybrid.scoreUnwatched, USet.insert, USet.count]
  norm_num [Hybrid.calculateHybridScore, emptyHybrid, Map.find,
    Collaborative.getRecommendations, hybridGraph_users, hybridGraph_items, List.foldl,
    Collaborative.collectSimilar, truncate, stdSort, Collaborative.toRecommendation, USet.insert,
    USet.count, hs, PageRank.getPageRank, emptyPageRank, PageRank.MIN_RANK, stdInsert]

/-- C1 on `hybridGraph`: user 1 is present, so the Hybrid call returns a list, which has at
most 10 entries in non-increasing score order. -/
theorem recommendations_bounded_and_sorted_witness :
    Map.find hybridGraph.user_to_items 1 = some [(1, 5)]
    ∧ ∃ recs,
        (Hybrid.getRecommendations emptyHybrid hybridGraph emptyCollaborative emptyPageRank 1 10).1
          = some recs
        ∧ recs.length ≤ 10 ∧ SortedDesc recs :=
  ⟨by rw [hybridGraph_users]; rfl,
    (recommendations_bounded_and_sorted hybridGraph emptyPageRank emptyCollaborative emptyHybrid
      1 10).2.2 [(1, 5)] (by rw [hybridGraph_users]; rfl)⟩

section FoldInvariants

theorem foldl_invariant {β γ : Type} (f : β → γ → β) (P : β → Prop) (l : List γ) (b : β)
    (hb : P b) (hstep : ∀ b x, x ∈ l → P b → P (f b x)) : P (l.foldl f b) := by
  induction l generalizing b with
  | nil => exact hb
  | cons x t ih =>
    simp only [List.foldl]
    apply ih
    · exact hstep b x (List.mem_cons_self x t) hb
    · intro b2 y hy hP
      exact hstep b2 y (List.mem_cons_of_mem x hy) hP

theorem Map.mem_insert {K V : Type} [DecidableEq K] (m : Map K V) (k : K) (v : V) (e : K × V)
    (h : e ∈ Map.insert m k v) : e = (k, v) ∨ e ∈ m := by
  induction m with
  | nil =>
    left
    simpa [Map.insert] using h
  | cons x t ih =>
    obtain ⟨k', v'⟩ := x
    unfold Map.insert at h
    by_cases hk : k' = k
    · simp only [hk, if_true] at h
      rcases List.mem_cons.mp h with h1 | h1
      · exact Or.inl h1
      · exact Or.inr (List.mem_cons_of_mem _ h1)
    · simp only [hk, if_false] at h
      rcases List.mem_cons.mp h with h1 | h1
      · right
        rw [h1]
        exact List.mem_cons_self _ _
      · rcases ih h1 with h2 | h2
        · exact Or.inl h2
        · exact Or.inr (List.mem_cons_of_mem _ h2)

theorem Map.keys_modify {K V : Type} [DecidableEq K] (Q : K → Prop) (m : Map K V) (k : K)
    (d : V) (f : V → V) (hm : ∀ e ∈ m, Q e.1) (hk : Q k) : ∀ e ∈ Map.modify m k d f, Q e.1 := by
  intro e he
  rcases Map.mem_insert m k _ e he with h | h
  · rw [h]
    exact hk
  · exact hm e h

theorem USet.count_eq_zero_iff {K : Type} [DecidableEq K] (s : USet K) (k : K) :
    USet.count s k = 0 ↔ k ∉ s := by
  unfold USet.count
  by_cases h : k ∈ s <;> simp [h]

theorem USet.count_pos_iff {K : Type} [DecidableEq K] (s : USet K) (k : K) :
    USet.count s k > 0 ↔ k ∈ s := by
  unfold USet.count
  by_cases h : k ∈ s <;> simp [h]

theorem USet.mem_insert_iff {K : Type} [DecidableEq K] (s : USet K) (k x : K) :
    x ∈ USet.insert s k ↔ x ∈ s ∨ x = k := by
  unfold USet.insert
  by_cases h : k ∈ s
  · simp only [h, if_true]
    constructor
    · exact Or.inl
    · rintro (h1 | h1)
      · exact h1
      · exact h1 ▸ h
  · simp [h]

theorem USet.mem_foldl_insert_if {γ : Type} (p : γ → Bool) (key : γ → Int) (l : List γ)
    (s : USet Int) (k : Int) (h : k ∈ s ∨ ∃ e ∈ l, p e = true ∧ key e = k) :
    k ∈ l.foldl (fun s e => if p e then USet.insert s (key e) else s) s := by
  induction l generalizing s with
  | nil =>
    rcases h with h | ⟨e, he, _⟩
    · exact h
    · simp at he
  | cons x t ih =>
    simp only [List.foldl]
    apply ih
    rcases h with h | ⟨e, he, hp, hk⟩
    · left
      by_cases hx : p x = true
      · simp only [hx, if_true]
        exact (USet.mem_insert_iff s (key x) k).mpr (Or.inl h)
      · simpa [hx] using h
    · rcases List.mem_cons.mp he with rfl | he
      · left
        simp only [hp, if_true]
        exact (USet.mem_insert_iff s (key e) k).mpr (Or.inr hk.symm)
      · exact Or.inr ⟨e, he, hp, hk⟩

end FoldInvariants

section ExcludeRated

variable {F : Type} [LinearOrderedField F]

theorem Collaborative.accumulateRating_keys (items : Map Int (BipartiteGraph.Item F))
    (userMovies : USet Int) (weight : F) (weighted : Map Int (F × F)) (e : Int × F)
    (hw : ∀ x ∈ weighted, (Map.find items x.1).isSome ∧ x.1 ∉ userMovies) :
    ∀ x ∈ Collaborative.accumulateRating items userMovies weight weighted e,
      (Map.find items x.1).isSome ∧ x.1 ∉ userMovies := by
  unfold Collaborative.accumulateRating
  by_cases hc : (Map.find items e.1).isNone ∨ USet.count userMovies e.1 > 0
  · simpa only [hc, if_true] using hw
  · simp only [hc, if_false]
    have hk : (Map.find items e.1).isSome ∧ e.1 ∉ userMovies := by
      constructor
      · cases hf : Map.find items e.1 with
        | none => exact absurd (Or.inl (by simp [hf])) hc
        | some v => rfl
      · intro hmem
        exact hc (Or.inr ((USet.count_pos_iff userMovies e.1).mpr hmem))
    exact Map.keys_modify (fun k => (Map.find items k).isSome ∧ k ∉ userMovies) _ e.1 _ _
      (Map.keys_modify (fun k => (Map.find items k).isSome ∧ k ∉ userMovies) weighted e.1 _ _
        hw hk) hk

theorem Collaborative.toRecommendation_keys (items : Map Int (BipartiteGraph.Item F))
    (wScore wQuality : F) (Q : Int → Prop) (weighted : Map Int (F × F))
    (hw : ∀ x ∈ weighted, Q x.1) :
    ∀ x ∈ weighted.foldl (Collaborative.toRecommendation items wScore wQuality) [], Q x.1 := by
  apply foldl_invariant (Collaborative.toRecommendation items wScore wQuality)
    (fun recs => ∀ x ∈ recs, Q x.1)
  · intro x hx
    simp at hx
  · intro recs e he hrecs x hx
    unfold Collaborative.toRecommendation at hx
    by_cases hpos : e.2.2 > 0
    · simp only [hpos, if_true] at hx
      rcases List.mem_append.mp hx with h1 | h1
      · exact hrecs x h1
      · rw [List.mem_singleton] at h1
        rw [h1]
        exact hw e he
    · simp only [hpos, if_false] at hx
      exact hrecs x hx

theorem Collaborative.weighted_keys (items : Map Int (BipartiteGraph.Item F))
    (users : Map Int (List (Int × F))) (userMovies : USet Int) (weightOf : Int × F → F)
    (neighbours : List (Int × F)) :
    ∀ x ∈ neighbours.foldl
        (fun weighted os =>
          match Map.find users os.1 with
          | none => weighted
          | some ratings =>
            ratings.foldl (Collaborative.accumulateRating items userMovies (weightOf os)) weighted)
        ([] : Map Int (F × F)),
      (Map.find items x.1).isSome ∧ x.1 ∉ userMovies := by
  apply foldl_invariant _
    (fun weighted : Map Int (F × F) =>
      ∀ x ∈ weighted, (Map.find items x.1).isSome ∧ x.1 ∉ userMovies)
  · intro x hx
    simp at hx
  · intro weighted os _ hw
    cases Map.find users os.1 with
    | none => exact hw
    | some ratings =>
      apply foldl_invariant _
        (fun weighted : Map Int (F × F) =>
          ∀ x ∈ weighted, (Map.find items x.1).isSome ∧ x.1 ∉ userMovies)
      · exact hw
      · intro w2 e _ hw2
        exact Collaborative.accumulateRating_keys items userMovies _ w2 e hw2

theorem Collaborative.collabRecs_exclude_rated (c : Collaborative F)
    (g : BipartiteGraph F) (pageRank : PageRank F) (userId : Int) (n : Nat) :
    ∀ e ∈ (c.getRecommendations g pageRank userId n).1, ¬ hasRated g userId e.1 := by
  rintro e he ⟨ratings, r, hfind, hmem⟩
  have hne : ¬ (ratings.isEmpty = true) := by
    intro h
    rw [List.isEmpty_iff] at h
    rw [h] at hmem
    simp at hmem
  simp only [Collaborative.getRecommendations, hfind, Option.isNone_some, Option.getD_some, hne,
    Bool.false_eq_true, or_self, if_false] at he
  have h1 := mem_of_mem_truncate_sort _ _ _ _ he
  have h2 := Collaborative.toRecommendation_keys g.items (8 / 10) (2 / 10)
    (fun k => (Map.find g.items k).isSome
      ∧ k ∉ ratings.foldl
          (fun s e => if (Map.find g.items e.1).isSome then USet.insert s e.1 else s) [])
    _
    (Collaborative.weighted_keys g.items g.user_to_items
      (ratings.foldl (fun s e => if (Map.find g.items e.1).isSome then USet.insert s e.1 else s) [])
      (fun os => os.2 * pageRank.getPageRank os.1)
      (truncate (stdSort bySecondDesc (g.user_to_items.foldl (Collaborative.collectSimilar userId)
        ([], c)).1) 10)) e h1
  apply h2.2
  exact USet.mem_foldl_insert_if (fun e : Int × F => (Map.find g.items e.1).isSome) Prod.fst
    ratings [] e.1 (Or.inr ⟨(e.1, r), hmem, h2.1, rfl⟩)

theorem Content.scoreItem_keys (genrePreferences : Map String F) (watchedMovies : USet Int)
    (items : Map Int (BipartiteGraph.Item F)) :
    ∀ x ∈ items.foldl (Content.scoreItem genrePreferences watchedMovies) [],
      x.1 ∉ watchedMovies ∧ x.1 ∈ items.map Prod.fst := by
  apply foldl_invariant (Content.scoreItem genrePreferences watchedMovies)
    (fun recs => ∀ x ∈ recs, x.1 ∉ watchedMovies ∧ x.1 ∈ items.map Prod.fst)
  · intro x hx
    simp at hx
  · intro recs it hit hrecs x hx
    unfold Content.scoreItem at hx
    by_cases hw : USet.count watchedMovies it.1 > 0
    · simp only [hw, if_true] at hx
      exact hrecs x hx
    · simp only [hw, if_false] at hx
      rcases List.mem_append.mp hx with h1 | h1
      · exact hrecs x h1
      · rw [List.mem_singleton] at h1
        rw [h1]
        refine ⟨?_, List.mem_map_of_mem Prod.fst hit⟩
        intro hmem
        exact hw ((USet.count_pos_iff watchedMovies it.1).mpr hmem)

theorem Content.mem_watched (items : Map Int (BipartiteGraph.Item F)) (ratings : List (Int × F))
    (acc : Map String (F × Int) × USet Int) (k : Int)
    (h : k ∈ acc.2 ∨ ∃ e ∈ ratings, (Map.find items e.1).isSome ∧ e.1 = k) :
    k ∈ (ratings.foldl (Content.collectGenreStats items) acc).2 := by
  induction ratings generalizing acc with
  | nil =>
    rcases h with h | ⟨e, he, _⟩
    · exact h
    · simp at he
  | cons x t ih =>
    simp only [List.foldl]
    apply ih
    rcases h with h | ⟨e, he, hp, hk⟩
    · left
      unfold Content.collectGenreStats
      cases Map.find items x.1 with
      | none => exact h
      | some movie => exact (USet.mem_insert_iff acc.2 x.1 k).mpr (Or.inl h)
    · rcases List.mem_cons.mp he with rfl | he
      · left
        unfold Content.collectGenreStats
        cases hf : Map.find items e.1 with
        | none => simp [hf] at hp
        | some movie => exact (USet.mem_insert_iff acc.2 e.1 k).mpr (Or.inr hk.symm)
      · exact Or.inr ⟨e, he, hp, hk⟩

theorem Content.contentRecs_exclude_rated (sqrt : F → F) (g : BipartiteGraph F)
    (userId : Int) (n : Nat) :
    ∀ e ∈ Content.getRecommendations sqrt g userId n, ¬ hasRated g userId e.1 := by
  rintro e he ⟨ratings, r, hfind, hmem⟩
  have hne : ¬ (ratings.isEmpty = true) := by
    intro h
    rw [List.isEmpty_iff] at h
    rw [h] at hmem
    simp at hmem
  simp only [Content.getRecommendations, hfind, Option.isNone_some, Option.getD_some, hne,
    Bool.false_eq_true, or_self, if_false] at he
  have h1 := mem_of_mem_truncate_sort _ _ _ _ he
  have h2 := Content.scoreItem_keys _ _ g.items e h1
  apply h2.1
  apply Content.mem_watched
  exact Or.inr ⟨(e.1, r), hmem, (Map.find_isSome_iff g.items e.1).mpr h2.2, rfl⟩

theorem Hybrid.scoreUnwatched_keys (g : BipartiteGraph F) (collabRank : PageRank F)
    (userId : Int) (watchedMovies : USet Int) (items : Map Int (BipartiteGraph.Item F))
    (h : Hybrid F) (c : Collaborative F) :
    ∀ recs, (items.foldl (Hybrid.scoreUnwatched g collabRank userId watchedMovies)
        (some [], h, c)).1 = some recs → ∀ x ∈ recs, x.1 ∉ watchedMovies := by
  apply foldl_invariant (Hybrid.scoreUnwatched g collabRank userId watchedMovies)
    (fun acc => ∀ recs, acc.1 = some recs → ∀ x ∈ recs, x.1 ∉ watchedMovies)
  · intro recs hrecs x hx
    simp only [Option.some.injEq] at hrecs
    rw [← hrecs] at hx
    simp at hx
  · intro acc it _ hacc recs hrecs x hx
    unfold Hybrid.scoreUnwatched at hrecs
    cases h1 : acc.1 with
    | none => simp [h1] at hrecs
    | some old =>
      simp only [h1] at hrecs
      by_cases hw : USet.count watchedMovies it.1 = 0
      · simp only [hw, if_true] at hrecs
        cases h2 : (Hybrid.calculateHybridScore acc.2.1 g acc.2.2 collabRank userId it.1).1 with
        | none => simp [h2] at hrecs
        | some score =>
          simp only [h2, Option.some.injEq] at hrecs
          rw [← hrecs] at hx
          rcases List.mem_append.mp hx with h3 | h3
          · exact hacc old h1 x h3
          · rw [List.mem_singleton] at h3
            rw [h3]
            exact (USet.count_eq_zero_iff watchedMovies it.1).mp hw
      · simp only [hw, if_false] at hrecs
        exact hacc recs hrecs x hx

theorem Hybrid.hybridRecs_exclude_rated (h : Hybrid F) (g : BipartiteGraph F)
    (c : Collaborative F) (collabRank : PageRank F) (userId : Int) (n : Nat) :
    ∀ recs, (h.getRecommendations g c collabRank userId n).1 = some recs →
      ∀ e ∈ recs, ¬ hasRated g userId e.1 := by
  rintro recs hrecs e he ⟨ratings, r, hfind, hmem⟩
  simp only [Hybrid.getRecommendations, hfind] at hrecs
  cases h1 : (g.items.foldl (Hybrid.scoreUnwatched g collabRank userId
      (ratings.foldl (fun s e => USet.insert s e.1) [])) (some [], h, c)).1 with
  | none => simp [h1] at hrecs
  | some scored =>
    simp only [h1, Option.some.injEq] at hrecs
    rw [← hrecs] at he
    have h2 := mem_of_mem_truncate_sort _ _ _ _ he
    have h3 := Hybrid.scoreUnwatched_keys g collabRank userId _ g.items h c scored h1 e h2
    apply h3
    exact USet.mem_foldl_insert_if (fun _ : Int × F => true) Prod.fst ratings [] e.1
      (Or.inr ⟨(e.1, r), hmem, rfl, rfl⟩)

end ExcludeRated

/-- C2: for every graph (in particular every graph reached through `addItem` / `addUser`),
every cache state, user id and `n`, no item id in the result of
`Collaborative.getRecommendations`, of `Content.getRecommendations`, or of
`Hybrid.getRecommendations` when it returns a list (the user is present), is an item the
user has a stored rating for. -/
theorem recommendations_exclude_rated {F : Type} [LinearOrderedField F] (g : BipartiteGraph F)
    (pageRank : PageRank F) (c : Collaborative F) (h : Hybrid F) (userId : Int) (n : Nat) :
    (∀ e ∈ (c.getRecommendations g pageRank userId n).1, ¬ hasRated g userId e.1)
    ∧ (∀ sqrt : F → F, ∀ e ∈ Content.getRecommendations sqrt g userId n,
        ¬ hasRated g userId e.1)
    ∧ (∀ recs, (h.getRecommendations g c pageRank userId n).1 = some recs →
        ∀ e ∈ recs, ¬ hasRated g userId e.1) :=
  ⟨Collaborative.collabRecs_exclude_rated c g pageRank userId n,
    fun sqrt => Content.contentRecs_exclude_rated sqrt g userId n,
    Hybrid.hybridRecs_exclude_rated h g c pageRank userId n⟩

/-- C2 on `hybridGraph`: user 1 rated item 1, the Hybrid call returns item 2 only, and
user 1 has no stored rating for item 2. -/
theorem recommendations_exclude_rated_witness :
    (Hybrid.getRecommendations emptyHybrid hybridGraph emptyCollaborative emptyPageRank 1 10).1
        = some [(2, 20000 / 50003)]
    ∧ ¬ hasRated hybridGraph 1 2 :=
  ⟨hybridGraph_recommendations,
    (recommendations_exclude_rated hybridGraph emptyPageRank emptyCollaborative emptyHybrid
      1 10).2.2 _ hybridGraph_recommendations (2, 20000 / 50003) (List.mem_singleton_self _)⟩

section QualityFallback

variable {F : Type} [LinearOrderedField F]

theorem truncate_eq_take {β : Type} (v : List β) (n : Nat) : truncate v n = v.take n := by
  unfold truncate
  by_cases h : v.length > n
  · simp [h]
  · simp only [h, if_false]
    exact (List.take_of_length_le (Nat.le_of_not_lt h)).symm

theorem foldl_push_map {β γ : Type} (f : β → γ) (l : List β) (acc : List γ) :
    l.foldl (fun acc x => acc ++ [f x]) acc = acc ++ l.map f := by
  induction l generalizing acc with
  | nil => simp
  | cons x t ih => simp [List.foldl, ih]

theorem qualityTopN_of_sorted (g : BipartiteGraph F) (n : Nat) :
    IsQualityTopN g n
      (truncate (stdSort bySecondDesc (g.items.map (fun it => (it.1, it.2.imdb)))) n) := by
  have hperm := stdSort_perm (bySecondDesc : Int × F → Int × F → Bool)
    (g.items.map (fun it => (it.1, it.2.imdb)))
  have hsorted := stdSort_sortedDesc (g.items.map (fun it => (it.1, it.2.imdb)))
  rw [truncate_eq_take]
  refine ⟨?_, ?_, ?_⟩
  · rw [List.length_take, hperm.length_eq, List.length_map]
  · exact List.Pairwise.sublist (List.take_sublist n _) hsorted
  · refine ⟨(stdSort bySecondDesc (g.items.map (fun it => (it.1, it.2.imdb)))).drop n, ?_, ?_⟩
    · rw [List.take_append_drop]
      exact hperm
    · have h := hsorted
      rw [SortedDesc, ← List.take_append_drop n
        (stdSort bySecondDesc (g.items.map (fun it => (it.1, it.2.imdb)))),
        List.pairwise_append] at h
      exact h.2.2

theorem Content.coldStart_eq (sqrt : F → F) (g : BipartiteGraph F) (userId : Int) (n : Nat)
    (hu : Map.find g.user_to_items userId = none ∨ Map.find g.user_to_items userId = some []) :
    Content.getRecommendations sqrt g userId n
      = truncate (stdSort bySecondDesc (g.items.map (fun it => (it.1, it.2.imdb)))) n := by
  have hc : (Map.find g.user_to_items userId).isNone
      ∨ ((Map.find g.user_to_items userId).getD []).isEmpty := by
    rcases hu with h | h
    · left
      rw [h]
      rfl
    · right
      rw [h]
      rfl
  simp only [Content.getRecommendations, hc, if_true]
  rw [foldl_push_map (fun it : Int × BipartiteGraph.Item F => (it.1, it.2.imdb))]
  rfl

theorem foldl_push_map_filter {β γ : Type} (p : β → Bool) (f : β → γ) (l : List β)
    (acc : List γ) :
    l.foldl (fun acc x => if p x = true then acc ++ [f x] else acc) acc
      = acc ++ (l.filter p).map f := by
  induction l generalizing acc with
  | nil => simp
  | cons x t ih =>
    by_cases h : p x = true
    · simp [List.foldl, ih, h, List.filter]
    · simp [List.foldl, ih, h, List.filter]

theorem Collaborative.influential_nil_of_few (g : BipartiteGraph F) (pageRank : PageRank F)
    (userMovies : USet Int) (n : Nat)
    (hfew : (g.user_to_items.filter
        (fun u => decide (pageRank.getPageRank u.1 ≥ Collaborative.MIN_PAGERANK_SCORE))).length
      < Collaborative.MIN_INFLUENTIAL_USERS) :
    Collaborative.getInfluentialRecommendations g pageRank userMovies n = [] := by
  have h1 := foldl_push_map_filter
    (fun u : Int × List (Int × F) =>
      decide (pageRank.getPageRank u.1 ≥ Collaborative.MIN_PAGERANK_SCORE))
    (fun u : Int × List (Int × F) => (u.1, pageRank.getPageRank u.1)) g.user_to_items []
  simp only [decide_eq_true_eq, List.nil_append] at h1
  simp only [Collaborative.getInfluentialRecommendations]
  rw [h1]
  have hlen : (stdSort bySecondDesc
      ((g.user_to_items.filter
        (fun u => decide (pageRank.getPageRank u.1 ≥ Collaborative.MIN_PAGERANK_SCORE))).map
        (fun u => (u.1, pageRank.getPageRank u.1)))).length
      < Collaborative.MIN_INFLUENTIAL_USERS := by
    rw [(stdSort_perm _ _).length_eq, List.length_map]
    exact hfew
  simp only [hlen, if_true]

end QualityFallback

section QualityFallbackMain

variable {F : Type} [LinearOrderedField F]

theorem Collaborative.coldStart_quality (c : Collaborative F) (g : BipartiteGraph F)
    (pageRank : PageRank F) (userId : Int) (n : Nat)
    (hu : Map.find g.user_to_items userId = none ∨ Map.find g.user_to_items userId = some [])
    (hfew : (g.user_to_items.filter
        (fun u => decide (pageRank.getPageRank u.1 ≥ Collaborative.MIN_PAGERANK_SCORE))).length
      < Collaborative.MIN_INFLUENTIAL_USERS) :
    c.getRecommendations g pageRank userId n
      = (truncate (stdSort bySecondDesc (g.items.map (fun it => (it.1, it.2.imdb)))) n, c) := by
  have hc : (Map.find g.user_to_items userId).isNone
      ∨ ((Map.find g.user_to_items userId).getD []).isEmpty := by
    rcases hu with h | h
    · left
      rw [h]
      rfl
    · right
      rw [h]
      rfl
  have hm : (match Map.find g.user_to_items userId with
      | some ratings =>
        ratings.foldl (fun s e => if (Map.find g.items e.1).isSome then USet.insert s e.1 else s)
          ([] : USet Int)
      | none => []) = [] := by
    rcases hu with h | h
    · rw [h]
    · rw [h]
      rfl
  simp only [Collaborative.getRecommendations, hc, if_true, hm,
    Collaborative.influential_nil_of_few g pageRank [] n hfew]
  have hfold : g.items.foldl
      (fun acc it => if USet.count ([] : USet Int) it.1 = 0 then acc ++ [(it.1, it.2.imdb)] else acc)
      ([] : List (Int × F))
      = g.items.map (fun it => (it.1, it.2.imdb)) := by
    have h := foldl_push_map (fun it : Int × BipartiteGraph.Item F => (it.1, it.2.imdb)) g.items []
    simpa [USet.count] using h
  simp [hfold]

end QualityFallbackMain

/-- C20: quality fallback. For a user who is absent from the graph or has an empty rating
list, `Content.getRecommendations userId n`, and `Collaborative.getRecommendations userId n`
when fewer than 5 users have rank ≥ 0.01, return `min n |Items|` pairs
`(itemId, quality score)` of items of the graph, sorted by quality score descending, such
that no omitted item has a higher quality score than an included one. -/
theorem quality_fallback {F : Type} [LinearOrderedField F] (g : BipartiteGraph F)
    (pageRank : PageRank F) (c : Collaborative F) (userId : Int) (n : Nat)
    (hu : Map.find g.user_to_items userId = none ∨ Map.find g.user_to_items userId = some []) :
    (∀ sqrt : F → F, IsQualityTopN g n (Content.getRecommendations sqrt g userId n))
    ∧ ((g.user_to_items.filter
          (fun u => decide (pageRank.getPageRank u.1 ≥ Collaborative.MIN_PAGERANK_SCORE))).length
        < Collaborative.MIN_INFLUENTIAL_USERS →
        IsQualityTopN g n (c.getRecommendations g pageRank userId n).1) := by
  constructor
  · intro sqrt
    rw [Content.coldStart_eq sqrt g userId n hu]
    exact qualityTopN_of_sorted g n
  · intro hfew
    rw [Collaborative.coldStart_quality c g pageRank userId n hu hfew]
    exact qualityTopN_of_sorted g n

/-- C20 on the three-item test graph without users: for the absent user 9 and `n = 2` the
Collaborative result is a quality top-2 list. -/
theorem quality_fallback_witness :
    Map.find similarGenresGraph.user_to_items 9 = none
    ∧ IsQualityTopN similarGenresGraph 2
        (emptyCollaborative.getRecommendations similarGenresGraph emptyPageRank 9 2).1 :=
  ⟨rfl, (quality_fallback similarGenresGraph emptyPageRank emptyCollaborative 9 2
    (Or.inl rfl)).2 (by decide)⟩

section Eviction

variable {F : Type}

theorem stdInsert_sortedAsc {α : Type} (x : α × Int) (l : List (α × Int))
    (h : l.Pairwise (fun a b => a.2 ≤ b.2)) :
    (stdInsert bySecondAsc x l).Pairwise (fun a b => a.2 ≤ b.2) := by
  induction l with
  | nil => simp [stdInsert]
  | cons y t ih =>
    have hy : ∀ b ∈ t, y.2 ≤ b.2 := (List.pairwise_cons.mp h).1
    have ht : t.Pairwise (fun a b => a.2 ≤ b.2) := (List.pairwise_cons.mp h).2
    unfold stdInsert
    by_cases hc : bySecondAsc x y = true
    · have hxy : x.2 < y.2 := by simpa [bySecondAsc] using hc
      simp only [hc, if_true]
      refine List.pairwise_cons.mpr ⟨?_, h⟩
      intro b hb
      rcases List.mem_cons.mp hb with rfl | hb
      · exact hxy.le
      · exact hxy.le.trans (hy b hb)
    · have hxy : y.2 ≤ x.2 := by simpa [bySecondAsc] using hc
      simp only [hc]
      refine List.pairwise_cons.mpr ⟨?_, ih ht⟩
      intro b hb
      rcases List.mem_cons.mp ((stdInsert_perm bySecondAsc x t).subset hb) with rfl | hb
      · exact hxy
      · exact hy b hb

theorem stdSort_sortedAsc {α : Type} (l : List (α × Int)) :
    (stdSort bySecondAsc l).Pairwise (fun a b => a.2 ≤ b.2) := by
  induction l with
  | nil => simp [stdSort]
  | cons x t ih =>
    unfold stdSort
    exact stdInsert_sortedAsc x _ ih

theorem Map.find_filter_key {K V : Type} [DecidableEq K] (q : K → Bool) (m : Map K V) (k : K) :
    Map.find (m.filter (fun e => q e.1)) k = if q k = true then Map.find m k else none := by
  induction m with
  | nil => simp [Map.find]
  | cons e t ih =>
    obtain ⟨k', v⟩ := e
    by_cases hq : q k' = true
    · simp only [List.filter, hq, Map.find]
      by_cases hk : k' = k
      · subst hk
        simp [hq]
      · simp only [hk, if_false, ih]
    · have hq2 : q k' = false := by simpa using hq
      simp only [List.filter, hq2, Map.find, ih]
      by_cases hk : k' = k
      · subst hk
        simp [hq2]
      · simp [hk]

theorem Map.foldl_erase {K V γ : Type} [DecidableEq K] (key : γ → K) (l : List γ) (m : Map K V) :
    l.foldl (fun m e => Map.erase m (key e)) m
      = m.filter (fun x => decide (x.1 ∉ l.map key)) := by
  induction l generalizing m with
  | nil => simp
  | cons e t ih =>
    simp only [List.foldl]
    rw [ih]
    simp only [Map.erase, List.filter_filter, List.map_cons, List.mem_cons]
    congr 1
    funext x
    by_cases h1 : x.1 = key e <;> by_cases h2 : x.1 ∈ t.map key <;> simp [h1, h2]

theorem foldl_copy {β : Type} (l : List (β × Int)) :
    l.foldl (fun acc e => acc ++ [(e.1, e.2)]) [] = l := by
  have h := foldl_push_map (fun e : β × Int => (e.1, e.2)) l []
  simpa using h

end Eviction

section EvictionMain

variable {F : Type}

theorem Map.mem_of_find {K V : Type} [DecidableEq K] (m : Map K V) (k : K) (v : V)
    (h : Map.find m k = some v) : (k, v) ∈ m := by
  induction m with
  | nil => simp [Map.find] at h
  | cons e t ih =>
    obtain ⟨k', v'⟩ := e
    by_cases hk : k' = k
    · simp only [Map.find, hk, if_true, Option.some.injEq] at h
      rw [hk, h]
      exact List.mem_cons_self _ _
    · simp only [Map.find, hk, if_false] at h
      exact List.mem_cons_of_mem _ (ih h)

theorem CacheConsistent.length_eq {sim : Map Nat F} {cnt : Map Nat Int}
    (h : CacheConsistent sim cnt) : cnt.length = sim.length := by
  have hp := (List.perm_ext_iff_of_nodup h.1 h.2.1).mpr h.2.2
  have := hp.length_eq
  simpa using this.symm

theorem evictedEntries_facts (sim : Map Nat F) (cnt : Map Nat Int)
    (hc : CacheConsistent sim cnt) (hS : 10000 < sim.length) (hfit : sim.length < 2 ^ 64) :
    (evictedEntries sim cnt).length = sim.length - 5000
      ∧ ((evictedEntries sim cnt).map Prod.fst).Nodup
      ∧ (∀ k ∈ (evictedEntries sim cnt).map Prod.fst, k ∈ sim.map Prod.fst)
      ∧ (∀ e ∈ evictedEntries sim cnt, e ∈ cnt)
      ∧ (∀ e ∈ evictedEntries sim cnt, ∀ e2 ∈ cnt,
          e2.1 ∉ (evictedEntries sim cnt).map Prod.fst → e.2 ≤ e2.2) := by
  have hn : (sim.length + 2 ^ 64 - 10000 / 2) % 2 ^ 64 = sim.length - 5000 := by omega
  have hperm := stdSort_perm (bySecondAsc : Nat × Int → Nat × Int → Bool) cnt
  have hlen : (stdSort bySecondAsc cnt).length = sim.length := by
    rw [hperm.length_eq, hc.length_eq]
  have hsub : (evictedEntries sim cnt).Sublist (stdSort bySecondAsc cnt) := by
    unfold evictedEntries
    exact List.take_sublist _ _
  have hkeys : ((stdSort bySecondAsc cnt).map Prod.fst).Nodup :=
    ((hperm.map Prod.fst).nodup_iff).mpr hc.2.1
  refine ⟨?_, ?_, ?_, ?_, ?_⟩
  · unfold evictedEntries
    rw [hn, List.length_take, hlen]
    omega
  · exact List.Nodup.sublist (hsub.map Prod.fst) hkeys
  · intro k hk
    rw [hc.2.2 k]
    exact (hperm.map Prod.fst).subset ((hsub.map Prod.fst).subset hk)
  · intro e he
    exact hperm.subset (hsub.subset he)
  · intro e he e2 he2 hne
    have hsorted := stdSort_sortedAsc cnt
    rw [← List.take_append_drop ((sim.length + 2 ^ 64 - 10000 / 2) % 2 ^ 64)
      (stdSort bySecondAsc cnt), List.pairwise_append] at hsorted
    have h2 : e2 ∈ stdSort bySecondAsc cnt := hperm.symm.subset he2
    rw [← List.take_append_drop ((sim.length + 2 ^ 64 - 10000 / 2) % 2 ^ 64)
      (stdSort bySecondAsc cnt), List.mem_append] at h2
    rcases h2 with h2 | h2
    · exact absurd (List.mem_map_of_mem Prod.fst h2) hne
    · exact hsorted.2.2 e he e2 h2

theorem filter_notMem_length (A R : List Nat) (hA : A.Nodup) (hR : R.Nodup)
    (hsub : ∀ k ∈ R, k ∈ A) :
    (A.filter (fun k => decide (k ∉ R))).length = A.length - R.length := by
  have h1 := List.length_eq_countP_add_countP (fun k => decide (k ∈ R)) A
  rw [List.countP_eq_length_filter, List.countP_eq_length_filter] at h1
  have hperm : (A.filter (fun k => decide (k ∈ R))).Perm R := by
    rw [List.perm_ext_iff_of_nodup (hA.filter _) hR]
    intro a
    simp only [List.mem_filter, decide_eq_true_eq]
    constructor
    · exact fun h => h.2
    · exact fun h => ⟨hsub a h, h⟩
  rw [hperm.length_eq] at h1
  have h2 : (A.filter (fun a => decide ¬(decide (a ∈ R)) = true))
      = A.filter (fun k => decide (k ∉ R)) := by
    congr 1
    funext a
    simp
  rw [h2] at h1
  omega

theorem evict_maps_lfu (sim : Map Nat F) (cnt : Map Nat Int)
    (hc : CacheConsistent sim cnt) (hS : 10000 < sim.length) (hfit : sim.length < 2 ^ 64) :
    (sim.filter (fun x => decide (x.1 ∉ (evictedEntries sim cnt).map Prod.fst))).length = 5000
      ∧ CacheConsistent
          (sim.filter (fun x => decide (x.1 ∉ (evictedEntries sim cnt).map Prod.fst)))
          (cnt.filter (fun x => decide (x.1 ∉ (evictedEntries sim cnt).map Prod.fst)))
      ∧ IsLfuEviction sim cnt
          (sim.filter (fun x => decide (x.1 ∉ (evictedEntries sim cnt).map Prod.fst)))
          (cnt.filter (fun x => decide (x.1 ∉ (evictedEntries sim cnt).map Prod.fst))) := by
  obtain ⟨hlen, hnd, hsub, hmem, hle⟩ := evictedEntries_facts sim cnt hc hS hfit
  refine ⟨?_, ?_, ?_⟩
  · have h := filter_notMem_length (sim.map Prod.fst) ((evictedEntries sim cnt).map Prod.fst)
      hc.1 hnd hsub
    simp only [List.filter_map, List.length_map, hlen, Function.comp_def] at h
    omega
  · refine ⟨?_, ?_, ?_⟩
    · exact List.Nodup.sublist ((List.filter_sublist _).map Prod.fst) hc.1
    · exact List.Nodup.sublist ((List.filter_sublist _).map Prod.fst) hc.2.1
    · intro k
      simp only [List.mem_map, List.mem_filter, decide_eq_true_eq]
      constructor
      · rintro ⟨x, ⟨hx, hk⟩, rfl⟩
        obtain ⟨y, hy, hyk⟩ := List.mem_map.mp ((hc.2.2 x.1).mp (List.mem_map_of_mem Prod.fst hx))
        exact ⟨y, ⟨hy, by rw [hyk]; exact hk⟩, hyk⟩
      · rintro ⟨x, ⟨hx, hk⟩, rfl⟩
        obtain ⟨y, hy, hyk⟩ := List.mem_map.mp ((hc.2.2 x.1).mpr (List.mem_map_of_mem Prod.fst hx))
        exact ⟨y, ⟨hy, by rw [hyk]; exact hk⟩, hyk⟩
  · refine ⟨(evictedEntries sim cnt).map Prod.fst, hnd, ?_, ?_, ?_, ?_⟩
    · rw [List.length_map, hlen]
    · intro k hk
      refine ⟨(Map.find_isSome_iff sim k).mpr (hsub k hk), ?_, ?_⟩
      · rw [Map.find_filter_key (fun k => decide (k ∉ (evictedEntries sim cnt).map Prod.fst))]
        simp [hk]
      · rw [Map.find_filter_key (fun k => decide (k ∉ (evictedEntries sim cnt).map Prod.fst))]
        simp [hk]
    · intro k hk
      constructor
      · rw [Map.find_filter_key (fun k => decide (k ∉ (evictedEntries sim cnt).map Prod.fst))]
        simp [hk]
      · rw [Map.find_filter_key (fun k => decide (k ∉ (evictedEntries sim cnt).map Prod.fst))]
        simp [hk]
    · intro k hk k2 hk2 a b ha hb
      obtain ⟨e, he, rfl⟩ := List.mem_map.mp hk
      have h1 := Map.find_of_mem_nodup cnt hc.2.1 e.1 e.2 (hmem e he)
      rw [h1] at ha
      simp only [Option.some.injEq] at ha
      rw [← ha]
      exact hle e he (k2, b) (Map.mem_of_find cnt k2 b hb) hk2

end EvictionMain

section CacheInvariant

variable {F : Type}

theorem Map.keys_insert {K V : Type} [DecidableEq K] (m : Map K V) (k : K) (v : V) :
    (Map.insert m k v).map Prod.fst
      = if k ∈ m.map Prod.fst then m.map Prod.fst else m.map Prod.fst ++ [k] := by
  induction m with
  | nil => simp [Map.insert]
  | cons e t ih =>
    obtain ⟨k', v'⟩ := e
    by_cases hk : k' = k
    · subst hk
      simp [Map.insert]
    · have hk2 : ¬ k = k' := fun h => hk h.symm
      simp only [Map.insert, hk, if_false, List.map_cons, ih, List.mem_cons, hk2, false_or]
      by_cases hm : k ∈ t.map Prod.fst
      · simp [hm]
      · simp [hm]

theorem Map.nodup_keys_insert {K V : Type} [DecidableEq K] (m : Map K V) (k : K) (v : V)
    (h : (m.map Prod.fst).Nodup) : ((Map.insert m k v).map Prod.fst).Nodup := by
  rw [Map.keys_insert]
  by_cases hm : k ∈ m.map Prod.fst
  · simpa [hm] using h
  · simp only [hm, if_false]
    rw [List.nodup_append]
    refine ⟨h, List.nodup_singleton k, ?_⟩
    intro a ha hb
    rw [List.mem_singleton] at hb
    exact hm (hb ▸ ha)

theorem Map.mem_keys_insert {K V : Type} [DecidableEq K] (m : Map K V) (k k2 : K) (v : V) :
    k2 ∈ (Map.insert m k v).map Prod.fst ↔ k2 = k ∨ k2 ∈ m.map Prod.fst := by
  rw [Map.keys_insert]
  by_cases hm : k ∈ m.map Prod.fst
  · simp only [hm, if_true]
    constructor
    · exact Or.inr
    · rintro (h | h)
      · exact h ▸ hm
      · exact h
  · simp only [hm, if_false, List.mem_append, List.mem_singleton]
    tauto

theorem CacheConsistent.insert {G : Type} {sim : Map Nat G} {cnt : Map Nat Int}
    (h : CacheConsistent sim cnt) (k : Nat) (v : G) (n : Int) :
    CacheConsistent (Map.insert sim k v) (Map.insert cnt k n) := by
  refine ⟨Map.nodup_keys_insert sim k v h.1, Map.nodup_keys_insert cnt k n h.2.1, ?_⟩
  intro k2
  rw [Map.mem_keys_insert, Map.mem_keys_insert, h.2.2 k2]

theorem Collaborative.evictCache_eq (c : Collaborative F) :
    Collaborative.evictCache c
      = { similarityCache := c.similarityCache.filter
            (fun x => decide (x.1 ∉ (evictedEntries c.similarityCache c.cacheAccessCount).map
              Prod.fst)),
          cacheAccessCount := c.cacheAccessCount.filter
            (fun x => decide (x.1 ∉ (evictedEntries c.similarityCache c.cacheAccessCount).map
              Prod.fst)) } := by
  have hfold : ∀ (l : List (Nat × Int)) (c : Collaborative F),
      l.foldl (fun c e =>
          ({ similarityCache := Map.erase c.similarityCache e.1,
             cacheAccessCount := Map.erase c.cacheAccessCount e.1 } : Collaborative F)) c
        = { similarityCache := l.foldl (fun m e => Map.erase m e.1) c.similarityCache,
            cacheAccessCount := l.foldl (fun m e => Map.erase m e.1) c.cacheAccessCount } := by
    intro l
    induction l with
    | nil => intro c; rfl
    | cons e t ih => intro c; simp only [List.foldl, ih]
  simp only [Collaborative.evictCache, foldl_copy, hfold, Map.foldl_erase]
  rfl

theorem Content.content_evictCache_eq (c : Content F) :
    Content.evictCache c
      = { similarityCache := c.similarityCache.filter
            (fun x => decide (x.1 ∉ (evictedEntries c.similarityCache c.cacheAccessCount).map
              Prod.fst)),
          cacheAccessCount := c.cacheAccessCount.filter
            (fun x => decide (x.1 ∉ (evictedEntries c.similarityCache c.cacheAccessCount).map
              Prod.fst)) } := by
  have hfold : ∀ (l : List (Nat × Int)) (c : Content F),
      l.foldl (fun c e =>
          ({ similarityCache := Map.erase c.similarityCache e.1,
             cacheAccessCount := Map.erase c.cacheAccessCount e.1 } : Content F)) c
        = { similarityCache := l.foldl (fun m e => Map.erase m e.1) c.similarityCache,
            cacheAccessCount := l.foldl (fun m e => Map.erase m e.1) c.cacheAccessCount } := by
    intro l
    induction l with
    | nil => intro c; rfl
    | cons e t ih => intro c; simp only [List.foldl, ih]
  simp only [Content.evictCache, foldl_copy, hfold, Map.foldl_erase]
  rfl

end CacheInvariant

theorem Collaborative.evictCache_bound {F : Type} (c : Collaborative F)
    (hc : CacheConsistent c.similarityCache c.cacheAccessCount)
    (hS : 10000 < c.similarityCache.length) (hfit : c.similarityCache.length < 2 ^ 64) :
    (Collaborative.evictCache c).similarityCache.length = 5000 := by
  rw [Collaborative.evictCache_eq]
  exact (evict_maps_lfu c.similarityCache c.cacheAccessCount hc hS hfit).1

theorem Content.content_evictCache_bound {F : Type} (c : Content F)
    (hc : CacheConsistent c.similarityCache c.cacheAccessCount)
    (hS : 10000 < c.similarityCache.length) (hfit : c.similarityCache.length < 2 ^ 64) :
    (Content.evictCache c).similarityCache.length = 5000 := by
  rw [Content.content_evictCache_eq]
  exact (evict_maps_lfu c.similarityCache c.cacheAccessCount hc hS hfit).1

section PrecomputeBound

variable {F : Type} [LinearOrderedField F]

theorem Collaborative.foldl_processPair_consistent (sqrt : F → F) (g : BipartiteGraph F)
    (order : List (Int × Int)) (c : Collaborative F)
    (h : CacheConsistent c.similarityCache c.cacheAccessCount) :
    CacheConsistent (order.foldl (Collaborative.processPair sqrt g) c).similarityCache
      (order.foldl (Collaborative.processPair sqrt g) c).cacheAccessCount := by
  apply foldl_invariant (Collaborative.processPair sqrt g)
    (fun c => CacheConsistent c.similarityCache c.cacheAccessCount) order c h
  intro c2 p _ h2
  unfold Collaborative.processPair
  by_cases hp : Collaborative.calculateSimilarity sqrt g p.1 p.2 > 0
  · simp only [hp, if_true]
    exact h2.insert _ _ _
  · simp only [hp, if_false]
    exact h2

theorem Content.content_processPair_consistent (g : BipartiteGraph F)
    (order : List (Int × Int)) (c : Content F)
    (h : CacheConsistent c.similarityCache c.cacheAccessCount) :
    CacheConsistent (order.foldl (Content.processPair g) c).similarityCache
      (order.foldl (Content.processPair g) c).cacheAccessCount := by
  apply foldl_invariant (Content.processPair g)
    (fun c => CacheConsistent c.similarityCache c.cacheAccessCount) order c h
  intro c2 p _ h2
  unfold Content.processPair
  by_cases hp : Content.calculateSimilarity g p.1 p.2 > 0
  · simp only [hp, if_true]
    exact h2.insert _ _ _
  · simp only [hp, if_false]
    exact h2

end PrecomputeBound

/-- C12: eviction bound, for both caches. When `evictCache` is entered with more than
`MAX_CACHE_SIZE = 10000` cached entries (in a cache whose two maps have the same key set,
as every cache operation maintains, and whose size fits `size_t`), the similarity cache
afterwards holds at most `MAX_CACHE_SIZE / 2 = 5000` entries; hence, under any schedule of
the worker threads, the cache holds at most `MAX_CACHE_SIZE` entries when
`preComputeSimilarities` returns. -/
theorem eviction_bound {F : Type} [LinearOrderedField F] (cu : Collaborative F) (ct : Content F)
    (hcu : CacheConsistent cu.similarityCache cu.cacheAccessCount)
    (hct : CacheConsistent ct.similarityCache ct.cacheAccessCount) :
    (Collaborative.MAX_CACHE_SIZE < cu.similarityCache.length →
        cu.similarityCache.length < 2 ^ 64 →
        (Collaborative.evictCache cu).similarityCache.length ≤ Collaborative.MAX_CACHE_SIZE / 2)
    ∧ (Content.MAX_CACHE_SIZE < ct.similarityCache.length →
        ct.similarityCache.length < 2 ^ 64 →
        (Content.evictCache ct).similarityCache.length ≤ Content.MAX_CACHE_SIZE / 2)
    ∧ (∀ (sqrt : F → F) (g : BipartiteGraph F) (numThreads : Nat)
        (schedule : List (List (Int × Int)) → List (Int × Int)),
        ((schedule (threadSlices (orderedPairs g.user_to_items) numThreads)).foldl
            (Collaborative.processPair sqrt g) cu).similarityCache.length < 2 ^ 64 →
        (Collaborative.preComputeSimilarities sqrt g cu numThreads schedule).similarityCache.length
          ≤ Collaborative.MAX_CACHE_SIZE)
    ∧ (∀ (g : BipartiteGraph F) (numThreads : Nat)
        (schedule : List (List (Int × Int)) → List (Int × Int)),
        ((schedule (threadSlices (orderedPairs g.items) numThreads)).foldl
            (Content.processPair g) ct).similarityCache.length < 2 ^ 64 →
        (Content.preComputeSimilarities g ct numThreads schedule).similarityCache.length
          ≤ Content.MAX_CACHE_SIZE) := by
  refine ⟨?_, ?_, ?_, ?_⟩
  · intro hS hfit
    rw [Collaborative.evictCache_bound cu hcu hS hfit]
    decide
  · intro hS hfit
    rw [Content.content_evictCache_bound ct hct hS hfit]
    decide
  · intro sqrt g numThreads schedule hfit
    simp only [Collaborative.preComputeSimilarities]
    split_ifs with h
    · rw [Collaborative.evictCache_bound _
        (Collaborative.foldl_processPair_consistent sqrt g _ cu hcu) h hfit]
      decide
    · exact Nat.le_of_not_lt h
  · intro g numThreads schedule hfit
    simp only [Content.preComputeSimilarities]
    split_ifs with h
    · rw [Content.content_evictCache_bound _
        (Content.content_processPair_consistent g _ ct hct) h hfit]
      decide
    · exact Nat.le_of_not_lt h

/-- C13: eviction is least-frequently-used, for both caches. An eviction pass on a cache of
`S > MAX_CACHE_SIZE` entries (whose two maps have the same key set and whose size fits
`size_t`) removes exactly `S - MAX_CACHE_SIZE / 2` keys, each from both maps, no removed key
had a higher access count than a surviving key, and every surviving key keeps its
similarity value and its access count. -/
theorem eviction_is_lfu {F : Type} [LinearOrderedField F] (cu : Collaborative F) (ct : Content F)
    (hcu : CacheConsistent cu.similarityCache cu.cacheAccessCount)
    (hct : CacheConsistent ct.similarityCache ct.cacheAccessCount) :
    (Collaborative.MAX_CACHE_SIZE < cu.similarityCache.length →
        cu.similarityCache.length < 2 ^ 64 →
        IsLfuEviction cu.similarityCache cu.cacheAccessCount
          (Collaborative.evictCache cu).similarityCache
          (Collaborative.evictCache cu).cacheAccessCount)
    ∧ (Content.MAX_CACHE_SIZE < ct.similarityCache.length →
        ct.similarityCache.length < 2 ^ 64 →
        IsLfuEviction ct.similarityCache ct.cacheAccessCount
          (Content.evictCache ct).similarityCache (Content.evictCache ct).cacheAccessCount) := by
  constructor
  · intro hS hfit
    rw [Collaborative.evictCache_eq]
    exact (evict_maps_lfu cu.similarityCache cu.cacheAccessCount hcu hS hfit).2.2
  · intro hS hfit
    rw [Content.content_evictCache_eq]
    exact (evict_maps_lfu ct.similarityCache ct.cacheAccessCount hct hS hfit).2.2

theorem rangeCache_consistent (n : Nat) :
    CacheConsistent ((List.range n).map (fun k : Nat => (k, (1 / 2 : ℚ))))
      ((List.range n).map (fun k : Nat => (k, Int.ofNat k))) := by
  have h1 : ((List.range n).map (fun k : Nat => (k, (1 / 2 : ℚ)))).map Prod.fst
      = List.range n := by
    rw [List.map_map]
    exact List.map_id _
  have h2 : ((List.range n).map (fun k : Nat => (k, Int.ofNat k))).map Prod.fst
      = List.range n := by
    rw [List.map_map]
    exact List.map_id _
  refine ⟨?_, ?_, ?_⟩
  · rw [h1]
    exact List.nodup_range n
  · rw [h2]
    exact List.nodup_range n
  · intro k
    rw [h1, h2]

theorem rangeUserCache_consistent (n : Nat) :
    CacheConsistent (rangeUserCache n).similarityCache (rangeUserCache n).cacheAccessCount :=
  rangeCache_consistent n

theorem rangeItemCache_consistent (n : Nat) :
    CacheConsistent (rangeItemCache n).similarityCache (rangeItemCache n).cacheAccessCount :=
  rangeCache_consistent n

theorem rangeUserCache_size (n : Nat) : (rangeUserCache n).similarityCache.length = n := by
  simp [rangeUserCache]

theorem rangeItemCache_size (n : Nat) : (rangeItemCache n).similarityCache.length = n := by
  simp [rangeItemCache]

/-- C12 on a Collaborative cache of 10001 entries: after the eviction pass at most 5000
entries remain. -/
theorem eviction_bound_witness :
    (Collaborative.evictCache (rangeUserCache 10001)).similarityCache.length
      ≤ Collaborative.MAX_CACHE_SIZE / 2 :=
  (eviction_bound (rangeUserCache 10001) (rangeItemCache 10001)
    (rangeUserCache_consistent 10001) (rangeItemCache_consistent 10001)).1
    (by rw [rangeUserCache_size]; norm_num [Collaborative.MAX_CACHE_SIZE])
    (by rw [rangeUserCache_size]; norm_num)

/-- C13 on a Content cache of 10001 entries: the eviction pass is least-frequently-used. -/
theorem eviction_is_lfu_witness :
    IsLfuEviction (rangeItemCache 10001).similarityCache (rangeItemCache 10001).cacheAccessCount
      (Content.evictCache (rangeItemCache 10001)).similarityCache
      (Content.evictCache (rangeItemCache 10001)).cacheAccessCount :=
  (eviction_is_lfu (rangeUserCache 10001) (rangeItemCache 10001)
    (rangeUserCache_consistent 10001) (rangeItemCache_consistent 10001)).2
    (by rw [rangeItemCache_size]; norm_num [Content.MAX_CACHE_SIZE])
    (by rw [rangeItemCache_size]; norm_num)

section ThreadSlices

theorem threadSlices_take (pairs : List (Int × Int)) (perThread k : Nat) :
    ((List.range k).foldl
        (fun threads i =>
          if i * perThread < min (i * perThread + perThread) pairs.length then
            threads ++ [pairSlice pairs (i * perThread) (min (i * perThread + perThread) pairs.length)]
          else threads)
        ([] : List (List (Int × Int)))).flatten
      = pairs.take (k * perThread) := by
  induction k with
  | zero => simp
  | succ k ih =>
    rw [List.range_succ, List.foldl_append]
    simp only [List.foldl]
    by_cases h : k * perThread < min (k * perThread + perThread) pairs.length
    · simp only [h, if_true, List.flatten_append, ih, List.flatten_cons, List.flatten_nil,
        List.append_nil]
      unfold pairSlice
      have hle : k * perThread ≤ min (k * perThread + perThread) pairs.length := h.le
      have h1 : pairs.take (k * perThread)
          = (pairs.take (min (k * perThread + perThread) pairs.length)).take (k * perThread) := by
        rw [List.take_take, Nat.min_eq_left hle]
      rw [h1, List.take_append_drop]
      have h2 : (k + 1) * perThread = k * perThread + perThread := by ring
      rw [h2]
      by_cases h3 : k * perThread + perThread ≤ pairs.length
      · rw [Nat.min_eq_left h3]
      · rw [Nat.min_eq_right (Nat.le_of_not_le h3), List.take_of_length_le (le_refl _),
          List.take_of_length_le (Nat.le_of_not_le h3)]
    · simp only [h, if_false, ih]
      have h2 : (k + 1) * perThread = k * perThread + perThread := by ring
      rw [h2]
      by_cases h3 : perThread = 0
      · simp [h3]
      · have h4 : pairs.length ≤ k * perThread := by
          by_contra hc
          apply h
          rw [lt_min_iff]
          constructor
          · omega
          · omega
        rw [List.take_of_length_le h4, List.take_of_length_le (by omega)]

theorem threadSlices_flatten (pairs : List (Int × Int)) (numThreads : Nat)
    (hT : 1 ≤ numThreads) : (threadSlices pairs numThreads).flatten = pairs := by
  unfold threadSlices
  simp only []
  rw [threadSlices_take pairs ((pairs.length + numThreads - 1) / numThreads) numThreads]
  apply List.take_of_length_le
  have h1 : (pairs.length + numThreads - 1) % numThreads < numThreads :=
    Nat.mod_lt _ (by omega)
  have h2 := Nat.div_add_mod (pairs.length + numThreads - 1) numThreads
  generalize numThreads * ((pairs.length + numThreads - 1) / numThreads) = m at h2 ⊢
  generalize (pairs.length + numThreads - 1) % numThreads = r at h1 h2
  omega

end ThreadSlices

section InsertFolds

variable {K V γ : Type} [DecidableEq K]

theorem Map.find_foldl_insertIf_of_mem (q : γ → Prop) [DecidablePred q] (key : γ → K)
    (val : γ → V) (l : List γ) (m0 : Map K V) (k : K) (v : V)
    (hex : ∃ p ∈ l, q p ∧ key p = k) (hval : ∀ p ∈ l, q p → key p = k → val p = v) :
    Map.find (l.foldl (fun m p => if q p then Map.insert m (key p) (val p) else m) m0) k
      = some v := by
  induction l using List.reverseRecOn with
  | nil =>
    obtain ⟨p, hp, _⟩ := hex
    simp at hp
  | append_singleton t x ih =>
    rw [List.foldl_append]
    simp only [List.foldl]
    by_cases hx : q x ∧ key x = k
    · have hv := hval x (by simp) hx.1 hx.2
      simp only [hx.1, if_true]
      rw [hx.2, hv]
      exact Map.find_insert_self _ _ _
    · have hex2 : ∃ p ∈ t, q p ∧ key p = k := by
        obtain ⟨p, hp, hq, hk⟩ := hex
        rcases List.mem_append.mp hp with h | h
        · exact ⟨p, h, hq, hk⟩
        · rw [List.mem_singleton] at h
          subst h
          exact absurd ⟨hq, hk⟩ hx
      have ih2 := ih hex2 (fun p hp => hval p (List.mem_append_left _ hp))
      by_cases hq : q x
      · have hk : k ≠ key x := fun h => hx ⟨hq, h.symm⟩
        simp only [hq, if_true]
        rw [Map.find_insert_ne _ _ _ _ hk]
        exact ih2
      · simp only [hq, if_false]
        exact ih2

theorem Map.find_foldl_insertIf_of_not_mem (q : γ → Prop) [DecidablePred q] (key : γ → K)
    (val : γ → V) (l : List γ) (m0 : Map K V) (k : K)
    (hno : ∀ p ∈ l, q p → key p ≠ k) :
    Map.find (l.foldl (fun m p => if q p then Map.insert m (key p) (val p) else m) m0) k
      = Map.find m0 k := by
  induction l generalizing m0 with
  | nil => rfl
  | cons x t ih =>
    simp only [List.foldl]
    rw [ih _ (fun p hp => hno p (List.mem_cons_of_mem _ hp))]
    by_cases hq : q x
    · simp only [hq, if_true]
      exact Map.find_insert_ne _ _ _ _ (fun h => hno x (List.mem_cons_self _ _) hq h.symm)
    · simp only [hq, if_false]

theorem Map.mem_foldl_insertIf (q : γ → Prop) [DecidablePred q] (key : γ → K)
    (val : γ → V) (l : List γ) (m0 : Map K V) :
    ∀ e ∈ l.foldl (fun m p => if q p then Map.insert m (key p) (val p) else m) m0,
      e ∈ m0 ∨ ∃ p ∈ l, q p ∧ e = (key p, val p) := by
  induction l using List.reverseRecOn with
  | nil =>
    intro e he
    exact Or.inl he
  | append_singleton t x ih =>
    intro e he
    rw [List.foldl_append] at he
    simp only [List.foldl] at he
    by_cases hq : q x
    · simp only [hq, if_true] at he
      rcases Map.mem_insert _ _ _ _ he with h | h
      · exact Or.inr ⟨x, by simp, hq, h⟩
      · rcases ih e h with h2 | ⟨p, hp, hqp, hep⟩
        · exact Or.inl h2
        · exact Or.inr ⟨p, List.mem_append_left _ hp, hqp, hep⟩
    · simp only [hq, if_false] at he
      rcases ih e he with h2 | ⟨p, hp, hqp, hep⟩
      · exact Or.inl h2
      · exact Or.inr ⟨p, List.mem_append_left _ hp, hqp, hep⟩

theorem Map.length_insert_le (m : Map K V) (k : K) (v : V) :
    (Map.insert m k v).length ≤ m.length + 1 := by
  induction m with
  | nil => simp [Map.insert]
  | cons e t ih =>
    obtain ⟨k', v'⟩ := e
    by_cases hk : k' = k
    · simp [Map.insert, hk]
    · simp only [Map.insert, hk, if_false, List.length_cons]
      omega

theorem Map.length_foldl_insertIf (q : γ → Prop) [DecidablePred q] (key : γ → K)
    (val : γ → V) (l : List γ) (m0 : Map K V) :
    (l.foldl (fun m p => if q p then Map.insert m (key p) (val p) else m) m0).length
      ≤ m0.length + (l.filter (fun p => decide (q p))).length := by
  induction l generalizing m0 with
  | nil => simp
  | cons x t ih =>
    simp only [List.foldl]
    refine (ih _).trans ?_
    by_cases hq : q x
    · simp only [hq, if_true, List.filter, decide_True, List.length_cons]
      have := Map.length_insert_le m0 (key x) (val x)
      omega
    · simp only [hq, if_false, List.filter, decide_False]
      exact le_refl _

end InsertFolds

section OrderedPairs

theorem foldl_append_flatten {β γ : Type} (h : β → List γ) (l : List β) (acc : List γ) :
    l.foldl (fun acc x => acc ++ h x) acc = acc ++ (l.map h).flatten := by
  induction l generalizing acc with
  | nil => simp
  | cons x t ih => simp [List.foldl, ih]

theorem orderedPairs_eq {V : Type} (table : Map Int V) :
    orderedPairs table
      = (table.map (fun e1 =>
          (table.filter (fun e2 => decide (e1.1 < e2.1))).map (fun e2 => (e1.1, e2.1)))).flatten := by
  unfold orderedPairs
  have hinner : ∀ (e1 : Int × V) (acc : List (Int × Int)),
      table.foldl (fun acc e2 => if e1.1 < e2.1 then acc ++ [(e1.1, e2.1)] else acc) acc
        = acc ++ (table.filter (fun e2 => decide (e1.1 < e2.1))).map (fun e2 => (e1.1, e2.1)) := by
    intro e1 acc
    have h := foldl_push_map_filter (fun e2 : Int × V => decide (e1.1 < e2.1))
      (fun e2 : Int × V => (e1.1, e2.1)) table acc
    simpa only [decide_eq_true_eq] using h
  simp only [hinner]
  rw [foldl_append_flatten]
  rfl

theorem mem_orderedPairs {V : Type} (table : Map Int V) (p : Int × Int) :
    p ∈ orderedPairs table
      ↔ p.1 ∈ table.map Prod.fst ∧ p.2 ∈ table.map Prod.fst ∧ p.1 < p.2 := by
  rw [orderedPairs_eq]
  simp only [List.mem_flatten, List.mem_map, List.mem_filter, decide_eq_true_eq]
  constructor
  · rintro ⟨l, ⟨e1, he1, rfl⟩, hp⟩
    simp only [List.mem_map, List.mem_filter, decide_eq_true_eq] at hp
    obtain ⟨e2, ⟨he2, hlt⟩, rfl⟩ := hp
    exact ⟨⟨e1, he1, rfl⟩, ⟨e2, he2, rfl⟩, hlt⟩
  · rintro ⟨⟨e1, he1, h1⟩, ⟨e2, he2, h2⟩, hlt⟩
    refine ⟨_, ⟨e1, he1, rfl⟩, ?_⟩
    simp only [List.mem_map, List.mem_filter, decide_eq_true_eq]
    refine ⟨e2, ⟨he2, ?_⟩, ?_⟩
    · rw [h1, h2]
      exact hlt
    · rw [h1, h2]

theorem createPairKey_of_lt (a b : Int) (ha : 0 ≤ a) (hab : a < b) (hb : b < 2 ^ 31) :
    Collaborative.createPairKey a b = a.toNat * 2 ^ 32 + b.toNat := by
  unfold Collaborative.createPairKey
  have h : ¬ a > b := not_lt.mpr hab.le
  simp only [h, if_false]
  exact pack_of_nonneg a b ha hab.le hb

theorem createPairKey_injective (a b a2 b2 : Int) (ha : 0 ≤ a) (hab : a < b) (hb : b < 2 ^ 31)
    (ha2 : 0 ≤ a2) (hab2 : a2 < b2) (hb2 : b2 < 2 ^ 31)
    (h : Collaborative.createPairKey a b = Collaborative.createPairKey a2 b2) :
    a = a2 ∧ b = b2 := by
  rw [createPairKey_of_lt a b ha hab hb, createPairKey_of_lt a2 b2 ha2 hab2 hb2] at h
  omega

end OrderedPairs

section PrecomputeContents

variable {F : Type} [LinearOrderedField F]

theorem Collaborative.foldl_processPair_sim (sqrt : F → F) (g : BipartiteGraph F)
    (order : List (Int × Int)) (c : Collaborative F) :
    (order.foldl (Collaborative.processPair sqrt g) c).similarityCache
      = order.foldl
          (fun m p =>
            if Collaborative.calculateSimilarity sqrt g p.1 p.2 > 0 then
              Map.insert m (Collaborative.createPairKey p.1 p.2)
                (Collaborative.calculateSimilarity sqrt g p.1 p.2)
            else m)
          c.similarityCache := by
  induction order generalizing c with
  | nil => rfl
  | cons p t ih =>
    simp only [List.foldl]
    rw [ih]
    congr 1
    unfold Collaborative.processPair
    by_cases hp : Collaborative.calculateSimilarity sqrt g p.1 p.2 > 0
    · simp only [hp, if_true]
    · simp only [hp, if_false]

theorem Collaborative.foldl_processPair_count (sqrt : F → F) (g : BipartiteGraph F)
    (order : List (Int × Int)) (c : Collaborative F) :
    (order.foldl (Collaborative.processPair sqrt g) c).cacheAccessCount
      = order.foldl
          (fun m p =>
            if Collaborative.calculateSimilarity sqrt g p.1 p.2 > 0 then
              Map.insert m (Collaborative.createPairKey p.1 p.2) (1 : Int)
            else m)
          c.cacheAccessCount := by
  induction order generalizing c with
  | nil => rfl
  | cons p t ih =>
    simp only [List.foldl]
    rw [ih]
    congr 1
    unfold Collaborative.processPair
    by_cases hp : Collaborative.calculateSimilarity sqrt g p.1 p.2 > 0
    · simp only [hp, if_true]
    · simp only [hp, if_false]

/-- Contents of the cache after the inserts of `preComputeSimilarities`, run in any order
`order` that is a permutation of the enumerated pairs, on an empty cache. -/
theorem Collaborative.precompute_core (sqrt : F → F) (g : BipartiteGraph F)
    (order : List (Int × Int))
    (hids : ∀ u ∈ g.user_to_items.map Prod.fst, 0 ≤ u ∧ u < 2 ^ 31)
    (hperm : order.Perm (orderedPairs g.user_to_items)) :
    (∀ k v, Map.find (order.foldl (Collaborative.processPair sqrt g)
          { similarityCache := [], cacheAccessCount := [] }).similarityCache k = some v
        ↔ ∃ p ∈ orderedPairs g.user_to_items,
            Collaborative.calculateSimilarity sqrt g p.1 p.2 > 0
            ∧ Collaborative.createPairKey p.1 p.2 = k
            ∧ Collaborative.calculateSimilarity sqrt g p.1 p.2 = v)
    ∧ (∀ k n, Map.find (order.foldl (Collaborative.processPair sqrt g)
          { similarityCache := [], cacheAccessCount := [] }).cacheAccessCount k = some n
        ↔ ∃ p ∈ orderedPairs g.user_to_items,
            Collaborative.calculateSimilarity sqrt g p.1 p.2 > 0
            ∧ Collaborative.createPairKey p.1 p.2 = k ∧ n = 1)
    ∧ (order.foldl (Collaborative.processPair sqrt g)
          { similarityCache := [], cacheAccessCount := [] }).similarityCache.length
        ≤ ((orderedPairs g.user_to_items).filter
            (fun p => decide (Collaborative.calculateSimilarity sqrt g p.1 p.2 > 0))).length := by
  have hinj : ∀ p ∈ orderedPairs g.user_to_items, ∀ p2 ∈ orderedPairs g.user_to_items,
      Collaborative.createPairKey p.1 p.2 = Collaborative.createPairKey p2.1 p2.2 → p = p2 := by
    intro p hp p2 hp2 hk
    rw [mem_orderedPairs] at hp hp2
    have h := createPairKey_injective p.1 p.2 p2.1 p2.2 (hids _ hp.1).1 hp.2.2 (hids _ hp.2.1).2
      (hids _ hp2.1).1 hp2.2.2 (hids _ hp2.2.1).2 hk
    exact Prod.ext h.1 h.2
  refine ⟨?_, ?_, ?_⟩
  · intro k v
    rw [Collaborative.foldl_processPair_sim]
    constructor
    · intro h
      rcases Map.mem_foldl_insertIf _ _ _ order [] _ (Map.mem_of_find _ k v h) with h2 | h2
      · simp at h2
      · obtain ⟨p, hp, hpos, he⟩ := h2
        simp only [Prod.mk.injEq] at he
        exact ⟨p, hperm.subset hp, hpos, he.1.symm, he.2.symm⟩
    · rintro ⟨p, hp, hpos, hk, hv⟩
      apply Map.find_foldl_insertIf_of_mem
      · exact ⟨p, hperm.symm.subset hp, hpos, hk⟩
      · intro p2 hp2 _ hk2
        have := hinj p2 (hperm.subset hp2) p hp (hk2.trans hk.symm)
        rw [this]
        exact hv
  · intro k n
    rw [Collaborative.foldl_processPair_count]
    constructor
    · intro h
      rcases Map.mem_foldl_insertIf _ _ _ order [] _ (Map.mem_of_find _ k n h) with h2 | h2
      · simp at h2
      · obtain ⟨p, hp, hpos, he⟩ := h2
        simp only [Prod.mk.injEq] at he
        exact ⟨p, hperm.subset hp, hpos, he.1.symm, he.2⟩
    · rintro ⟨p, hp, hpos, hk, hn⟩
      apply Map.find_foldl_insertIf_of_mem
      · exact ⟨p, hperm.symm.subset hp, hpos, hk⟩
      · intro p2 _ _ _
        exact hn.symm
  · rw [Collaborative.foldl_processPair_sim]
    refine (Map.length_foldl_insertIf _ _ _ order []).trans ?_
    simp only [List.length_nil, Nat.zero_add]
    exact le_of_eq (hperm.filter _).length_eq

end PrecomputeContents

section PrecomputeMain

variable {F : Type} [LinearOrderedField F]

theorem Collaborative.precompute_eq_foldl (sqrt : F → F) (g : BipartiteGraph F)
    (numThreads : Nat) (schedule : List (List (Int × Int)) → List (Int × Int))
    (hids : ∀ u ∈ g.user_to_items.map Prod.fst, 0 ≤ u ∧ u < 2 ^ 31) (hT : 1 ≤ numThreads)
    (hsched : ∀ threads, (schedule threads).Perm threads.flatten)
    (hcount : ((orderedPairs g.user_to_items).filter
        (fun p => decide (Collaborative.calculateSimilarity sqrt g p.1 p.2 > 0))).length
      ≤ Collaborative.MAX_CACHE_SIZE) :
    (schedule (threadSlices (orderedPairs g.user_to_items) numThreads)).Perm
        (orderedPairs g.user_to_items)
    ∧ Collaborative.preComputeSimilarities sqrt g { similarityCache := [], cacheAccessCount := [] }
        numThreads schedule
      = (schedule (threadSlices (orderedPairs g.user_to_items) numThreads)).foldl
          (Collaborative.processPair sqrt g) { similarityCache := [], cacheAccessCount := [] } := by
  have hperm : (schedule (threadSlices (orderedPairs g.user_to_items) numThreads)).Perm
      (orderedPairs g.user_to_items) := by
    have h := hsched (threadSlices (orderedPairs g.user_to_items) numThreads)
    rwa [threadSlices_flatten _ _ hT] at h
  refine ⟨hperm, ?_⟩
  have hlen := (Collaborative.precompute_core sqrt g _ hids hperm).2.2
  simp only [Collaborative.preComputeSimilarities]
  rw [if_neg]
  exact Nat.not_lt.mpr (hlen.trans hcount)

end PrecomputeMain

/-- C11: for a graph whose user ids lie in `[0, 2^31)`, a thread count of at least 1, any
schedule of the worker threads and an initially empty cache: if at most
`MAX_CACHE_SIZE = 10000` enumerated user pairs have positive similarity, then after
`Collaborative.preComputeSimilarities` the cache maps `createPairKey u1 u2` to
`calculateSimilarity u1 u2`, with access count 1, for every pair of users `u1 < u2` whose
similarity is positive, holds nothing for a pair whose similarity is `≤ 0`, holds every key
once and only keys of such pairs, and its contents are the same for every thread count and
schedule. -/
theorem precompute_fills_cache {F : Type} [LinearOrderedField F] (sqrt : F → F)
    (g : BipartiteGraph F) (numThreads : Nat)
    (schedule : List (List (Int × Int)) → List (Int × Int))
    (hids : ∀ u ∈ g.user_to_items.map Prod.fst, 0 ≤ u ∧ u < 2 ^ 31) (hT : 1 ≤ numThreads)
    (hsched : ∀ threads, (schedule threads).Perm threads.flatten)
    (hcount : ((orderedPairs g.user_to_items).filter
        (fun p => decide (Collaborative.calculateSimilarity sqrt g p.1 p.2 > 0))).length
      ≤ Collaborative.MAX_CACHE_SIZE)
    (result : Collaborative F)
    (hres : result = Collaborative.preComputeSimilarities sqrt g
      { similarityCache := [], cacheAccessCount := [] } numThreads schedule) :
    (∀ u1 u2, u1 ∈ g.user_to_items.map Prod.fst → u2 ∈ g.user_to_items.map Prod.fst → u1 < u2 →
        (Collaborative.calculateSimilarity sqrt g u1 u2 > 0 →
          Map.find result.similarityCache (Collaborative.createPairKey u1 u2)
              = some (Collaborative.calculateSimilarity sqrt g u1 u2)
            ∧ Map.find result.cacheAccessCount (Collaborative.createPairKey u1 u2) = some 1)
        ∧ (Collaborative.calculateSimilarity sqrt g u1 u2 ≤ 0 →
          Map.find result.similarityCache (Collaborative.createPairKey u1 u2) = none
            ∧ Map.find result.cacheAccessCount (Collaborative.createPairKey u1 u2) = none))
    ∧ (result.similarityCache.map Prod.fst).Nodup
    ∧ (result.cacheAccessCount.map Prod.fst).Nodup
    ∧ (∀ k v, Map.find result.similarityCache k = some v →
        ∃ u1 u2, u1 ∈ g.user_to_items.map Prod.fst ∧ u2 ∈ g.user_to_items.map Prod.fst
          ∧ u1 < u2 ∧ Collaborative.calculateSimilarity sqrt g u1 u2 > 0
          ∧ k = Collaborative.createPairKey u1 u2
          ∧ v = Collaborative.calculateSimilarity sqrt g u1 u2)
    ∧ (∀ (numThreads2 : Nat) (schedule2 : List (List (Int × Int)) → List (Int × Int)),
        1 ≤ numThreads2 → (∀ threads, (schedule2 threads).Perm threads.flatten) →
        ∀ k,
          Map.find result.similarityCache k
              = Map.find (Collaborative.preComputeSimilarities sqrt g
                  { similarityCache := [], cacheAccessCount := [] } numThreads2
                  schedule2).similarityCache k
            ∧ Map.find result.cacheAccessCount k
              = Map.find (Collaborative.preComputeSimilarities sqrt g
                  { similarityCache := [], cacheAccessCount := [] } numThreads2
                  schedule2).cacheAccessCount k) := by
  obtain ⟨hperm, heq⟩ :=
    Collaborative.precompute_eq_foldl sqrt g numThreads schedule hids hT hsched hcount
  obtain ⟨hsim, hcnt, _⟩ := Collaborative.precompute_core sqrt g _ hids hperm
  rw [← heq, ← hres] at hsim hcnt
  have hcons : CacheConsistent result.similarityCache result.cacheAccessCount := by
    rw [hres, heq]
    exact Collaborative.foldl_processPair_consistent sqrt g _ _
      ⟨List.nodup_nil, List.nodup_nil, fun _ => Iff.rfl⟩
  have hinj : ∀ p ∈ orderedPairs g.user_to_items, ∀ p2 ∈ orderedPairs g.user_to_items,
      Collaborative.createPairKey p.1 p.2 = Collaborative.createPairKey p2.1 p2.2 → p = p2 := by
    intro p hp p2 hp2 hk
    rw [mem_orderedPairs] at hp hp2
    have h := createPairKey_injective p.1 p.2 p2.1 p2.2 (hids _ hp.1).1 hp.2.2 (hids _ hp.2.1).2
      (hids _ hp2.1).1 hp2.2.2 (hids _ hp2.2.1).2 hk
    exact Prod.ext h.1 h.2
  refine ⟨?_, hcons.1, hcons.2.1, ?_, ?_⟩
  · intro u1 u2 h1 h2 hlt
    have hmem : (u1, u2) ∈ orderedPairs g.user_to_items :=
      (mem_orderedPairs _ _).mpr ⟨h1, h2, hlt⟩
    constructor
    · intro hpos
      exact ⟨(hsim _ _).mpr ⟨(u1, u2), hmem, hpos, rfl, rfl⟩,
        (hcnt _ _).mpr ⟨(u1, u2), hmem, hpos, rfl, rfl⟩⟩
    · intro hle
      constructor
      · cases hf : Map.find result.similarityCache (Collaborative.createPairKey u1 u2) with
        | none => rfl
        | some v =>
          obtain ⟨p, hp, hpos, hk, _⟩ := (hsim _ _).mp hf
          have := hinj p hp (u1, u2) hmem hk
          rw [this] at hpos
          exact absurd hpos (not_lt.mpr hle)
      · cases hf : Map.find result.cacheAccessCount (Collaborative.createPairKey u1 u2) with
        | none => rfl
        | some v =>
          obtain ⟨p, hp, hpos, hk, _⟩ := (hcnt _ _).mp hf
          have := hinj p hp (u1, u2) hmem hk
          rw [this] at hpos
          exact absurd hpos (not_lt.mpr hle)
  · intro k v hf
    obtain ⟨p, hp, hpos, hk, hv⟩ := (hsim _ _).mp hf
    have hp2 := (mem_orderedPairs _ _).mp hp
    exact ⟨p.1, p.2, hp2.1, hp2.2.1, hp2.2.2, hpos, hk.symm, hv.symm⟩
  · intro numThreads2 schedule2 hT2 hsched2 k
    obtain ⟨hperm2, heq2⟩ :=
      Collaborative.precompute_eq_foldl sqrt g numThreads2 schedule2 hids hT2 hsched2 hcount
    obtain ⟨hsim2, hcnt2, _⟩ := Collaborative.precompute_core sqrt g _ hids hperm2
    rw [← heq2] at hsim2 hcnt2
    constructor
    · apply Option.ext
      intro v
      rw [Option.mem_def, Option.mem_def, hsim k v, hsim2 k v]
    · apply Option.ext
      intro n
      rw [Option.mem_def, Option.mem_def, hcnt k n, hcnt2 k n]

theorem cosineGraph_pairs (F : Type) [LinearOrderedField F] :
    orderedPairs (cosineGraph F).user_to_items
      = [(1, 2), (1, 3), (1, 4), (2, 3), (2, 4), (3, 4)] := by
  rw [cosineGraph_users]
  simp [orderedPairs, List.foldl]

theorem cosineGraph_user_ids (F : Type) [LinearOrderedField F] :
    (cosineGraph F).user_to_items.map Prod.fst = [1, 2, 3, 4] := by
  rw [cosineGraph_users]
  rfl

/-- C11 on `cosineGraph` over the reals, with two worker threads run one after the other:
the pair of users 1 and 2, whose similarity is `3/5`, is cached under `createPairKey 1 2`
with access count 1. -/
theorem precompute_fills_cache_witness :
    Map.find (Collaborative.preComputeSimilarities Real.sqrt (cosineGraph ℝ)
        { similarityCache := [], cacheAccessCount := [] } 2 List.flatten).similarityCache
        (Collaborative.createPairKey 1 2) = some (3 / 5)
    ∧ Map.find (Collaborative.preComputeSimilarities Real.sqrt (cosineGraph ℝ)
        { similarityCache := [], cacheAccessCount := [] } 2 List.flatten).cacheAccessCount
        (Collaborative.createPairKey 1 2) = some 1 := by
  have hval : Collaborative.calculateSimilarity Real.sqrt (cosineGraph ℝ) 1 2 = 3 / 5 := by
    rw [cosineGraph_similarity_12, real_sqrt_values.2.2, real_sqrt_values.2.1]
    norm_num
  have h := (precompute_fills_cache Real.sqrt (cosineGraph ℝ) 2 List.flatten
    (by rw [cosineGraph_user_ids]; intro u hu; simp at hu; omega)
    (by decide) (fun _ => List.Perm.refl _)
    (by
      refine (List.length_filter_le _ _).trans ?_
      rw [cosineGraph_pairs]
      norm_num [Collaborative.MAX_CACHE_SIZE])
    _ rfl).1 1 2 (by rw [cosineGraph_user_ids]; decide) (by rw [cosineGraph_user_ids]; decide)
    (by decide)
  have h2 := h.1 (by rw [hval]; norm_num)
  rw [hval] at h2
  exact h2

section RankNormalization

variable {F : Type} [LinearOrderedField F]

theorem foldl_add_snd (ranks : Map Int F) (a : F) :
    ranks.foldl (fun sum e => sum + e.2) a = a + rankSum ranks := by
  induction ranks generalizing a with
  | nil => simp [rankSum]
  | cons e t ih =>
    simp only [List.foldl, ih, rankSum, List.map_cons, List.sum_cons]
    ring

theorem PageRank.min_rank_pos : (0 : F) < PageRank.MIN_RANK := by
  unfold PageRank.MIN_RANK
  norm_num

theorem PageRank.min_rank_le_one : (PageRank.MIN_RANK : F) ≤ 1 := by
  unfold PageRank.MIN_RANK
  norm_num

theorem rankSum_pos (raw : Map Int F) (hpos : ∀ e ∈ raw, 0 < e.2) (hne : raw ≠ []) :
    0 < rankSum raw := by
  unfold rankSum
  apply List.sum_pos
  · intro x hx
    obtain ⟨e, he, rfl⟩ := List.mem_map.mp hx
    exact hpos e he
  · simpa using hne

theorem PageRank.normalizeRanks_eq (raw : Map Int F) (hpos : ∀ e ∈ raw, 0 < e.2)
    (hne : raw ≠ []) :
    PageRank.normalizeRanks raw
      = raw.map (fun e => (e.1, max PageRank.MIN_RANK (e.2 / rankSum raw))) := by
  unfold PageRank.normalizeRanks
  simp only [foldl_add_snd, zero_add, rankSum_pos raw hpos hne, if_true]

theorem PageRank.normalizeRanks_bounds (raw : Map Int F) (hpos : ∀ e ∈ raw, 0 < e.2)
    (hne : raw ≠ []) :
    ∀ e ∈ PageRank.normalizeRanks raw, PageRank.MIN_RANK ≤ e.2 ∧ e.2 ≤ 1 := by
  rw [PageRank.normalizeRanks_eq raw hpos hne]
  intro e he
  obtain ⟨x, hx, rfl⟩ := List.mem_map.mp he
  have hs := rankSum_pos raw hpos hne
  refine ⟨le_max_left _ _, max_le PageRank.min_rank_le_one ?_⟩
  rw [div_le_one hs]
  unfold rankSum
  apply List.single_le_sum
  · intro y hy
    obtain ⟨z, hz, rfl⟩ := List.mem_map.mp hy
    exact (hpos z hz).le
  · exact List.mem_map_of_mem Prod.snd hx

end RankNormalization

section RankRound

variable {F : Type} [LinearOrderedField F]

theorem PageRank.activity_bounds (exp : F → F) (hexp : ∀ x, 0 < exp x)
    (numRatings maxRatings : Nat) :
    1 ≤ PageRank.calculateActivityScore exp numRatings maxRatings
      ∧ PageRank.calculateActivityScore exp numRatings maxRatings ≤ 3 := by
  unfold PageRank.calculateActivityScore
  by_cases hm : maxRatings = 0
  · simp only [hm, if_true]
    norm_num
  · simp only [hm, if_false]
    split_ifs
    · unfold PageRank.ACTIVITY_BOOST
      norm_num
    · have he := hexp (-10 * ((numRatings : F) / (maxRatings : F)
        - PageRank.CORE_ACTIVITY_THRESHOLD))
      have hden : (0 : F) < 1 + exp (-10 * ((numRatings : F) / (maxRatings : F)
        - PageRank.CORE_ACTIVITY_THRESHOLD)) := by linarith
      have hq : (0 : F) ≤ (PageRank.ACTIVITY_BOOST - 1) / (1 + exp (-10 * ((numRatings : F)
          / (maxRatings : F) - PageRank.CORE_ACTIVITY_THRESHOLD))) := by
        apply div_nonneg _ hden.le
        unfold PageRank.ACTIVITY_BOOST
        norm_num
      have hq2 : (PageRank.ACTIVITY_BOOST - 1) / (1 + exp (-10 * ((numRatings : F)
          / (maxRatings : F) - PageRank.CORE_ACTIVITY_THRESHOLD))) ≤ 2 := by
        rw [div_le_iff₀ hden]
        unfold PageRank.ACTIVITY_BOOST
        linarith
      constructor <;> linarith

theorem Map.getD_find_nonneg (ranks : Map Int F) (h : ∀ e ∈ ranks, 0 ≤ e.2) (k : Int) :
    0 ≤ (Map.find ranks k).getD 0 := by
  cases hf : Map.find ranks k with
  | none => simp
  | some v => exact h (k, v) (Map.mem_of_find ranks k v hf)

theorem PageRank.sharedMovies_nonneg {G : Type} (userMovies : USet Int)
    (otherRatings : List (Int × G)) :
    0 ≤ PageRank.sharedMovies userMovies otherRatings := by
  unfold PageRank.sharedMovies
  apply foldl_invariant _ (fun n : Int => 0 ≤ n)
  · exact le_refl 0
  · intro n e _ hn
    split_ifs
    · omega
    · exact hn

theorem PageRank.addContribution_ge (ranks : Map Int F) (h : ∀ e ∈ ranks, 0 ≤ e.2)
    (userId : Int) (userMovies : USet Int) (activityScore : F) (ha : 0 ≤ activityScore)
    (newRank : F) (o : Int × List (Int × F)) :
    newRank ≤ PageRank.addContribution ranks userId userMovies activityScore newRank o := by
  simp only [PageRank.addContribution]
  split_ifs with h1 h2
  · exact le_refl _
  · have hr := Map.getD_find_nonneg ranks h o.1
    have hsh : (0 : F) ≤ ((PageRank.sharedMovies userMovies o.2 : Int) : F) := by
      exact_mod_cast (PageRank.sharedMovies_nonneg userMovies o.2)
    have hlen : (0 : F) ≤ (o.2.length : F) := Nat.cast_nonneg _
    have hd : (0 : F) ≤ PageRank.DAMPING := by
      unfold PageRank.DAMPING
      norm_num
    have hc : 0 ≤ (Map.find ranks o.1).getD 0 * ((PageRank.sharedMovies userMovies o.2 : Int) : F)
        / (o.2.length : F) := div_nonneg (mul_nonneg hr hsh) hlen
    have := mul_nonneg (mul_nonneg hd ha) hc
    linarith
  · exact le_refl _

theorem PageRank.newRankOf_pos (exp : F → F) (hexp : ∀ x, 0 < exp x) (g : BipartiteGraph F)
    (ranks : Map Int F) (h : ∀ e ∈ ranks, 0 ≤ e.2) (maxRatings : Nat)
    (u : Int × List (Int × F)) (hne : g.user_to_items ≠ []) :
    0 < PageRank.newRankOf exp g ranks maxRatings u := by
  unfold PageRank.newRankOf
  have hbase : (0 : F) < (1 - PageRank.DAMPING) / (g.user_to_items.length : F) := by
    apply div_pos
    · unfold PageRank.DAMPING
      norm_num
    · have : 0 < g.user_to_items.length := List.length_pos.mpr hne
      exact_mod_cast this
  have ha : (0 : F) ≤ PageRank.calculateActivityScore exp u.2.length maxRatings := by
    have := (PageRank.activity_bounds exp hexp u.2.length maxRatings).1
    linarith
  have hge : (1 - PageRank.DAMPING) / (g.user_to_items.length : F)
      ≤ g.user_to_items.foldl
          (PageRank.addContribution ranks u.1 (PageRank.userMoviesOf g u.2)
            (PageRank.calculateActivityScore exp u.2.length maxRatings))
          ((1 - PageRank.DAMPING) / (g.user_to_items.length : F)) := by
    apply foldl_invariant _
      (fun r : F => (1 - PageRank.DAMPING) / (g.user_to_items.length : F) ≤ r)
    · exact le_refl _
    · intro r o _ hr
      exact hr.trans (PageRank.addContribution_ge ranks h u.1 _ _ ha r o)
  exact lt_of_lt_of_le hbase hge

theorem PageRank.round_raw (exp : F → F) (hexp : ∀ x, 0 < exp x) (g : BipartiteGraph F)
    (ranks : Map Int F) (h : ∀ e ∈ ranks, 0 ≤ e.2) (maxRatings : Nat)
    (hne : g.user_to_items ≠ []) :
    (∀ e ∈ (g.user_to_items.foldl (PageRank.rankStep exp g ranks maxRatings) ([], 0)).1, 0 < e.2)
      ∧ (g.user_to_items.foldl (PageRank.rankStep exp g ranks maxRatings) ([], 0)).1 ≠ []
      ∧ (g.user_to_items.foldl (PageRank.rankStep exp g ranks maxRatings) ([], 0)).1.length
          ≤ g.user_to_items.length := by
  refine ⟨?_, ?_, ?_⟩
  · apply foldl_invariant (PageRank.rankStep exp g ranks maxRatings)
      (fun acc => ∀ e ∈ acc.1, 0 < e.2)
    · intro e he
      simp at he
    · intro acc u _ hacc e he
      unfold PageRank.rankStep at he
      rcases Map.mem_insert _ _ _ _ he with h1 | h1
      · rw [h1]
        exact PageRank.newRankOf_pos exp hexp g ranks h maxRatings u hne
      · exact hacc e h1
  · cases hu : g.user_to_items with
    | nil => exact absurd hu hne
    | cons u t =>
      simp only [List.foldl]
      apply foldl_invariant (PageRank.rankStep exp g ranks maxRatings) (fun acc => acc.1 ≠ [])
      · simp [PageRank.rankStep, Map.insert]
      · intro acc x _ hacc
        unfold PageRank.rankStep
        intro hnil
        have hlen := congrArg List.length hnil
        have hk := Map.find_insert_self acc.1 x.1
          (PageRank.newRankOf exp g ranks maxRatings x)
        simp only at hnil
        rw [hnil] at hk
        simp [Map.find] at hk
  · have hgen : ∀ (l : List (Int × List (Int × F))) (acc : Map Int F × F),
        (l.foldl (PageRank.rankStep exp g ranks maxRatings) acc).1.length
          ≤ acc.1.length + l.length := by
      intro l
      induction l with
      | nil => intro acc; simp
      | cons x t ih =>
        intro acc
        simp only [List.foldl, List.length_cons]
        refine (ih _).trans ?_
        have := Map.length_insert_le acc.1 x.1 (PageRank.newRankOf exp g ranks maxRatings x)
        simp only [PageRank.rankStep]
        omega
    have := hgen g.user_to_items ([], 0)
    simpa using this

end RankRound

section RankTable

variable {F : Type} [LinearOrderedField F]

theorem PageRank.iterate_normalized (exp : F → F) (hexp : ∀ x, 0 < exp x) (g : BipartiteGraph F)
    (maxRatings : Nat) (hne : g.user_to_items ≠ []) (k : Nat) :
    ∀ ranks : Map Int F, (∀ e ∈ ranks, 0 ≤ e.2) →
      ∃ raw : Map Int F, (∀ e ∈ raw, 0 < e.2) ∧ raw ≠ [] ∧ raw.length ≤ g.user_to_items.length
        ∧ PageRank.iterate exp g maxRatings (k + 1) ranks = PageRank.normalizeRanks raw := by
  induction k with
  | zero =>
    intro ranks h
    obtain ⟨h1, h2, h3⟩ := PageRank.round_raw exp hexp g ranks h maxRatings hne
    refine ⟨_, h1, h2, h3, ?_⟩
    simp only [PageRank.iterate]
    split_ifs <;> rfl
  | succ k ih =>
    intro ranks h
    obtain ⟨h1, h2, h3⟩ := PageRank.round_raw exp hexp g ranks h maxRatings hne
    by_cases hconv : (g.user_to_items.foldl (PageRank.rankStep exp g ranks maxRatings) ([], 0)).2
        < PageRank.CONVERGENCE_THRESHOLD
    · refine ⟨_, h1, h2, h3, ?_⟩
      rw [PageRank.iterate]
      simp only [hconv, if_true]
    · have hnext : ∀ e ∈ PageRank.normalizeRanks
          (g.user_to_items.foldl (PageRank.rankStep exp g ranks maxRatings) ([], 0)).1,
          0 ≤ e.2 := by
        intro e he
        have := (PageRank.normalizeRanks_bounds _ h1 h2 e he).1
        exact (PageRank.min_rank_pos.le).trans this
      obtain ⟨raw, hr1, hr2, hr3, hr4⟩ := ih _ hnext
      refine ⟨raw, hr1, hr2, hr3, ?_⟩
      rw [PageRank.iterate]
      simp only [hconv, if_false]
      exact hr4

theorem PageRank.initializeRanks_nonneg (g : BipartiteGraph F) (pr : PageRank F)
    (hne : g.user_to_items ≠ []) :
    ∀ e ∈ (PageRank.initializeRanks g pr).ranks, 0 ≤ e.2 := by
  have hemp : ¬ (g.user_to_items.isEmpty = true) := by simpa using hne
  simp only [PageRank.initializeRanks, hemp, if_false]
  apply foldl_invariant _ (fun ranks : Map Int F => ∀ e ∈ ranks, 0 ≤ e.2)
  · intro e he
    simp at he
  · intro ranks u _ hr e he
    rcases Map.mem_insert _ _ _ _ he with h1 | h1
    · rw [h1]
      exact div_nonneg zero_le_one (Nat.cast_nonneg _)
    · exact hr e h1

theorem PageRank.construct_noop (exp : F → F) (g : BipartiteGraph F)
    (h : g.user_to_items = [] ∨ g.items = []) (pr : PageRank F) :
    PageRank.calculatePageRanks exp g pr = pr := by
  have hc : g.user_to_items.isEmpty = true ∨ g.items.isEmpty = true := by
    rcases h with h | h
    · left
      rw [h]
      rfl
    · right
      rw [h]
      rfl
  simp only [PageRank.calculatePageRanks, hc, if_true]

theorem PageRank.construct_normalized (exp : F → F) (hexp : ∀ x, 0 < exp x)
    (g : BipartiteGraph F) (hu : g.user_to_items ≠ []) (hi : g.items ≠ []) :
    ∃ raw : Map Int F, (∀ e ∈ raw, 0 < e.2) ∧ raw ≠ [] ∧ raw.length ≤ g.user_to_items.length
      ∧ (PageRank.construct exp g).ranks = PageRank.normalizeRanks raw := by
  have hc : ¬ (g.user_to_items.isEmpty = true ∨ g.items.isEmpty = true) := by
    simp only [List.isEmpty_iff]
    tauto
  obtain ⟨raw, h1, h2, h3, h4⟩ := PageRank.iterate_normalized exp hexp g
    (g.user_to_items.foldl (fun m u => max m u.2.length) 0) hu 49
    (PageRank.initializeRanks g { ranks := [] }).ranks
    (PageRank.initializeRanks_nonneg g _ hu)
  refine ⟨raw, h1, h2, h3, ?_⟩
  simp only [PageRank.construct, PageRank.calculatePageRanks, hc, if_false]
  exact h4

theorem PageRank.construct_bounds (exp : F → F) (hexp : ∀ x, 0 < exp x) (g : BipartiteGraph F) :
    ∀ e ∈ (PageRank.construct exp g).ranks, PageRank.MIN_RANK ≤ e.2 ∧ e.2 ≤ 1 := by
  by_cases hu : g.user_to_items = []
  · rw [PageRank.construct, PageRank.construct_noop exp g (Or.inl hu)]
    intro e he
    simp at he
  · by_cases hi : g.items = []
    · rw [PageRank.construct, PageRank.construct_noop exp g (Or.inr hi)]
      intro e he
      simp at he
    · obtain ⟨raw, h1, h2, _, h4⟩ := PageRank.construct_normalized exp hexp g hu hi
      rw [h4]
      exact PageRank.normalizeRanks_bounds raw h1 h2

theorem PageRank.getPageRank_bounds (pr : PageRank F)
    (h : ∀ e ∈ pr.ranks, PageRank.MIN_RANK ≤ e.2 ∧ e.2 ≤ 1) (id : Int) :
    PageRank.MIN_RANK ≤ pr.getPageRank id ∧ pr.getPageRank id ≤ 1 := by
  unfold PageRank.getPageRank
  cases hf : Map.find pr.ranks id with
  | none => exact ⟨le_refl _, PageRank.min_rank_le_one⟩
  | some v => exact h (id, v) (Map.mem_of_find _ id v hf)

end RankTable

section IsolatedGraph

variable {F : Type} [LinearOrderedField F]

theorem PageRank.iterate_fixed (exp : F → F) (g : BipartiteGraph F) (maxRatings : Nat)
    (R : Map Int F)
    (hround : PageRank.normalizeRanks
      (g.user_to_items.foldl (PageRank.rankStep exp g R maxRatings) ([], 0)).1 = R) (k : Nat) :
    PageRank.iterate exp g maxRatings k R = R := by
  induction k with
  | zero => rfl
  | succ k ih =>
    rw [PageRank.iterate]
    simp only [hround, ih, ite_self]

theorem isolatedGraph_users (F : Type) [LinearOrderedField F] :
    (isolatedGraph F).user_to_items = [(1, [(1, 5)]), (2, [(2, 4)])] := by
  simp [isolatedGraph, BipartiteGraph.run, BipartiteGraph.step, BipartiteGraph.addItem,
    BipartiteGraph.addUser, BipartiteGraph.empty, Map.insert, Map.find, Map.modify]

theorem isolatedGraph_items (F : Type) [LinearOrderedField F] :
    (isolatedGraph F).items
      = [(1, { id := 1, genres := ["Action"], length := 120, imdb := 8, rating := 2020 }),
         (2, { id := 2, genres := ["Drama"], length := 115, imdb := 15 / 2, rating := 2020 })] := by
  simp [isolatedGraph, BipartiteGraph.run, BipartiteGraph.step, BipartiteGraph.addItem,
    BipartiteGraph.addUser, BipartiteGraph.empty, Map.insert, Map.find, Map.modify]

theorem isolatedGraph_round (exp : F → F) :
    PageRank.normalizeRanks
      ((isolatedGraph F).user_to_items.foldl
        (PageRank.rankStep exp (isolatedGraph F) [(1, 1 / 2), (2, 1 / 2)] 1) ([], 0)).1
      = [(1, 1 / 2), (2, 1 / 2)] := by
  simp only [isolatedGraph_users, List.foldl, PageRank.rankStep, PageRank.newRankOf,
    PageRank.addContribution, PageRank.sharedMovies, PageRank.userMoviesOf, isolatedGraph_items,
    Map.find, Map.insert]
  norm_num [USet.insert, USet.count, PageRank.normalizeRanks, PageRank.calculateActivityScore,
    PageRank.DAMPING, PageRank.MIN_RANK, PageRank.CORE_ACTIVITY_THRESHOLD,
    PageRank.ACTIVITY_BOOST, List.foldl, Map.insert]

theorem isolatedGraph_ranks (exp : F → F) :
    (PageRank.construct exp (isolatedGraph F)).ranks = [(1, 1 / 2), (2, 1 / 2)] := by
  have hinit : (PageRank.initializeRanks (isolatedGraph F) { ranks := [] }).ranks
      = [(1, 1 / 2), (2, 1 / 2)] := by
    simp only [PageRank.initializeRanks, isolatedGraph_users]
    norm_num [List.foldl, Map.insert]
  have hmax : (isolatedGraph F).user_to_items.foldl (fun m u => max m u.2.length) 0 = 1 := by
    rw [isolatedGraph_users]
    rfl
  simp only [PageRank.construct, PageRank.calculatePageRanks, isolatedGraph_users,
    isolatedGraph_items]
  simp only [List.isEmpty_cons, Bool.false_eq_true, or_self, if_false]
  rw [← isolatedGraph_users, hinit, hmax]
  exact PageRank.iterate_fixed exp _ 1 _ (isolatedGraph_round exp) _

end IsolatedGraph

/-- C17: `getPageRank` is total: it returns the stored rank when the id has one and
`MIN_RANK = 0.0001` otherwise. For a graph with no users or with no items
`calculatePageRanks` changes nothing, so the table of a newly constructed Rank Engine is
empty and `getPageRank` returns `MIN_RANK` for every id. -/
theorem getPageRank_total {F : Type} [LinearOrderedField F] (exp : F → F) (pr : PageRank F)
    (g : BipartiteGraph F) (id : Int) :
    (∀ v, Map.find pr.ranks id = some v → pr.getPageRank id = v)
    ∧ (Map.find pr.ranks id = none → pr.getPageRank id = PageRank.MIN_RANK)
    ∧ (PageRank.MIN_RANK : F) = 1 / 10000
    ∧ ((g.user_to_items = [] ∨ g.items = []) →
        PageRank.calculatePageRanks exp g pr = pr
        ∧ (PageRank.construct exp g).ranks = []
        ∧ ∀ id2, (PageRank.construct exp g).getPageRank id2 = PageRank.MIN_RANK) := by
  refine ⟨?_, ?_, rfl, ?_⟩
  · intro v hv
    simp [PageRank.getPageRank, hv]
  · intro hv
    simp [PageRank.getPageRank, hv]
  · intro h
    refine ⟨PageRank.construct_noop exp g h pr, ?_, ?_⟩
    · rw [PageRank.construct, PageRank.construct_noop exp g h]
    · intro id2
      rw [PageRank.construct, PageRank.construct_noop exp g h]
      rfl

/-- C17 on the empty graph: the constructed table is empty and every id reads `MIN_RANK`. -/
theorem getPageRank_total_witness :
    (PageRank.construct Real.exp (BipartiteGraph.empty : BipartiteGraph ℝ)).ranks = []
    ∧ (PageRank.construct Real.exp (BipartiteGraph.empty : BipartiteGraph ℝ)).getPageRank 7
        = PageRank.MIN_RANK :=
  have h := (getPageRank_total Real.exp { ranks := [] }
    (BipartiteGraph.empty : BipartiteGraph ℝ) 7).2.2.2 (Or.inl rfl)
  ⟨h.2.1, h.2.2 7⟩

/-- C14: for every graph and every id, the value `getPageRank` returns after construction
of the Rank Engine lies in `[MIN_RANK, 1]` with `MIN_RANK = 0.0001`, hence is strictly
positive, also for a user who shares no item with any other user; in the test graph of two
users who rated different items both ranks are `1/2`. Here `exp` is any positive function
standing for `std::exp`. -/
theorem rank_within_bounds {F : Type} [LinearOrderedField F] (exp : F → F)
    (hexp : ∀ x, 0 < exp x) (g : BipartiteGraph F) (id : Int) :
    (PageRank.MIN_RANK ≤ (PageRank.construct exp g).getPageRank id
      ∧ (PageRank.construct exp g).getPageRank id ≤ 1)
    ∧ (PageRank.MIN_RANK : F) = 1 / 10000
    ∧ 0 < (PageRank.construct exp g).getPageRank id
    ∧ ((PageRank.construct exp (isolatedGraph F)).getPageRank 1 = 1 / 2
      ∧ (PageRank.construct exp (isolatedGraph F)).getPageRank 2 = 1 / 2) := by
  have hb := PageRank.getPageRank_bounds (PageRank.construct exp g)
    (PageRank.construct_bounds exp hexp g) id
  refine ⟨hb, rfl, lt_of_lt_of_le PageRank.min_rank_pos hb.1, ?_, ?_⟩
  · simp [PageRank.getPageRank, isolatedGraph_ranks, Map.find]
  · simp [PageRank.getPageRank, isolatedGraph_ranks, Map.find]

/-- C14 over the reals with the real exponential, on the test graph of two isolated
users. -/
theorem rank_within_bounds_witness :
    PageRank.MIN_RANK ≤ (PageRank.construct Real.exp (isolatedGraph ℝ)).getPageRank 1
    ∧ (PageRank.construct Real.exp (isolatedGraph ℝ)).getPageRank 1 ≤ 1 :=
  (rank_within_bounds Real.exp Real.exp_pos (isolatedGraph ℝ) 1).1

section NeighbourSearch

variable {F : Type} [LinearOrderedField F]

theorem Collaborative.getCachedSimilarity_value (c : Collaborative F) (a b : Int) :
    (c.getCachedSimilarity a b).1 = cachedValue c a b
      ∧ (c.getCachedSimilarity a b).2.similarityCache = c.similarityCache := by
  unfold Collaborative.getCachedSimilarity cachedValue
  by_cases h : a = b
  · simp [h]
  · simp only [h, if_false]
    cases Map.find c.similarityCache (Collaborative.createPairKey a b) with
    | none => exact ⟨rfl, rfl⟩
    | some v => exact ⟨rfl, rfl⟩

theorem cachedValue_congr (c c2 : Collaborative F) (h : c2.similarityCache = c.similarityCache)
    (a b : Int) : cachedValue c2 a b = cachedValue c a b := by
  unfold cachedValue
  rw [h]

theorem Collaborative.foldl_collectSimilar (userId : Int) (c0 : Collaborative F)
    (users : List (Int × List (Int × F))) :
    ∀ (acc : List (Int × F)) (c : Collaborative F), c.similarityCache = c0.similarityCache →
      (users.foldl (Collaborative.collectSimilar userId) (acc, c)).1
          = acc ++ (users.filter
              (fun u => decide (u.1 ≠ userId) && decide (cachedValue c0 userId u.1 > 0))).map
              (fun u => (u.1, cachedValue c0 userId u.1))
        ∧ (users.foldl (Collaborative.collectSimilar userId) (acc, c)).2.similarityCache
          = c0.similarityCache := by
  induction users with
  | nil =>
    intro acc c hc
    exact ⟨by simp, hc⟩
  | cons u t ih =>
    intro acc c hc
    simp only [List.foldl]
    have hv := Collaborative.getCachedSimilarity_value c userId u.1
    have hval : (c.getCachedSimilarity userId u.1).1 = cachedValue c0 userId u.1 := by
      rw [hv.1]
      exact cachedValue_congr c0 c hc userId u.1
    by_cases hu : u.1 = userId
    · have hstep : Collaborative.collectSimilar userId (acc, c) u = (acc, c) := by
        simp [Collaborative.collectSimilar, hu]
      rw [hstep]
      obtain ⟨h1, h2⟩ := ih acc c hc
      refine ⟨?_, h2⟩
      rw [h1]
      simp [List.filter, hu]
    · by_cases hpos : cachedValue c0 userId u.1 > 0
      · have hstep : Collaborative.collectSimilar userId (acc, c) u
            = (acc ++ [(u.1, cachedValue c0 userId u.1)], (c.getCachedSimilarity userId u.1).2) := by
          simp only [Collaborative.collectSimilar, hu, if_false, hval, hpos, if_true]
        rw [hstep]
        obtain ⟨h1, h2⟩ := ih (acc ++ [(u.1, cachedValue c0 userId u.1)]) _ (hv.2.trans hc)
        refine ⟨?_, h2⟩
        rw [h1]
        simp [List.filter, hu, hpos]
      · have hstep : Collaborative.collectSimilar userId (acc, c) u
            = (acc, (c.getCachedSimilarity userId u.1).2) := by
          simp only [Collaborative.collectSimilar, hu, if_false, hval, hpos]
        rw [hstep]
        obtain ⟨h1, h2⟩ := ih acc _ (hv.2.trans hc)
        refine ⟨?_, h2⟩
        rw [h1]
        simp [List.filter, hu, hpos]

theorem Collaborative.similarUsers_eq (userId : Int) (c : Collaborative F)
    (g : BipartiteGraph F) :
    truncate (stdSort bySecondDesc
        (g.user_to_items.foldl (Collaborative.collectSimilar userId) ([], c)).1) 10
      = neighbours c g userId := by
  rw [(Collaborative.foldl_collectSimilar userId c g.user_to_items [] c rfl).1]
  rfl

end NeighbourSearch

section WeightedAverage

variable {F : Type} [LinearOrderedField F]

theorem Collaborative.foldl_voters (g : BipartiteGraph F) (userMovies : USet Int)
    (weight : Int × F → F) (voters : List (Int × F)) :
    ∀ ws0 : Map Int (F × F),
      voters.foldl
          (fun weighted os =>
            match Map.find g.user_to_items os.1 with
            | none => weighted
            | some ratings =>
              ratings.foldl (Collaborative.accumulateRating g.items userMovies (weight os))
                weighted)
          ws0
        = (weightedRatings g voters weight).foldl
            (fun ws x => Collaborative.accumulateRating g.items userMovies x.2 ws x.1) ws0 := by
  induction voters with
  | nil =>
    intro ws0
    rfl
  | cons N t ih =>
    intro ws0
    simp only [List.foldl, weightedRatings, List.map_cons, List.flatten_cons, List.foldl_append]
    rw [ih]
    congr 1
    cases hf : Map.find g.user_to_items N.1 with
    | none => simp
    | some ratings => simp [List.foldl_map]

end WeightedAverage

section Candidates

variable {F : Type} [LinearOrderedField F]

theorem USet.mem_foldl_insert_if_inv {γ : Type} (p : γ → Bool) (key : γ → Int) (l : List γ)
    (s : USet Int) (k : Int)
    (h : k ∈ l.foldl (fun s e => if p e then USet.insert s (key e) else s) s) :
    k ∈ s ∨ ∃ e ∈ l, p e = true ∧ key e = k := by
  induction l generalizing s with
  | nil => exact Or.inl h
  | cons x t ih =>
    simp only [List.foldl] at h
    rcases ih _ h with h1 | ⟨e, he, hp, hk⟩
    · by_cases hx : p x = true
      · simp only [hx, if_true] at h1
        rcases (USet.mem_insert_iff s (key x) k).mp h1 with h2 | h2
        · exact Or.inl h2
        · exact Or.inr ⟨x, List.mem_cons_self x t, hx, h2.symm⟩
      · simp only [hx] at h1
        exact Or.inl h1
    · exact Or.inr ⟨e, List.mem_cons_of_mem x he, hp, hk⟩

end Candidates

section NeighbourScores

variable {F : Type} [LinearOrderedField F]

theorem Collaborative.getRecommendations_neighbours (c : Collaborative F) (g : BipartiteGraph F)
    (pageRank : PageRank F) (userId : Int) (n : Nat) (ratings : List (Int × F))
    (hu : Map.find g.user_to_items userId = some ratings) (hne : ratings ≠ []) :
    (c.getRecommendations g pageRank userId n).1
      = truncate (stdSort bySecondDesc
          (((weightedRatings g (neighbours c g userId)
              (fun N => N.2 * pageRank.getPageRank N.1)).foldl
            (fun ws x =>
              Collaborative.accumulateRating g.items
                (ratings.foldl
                  (fun s e => if (Map.find g.items e.1).isSome then USet.insert s e.1 else s) [])
                x.2 ws x.1)
            ([] : Map Int (F × F))).foldl
            (Collaborative.toRecommendation g.items (8 / 10) (2 / 10)) [])) n := by
  have hcond : ¬ ((some ratings).isNone ∨ ((some ratings).getD []).isEmpty) := by
    cases ratings with
    | nil => exact absurd rfl hne
    | cons x t => simp
  simp only [Collaborative.getRecommendations, hu, hcond, if_false]
  rw [Collaborative.similarUsers_eq]
  rw [← Collaborative.foldl_voters g _ (fun N => N.2 * pageRank.getPageRank N.1)]

end NeighbourScores

section PerVoterSums

variable {F : Type} [LinearOrderedField F]

end PerVoterSums

section NeighbourClaim

variable {F : Type} [LinearOrderedField F]

end NeighbourClaim

section InfluenceStep

variable {F : Type} [LinearOrderedField F]

theorem qualifyingUsers_length (g : BipartiteGraph F) (pageRank : PageRank F) :
    (qualifyingUsers g pageRank).length
      = (g.user_to_items.filter
          (fun u => decide (pageRank.getPageRank u.1 ≥ Collaborative.MIN_PAGERANK_SCORE))).length := by
  unfold qualifyingUsers
  rw [(stdSort_perm _ _).length_eq, List.length_map]

theorem Collaborative.coldStart_result (c : Collaborative F) (g : BipartiteGraph F)
    (pageRank : PageRank F) (userId : Int) (n : Nat)
    (hu : Map.find g.user_to_items userId = none ∨ Map.find g.user_to_items userId = some []) :
    c.getRecommendations g pageRank userId n
      = (if Collaborative.getInfluentialRecommendations g pageRank [] n ≠ [] then
          Collaborative.getInfluentialRecommendations g pageRank [] n
        else qualityList g n, c) := by
  have hc : (Map.find g.user_to_items userId).isNone
      ∨ ((Map.find g.user_to_items userId).getD []).isEmpty := by
    rcases hu with h | h
    · left
      rw [h]
      rfl
    · right
      rw [h]
      rfl
  have hm : (match Map.find g.user_to_items userId with
      | some ratings =>
        ratings.foldl (fun s e => if (Map.find g.items e.1).isSome then USet.insert s e.1 else s)
          ([] : USet Int)
      | none => []) = [] := by
    rcases hu with h | h
    · rw [h]
    · rw [h]
      rfl
  simp only [Collaborative.getRecommendations, hc, if_true, hm]
  by_cases hrec : Collaborative.getInfluentialRecommendations g pageRank [] n = []
  · have hfold : g.items.foldl
        (fun acc it =>
          if USet.count ([] : USet Int) it.1 = 0 then acc ++ [(it.1, it.2.imdb)] else acc)
        ([] : List (Int × F))
        = g.items.map (fun it => (it.1, it.2.imdb)) := by
      have h := foldl_push_map (fun it : Int × BipartiteGraph.Item F => (it.1, it.2.imdb))
        g.items []
      simpa [USet.count] using h
    simp [hrec, hfold, qualityList]
  · have hne : ¬ (Collaborative.getInfluentialRecommendations g pageRank [] n).isEmpty = true := by
      rw [List.isEmpty_iff]
      exact hrec
    simp [hrec, hne]

end InfluenceStep

section IdleGraph

variable {F : Type} [LinearOrderedField F]

end IdleGraph

section IdleGraphResult

variable {F : Type} [LinearOrderedField F]

end IdleGraphResult

section RankClosedForm

variable {F : Type} [LinearOrderedField F]

theorem PageRank.addContribution_eq (ranks : Map Int F) (userId : Int) (userMovies : USet Int)
    (activityScore newRank : F) (o : Int × List (Int × F)) :
    PageRank.addContribution ranks userId userMovies activityScore newRank o
      = newRank + contributionOf ranks userId userMovies activityScore o := by
  simp only [PageRank.addContribution, contributionOf]
  split_ifs <;> simp

theorem foldl_add_map {β : Type} (t : β → F) (l : List β) (b : F) :
    l.foldl (fun acc o => acc + t o) b = b + (l.map t).sum := by
  induction l generalizing b with
  | nil => simp
  | cons x xs ih => simp [List.foldl, ih, add_assoc]

theorem PageRank.newRankOf_eq (exp : F → F) (g : BipartiteGraph F) (ranks : Map Int F)
    (maxRatings : Nat) (u : Int × List (Int × F)) :
    PageRank.newRankOf exp g ranks maxRatings u
      = (1 - PageRank.DAMPING) / (g.user_to_items.length : F)
        + (g.user_to_items.map
            (contributionOf ranks u.1 (PageRank.userMoviesOf g u.2)
              (PageRank.calculateActivityScore exp u.2.length maxRatings))).sum := by
  simp only [PageRank.newRankOf]
  rw [← foldl_add_map]
  congr 1
  funext acc o
  exact PageRank.addContribution_eq _ _ _ _ _ _

end RankClosedForm

section ColdGraph

variable {F : Type} [LinearOrderedField F]

end ColdGraph

section ColdGraphResult

variable {F : Type} [LinearOrderedField F]

end ColdGraphResult

section InfluenceClaim

variable {F : Type} [LinearOrderedField F]

end InfluenceClaim

section ActivityOrder

variable {F : Type} [LinearOrderedField F]

end ActivityOrder

section SharedCount

theorem PageRank.sharedMovies_eq_length {G : Type} (userMovies : USet Int)
    (otherRatings : List (Int × G)) :
    PageRank.sharedMovies userMovies otherRatings
      = ((otherRatings.filter (fun e => decide (e.1 ∈ userMovies))).length : Int) := by
  have hgen : ∀ n : Int,
      otherRatings.foldl (fun n e => if USet.count userMovies e.1 > 0 then n + 1 else n) n
        = n + ((otherRatings.filter (fun e => decide (e.1 ∈ userMovies))).length : Int) := by
    induction otherRatings with
    | nil => simp
    | cons y t ih =>
      intro n
      simp only [List.foldl, ih]
      by_cases h : y.1 ∈ userMovies
      · simp [USet.count, h, List.filter]
        ring
      · simp [USet.count, h, List.filter]
  have h0 := hgen 0
  simp only [zero_add] at h0
  exact h0

theorem PageRank.mem_userMoviesOf {F : Type} [LinearOrderedField F] (g : BipartiteGraph F)
    (ratings : List (Int × F)) (i : Int) :
    i ∈ PageRank.userMoviesOf g ratings
      ↔ i ∈ ratings.map Prod.fst ∧ (Map.find g.items i).isSome := by
  unfold PageRank.userMoviesOf
  constructor
  · intro h
    rcases USet.mem_foldl_insert_if_inv
        (fun e : Int × F => (Map.find g.items e.1).isSome) (fun e => e.1) ratings [] i h
      with h1 | ⟨e, he, hp, hk⟩
    · simp at h1
    · subst hk
      exact ⟨List.mem_map_of_mem Prod.fst he, hp⟩
  · rintro ⟨h1, h2⟩
    obtain ⟨e, he, rfl⟩ := List.mem_map.mp h1
    exact USet.mem_foldl_insert_if
      (fun e : Int × F => (Map.find g.items e.1).isSome) (fun e => e.1) ratings [] e.1
      (Or.inr ⟨e, he, h2, rfl⟩)

end SharedCount

section RankOrderAlgebra

variable {F : Type} [LinearOrderedField F]

end RankOrderAlgebra

section RankFlow

variable {F : Type} [LinearOrderedField F]

end RankFlow

section RankOrderRound

variable {F : Type} [LinearOrderedField F]

theorem PageRank.round_fst (exp : F → F) (g : BipartiteGraph F) (R : Map Int F)
    (maxRatings : Nat) (users : List (Int × List (Int × F))) :
    ∀ acc : Map Int F × F,
      (users.foldl (PageRank.rankStep exp g R maxRatings) acc).1
        = (users.map (fun u => (u.1, PageRank.newRankOf exp g R maxRatings u))).foldl
            (fun m e => Map.insert m e.1 e.2) acc.1 := by
  induction users with
  | nil =>
    intro acc
    rfl
  | cons u t ih =>
    intro acc
    simp only [List.foldl, List.map_cons]
    rw [ih]
    rfl

theorem PageRank.find_round (exp : F → F) (g : BipartiteGraph F) (R : Map Int F)
    (maxRatings : Nat) (hkeys : (g.user_to_items.map Prod.fst).Nodup)
    (U : Int × List (Int × F)) (hU : U ∈ g.user_to_items) :
    Map.find (g.user_to_items.foldl (PageRank.rankStep exp g R maxRatings) ([], 0)).1 U.1
      = some (PageRank.newRankOf exp g R maxRatings U) := by
  rw [PageRank.round_fst]
  apply Map.find_foldl_insert_of_mem
  · rw [List.map_map]
    exact hkeys
  · exact List.mem_map.mpr ⟨U, hU, rfl⟩

theorem Map.find_map_value {K V W : Type} [DecidableEq K] (m : Map K V) (h : V → W) (k : K) :
    Map.find (m.map (fun e => (e.1, h e.2))) k = (Map.find m k).map h := by
  induction m with
  | nil => rfl
  | cons e t ih =>
    obtain ⟨k', v⟩ := e
    by_cases hk : k' = k
    · simp [Map.find, hk]
    · simp [Map.find, hk, ih]

theorem PageRank.find_initializeRanks (g : BipartiteGraph F) (pr : PageRank F)
    (U : Int × List (Int × F)) (hU : U ∈ g.user_to_items) :
    Map.find (PageRank.initializeRanks g pr).ranks U.1
      = some (1 / (g.user_to_items.length : F)) := by
  have hemp : ¬ (g.user_to_items.isEmpty = true) := by
    rw [List.isEmpty_iff]
    intro h
    rw [h] at hU
    simp at hU
  simp only [PageRank.initializeRanks, hemp, if_false]
  have hgen : ∀ (l : List (Int × List (Int × F))) (m : Map Int F) (c : F),
      (Map.find m U.1 = some c ∨ U ∈ l) →
      Map.find (l.foldl (fun ranks u => Map.insert ranks u.1 c) m) U.1 = some c := by
    intro l
    induction l with
    | nil =>
      intro m c h
      rcases h with h | h
      · exact h
      · simp at h
    | cons x t ih =>
      intro m c h
      simp only [List.foldl]
      apply ih
      by_cases hx : x.1 = U.1
      · left
        rw [hx]
        exact Map.find_insert_self _ _ _
      · rcases h with h | h
        · left
          rw [Map.find_insert_ne _ _ _ _ (fun e => hx e.symm)]
          exact h
        · rcases List.mem_cons.mp h with h1 | h1
          · exact absurd (congrArg Prod.fst h1).symm hx
          · exact Or.inr h1
  exact hgen _ _ _ (Or.inr hU)

end RankOrderRound

section RankOrderInvariant

variable {F : Type} [LinearOrderedField F]

end RankOrderInvariant

section RankOrderTable

variable {F : Type} [LinearOrderedField F]

end RankOrderTable

section TwoUserAlgebra

variable {F : Type} [LinearOrderedField F]

end TwoUserAlgebra

section TwoUsers

variable {F : Type} [LinearOrderedField F]

end TwoUsers

theorem BipartiteGraph.run_users_nodup {F : Type} (ops : List (BipartiteGraph.Op F)) :
    ((BipartiteGraph.run ops).user_to_items.map Prod.fst).Nodup := by
  apply foldl_invariant BipartiteGraph.step
    (fun g : BipartiteGraph F => (g.user_to_items.map Prod.fst).Nodup)
  · simp [BipartiteGraph.empty]
  · intro g op _ hg
    cases op with
    | addItem id genres length imdb rating => exact hg
    | addUser id ratings => exact Map.nodup_keys_insert _ _ _ hg

section TwoUserGraphs

variable {F : Type} [LinearOrderedField F]

end TwoUserGraphs

section RepeatGraph

variable {F : Type} [LinearOrderedField F]

theorem repeatGraph_users (F : Type) [LinearOrderedField F] :
    (repeatGraph F).user_to_items
      = [(1, [(1, 5), (4, 5), (6, 5)]),
         (2, [(1, 5), (1, 4), (1, 3), (2, 5), (3, 5), (5, 5)])] := by
  simp [repeatGraph, BipartiteGraph.run, BipartiteGraph.step, BipartiteGraph.addItem,
    BipartiteGraph.addUser, BipartiteGraph.empty, Map.insert, Map.find, Map.modify]

theorem repeatGraph_items (F : Type) [LinearOrderedField F] :
    (repeatGraph F).items
      = [(1, { id := 1, genres := ["Action"], length := 120, imdb := 8, rating := 2020 }),
         (2, { id := 2, genres := ["Action"], length := 120, imdb := 8, rating := 2020 }),
         (3, { id := 3, genres := ["Action"], length := 120, imdb := 8, rating := 2020 }),
         (4, { id := 4, genres := ["Action"], length := 120, imdb := 8, rating := 2020 }),
         (5, { id := 5, genres := ["Action"], length := 120, imdb := 8, rating := 2020 }),
         (6, { id := 6, genres := ["Action"], length := 120, imdb := 8, rating := 2020 })] := by
  simp [repeatGraph, BipartiteGraph.run, BipartiteGraph.step, BipartiteGraph.addItem,
    BipartiteGraph.addUser, BipartiteGraph.empty, Map.insert, Map.find, Map.modify]

theorem repeatGraph_shares (F : Type) [LinearOrderedField F] :
    PageRank.sharedMovies (PageRank.userMoviesOf (repeatGraph F) [(1, 5), (4, 5), (6, 5)])
        [((1 : Int), (5 : F)), (1, 4), (1, 3), (2, 5), (3, 5), (5, 5)] = 3
      ∧ PageRank.sharedMovies
          (PageRank.userMoviesOf (repeatGraph F)
            [(1, 5), (1, 4), (1, 3), (2, 5), (3, 5), (5, 5)])
          [((1 : Int), (5 : F)), (4, 5), (6, 5)] = 1 := by
  simp [PageRank.userMoviesOf, PageRank.sharedMovies, repeatGraph_items, Map.find, USet.insert,
    USet.count]

theorem repeatGraph_newRank (exp : F → F) (R : Map Int F) :
    PageRank.newRankOf exp (repeatGraph F) R 6 (1, [(1, 5), (4, 5), (6, 5)])
        = 3 / 40 + 51 / 40 * (Map.find R 2).getD 0
      ∧ PageRank.newRankOf exp (repeatGraph F) R 6
          (2, [(1, 5), (1, 4), (1, 3), (2, 5), (3, 5), (5, 5)])
        = 3 / 40 + 17 / 20 * (Map.find R 1).getD 0 := by
  have hact3 : PageRank.calculateActivityScore exp 3 6 = 3 := by
    norm_num [PageRank.calculateActivityScore, PageRank.CORE_ACTIVITY_THRESHOLD,
      PageRank.ACTIVITY_BOOST]
  have hact6 : PageRank.calculateActivityScore exp 6 6 = 3 := by
    norm_num [PageRank.calculateActivityScore, PageRank.CORE_ACTIVITY_THRESHOLD,
      PageRank.ACTIVITY_BOOST]
  constructor
  · rw [PageRank.newRankOf_eq, repeatGraph_users]
    simp only [List.map_cons, List.map_nil, List.sum_cons, List.sum_nil, contributionOf,
      (repeatGraph_shares F).1, List.length_cons, List.length_nil, hact3]
    norm_num [PageRank.DAMPING]
    ring
  · rw [PageRank.newRankOf_eq, repeatGraph_users]
    simp only [List.map_cons, List.map_nil, List.sum_cons, List.sum_nil, contributionOf,
      (repeatGraph_shares F).2, List.length_cons, List.length_nil, hact6]
    norm_num [PageRank.DAMPING]
    ring

end RepeatGraph

section ColdStartNonempty

variable {F : Type} [LinearOrderedField F]

theorem qualityList_ne_nil (g : BipartiteGraph F) (n : Nat) (hi : g.items ≠ []) (hn : 1 ≤ n) :
    qualityList g n ≠ [] := by
  unfold qualityList
  rw [truncate_eq_take]
  intro h
  have hlen := congrArg List.length h
  rw [List.length_take, (stdSort_perm _ _).length_eq, List.length_map] at hlen
  have hpos : 0 < g.items.length := List.length_pos.mpr hi
  simp only [List.length_nil] at hlen
  omega

theorem newUserGraph_users (F : Type) [LinearOrderedField F] :
    (newUserGraph F).user_to_items = [(1, [(1, 5), (2, 24 / 5)]), (2, [])] := by
  simp [newUserGraph, BipartiteGraph.run, BipartiteGraph.step, BipartiteGraph.addItem,
    BipartiteGraph.addUser, BipartiteGraph.empty, Map.insert, Map.find, Map.modify]

theorem newUserGraph_items (F : Type) [LinearOrderedField F] :
    (newUserGraph F).items
      = [(1, { id := 1, genres := ["Action"], length := 120, imdb := 8, rating := 2020 }),
         (2, { id := 2, genres := ["Action"], length := 115, imdb := 15 / 2, rating := 2020 })] := by
  simp [newUserGraph, BipartiteGraph.run, BipartiteGraph.step, BipartiteGraph.addItem,
    BipartiteGraph.addUser, BipartiteGraph.empty, Map.insert, Map.find, Map.modify]

end ColdStartNonempty

/-- C21: cold start always recommends something. For every graph with at least one item,
every `n ≥ 1`, every cache state and rank table, and every user id that is absent from the
graph or has an empty rating list, `Collaborative.getRecommendations userId n` returns a
non-empty list. -/
theorem cold_start_recommends {F : Type} [LinearOrderedField F] (c : Collaborative F)
    (g : BipartiteGraph F) (pageRank : PageRank F) (userId : Int) (n : Nat)
    (hi : g.items ≠ []) (hn : 1 ≤ n)
    (hu : Map.find g.user_to_items userId = none ∨ Map.find g.user_to_items userId = some []) :
    (c.getRecommendations g pageRank userId n).1 ≠ [] := by
  rw [Collaborative.coldStart_result c g pageRank userId n hu]
  by_cases h : Collaborative.getInfluentialRecommendations g pageRank [] n = []
  · simp only [h, ne_eq, not_true_eq_false, if_false]
    exact qualityList_ne_nil g n hi hn
  · simp only [h, ne_eq, not_false_eq_true, if_true]

/-- C21 on the test graph: user 2 has an empty rating list and gets a non-empty list for the
default `n = 5`, with the rank table constructed on that graph. -/
theorem cold_start_recommends_witness :
    (newUserGraph ℝ).items ≠ [] ∧ 1 ≤ 5
      ∧ Map.find (newUserGraph ℝ).user_to_items 2 = some []
      ∧ (({ similarityCache := [], cacheAccessCount := [] } : Collaborative ℝ).getRecommendations
          (newUserGraph ℝ) (PageRank.construct Real.exp (newUserGraph ℝ)) 2 5).1 ≠ [] :=
  have hi : (newUserGraph ℝ).items ≠ [] := by rw [newUserGraph_items]; simp
  have hu : Map.find (newUserGraph ℝ).user_to_items 2 = some [] := by
    rw [newUserGraph_users]
    simp [Map.find]
  ⟨hi, by norm_num, hu,
    cold_start_recommends _ (newUserGraph ℝ) _ 2 5 hi (by norm_num) (Or.inr hu)⟩

section AddItem

variable {F : Type}

theorem BipartiteGraph.addItem_items (g : BipartiteGraph F) (id : Int) (genres : List String)
    (length : Int) (imdb : F) (rating : Int) :
    (g.addItem id genres length imdb rating).items
      = Map.insert g.items id
          { id := id, genres := genres, length := length, imdb := imdb, rating := rating } :=
  rfl

end AddItem

/-- C30: `addItem (id, genres, length, quality, tier)` is an unconditional upsert.
Afterwards the item stored under `id` has exactly the given fields, whether or not an item
was stored under `id` before; every other id has the item it had (or none); and both
adjacency maps are unchanged. -/
theorem addItem_upsert {F : Type} (g : BipartiteGraph F) (id : Int) (genres : List String)
    (length : Int) (imdb : F) (rating : Int) :
    Map.find (g.addItem id genres length imdb rating).items id
        = some { id := id, genres := genres, length := length, imdb := imdb, rating := rating }
      ∧ (∀ id2, id2 ≠ id →
          Map.find (g.addItem id genres length imdb rating).items id2 = Map.find g.items id2)
      ∧ (g.addItem id genres length imdb rating).user_to_items = g.user_to_items
      ∧ (g.addItem id genres length imdb rating).item_to_users = g.item_to_users := by
  refine ⟨?_, ?_, rfl, rfl⟩
  · rw [BipartiteGraph.addItem_items]
    exact Map.find_insert_self _ _ _
  · intro id2 hne
    rw [BipartiteGraph.addItem_items]
    exact Map.find_insert_ne _ _ _ _ hne

/-- C26: `Hybrid.getRecommendations userId n` has the precondition that `userId` is a key of
the user→items map. For every such `userId` the call completes normally and returns a list;
for every `userId` absent from the map the call fails at the initial lookup
`graph.getUserItems().at(userId)`: no score is computed, and the hybrid cache and the
collaborative cache are left unchanged. -/
theorem hybrid_precondition {F : Type} [LinearOrderedField F] (h : Hybrid F)
    (g : BipartiteGraph F) (c : Collaborative F) (collabRank : PageRank F) (userId : Int)
    (n : Nat) :
    (∀ ratings, Map.find g.user_to_items userId = some ratings →
        ∃ recs, (h.getRecommendations g c collabRank userId n).1 = some recs)
      ∧ (Map.find g.user_to_items userId = none →
          h.getRecommendations g c collabRank userId n = (none, h, c)) := by
  constructor
  · intro ratings hu
    obtain ⟨recs, hrecs, _⟩ := Hybrid.hybridRecs_topN h g c collabRank userId n ratings hu
    exact ⟨recs, hrecs⟩
  · intro hu
    simp only [Hybrid.getRecommendations, hu]

/-- C26 on the graph with one user: the call for user 1 returns a list, the call for the
absent user 9 fails and changes nothing. -/
theorem hybrid_precondition_witness :
    (∃ recs, (emptyHybrid.getRecommendations hybridGraph emptyCollaborative emptyPageRank 1
        10).1 = some recs)
      ∧ emptyHybrid.getRecommendations hybridGraph emptyCollaborative emptyPageRank 9 10
          = (none, emptyHybrid, emptyCollaborative) :=
  ⟨(hybrid_precondition emptyHybrid hybridGraph emptyCollaborative emptyPageRank 1 10).1
      [(1, 5)] (by rw [hybridGraph_users]; simp [Map.find]),
    (hybrid_precondition emptyHybrid hybridGraph emptyCollaborative emptyPageRank 9 10).2
      (by rw [hybridGraph_users]; simp [Map.find])⟩

section SimilarityBounds

variable {F : Type} [LinearOrderedField F]

theorem jaccardSpec_bounds (G1 G2 : Finset String) :
    (0 : F) ≤ jaccardSpec G1 G2 ∧ (jaccardSpec G1 G2 : F) ≤ 1 := by
  unfold jaccardSpec
  split_ifs with h
  · exact ⟨le_refl _, zero_le_one⟩
  · constructor
    · exact div_nonneg (Nat.cast_nonneg _) (Nat.cast_nonneg _)
    · apply div_le_one_of_le₀ _ (Nat.cast_nonneg _)
      exact_mod_cast Finset.card_le_card
        (Finset.inter_subset_left.trans Finset.subset_union_left)

theorem contentSimilaritySpec_bounds (a b : BipartiteGraph.Item F)
    (hq : |a.imdb - b.imdb| ≤ 10) (ht : |((a.rating : F) - (b.rating : F))| ≤ 4)
    (hl : |((a.length : F) - (b.length : F))| ≤ 180) :
    0 ≤ contentSimilaritySpec a b ∧ contentSimilaritySpec a b ≤ 1 := by
  unfold contentSimilaritySpec
  obtain ⟨hj0, hj1⟩ := jaccardSpec_bounds (F := F) a.genres.toFinset b.genres.toFinset
  have hq0 := abs_nonneg (a.imdb - b.imdb)
  have ht0 := abs_nonneg ((a.rating : F) - (b.rating : F))
  have hl0 := abs_nonneg ((a.length : F) - (b.length : F))
  constructor <;> linarith

theorem emptyGenresGraph_items (F : Type) [LinearOrderedField F] :
    (emptyGenresGraph F).items
      = [(1, { id := 1, genres := [], length := 120, imdb := 8, rating := 2020 }),
         (2, { id := 2, genres := ["Action"], length := 115, imdb := 15 / 2, rating := 2020 })] := by
  simp [emptyGenresGraph, BipartiteGraph.run, BipartiteGraph.step, BipartiteGraph.addItem,
    BipartiteGraph.empty, Map.insert]

theorem emptyGenresGraph_similarity (F : Type) [LinearOrderedField F] :
    Content.calculateSimilarity (emptyGenresGraph F) 1 2 = 697 / 1800 := by
  rw [Content.calculateSimilarity_eq_spec (emptyGenresGraph F) 1 2
    { id := 1, genres := [], length := 120, imdb := 8, rating := 2020 }
    { id := 2, genres := ["Action"], length := 115, imdb := 15 / 2, rating := 2020 }
    (by norm_num) (by rw [emptyGenresGraph_items]; simp [Map.find])
    (by rw [emptyGenresGraph_items]; simp [Map.find])]
  norm_num [contentSimilaritySpec, jaccardSpec, abs_of_nonneg]

end SimilarityBounds

/-- C29: `Content.calculateSimilarity` returns a value in `[0, 1]` for every pair of
existing items whose quality scores lie in `[0, 10]`, whose tiers lie in `[0, 3]` and whose
lengths differ by at most 180 minutes, whatever their genre lists are (empty ones included).
On the test graph, the item without genres against the item with one genre gives
`697 / 1800`, which lies in `[0, 1]`. -/
theorem content_similarity_in_unit_interval {F : Type} [LinearOrderedField F]
    (g : BipartiteGraph F) (i1 i2 : Int) (a b : BipartiteGraph.Item F)
    (h1 : Map.find g.items i1 = some a) (h2 : Map.find g.items i2 = some b)
    (hqa : 0 ≤ a.imdb ∧ a.imdb ≤ 10) (hqb : 0 ≤ b.imdb ∧ b.imdb ≤ 10)
    (hta : 0 ≤ a.rating ∧ a.rating ≤ 3) (htb : 0 ≤ b.rating ∧ b.rating ≤ 3)
    (hl : |a.length - b.length| ≤ 180) :
    (0 ≤ Content.calculateSimilarity g i1 i2 ∧ Content.calculateSimilarity g i1 i2 ≤ 1)
      ∧ Content.calculateSimilarity (emptyGenresGraph F) 1 2 = 697 / 1800
      ∧ (0 : F) ≤ 697 / 1800 ∧ (697 / 1800 : F) ≤ 1 := by
  refine ⟨?_, emptyGenresGraph_similarity F, by norm_num, by norm_num⟩
  by_cases hne : i1 = i2
  · simp [Content.calculateSimilarity, hne]
  · rw [Content.calculateSimilarity_eq_spec g i1 i2 a b hne h1 h2]
    apply contentSimilaritySpec_bounds
    · rw [abs_le]
      constructor <;> linarith [hqa.1, hqa.2, hqb.1, hqb.2]
    · have h3a : (0 : F) ≤ (a.rating : F) ∧ ((a.rating : F)) ≤ 3 := by
        constructor
        · exact_mod_cast hta.1
        · exact_mod_cast hta.2
      have h3b : (0 : F) ≤ (b.rating : F) ∧ ((b.rating : F)) ≤ 3 := by
        constructor
        · exact_mod_cast htb.1
        · exact_mod_cast htb.2
      rw [abs_le]
      constructor <;> linarith [h3a.1, h3a.2, h3b.1, h3b.2]
    · have h4 : ((|a.length - b.length| : Int) : F) ≤ 180 := by exact_mod_cast hl
      rw [Int.cast_abs, Int.cast_sub] at h4
      exact h4

/-- C29 on the graph with two items that agree in every attribute. -/
theorem content_similarity_in_unit_interval_witness :
    Map.find twinGraph.items 1
        = some { id := 1, genres := ["Action", "Drama"], length := 120, imdb := 8, rating := 2 }
      ∧ 0 ≤ Content.calculateSimilarity twinGraph 1 2
      ∧ Content.calculateSimilarity twinGraph 1 2 ≤ 1 :=
  have h1 : Map.find twinGraph.items 1
      = some { id := 1, genres := ["Action", "Drama"], length := 120, imdb := 8, rating := 2 } := by
    simp [twinGraph, BipartiteGraph.addItem, BipartiteGraph.empty, Map.insert, Map.find]
  have h2 : Map.find twinGraph.items 2
      = some { id := 2, genres := ["Drama", "Action"], length := 120, imdb := 8, rating := 2 } := by
    simp [twinGraph, BipartiteGraph.addItem, BipartiteGraph.empty, Map.insert, Map.find]
  have h := (content_similarity_in_unit_interval twinGraph 1 2 _ _ h1 h2
    (by norm_num) (by norm_num) (by norm_num) (by norm_num) (by norm_num)).1
  ⟨h1, h.1, h.2⟩

section DegenerateSimilarity

variable {F : Type} [LinearOrderedField F]

theorem Map.find_foldl_insert_isSome {V : Type} (r : List (Int × V)) (i : Int) :
    ∀ m : Map Int V,
      (Map.find (r.foldl (fun m e => Map.insert m e.1 e.2) m) i).isSome
        ↔ (Map.find m i).isSome ∨ i ∈ r.map Prod.fst := by
  induction r with
  | nil =>
    intro m
    simp
  | cons e t ih =>
    intro m
    simp only [List.foldl, List.map_cons, List.mem_cons]
    rw [ih]
    by_cases he : i = e.1
    · subst he
      simp [Map.find_insert_self]
    · rw [Map.find_insert_ne _ _ _ _ he]
      simp [he]

theorem squareSum_nonneg (r : List (Int × F)) : 0 ≤ squareSum r := by
  unfold squareSum
  apply List.sum_nonneg
  intro x hx
  obtain ⟨e, _, rfl⟩ := List.mem_map.mp hx
  exact mul_self_nonneg e.2

theorem squareSum_zero_of_zero (r : List (Int × F)) (h : ∀ e ∈ r, e.2 = 0) :
    squareSum r = 0 := by
  unfold squareSum
  apply List.sum_eq_zero
  intro x hx
  obtain ⟨e, he, rfl⟩ := List.mem_map.mp hx
  rw [h e he]
  simp

theorem commonCount_zero_of_disjoint {G : Type} (r1 r2 : List (Int × G))
    (h : ∀ e ∈ r2, e.1 ∉ r1.map Prod.fst) : commonCount r1 r2 = 0 := by
  unfold commonCount
  rw [List.length_eq_zero, List.filter_eq_nil_iff]
  intro e he
  simpa using h e he

theorem Collaborative.calculateSimilarity_guarded (sqrt : F → F) (g : BipartiteGraph F)
    (u1 u2 : Int) (r1 r2 : List (Int × F)) (hne : u1 ≠ u2)
    (h1 : Map.find g.user_to_items u1 = some r1) (h2 : Map.find g.user_to_items u2 = some r2) :
    (DegenerateRatings r1 r2 → Collaborative.calculateSimilarity sqrt g u1 u2 = 0)
      ∧ (¬ DegenerateRatings r1 r2 →
          ∃ dotProduct,
            Collaborative.calculateSimilarity sqrt g u1 u2
              = dotProduct / (sqrt (squareSum r1) * sqrt (squareSum r2))) := by
  by_cases he1 : r1 = []
  · refine ⟨fun _ => ?_, fun hd => absurd (Or.inl he1) hd⟩
    simp [Collaborative.calculateSimilarity, hne, h1, h2, he1]
  by_cases he2 : r2 = []
  · refine ⟨fun _ => ?_, fun hd => absurd (Or.inr (Or.inl he2)) hd⟩
    simp [Collaborative.calculateSimilarity, hne, h1, h2, he2]
  rw [Collaborative.calculateSimilarity_unfold sqrt g u1 u2 r1 r2 hne h1 h2 he1 he2]
  rw [foldl_add_sq, Collaborative.foldl_dotStep]
  simp only [zero_add]
  have hcount : ((r2.filter (fun e =>
      (Map.find (r1.foldl (fun m e => Map.insert m e.1 e.2) ([] : Map Int F)) e.1).isSome)).length
        : Int) = (commonCount r1 r2 : Int) := by
    unfold commonCount
    congr 2
    apply List.filter_congr
    intro e _
    have := Map.find_foldl_insert_isSome r1 e.1 ([] : Map Int F)
    simp only [Map.find, Option.isSome_none, Bool.false_eq_true, false_or] at this
    rw [Bool.eq_iff_iff, this]
    simp
  rw [hcount]
  have hs1 : (r1.map (fun e => e.2 * e.2)).sum = squareSum r1 := rfl
  have hs2 : (r2.map (fun e => e.2 * e.2)).sum = squareSum r2 := rfl
  rw [hs1, hs2]
  constructor
  · intro hd
    have hc : squareSum r1 = 0 ∨ squareSum r2 = 0 ∨ (commonCount r1 r2 : Int) < 1 := by
      rcases hd with h | h | h | h | h
      · exact absurd h he1
      · exact absurd h he2
      · exact Or.inl h
      · exact Or.inr (Or.inl h)
      · exact Or.inr (Or.inr (by exact_mod_cast h))
    simp only [hc, if_true]
  · intro hd
    have hc : ¬ (squareSum r1 = 0 ∨ squareSum r2 = 0 ∨ (commonCount r1 r2 : Int) < 1) := by
      rintro (h | h | h)
      · exact hd (Or.inr (Or.inr (Or.inl h)))
      · exact hd (Or.inr (Or.inr (Or.inr (Or.inl h))))
      · exact hd (Or.inr (Or.inr (Or.inr (Or.inr (by exact_mod_cast h)))))
    simp only [hc, if_false]
    exact ⟨_, rfl⟩

end DegenerateSimilarity

/-- C28: for two distinct ids `Collaborative.calculateSimilarity` returns exactly 0 in each
degenerate case: a user is missing, a user has no ratings, the users have no commonly rated
item, or the ratings of a user are all 0. The division is reached only when both squared
magnitudes are positive, and then the divisor `sqrt norm1 * sqrt norm2` is not zero (`sqrt`
stands for `std::sqrt`, positive on positive arguments). -/
theorem similarity_degenerate_zero {F : Type} [LinearOrderedField F] (sqrt : F → F)
    (g : BipartiteGraph F) (u1 u2 : Int) (hne : u1 ≠ u2) :
    ((Map.find g.user_to_items u1 = none ∨ Map.find g.user_to_items u2 = none) →
        Collaborative.calculateSimilarity sqrt g u1 u2 = 0)
      ∧ ∀ r1 r2, Map.find g.user_to_items u1 = some r1 → Map.find g.user_to_items u2 = some r2 →
          ((r1 = [] ∨ r2 = []) → Collaborative.calculateSimilarity sqrt g u1 u2 = 0)
          ∧ ((∀ e ∈ r2, e.1 ∉ r1.map Prod.fst) →
              Collaborative.calculateSimilarity sqrt g u1 u2 = 0)
          ∧ (((∀ e ∈ r1, e.2 = 0) ∨ (∀ e ∈ r2, e.2 = 0)) →
              Collaborative.calculateSimilarity sqrt g u1 u2 = 0)
          ∧ (DegenerateRatings r1 r2 → Collaborative.calculateSimilarity sqrt g u1 u2 = 0)
          ∧ (¬ DegenerateRatings r1 r2 →
              0 < squareSum r1 ∧ 0 < squareSum r2
                ∧ (∃ dotProduct,
                    Collaborative.calculateSimilarity sqrt g u1 u2
                      = dotProduct / (sqrt (squareSum r1) * sqrt (squareSum r2)))
                ∧ ((∀ x, 0 < x → 0 < sqrt x) →
                    sqrt (squareSum r1) * sqrt (squareSum r2) ≠ 0)) := by
  constructor
  · intro h
    unfold Collaborative.calculateSimilarity
    simp only [hne, if_false]
    rcases h with h | h
    · rw [h]
    · rw [h]
      cases Map.find g.user_to_items u1 <;> rfl
  · intro r1 r2 h1 h2
    obtain ⟨hdeg, hdiv⟩ := Collaborative.calculateSimilarity_guarded sqrt g u1 u2 r1 r2 hne h1 h2
    refine ⟨?_, ?_, ?_, hdeg, ?_⟩
    · rintro (h | h)
      · exact hdeg (Or.inl h)
      · exact hdeg (Or.inr (Or.inl h))
    · intro h
      apply hdeg
      right; right; right; right
      rw [commonCount_zero_of_disjoint r1 r2 h]
      exact Nat.zero_lt_one
    · rintro (h | h)
      · exact hdeg (Or.inr (Or.inr (Or.inl (squareSum_zero_of_zero r1 h))))
      · exact hdeg (Or.inr (Or.inr (Or.inr (Or.inl (squareSum_zero_of_zero r2 h)))))
    · intro hd
      have hp1 : 0 < squareSum r1 := by
        rcases eq_or_lt_of_le (squareSum_nonneg r1) with h | h
        · exact absurd (Or.inr (Or.inr (Or.inl h.symm))) hd
        · exact h
      have hp2 : 0 < squareSum r2 := by
        rcases eq_or_lt_of_le (squareSum_nonneg r2) with h | h
        · exact absurd (Or.inr (Or.inr (Or.inr (Or.inl h.symm)))) hd
        · exact h
      exact ⟨hp1, hp2, hdiv hd, fun hsqrt => (mul_pos (hsqrt _ hp1) (hsqrt _ hp2)).ne'⟩

/-- C28 on the four-user graph: user 9 is missing, so the similarity of users 1 and 9
is 0. -/
theorem similarity_degenerate_zero_witness :
    (1 : Int) ≠ 9 ∧ Collaborative.calculateSimilarity Real.sqrt (cosineGraph ℝ) 1 9 = 0 :=
  ⟨by norm_num,
    (similarity_degenerate_zero Real.sqrt (cosineGraph ℝ) 1 9 (by norm_num)).1
      (Or.inr (by rw [cosineGraph_users]; simp [Map.find]))⟩

section HybridScore

variable {F : Type} [LinearOrderedField F]

theorem collabContribution_eq (recs : List (Int × F)) (itemId : Int) :
    collabContribution recs itemId
      = ((recs.find? (fun r => decide (r.1 = itemId))).map Prod.snd).getD 0 := by
  unfold collabContribution
  induction recs with
  | nil => rfl
  | cons e t ih =>
    obtain ⟨k, v⟩ := e
    by_cases hk : k = itemId
    · simp [List.find?, Map.find, hk]
    · simp only [List.find?, Map.find, hk, decide_False, if_false]
      exact ih

theorem foldl_content (g : BipartiteGraph F) (itemId : Int) (ratings : List (Int × F)) :
    ∀ a : F × F,
      ratings.foldl
          (fun a e => (a.1 + Content.calculateSimilarity g e.1 itemId * e.2, a.2 + e.2)) a
        = (a.1 + contentSum g ratings itemId, a.2 + ratingSum ratings) := by
  induction ratings with
  | nil =>
    intro a
    simp [contentSum, ratingSum]
  | cons e t ih =>
    intro a
    simp only [List.foldl, ih, contentSum, ratingSum, List.map_cons, List.sum_cons, add_assoc]

theorem Hybrid.calculateHybridScore_miss (h : Hybrid F) (g : BipartiteGraph F)
    (c : Collaborative F) (collabRank : PageRank F) (userId itemId : Int)
    (ratings : List (Int × F)) (hu : Map.find g.user_to_items userId = some ratings)
    (hmiss : Map.find h.hybridScoreCache (Hybrid.createKey userId itemId) = none) :
    h.calculateHybridScore g c collabRank userId itemId
      = (some (collabWeight (h.pageRank.getPageRank userId)
              * collabContribution (c.getRecommendations g collabRank userId 5).1 itemId
            + contentWeight (h.pageRank.getPageRank userId)
              * contentContribution g ratings itemId),
          { h with
            hybridScoreCache :=
              Map.insert h.hybridScoreCache (Hybrid.createKey userId itemId)
                (collabWeight (h.pageRank.getPageRank userId)
                    * collabContribution (c.getRecommendations g collabRank userId 5).1 itemId
                  + contentWeight (h.pageRank.getPageRank userId)
                    * contentContribution g ratings itemId) },
          (c.getRecommendations g collabRank userId 5).2) := by
  simp only [Hybrid.calculateHybridScore, hmiss, hu, foldl_content, zero_add,
    collabContribution_eq]
  cases List.find? (fun r => decide (r.1 = itemId))
      (c.getRecommendations g collabRank userId 5).1 <;> rfl

theorem weights_sum_one (rank : F) (h : 0 ≤ rank) : collabWeight rank + contentWeight rank = 1 := by
  unfold collabWeight contentWeight
  have hpos : (0 : F) < 6 / 10 * (1 + rank) + 4 / 10 := by linarith
  rw [← add_div]
  exact div_self hpos.ne'

end HybridScore

section DislikeGraph

variable {F : Type} [LinearOrderedField F]

theorem dislikeGraph_users (F : Type) [LinearOrderedField F] :
    (dislikeGraph F).user_to_items = [(1, [(1, -1)])] := by
  simp [dislikeGraph, BipartiteGraph.run, BipartiteGraph.step, BipartiteGraph.addItem,
    BipartiteGraph.addUser, BipartiteGraph.empty, Map.insert, Map.find, Map.modify]

theorem dislikeGraph_items (F : Type) [LinearOrderedField F] :
    (dislikeGraph F).items
      = [(1, { id := 1, genres := ["Action"], length := 120, imdb := 8, rating := 2020 }),
         (2, { id := 2, genres := ["Action"], length := 120, imdb := 8, rating := 2020 })] := by
  simp [dislikeGraph, BipartiteGraph.run, BipartiteGraph.step, BipartiteGraph.addItem,
    BipartiteGraph.addUser, BipartiteGraph.empty, Map.insert, Map.find, Map.modify]

theorem dislikeGraph_round (exp : F → F) :
    PageRank.normalizeRanks
      ((dislikeGraph F).user_to_items.foldl
        (PageRank.rankStep exp (dislikeGraph F) [(1, 1)] 1) ([], 0)).1
      = [(1, 1)] := by
  rw [PageRank.round_fst, dislikeGraph_users]
  simp only [List.map_cons, List.map_nil, List.foldl, Map.insert, PageRank.newRankOf_eq]
  rw [dislikeGraph_users]
  simp only [List.map_cons, List.map_nil, List.sum_cons, List.sum_nil, contributionOf,
    if_true, List.length_cons, List.length_nil]
  norm_num [PageRank.normalizeRanks, PageRank.DAMPING, PageRank.MIN_RANK, List.foldl]

theorem dislikeGraph_ranks (exp : F → F) :
    (PageRank.construct exp (dislikeGraph F)).ranks = [(1, 1)] := by
  have hinit : (PageRank.initializeRanks (dislikeGraph F) { ranks := [] }).ranks
      = [(1, 1)] := by
    simp only [PageRank.initializeRanks, dislikeGraph_users]
    norm_num [List.foldl, Map.insert]
  have hmax : (dislikeGraph F).user_to_items.foldl (fun m u => max m u.2.length) 0 = 1 := by
    rw [dislikeGraph_users]
    rfl
  simp only [PageRank.construct, PageRank.calculatePageRanks, dislikeGraph_users,
    dislikeGraph_items]
  simp only [List.isEmpty_cons, Bool.false_eq_true, or_self, if_false]
  rw [← dislikeGraph_users, hinit, hmax]
  exact PageRank.iterate_fixed exp _ 1 _ (dislikeGraph_round exp) _

theorem dislikeGraph_collab (c : Collaborative F) (pageRank : PageRank F) :
    (c.getRecommendations (dislikeGraph F) pageRank 1 5).1 = [] := by
  rw [Collaborative.getRecommendations_neighbours c (dislikeGraph F) pageRank 1 5 [(1, -1)]
    (by rw [dislikeGraph_users]; simp [Map.find]) (by simp)]
  have hn : neighbours c (dislikeGraph F) 1 = [] := by
    unfold neighbours
    rw [dislikeGraph_users]
    simp [stdSort, truncate]
  simp [hn, weightedRatings, truncate, stdSort]

theorem dislikeGraph_similarity (F : Type) [LinearOrderedField F] :
    Content.calculateSimilarity (dislikeGraph F) 1 2 = 1 := by
  rw [Content.calculateSimilarity_eq_spec (dislikeGraph F) 1 2
    { id := 1, genres := ["Action"], length := 120, imdb := 8, rating := 2020 }
    { id := 2, genres := ["Action"], length := 120, imdb := 8, rating := 2020 }
    (by norm_num) (by rw [dislikeGraph_items]; simp [Map.find])
    (by rw [dislikeGraph_items]; simp [Map.find])]
  norm_num [contentSimilaritySpec, jaccardSpec]

theorem dislikeGraph_score (exp : F → F) (c : Collaborative F) :
    (Hybrid.calculateHybridScore
        { pageRank := PageRank.construct exp (dislikeGraph F), hybridScoreCache := [] }
        (dislikeGraph F) c (PageRank.construct exp (dislikeGraph F)) 1 2).1
      = some (-(1 / 4)) := by
  rw [Hybrid.calculateHybridScore_miss _ (dislikeGraph F) c _ 1 2 [(1, -1)]
    (by rw [dislikeGraph_users]; simp [Map.find]) (by simp [Map.find])]
  simp only [dislikeGraph_collab, PageRank.getPageRank, dislikeGraph_ranks]
  norm_num [Map.find, collabWeight, contentWeight, collabContribution, contentContribution,
    contentSum, ratingSum, dislikeGraph_similarity]

theorem dislikeGraph_spec (exp : F → F) (c : Collaborative F) :
    hybridScoreSpec (dislikeGraph F)
        (c.getRecommendations (dislikeGraph F) (PageRank.construct exp (dislikeGraph F)) 1 5).1
        [(1, -1)] ((PageRank.construct exp (dislikeGraph F)).getPageRank 1) 2
      = 1 / 4 := by
  simp only [dislikeGraph_collab, PageRank.getPageRank, dislikeGraph_ranks]
  norm_num [Map.find, hybridScoreSpec, collabWeight, contentWeight, collabContribution,
    contentSum, ratingSum, dislikeGraph_similarity]

end DislikeGraph

/-- C23, counterexample to the claim as stated: user 1 is present with the single stored
rating `(1, -1)`, the hybrid cache is empty, the rank table is the one constructed on the
graph (rank 1 for user 1, so `wc = 3/4` and `wt = 1/4`), the collaborative list is empty
(`C = 0`) and `Content.calculateSimilarity (1, 2) = 1`. The rating sum is `-1`, so the code
skips the division and returns `wt · (-1) = -1/4`, whereas the stated formula with
`T = (-1) / (-1) = 1` gives `1/4`. -/
theorem hybrid_score_negative_rating_sum :
    Map.find (dislikeGraph ℝ).user_to_items 1 = some [(1, -1)]
      ∧ Map.find ([] : Map Nat ℝ) (Hybrid.createKey 1 2) = none
      ∧ (Hybrid.calculateHybridScore
            { pageRank := PageRank.construct Real.exp (dislikeGraph ℝ), hybridScoreCache := [] }
            (dislikeGraph ℝ) { similarityCache := [], cacheAccessCount := [] }
            (PageRank.construct Real.exp (dislikeGraph ℝ)) 1 2).1
          = some (-(1 / 4))
      ∧ hybridScoreSpec (dislikeGraph ℝ)
            (({ similarityCache := [], cacheAccessCount := [] } :
                Collaborative ℝ).getRecommendations (dislikeGraph ℝ)
              (PageRank.construct Real.exp (dislikeGraph ℝ)) 1 5).1
            [(1, -1)] ((PageRank.construct Real.exp (dislikeGraph ℝ)).getPageRank 1) 2
          = 1 / 4 :=
  ⟨by rw [dislikeGraph_users]; simp [Map.find], rfl, dislikeGraph_score Real.exp _,
    dislikeGraph_spec Real.exp _⟩

/-- C23, amended: for a user present in the graph, on a hybrid-cache miss
`calculateHybridScore userId itemId` returns `wc·C + wt·T`, where `C` is the score paired
with `itemId` in `Collaborative.getRecommendations userId 5` (0 when `itemId` is not in that
list), `T = Σ_j sim (j, itemId)·r_j / Σ_j r_j` over the stored ratings when `Σ_j r_j > 0` and
`T = Σ_j sim (j, itemId)·r_j` otherwise, `wc = 0.6·(1 + rank) / (0.6·(1 + rank) + 0.4)` and
`wt = 0.4 / (0.6·(1 + rank) + 0.4)` with `rank` the rank of `userId` in the rank table of the
Hybrid object. `wc + wt = 1` for every non-negative rank, in particular for every
constructed rank table. The returned value is stored in the hybrid cache under the key of
`(userId, itemId)`, and the rank table is unchanged. -/
theorem hybrid_score_formula {F : Type} [LinearOrderedField F] (h : Hybrid F)
    (g : BipartiteGraph F) (c : Collaborative F) (collabRank : PageRank F)
    (userId itemId : Int) (ratings : List (Int × F))
    (hu : Map.find g.user_to_items userId = some ratings)
    (hmiss : Map.find h.hybridScoreCache (Hybrid.createKey userId itemId) = none) :
    (h.calculateHybridScore g c collabRank userId itemId).1
        = some (collabWeight (h.pageRank.getPageRank userId)
              * collabContribution (c.getRecommendations g collabRank userId 5).1 itemId
            + contentWeight (h.pageRank.getPageRank userId)
              * contentContribution g ratings itemId)
      ∧ Map.find (h.calculateHybridScore g c collabRank userId itemId).2.1.hybridScoreCache
          (Hybrid.createKey userId itemId)
        = some (collabWeight (h.pageRank.getPageRank userId)
              * collabContribution (c.getRecommendations g collabRank userId 5).1 itemId
            + contentWeight (h.pageRank.getPageRank userId)
              * contentContribution g ratings itemId)
      ∧ (h.calculateHybridScore g c collabRank userId itemId).2.1.pageRank = h.pageRank
      ∧ (0 < ratingSum ratings →
          contentContribution g ratings itemId
              = contentSum g ratings itemId / ratingSum ratings
            ∧ (h.calculateHybridScore g c collabRank userId itemId).1
              = some (hybridScoreSpec g (c.getRecommendations g collabRank userId 5).1 ratings
                  (h.pageRank.getPageRank userId) itemId))
      ∧ (¬ 0 < ratingSum ratings →
          contentContribution g ratings itemId = contentSum g ratings itemId)
      ∧ (0 ≤ h.pageRank.getPageRank userId →
          collabWeight (h.pageRank.getPageRank userId)
            + contentWeight (h.pageRank.getPageRank userId) = 1)
      ∧ (∀ (exp : F → F) (g0 : BipartiteGraph F), (∀ x, 0 < exp x) →
          h.pageRank = PageRank.construct exp g0 →
          collabWeight (h.pageRank.getPageRank userId)
            + contentWeight (h.pageRank.getPageRank userId) = 1) := by
  have hcall := Hybrid.calculateHybridScore_miss h g c collabRank userId itemId ratings hu hmiss
  refine ⟨?_, ?_, ?_, ?_, ?_, weights_sum_one _, ?_⟩
  · rw [hcall]
  · rw [hcall]
    exact Map.find_insert_self _ _ _
  · rw [hcall]
  · intro hpos
    have hT : contentContribution g ratings itemId
        = contentSum g ratings itemId / ratingSum ratings := by
      unfold contentContribution
      simp only [gt_iff_lt, hpos, if_true]
    refine ⟨hT, ?_⟩
    rw [hcall, hT]
    rfl
  · intro hneg
    unfold contentContribution
    simp only [gt_iff_lt, hneg, if_false]
  · intro exp g0 hexp hpr
    apply weights_sum_one
    have hb := PageRank.getPageRank_bounds h.pageRank
      (by rw [hpr]; exact PageRank.construct_bounds exp hexp g0) userId
    exact le_trans PageRank.min_rank_pos.le hb.1

/-- C23 on the graph with two items and one user who rated item 1: the score of item 2 for
user 1, computed on an empty hybrid cache. -/
theorem hybrid_score_formula_witness :
    Map.find hybridGraph.user_to_items 1 = some [(1, 5)]
      ∧ Map.find emptyHybrid.hybridScoreCache (Hybrid.createKey 1 2) = none
      ∧ (emptyHybrid.calculateHybridScore hybridGraph emptyCollaborative emptyPageRank 1 2).1
        = some (collabWeight (emptyHybrid.pageRank.getPageRank 1)
              * collabContribution
                  (emptyCollaborative.getRecommendations hybridGraph emptyPageRank 1 5).1 2
            + contentWeight (emptyHybrid.pageRank.getPageRank 1)
              * contentContribution hybridGraph [(1, 5)] 2) :=
  have hu : Map.find hybridGraph.user_to_items 1 = some [(1, 5)] := by
    rw [hybridGraph_users]
    simp [Map.find]
  ⟨hu, rfl,
    (hybrid_score_formula emptyHybrid hybridGraph emptyCollaborative emptyPageRank 1 2 [(1, 5)]
      hu rfl).1⟩

section HybridCache

variable {F : Type} [LinearOrderedField F]

theorem Hybrid.calculateHybridScore_hit (h : Hybrid F) (g : BipartiteGraph F)
    (c : Collaborative F) (collabRank : PageRank F) (userId itemId : Int) (v : F)
    (hhit : Map.find h.hybridScoreCache (Hybrid.createKey userId itemId) = some v) :
    h.calculateHybridScore g c collabRank userId itemId = (some v, h, c) := by
  simp only [Hybrid.calculateHybridScore, hhit]

theorem Hybrid.calculateHybridScore_keeps (h : Hybrid F) (g : BipartiteGraph F)
    (c : Collaborative F) (collabRank : PageRank F) (userId itemId : Int) (k : Nat) (v : F)
    (hk : Map.find h.hybridScoreCache k = some v) :
    Map.find (h.calculateHybridScore g c collabRank userId itemId).2.1.hybridScoreCache k
      = some v := by
  cases hc : Map.find h.hybridScoreCache (Hybrid.createKey userId itemId) with
  | some w =>
    rw [Hybrid.calculateHybridScore_hit h g c collabRank userId itemId w hc]
    exact hk
  | none =>
    cases hu : Map.find g.user_to_items userId with
    | none =>
      simp only [Hybrid.calculateHybridScore, hc, hu]
      exact hk
    | some ratings =>
      rw [Hybrid.calculateHybridScore_miss h g c collabRank userId itemId ratings hu hc]
      have hne : k ≠ Hybrid.createKey userId itemId := by
        intro e
        rw [e, hc] at hk
        exact Option.noConfusion hk
      simp only [Map.find_insert_ne _ _ _ _ hne]
      exact hk

theorem Hybrid.calculateHybridScore_stores (h : Hybrid F) (g : BipartiteGraph F)
    (c : Collaborative F) (collabRank : PageRank F) (userId itemId : Int) (v : F)
    (hv : (h.calculateHybridScore g c collabRank userId itemId).1 = some v) :
    Map.find (h.calculateHybridScore g c collabRank userId itemId).2.1.hybridScoreCache
      (Hybrid.createKey userId itemId) = some v := by
  cases hc : Map.find h.hybridScoreCache (Hybrid.createKey userId itemId) with
  | some w =>
    rw [Hybrid.calculateHybridScore_hit h g c collabRank userId itemId w hc] at hv ⊢
    simp only [Option.some.injEq] at hv
    rw [← hv]
    exact hc
  | none =>
    cases hu : Map.find g.user_to_items userId with
    | none =>
      simp [Hybrid.calculateHybridScore, hc, hu] at hv
    | some ratings =>
      rw [Hybrid.calculateHybridScore_miss h g c collabRank userId itemId ratings hu hc] at hv ⊢
      simp only [Option.some.injEq] at hv
      rw [← hv]
      exact Map.find_insert_self _ _ _

theorem Hybrid.calculateHybridScore_rank (h : Hybrid F) (g : BipartiteGraph F)
    (c : Collaborative F) (collabRank : PageRank F) (userId itemId : Int) :
    (h.calculateHybridScore g c collabRank userId itemId).2.1.pageRank = h.pageRank := by
  cases hc : Map.find h.hybridScoreCache (Hybrid.createKey userId itemId) with
  | some w => rw [Hybrid.calculateHybridScore_hit h g c collabRank userId itemId w hc]
  | none =>
    cases hu : Map.find g.user_to_items userId with
    | none => simp only [Hybrid.calculateHybridScore, hc, hu]
    | some ratings =>
      rw [Hybrid.calculateHybridScore_miss h g c collabRank userId itemId ratings hu hc]

theorem Hybrid.scoreUnwatched_keeps (g : BipartiteGraph F) (collabRank : PageRank F)
    (userId : Int) (watchedMovies : USet Int)
    (acc : Option (List (Int × F)) × Hybrid F × Collaborative F)
    (it : Int × BipartiteGraph.Item F) (k : Nat) (v : F)
    (hk : Map.find acc.2.1.hybridScoreCache k = some v) :
    Map.find (Hybrid.scoreUnwatched g collabRank userId watchedMovies acc it).2.1.hybridScoreCache
        k = some v
      ∧ (Hybrid.scoreUnwatched g collabRank userId watchedMovies acc it).2.1.pageRank
        = acc.2.1.pageRank := by
  unfold Hybrid.scoreUnwatched
  cases h1 : acc.1 with
  | none => exact ⟨hk, rfl⟩
  | some recs =>
    by_cases hw : USet.count watchedMovies it.1 = 0
    · simp only [hw, if_true]
      have hkeep := Hybrid.calculateHybridScore_keeps acc.2.1 g acc.2.2 collabRank userId it.1
        k v hk
      have hrank := Hybrid.calculateHybridScore_rank acc.2.1 g acc.2.2 collabRank userId it.1
      cases h2 : (Hybrid.calculateHybridScore acc.2.1 g acc.2.2 collabRank userId it.1).1 with
      | none => exact ⟨hkeep, hrank⟩
      | some score => exact ⟨hkeep, hrank⟩
    · simp only [hw, if_false]
      exact ⟨hk, trivial⟩

end HybridCache
section HybridCacheLater

variable {F : Type} [LinearOrderedField F]

theorem Hybrid.foldl_scoreUnwatched_keeps (g : BipartiteGraph F) (collabRank : PageRank F)
    (userId : Int) (watchedMovies : USet Int) (items : List (Int × BipartiteGraph.Item F))
    (k : Nat) (v : F) :
    ∀ acc : Option (List (Int × F)) × Hybrid F × Collaborative F,
      Map.find acc.2.1.hybridScoreCache k = some v →
      Map.find (items.foldl (Hybrid.scoreUnwatched g collabRank userId watchedMovies)
          acc).2.1.hybridScoreCache k = some v := by
  induction items with
  | nil =>
    intro acc hk
    exact hk
  | cons it t ih =>
    intro acc hk
    simp only [List.foldl]
    exact ih _ (Hybrid.scoreUnwatched_keeps g collabRank userId watchedMovies acc it k v hk).1

theorem Hybrid.foldl_scoreUnwatched_rank (g : BipartiteGraph F) (collabRank : PageRank F)
    (userId : Int) (watchedMovies : USet Int) (items : List (Int × BipartiteGraph.Item F)) :
    ∀ acc : Option (List (Int × F)) × Hybrid F × Collaborative F,
      (items.foldl (Hybrid.scoreUnwatched g collabRank userId watchedMovies) acc).2.1.pageRank
        = acc.2.1.pageRank := by
  induction items with
  | nil =>
    intro acc
    rfl
  | cons it t ih =>
    intro acc
    simp only [List.foldl]
    rw [ih]
    unfold Hybrid.scoreUnwatched
    cases h1 : acc.1 with
    | none => rfl
    | some recs =>
      by_cases hw : USet.count watchedMovies it.1 = 0
      · simp only [hw, if_true]
        have hrank := Hybrid.calculateHybridScore_rank acc.2.1 g acc.2.2 collabRank userId it.1
        cases h2 : (Hybrid.calculateHybridScore acc.2.1 g acc.2.2 collabRank userId it.1).1 with
        | none => exact hrank
        | some score => exact hrank
      · simp only [hw, if_false]

theorem Hybrid.getRecommendations_state (h : Hybrid F) (g : BipartiteGraph F)
    (c : Collaborative F) (collabRank : PageRank F) (userId : Int) (n : Nat) :
    (h.getRecommendations g c collabRank userId n).2.1 = h
      ∨ ∃ ratings : List (Int × F), (h.getRecommendations g c collabRank userId n).2.1
          = (g.items.foldl
              (Hybrid.scoreUnwatched g collabRank userId
                (ratings.foldl (fun s e => USet.insert s e.1) []))
              (some [], h, c)).2.1 := by
  cases hu : Map.find g.user_to_items userId with
  | none =>
    left
    simp only [Hybrid.getRecommendations, hu]
  | some ratings =>
    right
    refine ⟨ratings, ?_⟩
    simp only [Hybrid.getRecommendations, hu]
    cases h1 : (g.items.foldl
        (Hybrid.scoreUnwatched g collabRank userId
          (ratings.foldl (fun s e => USet.insert s e.1) []))
        (some [], h, c)).1 with
    | none => rfl
    | some recs => rfl

theorem Hybrid.getRecommendations_keeps (h : Hybrid F) (g : BipartiteGraph F)
    (c : Collaborative F) (collabRank : PageRank F) (userId : Int) (n : Nat) (k : Nat) (v : F)
    (hk : Map.find h.hybridScoreCache k = some v) :
    Map.find (h.getRecommendations g c collabRank userId n).2.1.hybridScoreCache k = some v
      ∧ (h.getRecommendations g c collabRank userId n).2.1.pageRank = h.pageRank := by
  rcases Hybrid.getRecommendations_state h g c collabRank userId n with hs | ⟨ratings, hs⟩
  · rw [hs]
    exact ⟨hk, rfl⟩
  · rw [hs]
    exact ⟨Hybrid.foldl_scoreUnwatched_keeps g collabRank userId _ g.items k v _ hk,
      Hybrid.foldl_scoreUnwatched_rank g collabRank userId _ g.items _⟩

theorem Hybrid.getRecommendations_rank (h : Hybrid F) (g : BipartiteGraph F)
    (c : Collaborative F) (collabRank : PageRank F) (userId : Int) (n : Nat) :
    (h.getRecommendations g c collabRank userId n).2.1.pageRank = h.pageRank := by
  rcases Hybrid.getRecommendations_state h g c collabRank userId n with hs | ⟨ratings, hs⟩
  · rw [hs]
  · rw [hs]
    exact Hybrid.foldl_scoreUnwatched_rank g collabRank userId _ g.items _

theorem Hybrid.later_keeps (h h2 : Hybrid F) (hl : Hybrid.Later h h2) :
    (∀ k v, Map.find h.hybridScoreCache k = some v → Map.find h2.hybridScoreCache k = some v)
      ∧ h2.pageRank = h.pageRank := by
  induction hl with
  | refl => exact ⟨fun _ _ hk => hk, rfl⟩
  | score h3 g c collabRank userId movieId _ ih =>
    refine ⟨fun k v hk => ?_, ?_⟩
    · exact Hybrid.calculateHybridScore_keeps h3 g c collabRank userId movieId k v (ih.1 k v hk)
    · rw [Hybrid.calculateHybridScore_rank]
      exact ih.2
  | recommend h3 g c collabRank userId n _ ih =>
    refine ⟨fun k v hk => ?_, ?_⟩
    · exact (Hybrid.getRecommendations_keeps h3 g c collabRank userId n k v (ih.1 k v hk)).1
    · rw [Hybrid.getRecommendations_rank]
      exact ih.2

end HybridCacheLater

/-- C25: hybrid cache hits return immediately. Once `calculateHybridScore u i` has returned
a value `v`, every call with the same `(u, i)` on any later state of the same Hybrid object
returns `v`, whatever the graph, the collaborative state and its rank table are at that
time, and the call changes neither the Hybrid object nor the collaborative state (nothing
is recomputed). Later states keep every entry of the hybrid cache with its value, and the
rank table of the Hybrid object: entries are only added. -/
theorem hybrid_cache_hits {F : Type} [LinearOrderedField F] (h : Hybrid F)
    (g : BipartiteGraph F) (c : Collaborative F) (collabRank : PageRank F) (u i : Int) (v : F)
    (hv : (h.calculateHybridScore g c collabRank u i).1 = some v) :
    (∀ h2, Hybrid.Later (h.calculateHybridScore g c collabRank u i).2.1 h2 →
        ∀ (g2 : BipartiteGraph F) (c2 : Collaborative F) (collabRank2 : PageRank F),
          h2.calculateHybridScore g2 c2 collabRank2 u i = (some v, h2, c2))
      ∧ (∀ h1 h2 : Hybrid F, Hybrid.Later h1 h2 →
          (∀ k w, Map.find h1.hybridScoreCache k = some w →
            Map.find h2.hybridScoreCache k = some w)
          ∧ h2.pageRank = h1.pageRank) := by
  refine ⟨?_, Hybrid.later_keeps⟩
  intro h2 hl g2 c2 collabRank2
  apply Hybrid.calculateHybridScore_hit
  exact (Hybrid.later_keeps _ h2 hl).1 _ v
    (Hybrid.calculateHybridScore_stores h g c collabRank u i v hv)

/-- C25, witness: on the graph with two identical items and user 1 who rated item 1 with
`-1`, the first call for `(1, 2)` on an empty cache returns `-1/4`; every later state of the
object answers `(1, 2)` with `-1/4` for every graph and collaborative state, unchanged. -/
theorem hybrid_cache_hits_witness :
    (Hybrid.calculateHybridScore
        { pageRank := PageRank.construct Real.exp (dislikeGraph ℝ), hybridScoreCache := [] }
        (dislikeGraph ℝ) { similarityCache := [], cacheAccessCount := [] }
        (PageRank.construct Real.exp (dislikeGraph ℝ)) 1 2).1 = some (-(1 / 4))
      ∧ ∀ h2, Hybrid.Later
          (Hybrid.calculateHybridScore
            { pageRank := PageRank.construct Real.exp (dislikeGraph ℝ), hybridScoreCache := [] }
            (dislikeGraph ℝ) { similarityCache := [], cacheAccessCount := [] }
            (PageRank.construct Real.exp (dislikeGraph ℝ)) 1 2).2.1 h2 →
          ∀ (g2 : BipartiteGraph ℝ) (c2 : Collaborative ℝ) (collabRank2 : PageRank ℝ),
            h2.calculateHybridScore g2 c2 collabRank2 1 2 = (some (-(1 / 4)), h2, c2) :=
  ⟨dislikeGraph_score Real.exp _,
    (hybrid_cache_hits _ _ _ _ 1 2 _ (dislikeGraph_score Real.exp _)).1⟩

theorem lor_mod_two_pow (a b n : Nat) : (a ||| b) % 2 ^ n = a % 2 ^ n ||| b % 2 ^ n := by
  apply Nat.eq_of_testBit_eq
  intro i
  simp only [Nat.testBit_mod_two_pow, Nat.testBit_or]
  cases decide (i < n) <;> simp

theorem Hybrid.createKey_mod (u i : Int) :
    ((Hybrid.createKey u i : Nat) : Int) % 2 ^ 32 = i % 2 ^ 32 := by
  unfold Hybrid.createKey shl32
  have h1 : (((toUInt64 u <<< 32) % 2 ^ 64 ||| toUInt64 i) % 2 ^ 32 : Nat)
      = toUInt64 i % 2 ^ 32 := by
    rw [lor_mod_two_pow, Nat.shiftLeft_eq]
    have h2 : toUInt64 u * 2 ^ 32 % 2 ^ 64 % 2 ^ 32 = 0 := by omega
    rw [h2, Nat.zero_or]
  have h4 : ((toUInt64 i : Nat) : Int) = i % 2 ^ 64 := by
    unfold toUInt64
    exact Int.toNat_of_nonneg (Int.emod_nonneg _ (by norm_num))
  have h3 : ((((toUInt64 u <<< 32) % 2 ^ 64 ||| toUInt64 i) % 2 ^ 32 : Nat) : Int)
      = ((toUInt64 i % 2 ^ 32 : Nat) : Int) := by
    rw [h1]
  rw [Int.natCast_mod, Int.natCast_mod, h4] at h3
  norm_num at h3 ⊢
  rw [h3]

theorem Hybrid.createKey_item_injective (u i j : Int) (hi : -2 ^ 31 ≤ i ∧ i < 2 ^ 31)
    (hj : -2 ^ 31 ≤ j ∧ j < 2 ^ 31) (h : Hybrid.createKey u i = Hybrid.createKey u j) :
    i = j := by
  have h1 := Hybrid.createKey_mod u i
  have h2 := Hybrid.createKey_mod u j
  rw [h] at h1
  rw [h1] at h2
  omega
section CollaborativeCacheReads

variable {F : Type} [LinearOrderedField F]

theorem Collaborative.getCachedSimilarity_sim (c : Collaborative F) (a b : Int) :
    (c.getCachedSimilarity a b).2.similarityCache = c.similarityCache := by
  unfold Collaborative.getCachedSimilarity
  by_cases hab : a = b
  · simp only [hab, if_true]
  · simp only [hab, if_false]
    cases Map.find c.similarityCache (Collaborative.createPairKey a b) <;> rfl

theorem Collaborative.getCachedSimilarity_congr (c1 c2 : Collaborative F)
    (h : c1.similarityCache = c2.similarityCache) (a b : Int) :
    (c1.getCachedSimilarity a b).1 = (c2.getCachedSimilarity a b).1 := by
  unfold Collaborative.getCachedSimilarity
  by_cases hab : a = b
  · simp only [hab, if_true]
  · simp only [hab, if_false]
    rw [h]
    cases Map.find c2.similarityCache (Collaborative.createPairKey a b) <;> rfl

theorem Collaborative.foldl_collectSimilar_congr (userId : Int)
    (users : List (Int × List (Int × F))) :
    ∀ acc1 acc2 : List (Int × F) × Collaborative F, acc1.1 = acc2.1 →
      acc1.2.similarityCache = acc2.2.similarityCache →
      (users.foldl (Collaborative.collectSimilar userId) acc1).1
          = (users.foldl (Collaborative.collectSimilar userId) acc2).1
        ∧ (users.foldl (Collaborative.collectSimilar userId) acc1).2.similarityCache
          = acc1.2.similarityCache := by
  induction users with
  | nil =>
    intro acc1 acc2 h1 _
    exact ⟨h1, rfl⟩
  | cons u t ih =>
    intro acc1 acc2 h1 h2
    simp only [List.foldl]
    have hstep : (Collaborative.collectSimilar userId acc1 u).1
          = (Collaborative.collectSimilar userId acc2 u).1
        ∧ (Collaborative.collectSimilar userId acc1 u).2.similarityCache
          = acc1.2.similarityCache
        ∧ (Collaborative.collectSimilar userId acc2 u).2.similarityCache
          = acc2.2.similarityCache := by
      unfold Collaborative.collectSimilar
      by_cases hu : u.1 = userId
      · simp only [hu, if_true]
        exact ⟨h1, trivial, trivial⟩
      · simp only [hu, if_false]
        rw [Collaborative.getCachedSimilarity_congr acc1.2 acc2.2 h2 userId u.1, h1]
        by_cases hpos : (acc2.2.getCachedSimilarity userId u.1).1 > 0
        · simp only [hpos, if_true]
          exact ⟨trivial, Collaborative.getCachedSimilarity_sim _ _ _,
            Collaborative.getCachedSimilarity_sim _ _ _⟩
        · simp only [hpos, if_false]
          exact ⟨trivial, Collaborative.getCachedSimilarity_sim _ _ _,
            Collaborative.getCachedSimilarity_sim _ _ _⟩
    have h3 := ih _ _ hstep.1 (hstep.2.1.trans (h2.trans hstep.2.2.symm))
    exact ⟨h3.1, h3.2.trans hstep.2.1⟩

theorem Collaborative.getRecommendations_congr (c1 c2 : Collaborative F)
    (h : c1.similarityCache = c2.similarityCache) (g : BipartiteGraph F)
    (pageRank : PageRank F) (userId : Int) (n : Nat) :
    (c1.getRecommendations g pageRank userId n).1 = (c2.getRecommendations g pageRank userId n).1
      ∧ (c1.getRecommendations g pageRank userId n).2.similarityCache = c1.similarityCache := by
  have hf := Collaborative.foldl_collectSimilar_congr userId g.user_to_items
    (([] : List (Int × F)), c1) ([], c2) rfl h
  unfold Collaborative.getRecommendations
  simp only []
  split_ifs
  · exact ⟨rfl, rfl⟩
  · exact ⟨rfl, rfl⟩
  · exact ⟨by rw [hf.1], hf.2⟩

end CollaborativeCacheReads
section HybridScoredList

variable {F : Type} [LinearOrderedField F]

theorem Hybrid.calculateHybridScore_new (h : Hybrid F) (g : BipartiteGraph F)
    (c : Collaborative F) (collabRank : PageRank F) (userId itemId : Int) (k : Nat) (v : F)
    (hk : Map.find (h.calculateHybridScore g c collabRank userId itemId).2.1.hybridScoreCache k
      = some v) :
    Map.find h.hybridScoreCache k = some v ∨ k = Hybrid.createKey userId itemId := by
  cases hc : Map.find h.hybridScoreCache (Hybrid.createKey userId itemId) with
  | some w =>
    rw [Hybrid.calculateHybridScore_hit h g c collabRank userId itemId w hc] at hk
    exact Or.inl hk
  | none =>
    cases hu : Map.find g.user_to_items userId with
    | none =>
      simp only [Hybrid.calculateHybridScore, hc, hu] at hk
      exact Or.inl hk
    | some ratings =>
      rw [Hybrid.calculateHybridScore_miss h g c collabRank userId itemId ratings hu hc] at hk
      by_cases hne : k = Hybrid.createKey userId itemId
      · exact Or.inr hne
      · rw [Map.find_insert_ne _ _ _ _ hne] at hk
        exact Or.inl hk

theorem Hybrid.calculateHybridScore_sim (h : Hybrid F) (g : BipartiteGraph F)
    (c : Collaborative F) (collabRank : PageRank F) (userId itemId : Int) :
    (h.calculateHybridScore g c collabRank userId itemId).2.2.similarityCache
      = c.similarityCache := by
  cases hc : Map.find h.hybridScoreCache (Hybrid.createKey userId itemId) with
  | some w => rw [Hybrid.calculateHybridScore_hit h g c collabRank userId itemId w hc]
  | none =>
    cases hu : Map.find g.user_to_items userId with
    | none =>
      simp only [Hybrid.calculateHybridScore, hc, hu]
      exact (Collaborative.getRecommendations_congr c c rfl g collabRank userId 5).2
    | some ratings =>
      rw [Hybrid.calculateHybridScore_miss h g c collabRank userId itemId ratings hu hc]
      exact (Collaborative.getRecommendations_congr c c rfl g collabRank userId 5).2

theorem Hybrid.calculateHybridScore_congr (h1 h2 : Hybrid F) (g : BipartiteGraph F)
    (c1 c2 : Collaborative F) (collabRank : PageRank F) (userId itemId : Int)
    (hrank : h1.pageRank = h2.pageRank) (hsim : c1.similarityCache = c2.similarityCache)
    (hkey : Map.find h1.hybridScoreCache (Hybrid.createKey userId itemId)
      = Map.find h2.hybridScoreCache (Hybrid.createKey userId itemId)) :
    (h1.calculateHybridScore g c1 collabRank userId itemId).1
      = (h2.calculateHybridScore g c2 collabRank userId itemId).1 := by
  cases hc : Map.find h2.hybridScoreCache (Hybrid.createKey userId itemId) with
  | some w =>
    rw [Hybrid.calculateHybridScore_hit h2 g c2 collabRank userId itemId w hc,
      Hybrid.calculateHybridScore_hit h1 g c1 collabRank userId itemId w (hkey.trans hc)]
  | none =>
    cases hu : Map.find g.user_to_items userId with
    | none => simp only [Hybrid.calculateHybridScore, hc, hkey, hu]
    | some ratings =>
      rw [Hybrid.calculateHybridScore_miss h2 g c2 collabRank userId itemId ratings hu hc,
        Hybrid.calculateHybridScore_miss h1 g c1 collabRank userId itemId ratings hu
          (hkey.trans hc),
        hrank, (Collaborative.getRecommendations_congr c1 c2 hsim g collabRank userId 5).1]

theorem Hybrid.scoreUnwatched_some (g : BipartiteGraph F) (collabRank : PageRank F)
    (userId : Int) (watchedMovies : USet Int) (ratings : List (Int × F))
    (hu : Map.find g.user_to_items userId = some ratings) (recs : List (Int × F))
    (h : Hybrid F) (c : Collaborative F) (it : Int × BipartiteGraph.Item F) :
    (USet.count watchedMovies it.1 = 0 →
        ∃ score, (h.calculateHybridScore g c collabRank userId it.1).1 = some score
          ∧ Hybrid.scoreUnwatched g collabRank userId watchedMovies (some recs, h, c) it
            = (some (recs ++ [(it.1, score)]),
                (h.calculateHybridScore g c collabRank userId it.1).2))
      ∧ (¬ USet.count watchedMovies it.1 = 0 →
          Hybrid.scoreUnwatched g collabRank userId watchedMovies (some recs, h, c) it
            = (some recs, h, c)) := by
  constructor
  · intro hw
    obtain ⟨score, hs⟩ := Hybrid.calculateHybridScore_isSome h g c collabRank userId it.1
      ratings hu
    refine ⟨score, hs, ?_⟩
    simp [Hybrid.scoreUnwatched, hw, hs]
  · intro hw
    simp [Hybrid.scoreUnwatched, hw]

/-- The scoring loop appends one entry per unwatched item, in table order, and every
appended score is in the hybrid cache of the final state under the key of its pair. -/
theorem Hybrid.foldl_scoreUnwatched_spec (g : BipartiteGraph F) (collabRank : PageRank F)
    (userId : Int) (watchedMovies : USet Int) (ratings : List (Int × F))
    (hu : Map.find g.user_to_items userId = some ratings)
    (items : List (Int × BipartiteGraph.Item F)) :
    ∀ (recs : List (Int × F)) (h : Hybrid F) (c : Collaborative F),
      ∃ scored : List (Int × F),
        (items.foldl (Hybrid.scoreUnwatched g collabRank userId watchedMovies)
            (some recs, h, c)).1 = some (recs ++ scored)
          ∧ scored.map Prod.fst
            = (items.map Prod.fst).filter (fun i => decide (USet.count watchedMovies i = 0))
          ∧ ∀ e ∈ scored,
              Map.find (items.foldl (Hybrid.scoreUnwatched g collabRank userId watchedMovies)
                (some recs, h, c)).2.1.hybridScoreCache (Hybrid.createKey userId e.1)
                = some e.2 := by
  induction items with
  | nil =>
    intro recs h c
    exact ⟨[], by simp, by simp, by simp⟩
  | cons it t ih =>
    intro recs h c
    have hstep := Hybrid.scoreUnwatched_some g collabRank userId watchedMovies ratings hu recs
      h c it
    simp only [List.foldl]
    by_cases hw : USet.count watchedMovies it.1 = 0
    · obtain ⟨score, hs, heq⟩ := hstep.1 hw
      rw [heq]
      obtain ⟨scored, h1, h2, h3⟩ := ih (recs ++ [(it.1, score)])
        (h.calculateHybridScore g c collabRank userId it.1).2.1
        (h.calculateHybridScore g c collabRank userId it.1).2.2
      refine ⟨(it.1, score) :: scored, ?_, ?_, ?_⟩
      · rw [h1]
        simp
      · simp [hw, h2]
      · intro e he
        rcases List.mem_cons.mp he with he | he
        · rw [he]
          exact Hybrid.foldl_scoreUnwatched_keeps g collabRank userId watchedMovies t _ score _
            (Hybrid.calculateHybridScore_stores h g c collabRank userId it.1 score hs)
        · exact h3 e he
    · rw [hstep.2 hw]
      obtain ⟨scored, h1, h2, h3⟩ := ih recs h c
      exact ⟨scored, h1, by simp [hw, h2], h3⟩

/-- When the item ids are pairwise distinct 32-bit integers, every score the loop appends is
the value `calculateHybridScore` returns for that pair on the states the loop started
from. -/
theorem Hybrid.foldl_scoreUnwatched_initial (g : BipartiteGraph F) (collabRank : PageRank F)
    (userId : Int) (watchedMovies : USet Int) (h : Hybrid F) (c : Collaborative F)
    (items : List (Int × BipartiteGraph.Item F)) :
    ∀ (done : List Int) (acc : Option (List (Int × F)) × Hybrid F × Collaborative F),
      (done ++ items.map Prod.fst).Nodup →
      (∀ i ∈ done ++ items.map Prod.fst, -2 ^ 31 ≤ i ∧ i < 2 ^ 31) →
      acc.2.1.pageRank = h.pageRank →
      acc.2.2.similarityCache = c.similarityCache →
      (∀ k v, Map.find h.hybridScoreCache k = some v →
        Map.find acc.2.1.hybridScoreCache k = some v) →
      (∀ k v, Map.find acc.2.1.hybridScoreCache k = some v →
        Map.find h.hybridScoreCache k = some v ∨ ∃ j ∈ done, k = Hybrid.createKey userId j) →
      (∀ recs, acc.1 = some recs →
        ∀ e ∈ recs, (h.calculateHybridScore g c collabRank userId e.1).1 = some e.2) →
      ∀ recs,
        (items.foldl (Hybrid.scoreUnwatched g collabRank userId watchedMovies) acc).1
          = some recs →
        ∀ e ∈ recs, (h.calculateHybridScore g c collabRank userId e.1).1 = some e.2 := by
  induction items with
  | nil =>
    intro done acc _ _ _ _ _ _ hacc recs hrecs
    exact hacc recs hrecs
  | cons it t ih =>
    intro done acc hnd hrange hrank hsim hkeep hnew hacc
    simp only [List.foldl]
    have hnd2 : ((done ++ [it.1]) ++ t.map Prod.fst).Nodup := by
      simpa [List.append_assoc] using hnd
    have hrange2 : ∀ i ∈ (done ++ [it.1]) ++ t.map Prod.fst, -2 ^ 31 ≤ i ∧ i < 2 ^ 31 := by
      intro i hi
      apply hrange i
      simpa [List.append_assoc] using hi
    have hit : it.1 ∉ done := by
      intro hmem
      have h1 := List.nodup_append.mp hnd
      exact h1.2.2 hmem (by simp)
    apply ih (done ++ [it.1]) _ hnd2 hrange2
    · -- rank table
      unfold Hybrid.scoreUnwatched
      cases h1 : acc.1 with
      | none => exact hrank
      | some old =>
        by_cases hw : USet.count watchedMovies it.1 = 0
        · simp only [hw, if_true]
          have hr := Hybrid.calculateHybridScore_rank acc.2.1 g acc.2.2 collabRank userId it.1
          cases h2 : (Hybrid.calculateHybridScore acc.2.1 g acc.2.2 collabRank userId it.1).1 with
          | none => exact hr.trans hrank
          | some score => exact hr.trans hrank
        · simp only [hw, if_false]
          exact hrank
    · -- similarity cache
      unfold Hybrid.scoreUnwatched
      cases h1 : acc.1 with
      | none => exact hsim
      | some old =>
        by_cases hw : USet.count watchedMovies it.1 = 0
        · simp only [hw, if_true]
          have hr := Hybrid.calculateHybridScore_sim acc.2.1 g acc.2.2 collabRank userId it.1
          cases h2 : (Hybrid.calculateHybridScore acc.2.1 g acc.2.2 collabRank userId it.1).1 with
          | none => exact hr.trans hsim
          | some score => exact hr.trans hsim
        · simp only [hw, if_false]
          exact hsim
    · -- old entries are kept
      intro k v hk
      exact (Hybrid.scoreUnwatched_keeps g collabRank userId watchedMovies acc it k v
        (hkeep k v hk)).1
    · -- new entries belong to processed items
      intro k v hk
      have hcases : Map.find acc.2.1.hybridScoreCache k = some v
          ∨ k = Hybrid.createKey userId it.1 := by
        unfold Hybrid.scoreUnwatched at hk
        cases h1 : acc.1 with
        | none =>
          simp only [h1] at hk
          exact Or.inl hk
        | some old =>
          simp only [h1] at hk
          by_cases hw : USet.count watchedMovies it.1 = 0
          · simp only [hw, if_true] at hk
            have hr := Hybrid.calculateHybridScore_new acc.2.1 g acc.2.2 collabRank userId it.1
              k v
            cases h2 : (Hybrid.calculateHybridScore acc.2.1 g acc.2.2 collabRank userId
                it.1).1 with
            | none =>
              simp only [h2] at hk
              exact hr hk
            | some score =>
              simp only [h2] at hk
              exact hr hk
          · simp only [hw, if_false] at hk
            exact Or.inl hk
      rcases hcases with h1 | h1
      · rcases hnew k v h1 with h2 | ⟨j, hj, h2⟩
        · exact Or.inl h2
        · exact Or.inr ⟨j, by simp [hj], h2⟩
      · exact Or.inr ⟨it.1, by simp, h1⟩
    · -- scores
      intro recs hrecs e he
      unfold Hybrid.scoreUnwatched at hrecs
      cases h1 : acc.1 with
      | none => simp [h1] at hrecs
      | some old =>
        simp only [h1] at hrecs
        by_cases hw : USet.count watchedMovies it.1 = 0
        · simp only [hw, if_true] at hrecs
          have hkey : Map.find acc.2.1.hybridScoreCache (Hybrid.createKey userId it.1)
              = Map.find h.hybridScoreCache (Hybrid.createKey userId it.1) := by
            cases h3 : Map.find acc.2.1.hybridScoreCache (Hybrid.createKey userId it.1) with
            | none =>
              cases h4 : Map.find h.hybridScoreCache (Hybrid.createKey userId it.1) with
              | none => rfl
              | some w =>
                rw [hkeep _ w h4] at h3
                exact absurd h3 (by simp)
            | some w =>
              rcases hnew _ w h3 with h4 | ⟨j, hj, h4⟩
              · exact h4.symm
              · have hji := Hybrid.createKey_item_injective userId it.1 j
                  (hrange it.1 (by simp)) (hrange j (by simp [hj])) h4
                rw [← hji] at hj
                exact absurd hj hit
          have hsame := Hybrid.calculateHybridScore_congr acc.2.1 h g acc.2.2 c collabRank userId
            it.1 hrank hsim hkey
          cases h2 : (Hybrid.calculateHybridScore acc.2.1 g acc.2.2 collabRank userId it.1).1 with
          | none => simp [h2] at hrecs
          | some score =>
            simp only [h2, Option.some.injEq] at hrecs
            rw [← hrecs] at he
            rcases List.mem_append.mp he with h5 | h5
            · exact hacc old h1 e h5
            · rw [List.mem_singleton] at h5
              rw [h5, ← hsame, h2]
        · simp only [hw, if_false] at hrecs
          exact hacc recs hrecs e he

end HybridScoredList
theorem BipartiteGraph.run_items_nodup {F : Type} (ops : List (BipartiteGraph.Op F)) :
    ((BipartiteGraph.run ops).items.map Prod.fst).Nodup := by
  apply foldl_invariant BipartiteGraph.step
    (fun g : BipartiteGraph F => (g.items.map Prod.fst).Nodup)
  · simp [BipartiteGraph.empty]
  · intro g op _ hg
    cases op with
    | addItem id genres length imdb rating => exact Map.nodup_keys_insert _ _ _ hg
    | addUser id ratings => exact hg

theorem USet.mem_foldl_insert_fst {V : Type} (ratings : List (Int × V)) (s : USet Int)
    (k : Int) :
    k ∈ ratings.foldl (fun s e => USet.insert s e.1) s ↔ k ∈ s ∨ k ∈ ratings.map Prod.fst := by
  induction ratings generalizing s with
  | nil => simp
  | cons x t ih =>
    simp only [List.foldl, List.map_cons, List.mem_cons]
    rw [ih, USet.mem_insert_iff]
    tauto

theorem unratedItems_eq {F : Type} (g : BipartiteGraph F) (ratings : List (Int × F)) :
    (g.items.map Prod.fst).filter
        (fun i => decide (USet.count (ratings.foldl (fun s e => USet.insert s e.1) []) i = 0))
      = unratedItems g ratings := by
  unfold unratedItems
  apply List.filter_congr
  intro i _
  rw [decide_eq_decide, USet.count_eq_zero_iff, USet.mem_foldl_insert_fst]
  simp

theorem mem_unratedItems {F : Type} (g : BipartiteGraph F) (ratings : List (Int × F))
    (i : Int) :
    i ∈ unratedItems g ratings ↔ i ∈ g.items.map Prod.fst ∧ i ∉ ratings.map Prod.fst := by
  simp [unratedItems]

theorem truncate_of_length_le {β : Type} (v : List β) (n : Nat) (h : v.length ≤ n) :
    truncate v n = v := by
  unfold truncate
  simp [Nat.not_lt.mpr h]

section HybridUnrated

variable {F : Type} [LinearOrderedField F]

theorem Hybrid.getRecommendations_scored (h : Hybrid F) (g : BipartiteGraph F)
    (c : Collaborative F) (collabRank : PageRank F) (userId : Int) (n : Nat)
    (ratings : List (Int × F)) (hu : Map.find g.user_to_items userId = some ratings) :
    ∃ scored : List (Int × F),
      (g.items.foldl
          (Hybrid.scoreUnwatched g collabRank userId
            (ratings.foldl (fun s e => USet.insert s e.1) []))
          (some [], h, c)).1 = some scored
        ∧ h.getRecommendations g c collabRank userId n
          = (some (truncate (stdSort bySecondDesc scored) n),
              (g.items.foldl
                (Hybrid.scoreUnwatched g collabRank userId
                  (ratings.foldl (fun s e => USet.insert s e.1) []))
                (some [], h, c)).2)
        ∧ scored.map Prod.fst = unratedItems g ratings
        ∧ ∀ e ∈ scored,
            Map.find (h.getRecommendations g c collabRank userId n).2.1.hybridScoreCache
              (Hybrid.createKey userId e.1) = some e.2 := by
  obtain ⟨scored, h1, h2, h3⟩ := Hybrid.foldl_scoreUnwatched_spec g collabRank userId
    (ratings.foldl (fun s e => USet.insert s e.1) []) ratings hu g.items [] h c
  rw [List.nil_append] at h1
  have heq : h.getRecommendations g c collabRank userId n
      = (some (truncate (stdSort bySecondDesc scored) n),
          (g.items.foldl
            (Hybrid.scoreUnwatched g collabRank userId
              (ratings.foldl (fun s e => USet.insert s e.1) []))
            (some [], h, c)).2) := by
    simp only [Hybrid.getRecommendations, hu, h1]
  refine ⟨scored, h1, heq, ?_, ?_⟩
  · rw [h2, unratedItems_eq]
  · intro e he
    rw [heq]
    exact h3 e he

end HybridUnrated

/-- C24: for every user present in the graph, `Hybrid.getRecommendations userId n` returns
a list `recs` such that: every entry is a stored item the user has no rating for; when `n`
is at least the number of unrated items, the item ids of `recs` are exactly the unrated
items (a permutation of them); no id occurs twice when the ids of the item table are
pairwise distinct, as they are in every graph built by `addItem` and `addUser`
(`BipartiteGraph.run_items_nodup`); every entry `(i, s)` is paired with the value of
`calculateHybridScore userId i`: on the object after the call that function returns `s`
(for every graph and collaborative state), and when the item ids are distinct 32-bit
integers it also returns `s` on the object and collaborative state before the call; `recs`
is empty when the user has rated every item; and when every item is rated by this user or
by a second user, the two users get lists without a common item id. -/
theorem hybrid_recommends_unrated {F : Type} [LinearOrderedField F] (h : Hybrid F)
    (g : BipartiteGraph F) (c : Collaborative F) (collabRank : PageRank F) (userId : Int)
    (n : Nat) (ratings : List (Int × F))
    (hu : Map.find g.user_to_items userId = some ratings) :
    ∃ recs, (h.getRecommendations g c collabRank userId n).1 = some recs
      ∧ (∀ e ∈ recs, e.1 ∈ unratedItems g ratings)
      ∧ ((unratedItems g ratings).length ≤ n →
          (recs.map Prod.fst).Perm (unratedItems g ratings))
      ∧ ((g.items.map Prod.fst).Nodup → (recs.map Prod.fst).Nodup)
      ∧ (∀ e ∈ recs, ∀ (g2 : BipartiteGraph F) (c2 : Collaborative F) (rank2 : PageRank F),
          (h.getRecommendations g c collabRank userId n).2.1.calculateHybridScore g2 c2 rank2
              userId e.1
            = (some e.2, (h.getRecommendations g c collabRank userId n).2.1, c2))
      ∧ ((g.items.map Prod.fst).Nodup →
          (∀ i ∈ g.items.map Prod.fst, -2 ^ 31 ≤ i ∧ i < 2 ^ 31) →
          ∀ e ∈ recs, (h.calculateHybridScore g c collabRank userId e.1).1 = some e.2)
      ∧ (unratedItems g ratings = [] → recs = [])
      ∧ (∀ (h2 : Hybrid F) (c2 : Collaborative F) (rank2 : PageRank F) (userB : Int) (m : Nat)
          (ratingsB : List (Int × F)), Map.find g.user_to_items userB = some ratingsB →
          (∀ i ∈ g.items.map Prod.fst, i ∈ ratings.map Prod.fst ∨ i ∈ ratingsB.map Prod.fst) →
          ∀ recsB, (h2.getRecommendations g c2 rank2 userB m).1 = some recsB →
            ∀ e ∈ recs, ∀ e2 ∈ recsB, e.1 ≠ e2.1) := by
  obtain ⟨scored, hfold, heq, hkeys, hcache⟩ :=
    Hybrid.getRecommendations_scored h g c collabRank userId n ratings hu
  have hmem : ∀ e ∈ truncate (stdSort bySecondDesc scored) n, e ∈ scored :=
    fun e he => mem_of_mem_truncate_sort _ _ _ _ he
  have hunrated : ∀ e ∈ truncate (stdSort bySecondDesc scored) n,
      e.1 ∈ unratedItems g ratings := by
    intro e he
    rw [← hkeys]
    exact List.mem_map_of_mem Prod.fst (hmem e he)
  refine ⟨truncate (stdSort bySecondDesc scored) n, by rw [heq], hunrated, ?_, ?_, ?_, ?_, ?_,
    ?_⟩
  · intro hn
    have hlen : (stdSort bySecondDesc scored).length ≤ n := by
      rw [(stdSort_perm bySecondDesc scored).length_eq, ← List.length_map scored Prod.fst, hkeys]
      exact hn
    rw [truncate_of_length_le _ n hlen, ← hkeys]
    exact (stdSort_perm bySecondDesc scored).map Prod.fst
  · intro hnd
    have h1 : (scored.map Prod.fst).Nodup := by
      rw [hkeys]
      exact hnd.filter _
    have h2 : ((stdSort bySecondDesc scored).map Prod.fst).Nodup :=
      ((stdSort_perm bySecondDesc scored).map Prod.fst).nodup_iff.mpr h1
    exact h2.sublist ((truncate_sublist _ n).map Prod.fst)
  · intro e he g2 c2 rank2
    exact Hybrid.calculateHybridScore_hit _ g2 c2 rank2 userId e.1 e.2 (hcache e (hmem e he))
  · intro hnd hrange e he
    exact Hybrid.foldl_scoreUnwatched_initial g collabRank userId
      (ratings.foldl (fun s e => USet.insert s e.1) []) h c g.items [] (some [], h, c)
      (by simpa using hnd) (by simpa using hrange) rfl rfl (fun _ _ hk => hk)
      (fun _ _ hk => Or.inl hk) (by simp) scored hfold e (hmem e he)
  · intro hnone
    rw [hnone] at hkeys
    have h1 : scored = [] := List.map_eq_nil_iff.mp hkeys
    rw [h1]
    rfl
  · intro h2 c2 rank2 userB m ratingsB huB hcover recsB hrecsB e he e2 he2 hsame
    have h1 := (mem_unratedItems g ratings e.1).mp (hunrated e he)
    have h3 := Hybrid.hybridRecs_exclude_rated h2 g c2 rank2 userB m recsB hrecsB e2 he2
    apply h3
    rcases hcover e.1 h1.1 with h4 | h4
    · exact absurd h4 h1.2
    · obtain ⟨x, hx, hx1⟩ := List.mem_map.mp h4
      refine ⟨ratingsB, x.2, huB, ?_⟩
      rw [← hsame, ← hx1]
      exact hx

theorem singleGraph_users (F : Type) [LinearOrderedField F] :
    (singleGraph F).user_to_items = [(1, [(1, 5)])] := by
  simp [singleGraph, BipartiteGraph.run, BipartiteGraph.step, BipartiteGraph.addItem,
    BipartiteGraph.addUser, BipartiteGraph.empty, Map.insert, Map.find, Map.modify]

theorem singleGraph_items (F : Type) [LinearOrderedField F] :
    (singleGraph F).items
      = [(1, { id := 1, genres := ["Action"], length := 120, imdb := 8, rating := 2020 })] := by
  simp [singleGraph, BipartiteGraph.run, BipartiteGraph.step, BipartiteGraph.addItem,
    BipartiteGraph.addUser, BipartiteGraph.empty, Map.insert, Map.find, Map.modify]

theorem combinedGraph_users (F : Type) [LinearOrderedField F] :
    (combinedGraph F).user_to_items
      = [(1, [(1, 5), (2, 24 / 5)]), (2, [(3, 9 / 2)])] := by
  simp [combinedGraph, BipartiteGraph.run, BipartiteGraph.step, BipartiteGraph.addItem,
    BipartiteGraph.addUser, BipartiteGraph.empty, Map.insert, Map.find, Map.modify]

theorem combinedGraph_items (F : Type) [LinearOrderedField F] :
    (combinedGraph F).items
      = [(1, { id := 1, genres := ["Action"], length := 120, imdb := 8, rating := 2020 }),
         (2, { id := 2, genres := ["Action"], length := 115, imdb := 15 / 2, rating := 2020 }),
         (3, { id := 3, genres := ["Drama"], length := 110, imdb := 7, rating := 2020 })] := by
  simp [combinedGraph, BipartiteGraph.run, BipartiteGraph.step, BipartiteGraph.addItem,
    BipartiteGraph.addUser, BipartiteGraph.empty, Map.insert, Map.find, Map.modify]

/-- C24 on the two test graphs: with one item and one user who rated it the call for that
user returns the empty list; with items 1 and 2 rated by user 1 and item 3 rated by user 2,
the lists of the two users have no item id in common. -/
theorem hybrid_recommends_unrated_witness :
    Map.find (singleGraph ℚ).user_to_items 1 = some [(1, 5)]
      ∧ (emptyHybrid.getRecommendations (singleGraph ℚ) emptyCollaborative emptyPageRank 1 10).1
        = some []
      ∧ Map.find (combinedGraph ℚ).user_to_items 1 = some [(1, 5), (2, 24 / 5)]
      ∧ Map.find (combinedGraph ℚ).user_to_items 2 = some [(3, 9 / 2)]
      ∧ ∀ recs1 recs2,
          (emptyHybrid.getRecommendations (combinedGraph ℚ) emptyCollaborative emptyPageRank 1
            10).1 = some recs1 →
          (emptyHybrid.getRecommendations (combinedGraph ℚ) emptyCollaborative emptyPageRank 2
            10).1 = some recs2 →
          ∀ e ∈ recs1, ∀ e2 ∈ recs2, e.1 ≠ e2.1 := by
  have hu : Map.find (singleGraph ℚ).user_to_items 1 = some [(1, 5)] := by
    rw [singleGraph_users]
    simp [Map.find]
  have hu1 : Map.find (combinedGraph ℚ).user_to_items 1 = some [(1, 5), (2, 24 / 5)] := by
    rw [combinedGraph_users]
    simp [Map.find]
  have hu2 : Map.find (combinedGraph ℚ).user_to_items 2 = some [(3, 9 / 2)] := by
    rw [combinedGraph_users]
    simp [Map.find]
  refine ⟨hu, ?_, hu1, hu2, ?_⟩
  · obtain ⟨recs, h1, _, _, _, _, _, hempty, _⟩ :=
      hybrid_recommends_unrated emptyHybrid (singleGraph ℚ) emptyCollaborative emptyPageRank 1
        10 [(1, 5)] hu
    rw [h1, hempty (by simp [unratedItems, singleGraph_items])]
  · obtain ⟨recs, h1, _, _, _, _, _, _, hdisjoint⟩ :=
      hybrid_recommends_unrated emptyHybrid (combinedGraph ℚ) emptyCollaborative emptyPageRank 1
        10 [(1, 5), (2, 24 / 5)] hu1
    intro recs1 recs2 hr1 hr2
    rw [h1, Option.some.injEq] at hr1
    rw [← hr1]
    exact hdisjoint emptyHybrid emptyCollaborative emptyPageRank 2 10 [(3, 9 / 2)] hu2
      (by rw [combinedGraph_items]; simp) recs2 hr2

section UnknownIds

variable {F : Type} [LinearOrderedField F]

theorem Map.keys_foldl_insert {γ V : Type} (key : γ → Int) (val : γ → V) (l : List γ) :
    ∀ e ∈ l.foldl (fun (m : Map Int V) x => Map.insert m (key x) (val x)) [],
      e.1 ∈ l.map key := by
  apply foldl_invariant (fun (m : Map Int V) x => Map.insert m (key x) (val x))
    (fun m : Map Int V => ∀ e ∈ m, e.1 ∈ l.map key)
  · intro e he
    simp at he
  · intro m x hx hm e he
    rcases Map.mem_insert _ _ _ _ he with h1 | h1
    · rw [h1]
      exact List.mem_map_of_mem key hx
    · exact hm e h1

theorem PageRank.normalizeRanks_keys (ranks : Map Int F) :
    (PageRank.normalizeRanks ranks).map Prod.fst = ranks.map Prod.fst := by
  unfold PageRank.normalizeRanks
  simp only []
  split_ifs
  · rw [List.map_map]
    rfl
  · rfl

theorem PageRank.round_keys (exp : F → F) (g : BipartiteGraph F) (R : Map Int F)
    (maxRatings : Nat) :
    ∀ e ∈ (g.user_to_items.foldl (PageRank.rankStep exp g R maxRatings) ([], 0)).1,
      e.1 ∈ g.user_to_items.map Prod.fst := by
  intro e he
  rw [PageRank.round_fst] at he
  have h := Map.keys_foldl_insert (fun x : Int × F => x.1) (fun x : Int × F => x.2)
    (g.user_to_items.map (fun u => (u.1, PageRank.newRankOf exp g R maxRatings u))) e he
  rw [List.map_map] at h
  exact h

theorem PageRank.iterate_keys (exp : F → F) (g : BipartiteGraph F) (maxRatings : Nat)
    (k : Nat) :
    ∀ R : Map Int F, (∀ i ∈ R.map Prod.fst, i ∈ g.user_to_items.map Prod.fst) →
      ∀ i ∈ (PageRank.iterate exp g maxRatings k R).map Prod.fst,
        i ∈ g.user_to_items.map Prod.fst := by
  induction k with
  | zero =>
    intro R hR
    exact hR
  | succ k ih =>
    intro R _
    have hround : ∀ i ∈ (PageRank.normalizeRanks
        (g.user_to_items.foldl (PageRank.rankStep exp g R maxRatings) ([], 0)).1).map Prod.fst,
        i ∈ g.user_to_items.map Prod.fst := by
      intro i hi
      rw [PageRank.normalizeRanks_keys] at hi
      obtain ⟨e, he, rfl⟩ := List.mem_map.mp hi
      exact PageRank.round_keys exp g R maxRatings e he
    by_cases hconv : (g.user_to_items.foldl (PageRank.rankStep exp g R maxRatings) ([], 0)).2
        < PageRank.CONVERGENCE_THRESHOLD
    · rw [PageRank.iterate]
      simp only [hconv, if_true]
      exact hround
    · rw [PageRank.iterate]
      simp only [hconv, if_false]
      exact ih _ hround

/-- The rank table built by the constructor has entries for user ids of the graph only. -/
theorem PageRank.construct_keys (exp : F → F) (g : BipartiteGraph F) :
    ∀ i ∈ (PageRank.construct exp g).ranks.map Prod.fst, i ∈ g.user_to_items.map Prod.fst := by
  unfold PageRank.construct PageRank.calculatePageRanks
  simp only []
  split_ifs with hc
  · intro i hi
    simp at hi
  · apply PageRank.iterate_keys
    intro i hi
    have hemp : ¬ (g.user_to_items.isEmpty = true) := fun h => hc (Or.inl h)
    simp only [PageRank.initializeRanks, hemp, if_false] at hi
    obtain ⟨e, he, rfl⟩ := List.mem_map.mp hi
    have h := Map.keys_foldl_insert (fun u : Int × List (Int × F) => u.1)
      (fun _ : Int × List (Int × F) => (1 : F) / (g.user_to_items.length : F))
      g.user_to_items e he
    exact h

theorem PageRank.construct_unknown (exp : F → F) (g : BipartiteGraph F) (u : Int)
    (hu : Map.find g.user_to_items u = none) :
    (PageRank.construct exp g).getPageRank u = PageRank.MIN_RANK := by
  have hnot : u ∉ (PageRank.construct exp g).ranks.map Prod.fst := by
    intro hmem
    have h1 := (Map.find_isSome_iff g.user_to_items u).mpr (PageRank.construct_keys exp g u hmem)
    rw [hu] at h1
    exact absurd h1 (by simp)
  unfold PageRank.getPageRank
  rw [Map.find_eq_none_of_not_mem _ u hnot]

end UnknownIds
section UnknownItems

variable {F : Type} [LinearOrderedField F]

theorem Collaborative.influential_keys (g : BipartiteGraph F) (pageRank : PageRank F)
    (userMovies : USet Int) (n : Nat) :
    ∀ e ∈ Collaborative.getInfluentialRecommendations g pageRank userMovies n,
      (Map.find g.items e.1).isSome := by
  intro e he
  unfold Collaborative.getInfluentialRecommendations at he
  simp only [] at he
  split_ifs at he
  · simp at he
  · have h1 := mem_of_mem_truncate_sort _ _ _ _ he
    exact (Collaborative.toRecommendation_keys g.items (7 / 10) (3 / 10)
      (fun k => (Map.find g.items k).isSome ∧ k ∉ userMovies) _
      (Collaborative.weighted_keys g.items g.user_to_items userMovies (fun ur => ur.2) _)
      e h1).1

theorem qualityList_keys (g : BipartiteGraph F) (n : Nat) :
    ∀ e ∈ qualityList g n, (Map.find g.items e.1).isSome := by
  intro e he
  have h1 := mem_of_mem_truncate_sort _ _ _ _ he
  obtain ⟨it, hit, rfl⟩ := List.mem_map.mp h1
  exact (Map.find_isSome_iff g.items it.1).mpr (List.mem_map_of_mem Prod.fst hit)

/-- Every entry of a collaborative recommendation list is a stored item. -/
theorem Collaborative.collabRecs_exist (c : Collaborative F) (g : BipartiteGraph F)
    (pageRank : PageRank F) (userId : Int) (n : Nat) :
    ∀ e ∈ (c.getRecommendations g pageRank userId n).1, (Map.find g.items e.1).isSome := by
  have hcold : (Map.find g.user_to_items userId = none
      ∨ Map.find g.user_to_items userId = some []) →
      ∀ e ∈ (c.getRecommendations g pageRank userId n).1, (Map.find g.items e.1).isSome := by
    intro hu e he
    rw [Collaborative.coldStart_result c g pageRank userId n hu] at he
    simp only [] at he
    split_ifs at he
    · exact Collaborative.influential_keys g pageRank [] n e he
    · exact qualityList_keys g n e he
  cases hfind : Map.find g.user_to_items userId with
  | none => exact hcold (Or.inl hfind)
  | some ratings =>
    by_cases hnil : ratings = []
    · exact hcold (Or.inr (by rw [hfind, hnil]))
    · intro e he
      have hne : ¬ (ratings.isEmpty = true) := by
        rw [List.isEmpty_iff]
        exact hnil
      simp only [Collaborative.getRecommendations, hfind, Option.isNone_some, Option.getD_some,
        hne, Bool.false_eq_true, or_self, if_false] at he
      have h1 := mem_of_mem_truncate_sort _ _ _ _ he
      exact (Collaborative.toRecommendation_keys g.items (8 / 10) (2 / 10)
        (fun k => (Map.find g.items k).isSome
          ∧ k ∉ ratings.foldl
              (fun s e => if (Map.find g.items e.1).isSome then USet.insert s e.1 else s) [])
        _
        (Collaborative.weighted_keys g.items g.user_to_items
          (ratings.foldl
            (fun s e => if (Map.find g.items e.1).isSome then USet.insert s e.1 else s) [])
          (fun os => os.2 * pageRank.getPageRank os.1)
          (truncate (stdSort bySecondDesc
            (g.user_to_items.foldl (Collaborative.collectSimilar userId) ([], c)).1) 10))
        e h1).1

theorem Collaborative.userSimilarity_missing (sqrt : F → F) (g : BipartiteGraph F)
    (u1 u2 : Int) (hne : u1 ≠ u2)
    (h : Map.find g.user_to_items u1 = none ∨ Map.find g.user_to_items u2 = none) :
    Collaborative.calculateSimilarity sqrt g u1 u2 = 0 := by
  unfold Collaborative.calculateSimilarity
  simp only [hne, if_false]
  rcases h with h | h
  · rw [h]
  · rw [h]
    cases Map.find g.user_to_items u1 <;> rfl

theorem Collaborative.getCachedSimilarity_miss (c : Collaborative F) (u1 u2 : Int)
    (hne : u1 ≠ u2)
    (hmiss : Map.find c.similarityCache (Collaborative.createPairKey u1 u2) = none) :
    c.getCachedSimilarity u1 u2 = (0, c) := by
  unfold Collaborative.getCachedSimilarity
  simp only [hne, if_false, hmiss]

/-- In a graph built by `addItem` and `addUser` every stored rating refers to a stored
item. -/
theorem BipartiteGraph.run_ratings_exist {G : Type} (ops : List (BipartiteGraph.Op G)) :
    ∀ u ratings, Map.find (BipartiteGraph.run ops).user_to_items u = some ratings →
      ∀ e ∈ ratings, (Map.find (BipartiteGraph.run ops).items e.1).isSome := by
  apply foldl_invariant BipartiteGraph.step
    (fun g : BipartiteGraph G => ∀ u ratings, Map.find g.user_to_items u = some ratings →
      ∀ e ∈ ratings, (Map.find g.items e.1).isSome)
  · intro u ratings hfind
    simp [BipartiteGraph.empty, Map.find] at hfind
  · intro g op _ hg u ratings hfind e he
    cases op with
    | addItem id genres length imdb rating =>
      have h1 := hg u ratings hfind e he
      simp only [BipartiteGraph.step, BipartiteGraph.addItem]
      by_cases hid : e.1 = id
      · rw [hid, Map.find_insert_self]
        rfl
      · rw [Map.find_insert_ne _ _ _ _ hid]
        exact h1
    | addUser id ratings2 =>
      by_cases hid : u = id
      · rw [hid] at hfind
        have hstored : Map.find (g.addUser id ratings2).user_to_items id
            = some (ratings2.filter (fun e => (Map.find g.items e.1).isSome)) := by
          simp only [BipartiteGraph.addUser, Map.find_insert_self]
          have h := foldl_push_eq_filter (fun e : Int × G => (Map.find g.items e.1).isSome)
            ratings2 []
          simpa using h
        simp only [BipartiteGraph.step] at hfind
        rw [hstored] at hfind
        simp only [Option.some.injEq] at hfind
        rw [← hfind] at he
        exact (List.mem_filter.mp he).2
      · simp only [BipartiteGraph.step, BipartiteGraph.addUser] at hfind
        rw [Map.find_insert_ne _ _ _ _ hid] at hfind
        exact hg u ratings hfind e he

end UnknownItems
section UnknownHybrid

variable {F : Type} [LinearOrderedField F]

theorem contentSum_unknown (g : BipartiteGraph F) (ratings : List (Int × F)) (i : Int)
    (hi : Map.find g.items i = none) (hr : i ∉ ratings.map Prod.fst) :
    contentSum g ratings i = 0 := by
  unfold contentSum
  apply List.sum_eq_zero
  intro x hx
  obtain ⟨e, he, rfl⟩ := List.mem_map.mp hx
  have hne : e.1 ≠ i := by
    intro h
    apply hr
    rw [← h]
    exact List.mem_map_of_mem Prod.fst he
  rw [Content.calculateSimilarity_missing g e.1 i hne (Or.inr hi), zero_mul]

theorem Hybrid.calculateHybridScore_unknown_item (h : Hybrid F) (g : BipartiteGraph F)
    (c : Collaborative F) (collabRank : PageRank F) (userId i : Int) (ratings : List (Int × F))
    (hu : Map.find g.user_to_items userId = some ratings) (hi : Map.find g.items i = none)
    (hr : i ∉ ratings.map Prod.fst)
    (hmiss : Map.find h.hybridScoreCache (Hybrid.createKey userId i) = none) :
    (h.calculateHybridScore g c collabRank userId i).1 = some 0 := by
  rw [Hybrid.calculateHybridScore_miss h g c collabRank userId i ratings hu hmiss]
  have hc : collabContribution (c.getRecommendations g collabRank userId 5).1 i = 0 := by
    unfold collabContribution
    rw [Map.find_eq_none_of_not_mem]
    · rfl
    · intro hmem
      obtain ⟨e, he, hei⟩ := List.mem_map.mp hmem
      have h1 := Collaborative.collabRecs_exist c g collabRank userId 5 e he
      rw [hei, hi] at h1
      exact absurd h1 (by simp)
  have ht : contentContribution g ratings i = 0 := by
    unfold contentContribution
    rw [contentSum_unknown g ratings i hi hr]
    simp
  simp only [hc, ht, mul_zero, add_zero]

theorem Hybrid.calculateHybridScore_unknown_user (h : Hybrid F) (g : BipartiteGraph F)
    (c : Collaborative F) (collabRank : PageRank F) (u item : Int)
    (hu : Map.find g.user_to_items u = none)
    (hmiss : Map.find h.hybridScoreCache (Hybrid.createKey u item) = none) :
    h.calculateHybridScore g c collabRank u item = (none, h, c) := by
  simp only [Hybrid.calculateHybridScore, hmiss, hu]
  rw [Collaborative.coldStart_result c g collabRank u 5 (Or.inl hu)]

end UnknownHybrid

/-- C27, counterexample to the claim as stated: in the graph of
`test_Hybrid_CombinesAllComponents` user 9 is not present, and on a newly constructed Hybrid
object (empty score cache) `calculateHybridScore 9 1` does not complete: the read
`graph.getUserItems().at(9)` throws, so no score is returned. -/
theorem hybrid_score_unknown_user_fails :
    Map.find (combinedGraph ℝ).user_to_items 9 = none
      ∧ (Hybrid.calculateHybridScore
          { pageRank := PageRank.construct Real.exp (combinedGraph ℝ), hybridScoreCache := [] }
          (combinedGraph ℝ) { similarityCache := [], cacheAccessCount := [] }
          (PageRank.construct Real.exp (combinedGraph ℝ)) 9 1).1 = none := by
  have hu : Map.find (combinedGraph ℝ).user_to_items 9 = none := by
    rw [combinedGraph_users]
    simp [Map.find]
  refine ⟨hu, ?_⟩
  rw [Hybrid.calculateHybridScore_unknown_user _ _ _ _ 9 1 hu (by simp [Map.find])]

/-- C27, amended: for every graph, every user id `u` and item id `i` not present in it, and
every cache state: `Collaborative.calculateSimilarity` of `u` and any other user id is 0;
`Collaborative.getCachedSimilarity` of two distinct ids without cache entry is 0 and leaves
the caches unchanged; `Collaborative.getRecommendations u` is the fallback list (the
influence list, or the quality list when that is empty); `Content.calculateSimilarity` of
`i` and any other item id is 0; `Content.getRecommendations u` is the quality list;
`getPageRank u` is `MIN_RANK` on the constructed rank table and on every table without an
entry for `u`; `Hybrid.calculateHybridScore user i` for a present user without stored
rating of `i` returns 0 on a cache miss (in a graph built by `addItem` and `addUser` no
stored rating refers to an absent item). `Hybrid.calculateHybridScore u item` for the absent
user returns the cached value when the pair is in the hybrid cache and fails otherwise,
leaving all state unchanged. -/
theorem unknown_ids_resolved {F : Type} [LinearOrderedField F] (sqrt exp : F → F)
    (g : BipartiteGraph F) (c : Collaborative F) (pageRank : PageRank F) (h : Hybrid F)
    (u i : Int) (hu : Map.find g.user_to_items u = none) (hi : Map.find g.items i = none) :
    (∀ v, v ≠ u → Collaborative.calculateSimilarity sqrt g u v = 0
        ∧ Collaborative.calculateSimilarity sqrt g v u = 0)
      ∧ (∀ v w, v ≠ w →
          Map.find c.similarityCache (Collaborative.createPairKey v w) = none →
          c.getCachedSimilarity v w = (0, c))
      ∧ (∀ n, c.getRecommendations g pageRank u n
          = (if Collaborative.getInfluentialRecommendations g pageRank [] n ≠ [] then
              Collaborative.getInfluentialRecommendations g pageRank [] n
            else qualityList g n, c))
      ∧ (∀ j, j ≠ i → Content.calculateSimilarity g i j = 0
          ∧ Content.calculateSimilarity g j i = 0)
      ∧ (∀ n, Content.getRecommendations sqrt g u n = qualityList g n)
      ∧ (PageRank.construct exp g).getPageRank u = PageRank.MIN_RANK
      ∧ (Map.find pageRank.ranks u = none → pageRank.getPageRank u = PageRank.MIN_RANK)
      ∧ (∀ user ratings, Map.find g.user_to_items user = some ratings →
          i ∉ ratings.map Prod.fst →
          Map.find h.hybridScoreCache (Hybrid.createKey user i) = none →
          (h.calculateHybridScore g c pageRank user i).1 = some 0)
      ∧ (∀ ops : List (BipartiteGraph.Op F), ∀ user ratings,
          Map.find (BipartiteGraph.run ops).user_to_items user = some ratings →
          ∀ e ∈ ratings, (Map.find (BipartiteGraph.run ops).items e.1).isSome)
      ∧ (∀ item v, Map.find h.hybridScoreCache (Hybrid.createKey u item) = some v →
          h.calculateHybridScore g c pageRank u item = (some v, h, c))
      ∧ (∀ item, Map.find h.hybridScoreCache (Hybrid.createKey u item) = none →
          h.calculateHybridScore g c pageRank u item = (none, h, c)) := by
  refine ⟨?_, ?_, ?_, ?_, ?_, ?_, ?_, ?_, ?_, ?_, ?_⟩
  · intro v hv
    exact ⟨Collaborative.userSimilarity_missing sqrt g u v (fun e => hv e.symm) (Or.inl hu),
      Collaborative.userSimilarity_missing sqrt g v u hv (Or.inr hu)⟩
  · intro v w hvw hmiss
    exact Collaborative.getCachedSimilarity_miss c v w hvw hmiss
  · intro n
    exact Collaborative.coldStart_result c g pageRank u n (Or.inl hu)
  · intro j hj
    exact ⟨Content.calculateSimilarity_missing g i j (fun e => hj e.symm) (Or.inl hi),
      Content.calculateSimilarity_missing g j i hj (Or.inr hi)⟩
  · intro n
    exact Content.coldStart_eq sqrt g u n (Or.inl hu)
  · exact PageRank.construct_unknown exp g u hu
  · intro hnone
    simp [PageRank.getPageRank, hnone]
  · intro user ratings huser hr hmiss
    exact Hybrid.calculateHybridScore_unknown_item h g c pageRank user i ratings huser hi hr
      hmiss
  · exact BipartiteGraph.run_ratings_exist
  · intro item v hhit
    exact Hybrid.calculateHybridScore_hit h g c pageRank u item v hhit
  · intro item hmiss
    exact Hybrid.calculateHybridScore_unknown_user h g c pageRank u item hu hmiss

/-- C27 on the graph of `test_Hybrid_CombinesAllComponents`, where user 9 and item 9 are
absent: the similarity of users 9 and 1 is 0, user 9 has rank `MIN_RANK`, the content list
of user 9 is the quality list, and the hybrid score of the present user 1 for item 9 is 0
on an empty cache. -/
theorem unknown_ids_resolved_witness :
    Map.find (combinedGraph ℝ).user_to_items 9 = none
      ∧ Map.find (combinedGraph ℝ).items 9 = none
      ∧ Collaborative.calculateSimilarity Real.sqrt (combinedGraph ℝ) 9 1 = 0
      ∧ (PageRank.construct Real.exp (combinedGraph ℝ)).getPageRank 9 = PageRank.MIN_RANK
      ∧ Content.getRecommendations Real.sqrt (combinedGraph ℝ) 9 10
        = qualityList (combinedGraph ℝ) 10
      ∧ (Hybrid.calculateHybridScore
          { pageRank := PageRank.construct Real.exp (combinedGraph ℝ), hybridScoreCache := [] }
          (combinedGraph ℝ) { similarityCache := [], cacheAccessCount := [] }
          (PageRank.construct Real.exp (combinedGraph ℝ)) 1 9).1 = some 0 := by
  have hu : Map.find (combinedGraph ℝ).user_to_items 9 = none := by
    rw [combinedGraph_users]
    simp [Map.find]
  have hi : Map.find (combinedGraph ℝ).items 9 = none := by
    rw [combinedGraph_items]
    simp [Map.find]
  have hu1 : Map.find (combinedGraph ℝ).user_to_items 1 = some [(1, 5), (2, 24 / 5)] := by
    rw [combinedGraph_users]
    simp [Map.find]
  have h := unknown_ids_resolved Real.sqrt Real.exp (combinedGraph ℝ)
    { similarityCache := [], cacheAccessCount := [] }
    (PageRank.construct Real.exp (combinedGraph ℝ))
    { pageRank := PageRank.construct Real.exp (combinedGraph ℝ), hybridScoreCache := [] }
    9 9 hu hi
  exact ⟨hu, hi, (h.1 1 (by decide)).1, h.2.2.2.2.2.1, h.2.2.2.2.1 10,
    h.2.2.2.2.2.2.2.1 1 _ hu1 (by simp) (by simp [Map.find])⟩

section GenreMaps

variable {K V : Type} [DecidableEq K]

theorem Map.insert_of_not_mem (m : Map K V) (k : K) (v : V) (h : k ∉ m.map Prod.fst) :
    Map.insert m k v = m ++ [(k, v)] := by
  induction m with
  | nil => rfl
  | cons e t ih =>
    obtain ⟨k2, v2⟩ := e
    have h1 : k2 ≠ k := by
      intro he
      apply h
      simp [he]
    have h2 : k ∉ t.map Prod.fst := by
      intro hm
      apply h
      simp [hm]
    simp [Map.insert, h1, ih h2]

theorem Map.foldl_insert_map {W : Type} (f : K × V → W) (l : Map K V) :
    ∀ acc : Map K W, (acc.map Prod.fst ++ l.map Prod.fst).Nodup →
      l.foldl (fun m e => Map.insert m e.1 (f e)) acc = acc ++ l.map (fun e => (e.1, f e)) := by
  induction l with
  | nil =>
    intro acc _
    simp
  | cons e t ih =>
    intro acc hnd
    simp only [List.foldl, List.map_cons]
    have hnot : e.1 ∉ acc.map Prod.fst := by
      intro hm
      rw [List.map_cons] at hnd
      have h1 := List.nodup_append.mp hnd
      exact h1.2.2 hm (by simp)
    rw [Map.insert_of_not_mem acc e.1 _ hnot]
    have hnd2 : ((acc ++ [(e.1, f e)]).map Prod.fst ++ t.map Prod.fst).Nodup := by
      simpa [List.map_append] using hnd
    rw [ih _ hnd2]
    simp

theorem foldl_max_ge {F : Type} [LinearOrder F] (l : List F) :
    ∀ a : F, a ≤ l.foldl max a ∧ (∀ x ∈ l, x ≤ l.foldl max a)
      ∧ (l.foldl max a = a ∨ l.foldl max a ∈ l) := by
  induction l with
  | nil =>
    intro a
    simp
  | cons y t ih =>
    intro a
    obtain ⟨h1, h2, h3⟩ := ih (max a y)
    simp only [List.foldl]
    refine ⟨le_trans (le_max_left a y) h1, ?_, ?_⟩
    · intro x hx
      rcases List.mem_cons.mp hx with hx | hx
      · rw [hx]
        exact le_trans (le_max_right a y) h1
      · exact h2 x hx
    · rcases h3 with h3 | h3
      · rcases max_choice a y with h4 | h4
        · left
          rw [h3, h4]
        · right
          rw [h3, h4]
          exact List.mem_cons_self _ _
      · right
        exact List.mem_cons_of_mem _ h3

theorem foldl_max_congr {F : Type} [LinearOrder F] (l1 l2 : List F) (a : F)
    (h : ∀ x, x ∈ l1 ↔ x ∈ l2) : l1.foldl max a = l2.foldl max a := by
  obtain ⟨h1, h2, h3⟩ := foldl_max_ge l1 a
  obtain ⟨k1, k2, k3⟩ := foldl_max_ge l2 a
  apply le_antisymm
  · rcases h3 with h3 | h3
    · rw [h3]
      exact k1
    · exact k2 _ ((h _).mp h3)
  · rcases k3 with k3 | k3
    · rw [k3]
      exact h1
    · exact h2 _ ((h _).mpr k3)

end GenreMaps
section GenreStats

variable {F : Type} [LinearOrderedField F]

theorem Content.collectGenreStats_fst (g : BipartiteGraph F) (ratings : List (Int × F)) :
    ∀ acc : Map String (F × Int) × USet Int,
      (ratings.foldl (Content.collectGenreStats g.items) acc).1
        = (genreOccurrences g ratings).foldl Content.bumpGenre acc.1 := by
  induction ratings with
  | nil =>
    intro acc
    rfl
  | cons e t ih =>
    intro acc
    simp only [List.foldl]
    rw [ih]
    unfold genreOccurrences
    simp only [List.map_cons, List.flatten_cons, List.foldl_append]
    congr 1
    unfold Content.collectGenreStats
    cases Map.find g.items e.1 with
    | none => rfl
    | some movie =>
      simp only [List.foldl_map]
      rfl

theorem Content.collectGenreStats_snd (g : BipartiteGraph F) (ratings : List (Int × F)) :
    ∀ acc : Map String (F × Int) × USet Int,
      (ratings.foldl (Content.collectGenreStats g.items) acc).2
        = ratings.foldl
            (fun s e => if (fun e : Int × F => (Map.find g.items e.1).isSome) e then
              USet.insert s (Prod.fst e) else s) acc.2 := by
  induction ratings with
  | nil =>
    intro acc
    rfl
  | cons e t ih =>
    intro acc
    simp only [List.foldl]
    rw [ih]
    congr 1
    unfold Content.collectGenreStats
    split
    · rename_i movie hf
      simp [hf]
    · rename_i hf
      simp [hf]

theorem Content.find_bumpGenre (stats : Map String (F × Int)) (o : String × F)
    (genre : String) :
    Map.find (Content.bumpGenre stats o) genre
      = if o.1 = genre then
          some (((Map.find stats genre).getD (0, 0)).1 + o.2,
            ((Map.find stats genre).getD (0, 0)).2 + 1)
        else Map.find stats genre := by
  unfold Content.bumpGenre
  by_cases ho : o.1 = genre
  · simp only [ho, if_true]
    rw [Map.find_modify_self, Map.find_modify_self]
    rfl
  · simp only [ho, if_false]
    rw [Map.find_modify_ne _ _ _ _ _ (Ne.symm ho), Map.find_modify_ne _ _ _ _ _ (Ne.symm ho)]

theorem Content.find_foldl_bumpGenre (genre : String) (occ : List (String × F)) :
    ∀ stats : Map String (F × Int),
      Map.find (occ.foldl Content.bumpGenre stats) genre
        = if occ.filter (fun o => decide (o.1 = genre)) = [] then Map.find stats genre
          else
            some (((Map.find stats genre).getD (0, 0)).1
                + ((occ.filter (fun o => decide (o.1 = genre))).map Prod.snd).sum,
              ((Map.find stats genre).getD (0, 0)).2
                + (((occ.filter (fun o => decide (o.1 = genre))).length : Nat) : Int)) := by
  induction occ with
  | nil =>
    intro stats
    simp
  | cons o t ih =>
    intro stats
    simp only [List.foldl]
    rw [ih, Content.find_bumpGenre]
    by_cases ho : o.1 = genre
    · simp only [ho, if_true, List.filter_cons, decide_True, Option.getD_some, List.map_cons,
        List.sum_cons, List.length_cons]
      by_cases ht : t.filter (fun o => decide (o.1 = genre)) = []
      · simp [ht]
      · simp only [ht, if_false, reduceCtorEq, Option.some.injEq, Prod.mk.injEq]
        constructor
        · ring
        · push_cast
          ring
    · simp only [ho, if_false, List.filter_cons, decide_False]
      simp

theorem Content.nodup_foldl_bumpGenre (occ : List (String × F)) :
    ((occ.foldl Content.bumpGenre ([] : Map String (F × Int))).map Prod.fst).Nodup := by
  apply foldl_invariant Content.bumpGenre
    (fun stats : Map String (F × Int) => (stats.map Prod.fst).Nodup)
  · simp
  · intro stats o _ hs
    exact Map.nodup_keys_insert _ _ _ (Map.nodup_keys_insert _ _ _ hs)

theorem Content.keys_foldl_bumpGenre (occ : List (String × F)) :
    ∀ e ∈ occ.foldl Content.bumpGenre ([] : Map String (F × Int)), e.1 ∈ occ.map Prod.fst := by
  apply foldl_invariant Content.bumpGenre
    (fun stats : Map String (F × Int) => ∀ e ∈ stats, e.1 ∈ occ.map Prod.fst)
  · intro e he
    simp at he
  · intro stats o ho hs
    exact Map.keys_modify (fun k => k ∈ occ.map Prod.fst) _ o.1 _ _
      (Map.keys_modify (fun k => k ∈ occ.map Prod.fst) stats o.1 _ _ hs
        (List.mem_map_of_mem Prod.fst ho))
      (List.mem_map_of_mem Prod.fst ho)

/-- The entry of `genreStats` for a genre after the first loop: the sum and the number of
the user's ratings over the rated items having that genre. -/
theorem Content.find_genreStats (g : BipartiteGraph F) (ratings : List (Int × F))
    (genre : String) :
    Map.find (ratings.foldl (Content.collectGenreStats g.items) ([], [])).1 genre
      = if genre ∈ ratedGenres g ratings then
          some ((genreRatings g ratings genre).sum,
            (((genreRatings g ratings genre).length : Nat) : Int))
        else none := by
  rw [Content.collectGenreStats_fst, Content.find_foldl_bumpGenre]
  have hiff : (genreOccurrences g ratings).filter (fun o => decide (o.1 = genre)) = []
      ↔ genre ∉ ratedGenres g ratings := by
    unfold ratedGenres
    rw [List.filter_eq_nil_iff]
    simp only [decide_eq_true_eq, List.mem_map, not_exists, not_and]
  by_cases hmem : genre ∈ ratedGenres g ratings
  · have hne : ¬ (genreOccurrences g ratings).filter (fun o => decide (o.1 = genre)) = [] :=
      fun h => (hiff.mp h) hmem
    simp only [hne, if_false, hmem, if_true, genreRatings, Map.find, Option.getD_none, zero_add,
      List.length_map]
  · simp only [hiff.mpr hmem, if_true, hmem, if_false, Map.find]

end GenreStats
theorem genreRatings_length_pos {G : Type} (g : BipartiteGraph G) (ratings : List (Int × G))
    (genre : String) (h : genre ∈ ratedGenres g ratings) :
    0 < (genreRatings g ratings genre).length := by
  unfold genreRatings
  rw [List.length_map, List.length_pos]
  intro hnil
  rw [List.filter_eq_nil_iff] at hnil
  obtain ⟨o, ho, hog⟩ := List.mem_map.mp h
  exact hnil o ho (by simpa using hog)

section GenrePreferences

variable {F : Type} [LinearOrderedField F]

theorem Content.foldl_collectPreference (sqrt : F → F) (stats : Map String (F × Int))
    (hpos : ∀ e ∈ stats, e.2.2 > 0) :
    ∀ acc : Map String F × F,
      stats.foldl (Content.collectPreference sqrt) acc
        = (stats.foldl (fun m e => Map.insert m e.1 (Content.prefOf sqrt e.2)) acc.1,
            (stats.map (fun e => Content.prefOf sqrt e.2)).foldl max acc.2) := by
  induction stats with
  | nil =>
    intro acc
    rfl
  | cons e t ih =>
    intro acc
    have he : e.2.2 > 0 := hpos e (List.mem_cons_self _ _)
    simp only [List.foldl, List.map_cons]
    rw [ih (fun x hx => hpos x (List.mem_cons_of_mem _ hx))]
    simp only [Content.collectPreference, he, if_true, Content.prefOf]

theorem Content.prefOf_eq (sqrt : F → F) (g : BipartiteGraph F) (ratings : List (Int × F))
    (genre : String) :
    Content.prefOf sqrt ((genreRatings g ratings genre).sum,
        (((genreRatings g ratings genre).length : Nat) : Int))
      = genrePref sqrt g ratings genre := by
  unfold Content.prefOf genrePref
  simp only [Int.cast_natCast]

theorem Content.mem_genreStats (g : BipartiteGraph F) (ratings : List (Int × F))
    (e : String × (F × Int)) :
    e ∈ (ratings.foldl (Content.collectGenreStats g.items) ([], [])).1
      ↔ e.1 ∈ ratedGenres g ratings
        ∧ e.2 = ((genreRatings g ratings e.1).sum,
            (((genreRatings g ratings e.1).length : Nat) : Int)) := by
  have hfind := Content.find_genreStats g ratings e.1
  constructor
  · intro he
    have hkey : e.1 ∈ ratedGenres g ratings := by
      rw [Content.collectGenreStats_fst] at he
      exact Content.keys_foldl_bumpGenre _ e he
    have hnd : ((ratings.foldl (Content.collectGenreStats g.items) ([], [])).1.map
        Prod.fst).Nodup := by
      rw [Content.collectGenreStats_fst]
      exact Content.nodup_foldl_bumpGenre _
    have h1 := Map.find_of_mem_nodup _ hnd e.1 e.2 he
    rw [hfind] at h1
    simp only [hkey, if_true, Option.some.injEq] at h1
    exact ⟨hkey, h1.symm⟩
  · rintro ⟨hkey, hval⟩
    simp only [hkey, if_true] at hfind
    have h1 := Map.mem_of_find _ _ _ hfind
    rw [← hval] at h1
    exact h1

/-- The preference map and the maximum after the second loop and the normalisation. -/
theorem Content.find_genrePreferences (sqrt : F → F) (g : BipartiteGraph F)
    (ratings : List (Int × F)) :
    ((ratings.foldl (Content.collectGenreStats g.items) ([], [])).1.foldl
        (Content.collectPreference sqrt) ([], 0)).2 = maxPref sqrt g ratings
      ∧ ∀ genre,
          Map.find
              (if ((ratings.foldl (Content.collectGenreStats g.items) ([], [])).1.foldl
                    (Content.collectPreference sqrt) ([], 0)).2 > 0 then
                ((ratings.foldl (Content.collectGenreStats g.items) ([], [])).1.foldl
                    (Content.collectPreference sqrt) ([], 0)).1.map
                  (fun e =>
                    (e.1,
                      e.2 / ((ratings.foldl (Content.collectGenreStats g.items) ([], [])).1.foldl
                        (Content.collectPreference sqrt) ([], 0)).2))
              else
                ((ratings.foldl (Content.collectGenreStats g.items) ([], [])).1.foldl
                    (Content.collectPreference sqrt) ([], 0)).1)
              genre
            = if genre ∈ ratedGenres g ratings then some (normPref sqrt g ratings genre)
              else none := by
  have hpos : ∀ e ∈ (ratings.foldl (Content.collectGenreStats g.items) ([], [])).1,
      e.2.2 > 0 := by
    intro e he
    obtain ⟨hkey, hval⟩ := (Content.mem_genreStats g ratings e).mp he
    rw [hval]
    exact Int.natCast_pos.mpr (genreRatings_length_pos g ratings e.1 hkey)
  have hnd : ((ratings.foldl (Content.collectGenreStats g.items) ([], [])).1.map
      Prod.fst).Nodup := by
    rw [Content.collectGenreStats_fst]
    exact Content.nodup_foldl_bumpGenre _
  rw [Content.foldl_collectPreference sqrt _ hpos]
  simp only []
  rw [Map.foldl_insert_map (fun e : String × (F × Int) => Content.prefOf sqrt e.2) _ []
    (by simpa using hnd)]
  rw [List.nil_append]
  have hmax : ((ratings.foldl (Content.collectGenreStats g.items) ([], [])).1.map
        (fun e => Content.prefOf sqrt e.2)).foldl max 0 = maxPref sqrt g ratings := by
    unfold maxPref
    apply foldl_max_congr
    intro x
    simp only [List.mem_map]
    constructor
    · rintro ⟨e, he, rfl⟩
      obtain ⟨hkey, hval⟩ := (Content.mem_genreStats g ratings e).mp he
      refine ⟨e.1, hkey, ?_⟩
      rw [hval, Content.prefOf_eq]
    · rintro ⟨genre, hkey, rfl⟩
      refine ⟨(genre, ((genreRatings g ratings genre).sum,
        (((genreRatings g ratings genre).length : Nat) : Int))), ?_, ?_⟩
      · exact (Content.mem_genreStats g ratings _).mpr ⟨hkey, rfl⟩
      · exact Content.prefOf_eq sqrt g ratings genre
  rw [hmax]
  refine ⟨rfl, ?_⟩
  intro genre
  have hfind : Map.find ((ratings.foldl (Content.collectGenreStats g.items) ([], [])).1.map
      (fun e => (e.1, Content.prefOf sqrt e.2))) genre
      = if genre ∈ ratedGenres g ratings then some (genrePref sqrt g ratings genre)
        else none := by
    rw [Map.find_map_value _ (Content.prefOf sqrt) genre, Content.find_genreStats]
    by_cases hkey : genre ∈ ratedGenres g ratings
    · simp only [hkey, if_true, Option.map_some', Content.prefOf_eq]
    · simp only [hkey, if_false, Option.map_none']
  by_cases hm : maxPref sqrt g ratings > 0
  · simp only [hm, if_true]
    rw [Map.find_map_value _ (fun p : F => p / maxPref sqrt g ratings) genre, hfind]
    by_cases hkey : genre ∈ ratedGenres g ratings
    · simp only [hkey, if_true, Option.map_some', normPref, hm]
    · simp only [hkey, if_false, Option.map_none']
  · simp only [hm, if_false]
    rw [hfind]
    by_cases hkey : genre ∈ ratedGenres g ratings
    · simp only [hkey, if_true, normPref, hm, if_false]
    · simp only [hkey, if_false]

end GenrePreferences
section ContentScores

variable {F : Type} [LinearOrderedField F]

theorem Content.foldl_genreScore (prefs : Map String F) (f : F × F → String → F × F)
    (hf : ∀ a genre, f a genre = (Map.find prefs genre).elim a (fun p => (a.1 + p, a.2 + 1)))
    (genres : List String) :
    ∀ a : F × F,
      genres.foldl f a
        = (a.1 + ((genres.filter (fun genre => (Map.find prefs genre).isSome)).map
              (fun genre => (Map.find prefs genre).getD 0)).sum,
            a.2 + (((genres.filter (fun genre => (Map.find prefs genre).isSome)).length : Nat)
              : F)) := by
  induction genres with
  | nil =>
    intro a
    simp
  | cons x t ih =>
    intro a
    simp only [List.foldl]
    rw [ih, hf]
    cases hx : Map.find prefs x with
    | none => simp [hx]
    | some p =>
      simp only [List.filter_cons, hx, Option.isSome_some, if_true, List.map_cons,
        Option.getD_some, List.sum_cons, List.length_cons, Nat.cast_add, Nat.cast_one,
        Prod.mk.injEq, Option.elim]
      constructor <;> ring

/-- The score the third loop gives an item, for a preference map whose lookups are known. -/
theorem Content.scoreItem_eq (g : BipartiteGraph F) (ratings : List (Int × F))
    (norm : String → F) (prefs : Map String F) (watchedMovies : USet Int)
    (hprefs : ∀ genre, Map.find prefs genre
      = if genre ∈ ratedGenres g ratings then some (norm genre) else none)
    (recommendations : List (Int × F)) (it : Int × BipartiteGraph.Item F) :
    Content.scoreItem prefs watchedMovies recommendations it
      = if USet.count watchedMovies it.1 = 0 then
          recommendations ++ [(it.1, contentScore norm g ratings it.2)]
        else recommendations := by
  unfold Content.scoreItem
  by_cases hw : USet.count watchedMovies it.1 = 0
  · have hw2 : ¬ USet.count watchedMovies it.1 > 0 := by omega
    rw [if_pos hw]
    simp only [hw2, if_false]
    rw [Content.foldl_genreScore prefs _
      (by intro a genre; cases hx : Map.find prefs genre <;> simp [hx]) it.2.genres (0, 0)]
    have hfilter : it.2.genres.filter (fun genre => (Map.find prefs genre).isSome)
        = it.2.genres.filter (fun genre => decide (genre ∈ ratedGenres g ratings)) := by
      apply List.filter_congr
      intro genre _
      rw [hprefs genre]
      by_cases hk : genre ∈ ratedGenres g ratings <;> simp [hk]
    have hmap : (it.2.genres.filter (fun genre => decide (genre ∈ ratedGenres g ratings))).map
          (fun genre => (Map.find prefs genre).getD 0)
        = (it.2.genres.filter (fun genre => decide (genre ∈ ratedGenres g ratings))).map
          norm := by
      apply List.map_congr_left
      intro genre hgenre
      have hk : genre ∈ ratedGenres g ratings := by
        simpa using (List.mem_filter.mp hgenre).2
      rw [hprefs genre]
      simp [hk]
    rw [hfilter, hmap]
    simp only [zero_add]
    congr 2
    unfold contentScore genreScore
    by_cases hnil : it.2.genres.filter (fun genre => decide (genre ∈ ratedGenres g ratings))
        = []
    · simp [hnil]
    · have hlen : (0 : F) < (((it.2.genres.filter
          (fun genre => decide (genre ∈ ratedGenres g ratings))).length : Nat) : F) := by
        exact Nat.cast_pos.mpr (List.length_pos.mpr hnil)
      simp only [hnil, if_false, gt_iff_lt, hlen, if_true]
  · have hw2 : USet.count watchedMovies it.1 > 0 := by omega
    rw [if_neg hw]
    simp only [hw2, if_true]

theorem Content.foldl_scoreItem (g : BipartiteGraph F) (ratings : List (Int × F))
    (norm : String → F) (prefs : Map String F) (watchedMovies : USet Int)
    (hprefs : ∀ genre, Map.find prefs genre
      = if genre ∈ ratedGenres g ratings then some (norm genre) else none)
    (items : List (Int × BipartiteGraph.Item F)) :
    ∀ acc : List (Int × F),
      items.foldl (Content.scoreItem prefs watchedMovies) acc
        = acc ++ (items.filter (fun it => decide (USet.count watchedMovies it.1 = 0))).map
            (fun it => (it.1, contentScore norm g ratings it.2)) := by
  induction items with
  | nil =>
    intro acc
    simp
  | cons it t ih =>
    intro acc
    simp only [List.foldl]
    rw [Content.scoreItem_eq g ratings norm prefs watchedMovies hprefs, ih]
    by_cases hw : USet.count watchedMovies it.1 = 0
    · simp [hw]
    · simp [hw]

/-- For a user with at least one stored rating `Content.getRecommendations` is the list of
scored unrated items, sorted by score descending and cut to `n`. -/
theorem Content.contentRecs_scored (sqrt : F → F) (g : BipartiteGraph F)
    (userId : Int) (n : Nat) (ratings : List (Int × F))
    (hu : Map.find g.user_to_items userId = some ratings) (hne : ratings ≠ []) :
    Content.getRecommendations sqrt g userId n
      = truncate
          (stdSort bySecondDesc (contentScored (normPref sqrt g ratings) g ratings)) n := by
  have hemp : ¬ (ratings.isEmpty = true) := by
    rw [List.isEmpty_iff]
    exact hne
  obtain ⟨hmax, hfind⟩ := Content.find_genrePreferences sqrt g ratings
  simp only [Content.getRecommendations, hu, Option.isNone_some, Option.getD_some, hemp,
    Bool.false_eq_true, or_self, if_false]
  rw [Content.foldl_scoreItem g ratings (normPref sqrt g ratings) _ _ hfind g.items []]
  rw [List.nil_append]
  congr 2
  unfold contentScored
  congr 1
  apply List.filter_congr
  intro it hit
  rw [decide_eq_decide, USet.count_eq_zero_iff, Content.collectGenreStats_snd]
  constructor
  · intro hnot hmem
    apply hnot
    obtain ⟨e, he, he1⟩ := List.mem_map.mp hmem
    apply USet.mem_foldl_insert_if (fun e : Int × F => (Map.find g.items e.1).isSome) Prod.fst
      ratings [] it.1
    refine Or.inr ⟨e, he, ?_, he1⟩
    rw [he1]
    exact (Map.find_isSome_iff g.items it.1).mpr (List.mem_map_of_mem Prod.fst hit)
  · intro hnot hmem
    apply hnot
    rcases USet.mem_foldl_insert_if_inv (fun e : Int × F => (Map.find g.items e.1).isSome)
      Prod.fst ratings [] it.1 hmem with h1 | ⟨e, he, _, he1⟩
    · simp at h1
    · rw [← he1]
      exact List.mem_map_of_mem Prod.fst he

end ContentScores
theorem foldl_max_max {F : Type} [LinearOrder F] (l : List F) :
    ∀ a b : F, l.foldl max (max a b) = max a (l.foldl max b) := by
  induction l with
  | nil =>
    intro a b
    rfl
  | cons x t ih =>
    intro a b
    simp only [List.foldl]
    rw [max_assoc, ih]

theorem maxPref_eq {F : Type} [LinearOrderedField F] (sqrt : F → F) (g : BipartiteGraph F)
    (ratings : List (Int × F)) :
    maxPref sqrt g ratings = max 0 (maxPrefSpec sqrt g ratings) := by
  unfold maxPref maxPrefSpec
  cases (ratedGenres g ratings).map (genrePref sqrt g ratings) with
  | nil => simp
  | cons p ps =>
    simp only [List.foldl]
    exact foldl_max_max ps 0 p

theorem normPref_eq_spec {F : Type} [LinearOrderedField F] (sqrt : F → F)
    (g : BipartiteGraph F) (ratings : List (Int × F))
    (hpos : 0 < maxPrefSpec sqrt g ratings) (genre : String) :
    normPref sqrt g ratings genre = normPrefSpec sqrt g ratings genre := by
  have h : maxPref sqrt g ratings = maxPrefSpec sqrt g ratings := by
    rw [maxPref_eq, max_eq_right hpos.le]
  unfold normPref normPrefSpec
  rw [h]
  simp only [gt_iff_lt, hpos, if_true]

theorem filter_eq_of_nodup (genres : List String) (hnd : genres.Nodup) (genre : String) :
    genres.filter (fun x => decide (x = genre)) = if genre ∈ genres then [genre] else [] := by
  induction genres with
  | nil => simp
  | cons x t ih =>
    have hx : x ∉ t := (List.nodup_cons.mp hnd).1
    have ht := ih (List.nodup_cons.mp hnd).2
    by_cases hxg : x = genre
    · have hnot : genre ∉ t := by
        rw [← hxg]
        exact hx
      simp only [hnot, if_false] at ht
      simp [List.filter_cons, hxg, ht]
    · have hne : ¬ genre = x := fun h => hxg h.symm
      simp only [List.filter_cons, hxg, decide_False, List.mem_cons, hne, false_or]
      simpa using ht

theorem occurrences_filter_of_nodup {F : Type} (genres : List String) (hnd : genres.Nodup)
    (r : F) (genre : String) :
    ((genres.map (fun x => (x, r))).filter (fun o : String × F => decide (o.1 = genre))).map
        Prod.snd
      = if genre ∈ genres then [r] else [] := by
  rw [List.filter_map, List.map_map]
  have h1 : (fun o : String × F => decide (o.1 = genre)) ∘ (fun x : String => (x, r))
      = fun x => decide (x = genre) := rfl
  rw [h1, filter_eq_of_nodup genres hnd genre]
  by_cases hmem : genre ∈ genres <;> simp [hmem]

/-- When the genre list of every stored item has no repeated entry, the ratings counted for
a genre are the stored ratings of the stored items having that genre, one per rating. -/
theorem genreRatings_of_nodup {F : Type} (g : BipartiteGraph F) (ratings : List (Int × F))
    (hnd : ∀ j movie, Map.find g.items j = some movie → movie.genres.Nodup) (genre : String) :
    genreRatings g ratings genre
      = (ratings.filter (fun e => hasGenre g e.1 genre)).map Prod.snd := by
  unfold genreRatings genreOccurrences
  induction ratings with
  | nil => rfl
  | cons e t ih =>
    simp only [List.map_cons, List.flatten_cons, List.filter_append, List.map_append]
    rw [ih]
    cases hf : Map.find g.items e.1 with
    | none => simp [hasGenre, hf, List.filter_cons]
    | some movie =>
      simp only []
      rw [occurrences_filter_of_nodup movie.genres (hnd e.1 movie hf) e.2 genre]
      by_cases hmem : genre ∈ movie.genres
      · simp [hasGenre, hf, hmem, List.filter_cons]
      · simp [hasGenre, hf, hmem, List.filter_cons]
theorem dislikeGraph_occurrences :
    genreOccurrences (dislikeGraph ℝ) [(1, -1)] = [("Action", -1)] := by
  simp [genreOccurrences, dislikeGraph_items, Map.find]

theorem dislikeGraph_pref :
    genrePref Real.sqrt (dislikeGraph ℝ) [(1, -1)] "Action" = -1 := by
  simp [genrePref, genreRatings, dislikeGraph_occurrences]

/-- C22, counterexample to the claim as stated: in the graph with the two items 1 and 2 of
genre Action (quality 8) and user 1 whose single stored rating is `(1, -1)`, the only
preference is `pref (Action) = -1`. The code's maximum starts at 0 and stays 0, so nothing
is divided and item 2 gets the score `0.8·(-1) + 0.2·0.8 = -16/25`; dividing by the maximum
preference `-1`, as the claim says, gives `g = 1` and the score `24/25`. -/
theorem content_score_negative_preference :
    Map.find (dislikeGraph ℝ).user_to_items 1 = some [(1, -1)]
      ∧ Content.getRecommendations Real.sqrt (dislikeGraph ℝ) 1 10 = [(2, -(16 / 25))]
      ∧ truncate
          (stdSort bySecondDesc
            (contentScored (normPrefSpec Real.sqrt (dislikeGraph ℝ) [(1, -1)]) (dislikeGraph ℝ)
              [(1, -1)])) 10
        = [(2, 24 / 25)] := by
  have hu : Map.find (dislikeGraph ℝ).user_to_items 1 = some [(1, -1)] := by
    rw [dislikeGraph_users]
    simp [Map.find]
  have hmax : maxPref Real.sqrt (dislikeGraph ℝ) [(1, -1)] = 0 := by
    simp [maxPref, ratedGenres, dislikeGraph_occurrences, dislikeGraph_pref]
  have hmaxSpec : maxPrefSpec Real.sqrt (dislikeGraph ℝ) [(1, -1)] = -1 := by
    simp [maxPrefSpec, ratedGenres, dislikeGraph_occurrences, dislikeGraph_pref]
  refine ⟨hu, ?_, ?_⟩
  · rw [Content.contentRecs_scored Real.sqrt (dislikeGraph ℝ) 1 10 [(1, -1)] hu
      (by simp)]
    have hscored : contentScored (normPref Real.sqrt (dislikeGraph ℝ) [(1, -1)])
        (dislikeGraph ℝ) [(1, -1)] = [(2, -(16 / 25))] := by
      unfold contentScored
      rw [dislikeGraph_items]
      norm_num [List.filter, contentScore, genreScore, ratedGenres, dislikeGraph_occurrences,
        normPref, hmax, dislikeGraph_pref]
    rw [hscored]
    simp [stdSort, stdInsert, truncate]
  · have hscored : contentScored (normPrefSpec Real.sqrt (dislikeGraph ℝ) [(1, -1)])
        (dislikeGraph ℝ) [(1, -1)] = [(2, 24 / 25)] := by
      unfold contentScored
      rw [dislikeGraph_items]
      norm_num [List.filter, contentScore, genreScore, ratedGenres, dislikeGraph_occurrences,
        normPrefSpec, hmaxSpec, dislikeGraph_pref]
    rw [hscored]
    simp [stdSort, stdInsert, truncate]

/-- C22, amended: for a user with at least one stored rating, `Content.getRecommendations`
returns the items the user has not rated, each scored `0.8·g + 0.2·(quality / 10)`, sorted
by score descending and cut to `n`. Here `pref (genre)` is the average of the user's
ratings over the rated items having that genre times `sqrt` of the number of such ratings,
divided by the maximum `pref` over all genres when that maximum is positive and left
undivided otherwise, and `g` is the mean of these values over those genres of the item
that are in the user's preference map (0 when none is). When the maximum `pref` is positive
the normalised preference is the quotient the claim names. The ratings counted for a genre
are the stored ratings of the stored items having it, one per rating, when no genre list
repeats an entry. -/
theorem content_scores_by_genre_preference {F : Type} [LinearOrderedField F] (sqrt : F → F)
    (g : BipartiteGraph F) (userId : Int) (n : Nat) (ratings : List (Int × F))
    (hu : Map.find g.user_to_items userId = some ratings) (hne : ratings ≠ []) :
    Content.getRecommendations sqrt g userId n
        = truncate
            (stdSort bySecondDesc (contentScored (normPref sqrt g ratings) g ratings)) n
      ∧ maxPref sqrt g ratings = max 0 (maxPrefSpec sqrt g ratings)
      ∧ (0 < maxPrefSpec sqrt g ratings →
          ∀ genre, normPref sqrt g ratings genre = normPrefSpec sqrt g ratings genre)
      ∧ (¬ 0 < maxPrefSpec sqrt g ratings →
          ∀ genre, normPref sqrt g ratings genre = genrePref sqrt g ratings genre)
      ∧ ((∀ j movie, Map.find g.items j = some movie → movie.genres.Nodup) →
          ∀ genre, genreRatings g ratings genre
            = (ratings.filter (fun e => hasGenre g e.1 genre)).map Prod.snd) := by
  refine ⟨Content.contentRecs_scored sqrt g userId n ratings hu hne,
    maxPref_eq sqrt g ratings, normPref_eq_spec sqrt g ratings, ?_,
    genreRatings_of_nodup g ratings⟩
  intro hpos genre
  have h : ¬ maxPref sqrt g ratings > 0 := by
    rw [maxPref_eq]
    intro h1
    rcases lt_max_iff.mp h1 with h2 | h2
    · exact lt_irrefl _ h2
    · exact hpos h2
  simp only [normPref, h, if_false]

theorem likeGraph_users (F : Type) [LinearOrderedField F] :
    (likeGraph F).user_to_items = [(1, [(1, 4)])] := by
  simp [likeGraph, BipartiteGraph.run, BipartiteGraph.step, BipartiteGraph.addItem,
    BipartiteGraph.addUser, BipartiteGraph.empty, Map.insert, Map.find, Map.modify]

theorem likeGraph_items (F : Type) [LinearOrderedField F] :
    (likeGraph F).items
      = [(1, { id := 1, genres := ["Action"], length := 120, imdb := 8, rating := 2020 }),
         (2, { id := 2, genres := ["Action", "Drama"], length := 115, imdb := 15 / 2,
               rating := 2020 })] := by
  simp [likeGraph, BipartiteGraph.run, BipartiteGraph.step, BipartiteGraph.addItem,
    BipartiteGraph.addUser, BipartiteGraph.empty, Map.insert, Map.find, Map.modify]

/-- C22 on a graph where user 1 rated the action item 1 with 4: `pref (Action) = 4` is the
maximum, so the normalised preference is 1; the unrated item 2 has the genres Action and
Drama, of which only Action is in the preference map, so `g = 1` and its score is
`0.8 + 0.2·0.75 = 19/20`. -/
theorem content_scores_by_genre_preference_witness :
    Map.find (likeGraph ℝ).user_to_items 1 = some [(1, 4)]
      ∧ Content.getRecommendations Real.sqrt (likeGraph ℝ) 1 10 = [(2, 19 / 20)] := by
  have hu : Map.find (likeGraph ℝ).user_to_items 1 = some [(1, 4)] := by
    rw [likeGraph_users]
    simp [Map.find]
  refine ⟨hu, ?_⟩
  rw [(content_scores_by_genre_preference Real.sqrt (likeGraph ℝ) 1 10 [(1, 4)] hu
    (by simp)).1]
  have hocc : genreOccurrences (likeGraph ℝ) [(1, 4)] = [("Action", 4)] := by
    simp [genreOccurrences, likeGraph_items, Map.find]
  have hpref : genrePref Real.sqrt (likeGraph ℝ) [(1, 4)] "Action" = 4 := by
    simp [genrePref, genreRatings, hocc]
  have hmax : maxPref Real.sqrt (likeGraph ℝ) [(1, 4)] = 4 := by
    simp [maxPref, ratedGenres, hocc, hpref]
  have hda : ¬ ("Drama" = "Action") := by decide
  have hscored : contentScored (normPref Real.sqrt (likeGraph ℝ) [(1, 4)]) (likeGraph ℝ)
      [(1, 4)] = [(2, 19 / 20)] := by
    unfold contentScored
    rw [likeGraph_items]
    norm_num [List.filter, contentScore, genreScore, ratedGenres, hocc, normPref, hmax, hpref,
      hda]
  rw [hscored]
  simp [stdSort, stdInsert, truncate]

theorem pack_of_range (a b : Int) (ha : 0 ≤ a ∧ a < 2 ^ 31) (hb : 0 ≤ b ∧ b < 2 ^ 31) :
    shl32 (toUInt64 a) ||| toUInt64 b = a.toNat * 2 ^ 32 + b.toNat := by
  rw [toUInt64_of_nonneg a ha.1 ha.2, toUInt64_of_nonneg b hb.1 hb.2]
  have h1 : a.toNat < 2 ^ 31 := by omega
  have h2 : b.toNat < 2 ^ 32 := by omega
  have h3 : shl32 a.toNat = 2 ^ 32 * a.toNat := by
    unfold shl32
    rw [Nat.shiftLeft_eq, Nat.mod_eq_of_lt (by omega)]
    ring
  rw [h3, ← Nat.mul_add_lt_is_or h2]
  ring

theorem collaborative_createPairKey_eq (a b : Int) (ha : 0 ≤ a ∧ a < 2 ^ 31)
    (hb : 0 ≤ b ∧ b < 2 ^ 31) :
    Collaborative.createPairKey a b = (min a b).toNat * 2 ^ 32 + (max a b).toNat := by
  unfold Collaborative.createPairKey
  by_cases h : a > b
  · simp only [h, if_true]
    rw [pack_of_range b a hb ha, min_eq_right h.le, max_eq_left h.le]
  · simp only [h, if_false]
    rw [pack_of_range a b ha hb, min_eq_left (not_lt.mp h), max_eq_right (not_lt.mp h)]

theorem content_createPairKey_eq (a b : Int) (ha : 0 ≤ a ∧ a < 2 ^ 31)
    (hb : 0 ≤ b ∧ b < 2 ^ 31) :
    Content.createPairKey a b = (min a b).toNat * 2 ^ 32 + (max a b).toNat := by
  unfold Content.createPairKey
  by_cases h : a > b
  · simp only [h, if_true]
    rw [pack_of_range b a hb ha, min_eq_right h.le, max_eq_left h.le]
  · simp only [h, if_false]
    rw [pack_of_range a b ha hb, min_eq_left (not_lt.mp h), max_eq_right (not_lt.mp h)]

theorem packed_pairs_eq_iff (a b c d : Int) (ha : 0 ≤ a ∧ a < 2 ^ 31)
    (hb : 0 ≤ b ∧ b < 2 ^ 31) (hc : 0 ≤ c ∧ c < 2 ^ 31) (hd : 0 ≤ d ∧ d < 2 ^ 31) :
    (min a b).toNat * 2 ^ 32 + (max a b).toNat = (min c d).toNat * 2 ^ 32 + (max c d).toNat
      ↔ (a = c ∧ b = d) ∨ (a = d ∧ b = c) := by
  constructor
  · intro h
    have h1 : min a b = min c d ∧ max a b = max c d := by omega
    omega
  · rintro (⟨h1, h2⟩ | ⟨h1, h2⟩)
    · rw [h1, h2]
    · rw [h1, h2, min_comm, max_comm]

/-- C38: cache keys are collision-free for non-negative 32-bit ids. For all ids `a, b, c, d`
in `[0, 2^31)` the pair keys of the Collaborative and of the Content cache satisfy
`createPairKey (a, b) = createPairKey (c, d)` if and only if `{a, b} = {c, d}` as unordered
pairs, and for all ids `u, i, u2, i2` in `[0, 2^31)`,
`Hybrid.createKey (u, i) = Hybrid.createKey (u2, i2)` if and only if `(u, i) = (u2, i2)`. -/
theorem cache_keys_collision_free (a b c d : Int) (ha : 0 ≤ a ∧ a < 2 ^ 31)
    (hb : 0 ≤ b ∧ b < 2 ^ 31) (hc : 0 ≤ c ∧ c < 2 ^ 31) (hd : 0 ≤ d ∧ d < 2 ^ 31) :
    (Collaborative.createPairKey a b = Collaborative.createPairKey c d
        ↔ (a = c ∧ b = d) ∨ (a = d ∧ b = c))
      ∧ (Content.createPairKey a b = Content.createPairKey c d
        ↔ (a = c ∧ b = d) ∨ (a = d ∧ b = c))
      ∧ (Hybrid.createKey a b = Hybrid.createKey c d ↔ (a, b) = (c, d)) := by
  refine ⟨?_, ?_, ?_⟩
  · rw [collaborative_createPairKey_eq a b ha hb, collaborative_createPairKey_eq c d hc hd]
    exact packed_pairs_eq_iff a b c d ha hb hc hd
  · rw [content_createPairKey_eq a b ha hb, content_createPairKey_eq c d hc hd]
    exact packed_pairs_eq_iff a b c d ha hb hc hd
  · unfold Hybrid.createKey
    rw [pack_of_range a b ha hb, pack_of_range c d hc hd, Prod.mk.injEq]
    omega

/-- C38 on concrete ids: the keys of `(3, 7)` and `(7, 3)` agree as pair keys and differ as
Hybrid keys. -/
theorem cache_keys_collision_free_witness :
    Collaborative.createPairKey 3 7 = Collaborative.createPairKey 7 3
      ∧ Content.createPairKey 3 7 = Content.createPairKey 7 3
      ∧ Hybrid.createKey 3 7 ≠ Hybrid.createKey 7 3 :=
  have h := cache_keys_collision_free 3 7 7 3 (by norm_num) (by norm_num) (by norm_num)
    (by norm_num)
  ⟨h.1.mpr (Or.inr ⟨rfl, rfl⟩), h.2.1.mpr (Or.inr ⟨rfl, rfl⟩),
    fun e => absurd (h.2.2.mp e) (by decide)⟩

section CachedOnly

variable {F : Type} [LinearOrderedField F]

theorem neighbours_nil_of_no_positive (c : Collaborative F) (g : BipartiteGraph F)
    (userId : Int)
    (hcache : ∀ v ∈ g.user_to_items.map Prod.fst, v ≠ userId → ∀ s,
      Map.find c.similarityCache (Collaborative.createPairKey userId v) = some s → s ≤ 0) :
    neighbours c g userId = [] := by
  have hfilter : g.user_to_items.filter
      (fun u => decide (u.1 ≠ userId) && decide (cachedValue c userId u.1 > 0)) = [] := by
    rw [List.filter_eq_nil_iff]
    intro u hu hp
    simp only [Bool.and_eq_true, decide_eq_true_eq] at hp
    obtain ⟨hne, hpos⟩ := hp
    unfold cachedValue at hpos
    simp only [hne.symm, if_false] at hpos
    cases hf : Map.find c.similarityCache (Collaborative.createPairKey userId u.1) with
    | none =>
      rw [hf] at hpos
      exact lt_irrefl _ hpos
    | some s =>
      rw [hf] at hpos
      exact absurd hpos (not_lt.mpr (hcache u.1 (List.mem_map_of_mem Prod.fst hu) hne s hf))
  unfold neighbours
  rw [hfilter]
  rfl

end CachedOnly

/-- C34: for a user with at least one stored rating, `Collaborative.getRecommendations`
uses cached similarities only. If the cache holds no positive entry for the pair of that
user with any other user of the graph, the result is the empty list, whatever items, ranks
and `n` are: there is no quality or influence fallback on this path. The call never adds to
the similarity cache, and on an empty cache (no precomputation, or everything evicted) it
returns the empty list and leaves the whole cache state as it was. -/
theorem cached_similarities_only {F : Type} [LinearOrderedField F] (c : Collaborative F)
    (g : BipartiteGraph F) (pageRank : PageRank F) (userId : Int) (n : Nat)
    (ratings : List (Int × F)) (hu : Map.find g.user_to_items userId = some ratings)
    (hne : ratings ≠ []) :
    ((∀ v ∈ g.user_to_items.map Prod.fst, v ≠ userId → ∀ s,
        Map.find c.similarityCache (Collaborative.createPairKey userId v) = some s → s ≤ 0) →
        (c.getRecommendations g pageRank userId n).1 = [])
      ∧ (c.getRecommendations g pageRank userId n).2.similarityCache = c.similarityCache
      ∧ (c.similarityCache = [] → c.getRecommendations g pageRank userId n = ([], c)) := by
  have hempty : (∀ v ∈ g.user_to_items.map Prod.fst, v ≠ userId → ∀ s,
      Map.find c.similarityCache (Collaborative.createPairKey userId v) = some s → s ≤ 0) →
      (c.getRecommendations g pageRank userId n).1 = [] := by
    intro hcache
    rw [Collaborative.getRecommendations_neighbours c g pageRank userId n ratings hu hne,
      neighbours_nil_of_no_positive c g userId hcache]
    rfl
  refine ⟨hempty, (Collaborative.getRecommendations_congr c c rfl g pageRank userId n).2, ?_⟩
  intro hnil
  have h1 : (c.getRecommendations g pageRank userId n).1 = [] := by
    apply hempty
    intro v _ _ s hs
    rw [hnil] at hs
    simp [Map.find] at hs
  have hstate : ∀ (users : List (Int × List (Int × F))) (acc : List (Int × F)),
      (users.foldl (Collaborative.collectSimilar userId) (acc, c)).2 = c := by
    intro users
    induction users with
    | nil =>
      intro acc
      rfl
    | cons u t ih =>
      intro acc
      simp only [List.foldl]
      have hstep : Collaborative.collectSimilar userId (acc, c) u = (acc, c) := by
        unfold Collaborative.collectSimilar Collaborative.getCachedSimilarity
        by_cases hu1 : u.1 = userId
        · simp [hu1]
        · have hu2 : ¬ userId = u.1 := fun e => hu1 e.symm
          simp [hu1, hu2, hnil, Map.find]
      rw [hstep]
      exact ih acc
  have h2 : (c.getRecommendations g pageRank userId n).2 = c := by
    have hcond : ¬ ((some ratings).isNone ∨ ((some ratings).getD []).isEmpty) := by
      cases ratings with
      | nil => exact absurd rfl hne
      | cons x t => simp
    simp only [Collaborative.getRecommendations, hu, hcond, if_false]
    exact hstate g.user_to_items []
  exact Prod.ext h1 h2

/-- C34 on the graph of `test_Hybrid_CombinesAllComponents` with an empty cache: user 1 has
two stored ratings and item 3 is unrated, yet the list is empty. -/
theorem cached_similarities_only_witness :
    Map.find (combinedGraph ℚ).user_to_items 1 = some [(1, 5), (2, 24 / 5)]
      ∧ emptyCollaborative.getRecommendations (combinedGraph ℚ) emptyPageRank 1 5
        = ([], emptyCollaborative) :=
  have hu : Map.find (combinedGraph ℚ).user_to_items 1 = some [(1, 5), (2, 24 / 5)] := by
    rw [combinedGraph_users]
    simp [Map.find]
  ⟨hu, (cached_similarities_only emptyCollaborative (combinedGraph ℚ) emptyPageRank 1 5
    [(1, 5), (2, 24 / 5)] hu (by simp)).2.2 rfl⟩

section StoredRatings

variable {F : Type}

theorem BipartiteGraph.run_reverse_keys_exist (ops : List (BipartiteGraph.Op F)) :
    ∀ e ∈ (BipartiteGraph.run ops).item_to_users,
      (Map.find (BipartiteGraph.run ops).items e.1).isSome := by
  apply foldl_invariant BipartiteGraph.step
    (fun g : BipartiteGraph F => ∀ e ∈ g.item_to_users, (Map.find g.items e.1).isSome)
  · intro e he
    simp [BipartiteGraph.empty] at he
  · intro g op _ hg e he
    cases op with
    | addItem id genres length imdb rating =>
      have h1 := hg e he
      simp only [BipartiteGraph.step, BipartiteGraph.addItem]
      by_cases hid : e.1 = id
      · rw [hid, Map.find_insert_self]
        rfl
      · rw [Map.find_insert_ne _ _ _ _ hid]
        exact h1
    | addUser id ratings =>
      simp only [BipartiteGraph.step, BipartiteGraph.addUser] at he ⊢
      have hvalid : ∀ x ∈ ratings.foldl
          (fun acc e => if (Map.find g.items e.1).isSome then acc ++ [(e.1, e.2)] else acc) [],
          (Map.find g.items x.1).isSome := by
        intro x hx
        have h := foldl_push_eq_filter (fun e : Int × F => (Map.find g.items e.1).isSome)
          ratings []
        have h2 : ratings.foldl
            (fun acc e => if (Map.find g.items e.1).isSome then acc ++ [(e.1, e.2)] else acc) []
            = ratings.filter (fun e => (Map.find g.items e.1).isSome) := by
          simpa using h
        rw [h2] at hx
        exact (List.mem_filter.mp hx).2
      revert e
      apply foldl_invariant
        (fun (m : Map Int (List (Int × F))) (x : Int × F) =>
          Map.modify m x.1 [] (fun users => users ++ [(id, x.2)]))
        (fun m : Map Int (List (Int × F)) => ∀ e ∈ m, (Map.find g.items e.1).isSome)
      · exact hg
      · intro m x hx hm
        exact Map.keys_modify (fun k => (Map.find g.items k).isSome) m x.1 _ _ hm
          (hvalid x hx)

theorem filter_exists_eq_self (g : BipartiteGraph F) (ratings : List (Int × F))
    (h : ∀ e ∈ ratings, (Map.find g.items e.1).isSome) :
    ratings.filter (fun e => (Map.find g.items e.1).isSome) = ratings := by
  rw [List.filter_eq_self]
  exact h

theorem foldl_insert_guarded (g : BipartiteGraph F) (ratings : List (Int × F))
    (h : ∀ e ∈ ratings, (Map.find g.items e.1).isSome) :
    ∀ s : USet Int,
      ratings.foldl (fun s e => if (Map.find g.items e.1).isSome then USet.insert s e.1 else s) s
        = ratings.foldl (fun s e => USet.insert s e.1) s := by
  induction ratings with
  | nil =>
    intro s
    rfl
  | cons x t ih =>
    intro s
    simp only [List.foldl, h x (List.mem_cons_self _ _), if_true]
    exact ih (fun e he => h e (List.mem_cons_of_mem _ he)) _

theorem BipartiteGraph.user_of_ratings (g : BipartiteGraph F)
    (ratings : List (Int × F)) (h : ∀ e ∈ ratings, (Map.find g.items e.1).isSome) :
    ∀ user : BipartiteGraph.User F,
      ratings.foldl
          (fun user e =>
            if (Map.find g.items e.1).isSome then
              { user with
                rating := user.rating ++ [(e.1, e.2)],
                movie_watched := user.movie_watched ++ [(e.1, 1)] }
            else user)
          user
        = { id := user.id,
            movie_watched := user.movie_watched ++ ratings.map (fun e => (e.1, 1)),
            rating := user.rating ++ ratings } := by
  induction ratings with
  | nil =>
    intro user
    simp
  | cons x t ih =>
    intro user
    simp only [List.foldl, h x (List.mem_cons_self _ _), if_true]
    rw [ih (fun e he => h e (List.mem_cons_of_mem _ he))]
    simp

theorem BipartiteGraph.getAllUsers_eq (g : BipartiteGraph F)
    (h : ∀ u ∈ g.user_to_items, ∀ e ∈ u.2, (Map.find g.items e.1).isSome) :
    g.getAllUsers
      = g.user_to_items.map
          (fun u => { id := u.1, movie_watched := u.2.map (fun e => (e.1, 1)), rating := u.2 }) := by
  unfold BipartiteGraph.getAllUsers
  have hgen : ∀ (users : List (Int × List (Int × F))),
      (∀ u ∈ users, ∀ e ∈ u.2, (Map.find g.items e.1).isSome) →
      ∀ acc : List (BipartiteGraph.User F),
        users.foldl
            (fun allUsers u =>
              allUsers ++ [u.2.foldl
                (fun user e =>
                  if (Map.find g.items e.1).isSome then
                    { user with
                      rating := user.rating ++ [(e.1, e.2)],
                      movie_watched := user.movie_watched ++ [(e.1, 1)] }
                  else user)
                ({ id := u.1, movie_watched := [], rating := [] } : BipartiteGraph.User F)])
            acc
          = acc ++ users.map
              (fun u =>
                { id := u.1, movie_watched := u.2.map (fun e => (e.1, 1)), rating := u.2 }) := by
    intro users
    induction users with
    | nil =>
      intro _ acc
      simp
    | cons u t ih =>
      intro hu acc
      simp only [List.foldl, List.map_cons]
      rw [ih (fun v hv => hu v (List.mem_cons_of_mem _ hv)),
        BipartiteGraph.user_of_ratings g u.2 (hu u (List.mem_cons_self _ _))]
      simp
  have := hgen g.user_to_items h []
  simpa using this

end StoredRatings

/-- C36: in every graph reached from the empty graph by `addItem` and `addUser` calls, every
rating edge of the user→items map and every rating edge of the item→users map refers to an
item of the item table. Hence the re-checks "the item still exists" never exclude a stored
rating: filtering a stored rating list by existence changes nothing, `getAllUsers` returns
every user with the full stored list, and the set `userMovies` that the Rank Engine and the
Collaborative recommender build, like the watched set of the Content recommender, is the
set of all rated ids. -/
theorem stored_ratings_refer_to_items {F : Type} [LinearOrderedField F]
    (ops : List (BipartiteGraph.Op F)) :
    (∀ u i r, BipartiteGraph.edgeUserItem (BipartiteGraph.run ops) u i r →
        (Map.find (BipartiteGraph.run ops).items i).isSome)
      ∧ (∀ u i r, BipartiteGraph.edgeItemUser (BipartiteGraph.run ops) u i r →
        (Map.find (BipartiteGraph.run ops).items i).isSome)
      ∧ (∀ u ratings, Map.find (BipartiteGraph.run ops).user_to_items u = some ratings →
          ratings.filter (fun e => (Map.find (BipartiteGraph.run ops).items e.1).isSome)
              = ratings
            ∧ PageRank.userMoviesOf (BipartiteGraph.run ops) ratings
              = ratings.foldl (fun s e => USet.insert s e.1) []
            ∧ (ratings.foldl (Content.collectGenreStats (BipartiteGraph.run ops).items)
                ([], [])).2
              = ratings.foldl (fun s e => USet.insert s e.1) []
            ∧ ∀ e ∈ ratings, ∀ (userMovies : USet Int) (weight : F) (weighted : Map Int (F × F)),
                USet.count userMovies e.1 = 0 →
                Collaborative.accumulateRating (BipartiteGraph.run ops).items userMovies weight
                    weighted e
                  = Map.modify
                      (Map.modify weighted e.1 (0, 0) (fun p => (p.1 + e.2 * weight, p.2)))
                      e.1 (0, 0) (fun p => (p.1, p.2 + weight)))
      ∧ (BipartiteGraph.run ops).getAllUsers
        = (BipartiteGraph.run ops).user_to_items.map
            (fun u =>
              { id := u.1, movie_watched := u.2.map (fun e => (e.1, 1)), rating := u.2 }) := by
  have hexist := BipartiteGraph.run_ratings_exist ops
  refine ⟨?_, ?_, ?_, ?_⟩
  · rintro u i r ⟨l, hl, hmem⟩
    exact hexist u l hl (i, r) hmem
  · rintro u i r ⟨l, hl, _⟩
    exact BipartiteGraph.run_reverse_keys_exist ops (i, l) (Map.mem_of_find _ _ _ hl)
  · intro u ratings hfind
    have h := hexist u ratings hfind
    refine ⟨filter_exists_eq_self _ ratings h, foldl_insert_guarded _ ratings h [], ?_, ?_⟩
    · rw [Content.collectGenreStats_snd]
      exact foldl_insert_guarded _ ratings h []
    · intro e he userMovies weight weighted hcount
      have hsome := h e he
      unfold Collaborative.accumulateRating
      have hc : ¬ ((Map.find (BipartiteGraph.run ops).items e.1).isNone = true
          ∨ USet.count userMovies e.1 > 0) := by
        rintro (h1 | h1)
        · cases hf : Map.find (BipartiteGraph.run ops).items e.1 with
          | none => simp [hf] at hsome
          | some v => simp [hf] at h1
        · omega
      simp only [hc, if_false]
  · apply BipartiteGraph.getAllUsers_eq
    intro u hu e he
    have hnd := BipartiteGraph.run_users_nodup ops
    exact hexist u.1 u.2 (Map.find_of_mem_nodup _ hnd u.1 u.2 hu) e he

section CacheInvariants

variable {F : Type} [LinearOrderedField F]

theorem CacheInvariant.nil : CacheInvariant ([] : Map Nat F) [] := by
  refine ⟨⟨by simp, by simp, by simp⟩, ?_, ?_⟩
  · intro e he
    simp at he
  · intro e he
    simp at he

theorem CacheInvariant.insert_one {sim : Map Nat F} {cnt : Map Nat Int}
    (h : CacheInvariant sim cnt) (k : Nat) (v : F) (hv : 0 < v) :
    CacheInvariant (Map.insert sim k v) (Map.insert cnt k 1) := by
  refine ⟨h.1.insert k v 1, ?_, ?_⟩
  · intro e he
    rcases Map.mem_insert cnt k 1 e he with h1 | h1
    · rw [h1]
    · exact h.2.1 e h1
  · intro e he
    rcases Map.mem_insert sim k v e he with h1 | h1
    · rw [h1]
      exact hv
    · exact h.2.2 e h1

theorem CacheInvariant.hit {sim : Map Nat F} {cnt : Map Nat Int}
    (h : CacheInvariant sim cnt) (k : Nat) (v : F) (hk : Map.find sim k = some v) :
    CacheInvariant sim (Map.modify cnt k 0 (fun n => n + 1)) := by
  have hmem : k ∈ cnt.map Prod.fst := by
    rw [← h.1.2.2 k, ← Map.find_isSome_iff, hk]
    rfl
  refine ⟨⟨h.1.1, Map.nodup_keys_insert cnt k _ h.1.2.1, ?_⟩, ?_, h.2.2⟩
  · intro k2
    unfold Map.modify
    rw [Map.mem_keys_insert, h.1.2.2 k2]
    constructor
    · intro h1
      exact Or.inr h1
    · rintro (h1 | h1)
      · rw [h1]
        exact hmem
      · exact h1
  · intro e he
    rcases Map.mem_insert cnt k _ e he with h1 | h1
    · rw [h1]
      cases hf : Map.find cnt k with
      | none => simp
      | some n =>
        have hn := h.2.1 (k, n) (Map.mem_of_find cnt k n hf)
        simp only [Option.getD_some]
        linarith
    · exact h.2.1 e h1

theorem keys_filter_key {V : Type} (q : Nat → Bool) (m : Map Nat V) (k : Nat) :
    k ∈ (m.filter (fun e => q e.1)).map Prod.fst ↔ k ∈ m.map Prod.fst ∧ q k = true := by
  simp only [List.mem_map, List.mem_filter]
  constructor
  · rintro ⟨e, ⟨he, hq⟩, rfl⟩
    exact ⟨⟨e, he, rfl⟩, hq⟩
  · rintro ⟨⟨e, he, rfl⟩, hq⟩
    exact ⟨e, ⟨he, hq⟩, rfl⟩

theorem CacheInvariant.filter {sim : Map Nat F} {cnt : Map Nat Int}
    (h : CacheInvariant sim cnt) (q : Nat → Bool) :
    CacheInvariant (sim.filter (fun e => q e.1)) (cnt.filter (fun e => q e.1)) := by
  refine ⟨⟨?_, ?_, ?_⟩, ?_, ?_⟩
  · exact h.1.1.sublist ((List.filter_sublist sim).map Prod.fst)
  · exact h.1.2.1.sublist ((List.filter_sublist cnt).map Prod.fst)
  · intro k
    rw [keys_filter_key, keys_filter_key, h.1.2.2 k]
  · intro e he
    exact h.2.1 e (List.mem_filter.mp he).1
  · intro e he
    exact h.2.2 e (List.mem_filter.mp he).1

theorem Collaborative.evictCache_invariant (c : Collaborative F)
    (h : CacheInvariant c.similarityCache c.cacheAccessCount) :
    CacheInvariant (Collaborative.evictCache c).similarityCache
      (Collaborative.evictCache c).cacheAccessCount := by
  rw [Collaborative.evictCache_eq]
  exact h.filter
    (fun k => decide (k ∉ (evictedEntries c.similarityCache c.cacheAccessCount).map Prod.fst))

theorem Content.content_evictCache_invariant (c : Content F)
    (h : CacheInvariant c.similarityCache c.cacheAccessCount) :
    CacheInvariant (Content.evictCache c).similarityCache
      (Content.evictCache c).cacheAccessCount := by
  rw [Content.content_evictCache_eq]
  exact h.filter
    (fun k => decide (k ∉ (evictedEntries c.similarityCache c.cacheAccessCount).map Prod.fst))

theorem Collaborative.reachable_invariant (sqrt : F → F) (c : Collaborative F)
    (hc : Collaborative.Reachable sqrt c) :
    CacheInvariant c.similarityCache c.cacheAccessCount := by
  induction hc with
  | empty => exact CacheInvariant.nil
  | precompute c g numThreads schedule _ ih =>
    have hfold : CacheInvariant
        ((schedule (threadSlices (orderedPairs g.user_to_items) numThreads)).foldl
          (Collaborative.processPair sqrt g) c).similarityCache
        ((schedule (threadSlices (orderedPairs g.user_to_items) numThreads)).foldl
          (Collaborative.processPair sqrt g) c).cacheAccessCount := by
      apply foldl_invariant (Collaborative.processPair sqrt g)
        (fun c => CacheInvariant c.similarityCache c.cacheAccessCount) _ c ih
      intro c2 p _ h2
      unfold Collaborative.processPair
      by_cases hp : Collaborative.calculateSimilarity sqrt g p.1 p.2 > 0
      · simp only [hp, if_true]
        exact h2.insert_one _ _ hp
      · simp only [hp, if_false]
        exact h2
    unfold Collaborative.preComputeSimilarities
    simp only []
    split_ifs
    · exact Collaborative.evictCache_invariant _ hfold
    · exact hfold
  | lookup c a b _ ih =>
    unfold Collaborative.getCachedSimilarity
    by_cases hab : a = b
    · simp only [hab, if_true]
      exact ih
    · simp only [hab, if_false]
      cases hf : Map.find c.similarityCache (Collaborative.createPairKey a b) with
      | none => exact ih
      | some v => exact ih.hit _ v hf
  | evict c _ ih => exact Collaborative.evictCache_invariant c ih

theorem Content.content_reachable_invariant (c : Content F) (hc : Content.Reachable c) :
    CacheInvariant c.similarityCache c.cacheAccessCount := by
  induction hc with
  | empty => exact CacheInvariant.nil
  | precompute c g numThreads schedule _ ih =>
    have hfold : CacheInvariant
        ((schedule (threadSlices (orderedPairs g.items) numThreads)).foldl
          (Content.processPair g) c).similarityCache
        ((schedule (threadSlices (orderedPairs g.items) numThreads)).foldl
          (Content.processPair g) c).cacheAccessCount := by
      apply foldl_invariant (Content.processPair g)
        (fun c => CacheInvariant c.similarityCache c.cacheAccessCount) _ c ih
      intro c2 p _ h2
      unfold Content.processPair
      by_cases hp : Content.calculateSimilarity g p.1 p.2 > 0
      · simp only [hp, if_true]
        exact h2.insert_one _ _ hp
      · simp only [hp, if_false]
        exact h2
    unfold Content.preComputeSimilarities
    simp only []
    split_ifs
    · exact Content.content_evictCache_invariant _ hfold
    · exact hfold
  | lookup c a b _ ih =>
    unfold Content.getCachedSimilarity
    by_cases hab : a = b
    · simp only [hab, if_true]
      exact ih
    · simp only [hab, if_false]
      cases hf : Map.find c.similarityCache (Content.createPairKey a b) with
      | none => exact ih
      | some v => exact ih.hit _ v hf
  | evict c _ ih => exact Content.content_evictCache_invariant c ih

theorem CacheInvariant.lookups {sim : Map Nat F} {cnt : Map Nat Int}
    (h : CacheInvariant sim cnt) :
    (∀ k, (Map.find sim k).isSome ↔ (Map.find cnt k).isSome)
      ∧ (∀ k n, Map.find cnt k = some n → 1 ≤ n)
      ∧ (∀ k v, Map.find sim k = some v → 0 < v) := by
  refine ⟨?_, ?_, ?_⟩
  · intro k
    rw [Map.find_isSome_iff, Map.find_isSome_iff]
    exact h.1.2.2 k
  · intro k n hk
    exact h.2.1 (k, n) (Map.mem_of_find cnt k n hk)
  · intro k v hk
    exact h.2.2 (k, v) (Map.mem_of_find sim k v hk)

end CacheInvariants

/-- C37: cache-map consistency. In every state of the Collaborative cache and of the Content
cache that is reachable from the empty cache through `preComputeSimilarities`,
`getCachedSimilarity` and `evictCache`, the similarity map and the access-count map have
the same key set (a key has an entry in one exactly when it has one in the other, and no
key is stored twice), every access count is at least 1 and every cached similarity is
positive. The access counter is an unbounded integer here (no `int` overflow). -/
theorem cache_maps_consistent {F : Type} [LinearOrderedField F] (sqrt : F → F)
    (c : Collaborative F) (d : Content F) (hc : Collaborative.Reachable sqrt c)
    (hd : Content.Reachable d) :
    ((∀ k, (Map.find c.similarityCache k).isSome ↔ (Map.find c.cacheAccessCount k).isSome)
        ∧ (∀ k n, Map.find c.cacheAccessCount k = some n → 1 ≤ n)
        ∧ (∀ k v, Map.find c.similarityCache k = some v → 0 < v)
        ∧ CacheConsistent c.similarityCache c.cacheAccessCount)
      ∧ ((∀ k, (Map.find d.similarityCache k).isSome ↔ (Map.find d.cacheAccessCount k).isSome)
        ∧ (∀ k n, Map.find d.cacheAccessCount k = some n → 1 ≤ n)
        ∧ (∀ k v, Map.find d.similarityCache k = some v → 0 < v)
        ∧ CacheConsistent d.similarityCache d.cacheAccessCount) := by
  have h1 := Collaborative.reachable_invariant sqrt c hc
  have h2 := Content.content_reachable_invariant d hd
  exact ⟨⟨h1.lookups.1, h1.lookups.2.1, h1.lookups.2.2, h1.1⟩,
    ⟨h2.lookups.1, h2.lookups.2.1, h2.lookups.2.2, h2.1⟩⟩

/-- C37 on two reachable states: the Collaborative cache after a precomputation on the
cosine test graph (two threads, run one after the other) and a lookup of the pair `(1, 2)`,
and the Content cache after a precomputation on the graph of
`test_Hybrid_CombinesAllComponents` with four threads. -/
theorem cache_maps_consistent_witness :
    (∀ k v,
        Map.find
            ((Collaborative.preComputeSimilarities Real.sqrt (cosineGraph ℝ)
                { similarityCache := [], cacheAccessCount := [] } 2
                List.flatten).getCachedSimilarity 1 2).2.similarityCache k = some v →
          0 < v)
      ∧ (∀ k n,
          Map.find
              (Content.preComputeSimilarities (combinedGraph ℝ)
                { similarityCache := [], cacheAccessCount := [] } 4
                List.flatten).cacheAccessCount k = some n →
            1 ≤ n) :=
  have h := cache_maps_consistent Real.sqrt
    ((Collaborative.preComputeSimilarities Real.sqrt (cosineGraph ℝ)
      { similarityCache := [], cacheAccessCount := [] } 2 List.flatten).getCachedSimilarity
      1 2).2
    (Content.preComputeSimilarities (combinedGraph ℝ)
      { similarityCache := [], cacheAccessCount := [] } 4 List.flatten)
    (Collaborative.Reachable.lookup _ 1 2
      (Collaborative.Reachable.precompute _ (cosineGraph ℝ) 2 List.flatten
        Collaborative.Reachable.empty))
    (Content.Reachable.precompute _ (combinedGraph ℝ) 4 List.flatten Content.Reachable.empty)
  ⟨h.1.2.2.1, h.2.2.1⟩

section SimilaritySymmetry

variable {F : Type} [LinearOrderedField F]

theorem jaccardSpec_comm (G1 G2 : Finset String) :
    (jaccardSpec G1 G2 : F) = jaccardSpec G2 G1 := by
  unfold jaccardSpec
  rw [Finset.inter_comm, Finset.union_comm]
  by_cases h : G1 = ∅ ∨ G2 = ∅
  · rw [if_pos h, if_pos h.symm]
  · rw [if_neg h, if_neg (fun h2 => h h2.symm)]

theorem contentSimilaritySpec_comm (a b : BipartiteGraph.Item F) :
    contentSimilaritySpec a b = contentSimilaritySpec b a := by
  unfold contentSimilaritySpec
  rw [jaccardSpec_comm, abs_sub_comm a.imdb b.imdb,
    abs_sub_comm (a.rating : F) (b.rating : F), abs_sub_comm (a.length : F) (b.length : F)]

theorem Content.calculateSimilarity_comm (g : BipartiteGraph F) (i1 i2 : Int) :
    Content.calculateSimilarity g i1 i2 = Content.calculateSimilarity g i2 i1 := by
  by_cases hne : i1 = i2
  · rw [hne]
  · have hne2 : i2 ≠ i1 := fun e => hne e.symm
    cases h1 : Map.find g.items i1 with
    | none =>
      rw [Content.calculateSimilarity_missing g i1 i2 hne (Or.inl h1),
        Content.calculateSimilarity_missing g i2 i1 hne2 (Or.inr h1)]
    | some a =>
      cases h2 : Map.find g.items i2 with
      | none =>
        rw [Content.calculateSimilarity_missing g i1 i2 hne (Or.inr h2),
          Content.calculateSimilarity_missing g i2 i1 hne2 (Or.inl h2)]
      | some b =>
        rw [Content.calculateSimilarity_eq_spec g i1 i2 a b hne h1 h2,
          Content.calculateSimilarity_eq_spec g i2 i1 b a hne2 h2 h1]
        exact contentSimilaritySpec_comm a b

theorem commonCount_lt_one_iff {G : Type} (r1 r2 : List (Int × G)) :
    commonCount r1 r2 < 1 ↔ ∀ i, ¬ (i ∈ r1.map Prod.fst ∧ i ∈ r2.map Prod.fst) := by
  unfold commonCount
  rw [Nat.lt_one_iff, List.length_eq_zero, List.filter_eq_nil_iff]
  constructor
  · rintro h i ⟨h1, h2⟩
    obtain ⟨e, he, rfl⟩ := List.mem_map.mp h2
    exact h e he (by simpa using h1)
  · intro h e he hp
    exact h e.1 ⟨by simpa using hp, List.mem_map_of_mem Prod.fst he⟩

theorem degenerateRatings_comm (r1 r2 : List (Int × F)) :
    DegenerateRatings r1 r2 ↔ DegenerateRatings r2 r1 := by
  unfold DegenerateRatings
  rw [commonCount_lt_one_iff r1 r2, commonCount_lt_one_iff r2 r1]
  have hsym : (∀ i, ¬ (i ∈ r1.map Prod.fst ∧ i ∈ r2.map Prod.fst))
      ↔ ∀ i, ¬ (i ∈ r2.map Prod.fst ∧ i ∈ r1.map Prod.fst) := by
    constructor
    · intro h i hi
      exact h i ⟨hi.2, hi.1⟩
    · intro h i hi
      exact h i ⟨hi.2, hi.1⟩
  rw [hsym]
  tauto

/-- The value of `calculateSimilarity` when no guard fires, for rating lists without a
repeated item id: the dot product over the commonly rated items, divided by
`sqrt (Σ r1²) · sqrt (Σ r2²)`. -/
theorem Collaborative.calculateSimilarity_dot (sqrt : F → F) (g : BipartiteGraph F)
    (u1 u2 : Int) (r1 r2 : List (Int × F)) (hne : u1 ≠ u2)
    (h1 : Map.find g.user_to_items u1 = some r1) (h2 : Map.find g.user_to_items u2 = some r2)
    (hnd1 : (r1.map Prod.fst).Nodup) (hnd2 : (r2.map Prod.fst).Nodup)
    (hd : ¬ DegenerateRatings r1 r2) :
    Collaborative.calculateSimilarity sqrt g u1 u2
      = Finset.sum (ratedItems r1 ∩ ratedItems r2) (fun i => ratingOf r1 i * ratingOf r2 i)
        / (sqrt (squareSum r1) * sqrt (squareSum r2)) := by
  have he1 : r1 ≠ [] := fun h => hd (Or.inl h)
  have he2 : r2 ≠ [] := fun h => hd (Or.inr (Or.inl h))
  rw [Collaborative.calculateSimilarity_unfold sqrt g u1 u2 r1 r2 hne h1 h2 he1 he2]
  rw [foldl_add_sq, Collaborative.foldl_dotStep]
  simp only [zero_add]
  have hcount : ((r2.filter (fun e =>
      (Map.find (r1.foldl (fun m e => Map.insert m e.1 e.2) ([] : Map Int F)) e.1).isSome)).length
        : Int) = (commonCount r1 r2 : Int) := by
    unfold commonCount
    congr 2
    apply List.filter_congr
    intro e _
    have := Map.find_foldl_insert_isSome r1 e.1 ([] : Map Int F)
    simp only [Map.find, Option.isSome_none, Bool.false_eq_true, false_or] at this
    rw [Bool.eq_iff_iff, this]
    simp
  rw [hcount, Collaborative.dot_eq_sum_common r1 r2 hnd1 hnd2]
  have hs1 : (r1.map (fun e => e.2 * e.2)).sum = squareSum r1 := rfl
  have hs2 : (r2.map (fun e => e.2 * e.2)).sum = squareSum r2 := rfl
  rw [hs1, hs2]
  have hc : ¬ (squareSum r1 = 0 ∨ squareSum r2 = 0 ∨ (commonCount r1 r2 : Int) < 1) := by
    rintro (h | h | h)
    · exact hd (Or.inr (Or.inr (Or.inl h)))
    · exact hd (Or.inr (Or.inr (Or.inr (Or.inl h))))
    · exact hd (Or.inr (Or.inr (Or.inr (Or.inr (by exact_mod_cast h)))))
  simp only [hc, if_false]

theorem Collaborative.userSimilarity_comm (sqrt : F → F) (g : BipartiteGraph F)
    (u1 u2 : Int)
    (hnd1 : ∀ r, Map.find g.user_to_items u1 = some r → (r.map Prod.fst).Nodup)
    (hnd2 : ∀ r, Map.find g.user_to_items u2 = some r → (r.map Prod.fst).Nodup) :
    Collaborative.calculateSimilarity sqrt g u1 u2
      = Collaborative.calculateSimilarity sqrt g u2 u1 := by
  by_cases hne : u1 = u2
  · rw [hne]
  · have hne2 : u2 ≠ u1 := fun e => hne e.symm
    cases h1 : Map.find g.user_to_items u1 with
    | none =>
      rw [Collaborative.userSimilarity_missing sqrt g u1 u2 hne (Or.inl h1),
        Collaborative.userSimilarity_missing sqrt g u2 u1 hne2 (Or.inr h1)]
    | some r1 =>
      cases h2 : Map.find g.user_to_items u2 with
      | none =>
        rw [Collaborative.userSimilarity_missing sqrt g u1 u2 hne (Or.inr h2),
          Collaborative.userSimilarity_missing sqrt g u2 u1 hne2 (Or.inl h2)]
      | some r2 =>
        by_cases hd : DegenerateRatings r1 r2
        · rw [(Collaborative.calculateSimilarity_guarded sqrt g u1 u2 r1 r2 hne h1 h2).1 hd,
            (Collaborative.calculateSimilarity_guarded sqrt g u2 u1 r2 r1 hne2 h2 h1).1
              ((degenerateRatings_comm r1 r2).mp hd)]
        · have hd2 : ¬ DegenerateRatings r2 r1 := fun h => hd ((degenerateRatings_comm r1 r2).mpr h)
          rw [Collaborative.calculateSimilarity_dot sqrt g u1 u2 r1 r2 hne h1 h2 (hnd1 r1 h1)
              (hnd2 r2 h2) hd,
            Collaborative.calculateSimilarity_dot sqrt g u2 u1 r2 r1 hne2 h2 h1 (hnd2 r2 h2)
              (hnd1 r1 h1) hd2,
            Finset.inter_comm, mul_comm (sqrt (squareSum r1))]
          congr 1
          apply Finset.sum_congr rfl
          intro i _
          exact mul_comm _ _

end SimilaritySymmetry

/-- C40: on-demand similarity is symmetric in exact arithmetic.
`Content.calculateSimilarity (i1, i2) = Content.calculateSimilarity (i2, i1)` for all item
ids and all graph states, and
`Collaborative.calculateSimilarity (u1, u2) = Collaborative.calculateSimilarity (u2, u1)` for
all user ids whose rating lists, when they have one, hold no item id twice. -/
theorem similarity_symmetric {F : Type} [LinearOrderedField F] (sqrt : F → F)
    (g : BipartiteGraph F) (i1 i2 u1 u2 : Int)
    (hnd1 : ∀ r, Map.find g.user_to_items u1 = some r → (r.map Prod.fst).Nodup)
    (hnd2 : ∀ r, Map.find g.user_to_items u2 = some r → (r.map Prod.fst).Nodup) :
    Content.calculateSimilarity g i1 i2 = Content.calculateSimilarity g i2 i1
      ∧ Collaborative.calculateSimilarity sqrt g u1 u2
        = Collaborative.calculateSimilarity sqrt g u2 u1 :=
  ⟨Content.calculateSimilarity_comm g i1 i2,
    Collaborative.userSimilarity_comm sqrt g u1 u2 hnd1 hnd2⟩

/-- C40 on the cosine test graph over the reals: items 1 and 2, and users 1 and 2 (rating
lists `[(1, 3), (2, 4)]` and `[(1, 3)]`). -/
theorem similarity_symmetric_witness :
    Content.calculateSimilarity (cosineGraph ℝ) 1 2 = Content.calculateSimilarity (cosineGraph ℝ) 2 1
      ∧ Collaborative.calculateSimilarity Real.sqrt (cosineGraph ℝ) 1 2
        = Collaborative.calculateSimilarity Real.sqrt (cosineGraph ℝ) 2 1 :=
  similarity_symmetric Real.sqrt (cosineGraph ℝ) 1 2 1 2
    (by
      intro r hr
      rw [cosineGraph_users] at hr
      simp only [Map.find, if_true, Option.some.injEq] at hr
      rw [← hr]
      decide)
    (by
      intro r hr
      rw [cosineGraph_users] at hr
      simp [Map.find] at hr
      rw [← hr]
      decide)

section SimilarityRange

variable {F : Type} [LinearOrderedField F]

theorem squareSum_eq_sum (r : List (Int × F)) (hnd : (r.map Prod.fst).Nodup) :
    squareSum r = Finset.sum (ratedItems r) (fun i => ratingOf r i * ratingOf r i) :=
  sum_map_eq_sum_ratedItems r hnd (fun _ v => v * v)

theorem ratingOf_nonneg (r : List (Int × F)) (h : ∀ e ∈ r, 0 ≤ e.2) (i : Int) :
    0 ≤ ratingOf r i := by
  unfold ratingOf
  cases hf : Map.find r i with
  | none => simp
  | some v => exact h (i, v) (Map.mem_of_find r i v hf)

/-- Cauchy–Schwarz for the dot product over the commonly rated items against the squared
magnitudes over all rated items. -/
theorem dot_sq_le (r1 r2 : List (Int × F)) (hnd1 : (r1.map Prod.fst).Nodup)
    (hnd2 : (r2.map Prod.fst).Nodup) :
    Finset.sum (ratedItems r1 ∩ ratedItems r2) (fun i => ratingOf r1 i * ratingOf r2 i) ^ 2
      ≤ squareSum r1 * squareSum r2 := by
  have hcs := Finset.sum_mul_sq_le_sq_mul_sq (ratedItems r1 ∩ ratedItems r2)
    (fun i => ratingOf r1 i) (fun i => ratingOf r2 i)
  have h1 : Finset.sum (ratedItems r1 ∩ ratedItems r2) (fun i => ratingOf r1 i ^ 2)
      ≤ squareSum r1 := by
    rw [squareSum_eq_sum r1 hnd1]
    have : Finset.sum (ratedItems r1 ∩ ratedItems r2) (fun i => ratingOf r1 i ^ 2)
        = Finset.sum (ratedItems r1 ∩ ratedItems r2) (fun i => ratingOf r1 i * ratingOf r1 i) :=
      Finset.sum_congr rfl (fun i _ => sq (ratingOf r1 i))
    rw [this]
    exact Finset.sum_le_sum_of_subset_of_nonneg Finset.inter_subset_left
      (fun i _ _ => mul_self_nonneg _)
  have h2 : Finset.sum (ratedItems r1 ∩ ratedItems r2) (fun i => ratingOf r2 i ^ 2)
      ≤ squareSum r2 := by
    rw [squareSum_eq_sum r2 hnd2]
    have : Finset.sum (ratedItems r1 ∩ ratedItems r2) (fun i => ratingOf r2 i ^ 2)
        = Finset.sum (ratedItems r1 ∩ ratedItems r2) (fun i => ratingOf r2 i * ratingOf r2 i) :=
      Finset.sum_congr rfl (fun i _ => sq (ratingOf r2 i))
    rw [this]
    exact Finset.sum_le_sum_of_subset_of_nonneg Finset.inter_subset_right
      (fun i _ _ => mul_self_nonneg _)
  have hnn1 : 0 ≤ Finset.sum (ratedItems r1 ∩ ratedItems r2) (fun i => ratingOf r1 i ^ 2) :=
    Finset.sum_nonneg (fun i _ => sq_nonneg _)
  calc Finset.sum (ratedItems r1 ∩ ratedItems r2) (fun i => ratingOf r1 i * ratingOf r2 i) ^ 2
      ≤ Finset.sum (ratedItems r1 ∩ ratedItems r2) (fun i => ratingOf r1 i ^ 2)
          * Finset.sum (ratedItems r1 ∩ ratedItems r2) (fun i => ratingOf r2 i ^ 2) := hcs
    _ ≤ squareSum r1 * squareSum r2 :=
        mul_le_mul h1 h2 (Finset.sum_nonneg (fun i _ => sq_nonneg _)) (squareSum_nonneg r1)

theorem Collaborative.userSimilarity_bounds (sqrt : F → F)
    (hsqrt : ∀ x, 0 < x → 0 < sqrt x ∧ sqrt x * sqrt x = x) (g : BipartiteGraph F)
    (u1 u2 : Int) (r1 r2 : List (Int × F)) (hne : u1 ≠ u2)
    (h1 : Map.find g.user_to_items u1 = some r1) (h2 : Map.find g.user_to_items u2 = some r2)
    (hnd1 : (r1.map Prod.fst).Nodup) (hnd2 : (r2.map Prod.fst).Nodup) :
    (-1 ≤ Collaborative.calculateSimilarity sqrt g u1 u2
        ∧ Collaborative.calculateSimilarity sqrt g u1 u2 ≤ 1)
      ∧ ((∀ e ∈ r1, 0 ≤ e.2) → (∀ e ∈ r2, 0 ≤ e.2) →
          0 ≤ Collaborative.calculateSimilarity sqrt g u1 u2) := by
  by_cases hd : DegenerateRatings r1 r2
  · rw [(Collaborative.calculateSimilarity_guarded sqrt g u1 u2 r1 r2 hne h1 h2).1 hd]
    exact ⟨⟨by norm_num, by norm_num⟩, fun _ _ => le_refl _⟩
  · have hp1 : 0 < squareSum r1 :=
      lt_of_le_of_ne (squareSum_nonneg r1)
        (fun h => hd (Or.inr (Or.inr (Or.inl h.symm))))
    have hp2 : 0 < squareSum r2 :=
      lt_of_le_of_ne (squareSum_nonneg r2)
        (fun h => hd (Or.inr (Or.inr (Or.inr (Or.inl h.symm)))))
    obtain ⟨hs1, hq1⟩ := hsqrt _ hp1
    obtain ⟨hs2, hq2⟩ := hsqrt _ hp2
    have hs : 0 < sqrt (squareSum r1) * sqrt (squareSum r2) := mul_pos hs1 hs2
    have hsq : (sqrt (squareSum r1) * sqrt (squareSum r2)) ^ 2
        = squareSum r1 * squareSum r2 := by
      calc (sqrt (squareSum r1) * sqrt (squareSum r2)) ^ 2
          = (sqrt (squareSum r1) * sqrt (squareSum r1))
              * (sqrt (squareSum r2) * sqrt (squareSum r2)) := by ring
        _ = squareSum r1 * squareSum r2 := by rw [hq1, hq2]
    have hdot := dot_sq_le r1 r2 hnd1 hnd2
    rw [← hsq] at hdot
    have habs := abs_le_of_sq_le_sq' hdot hs.le
    rw [Collaborative.calculateSimilarity_dot sqrt g u1 u2 r1 r2 hne h1 h2 hnd1 hnd2 hd]
    refine ⟨⟨?_, ?_⟩, ?_⟩
    · rw [le_div_iff₀ hs]
      linarith [habs.1]
    · rw [div_le_one hs]
      exact habs.2
    · intro hn1 hn2
      apply div_nonneg _ hs.le
      apply Finset.sum_nonneg
      intro i _
      exact mul_nonneg (ratingOf_nonneg r1 hn1 i) (ratingOf_nonneg r2 hn2 i)

end SimilarityRange

/-- C39: over the reals, with the real square root, for every two distinct existing users
whose rating lists hold no item id twice, `Collaborative.calculateSimilarity` lies in
`[-1, 1]`, and in `[0, 1]` when all ratings of both users are non-negative. -/
theorem user_similarity_range (g : BipartiteGraph ℝ) (u1 u2 : Int)
    (r1 r2 : List (Int × ℝ)) (hne : u1 ≠ u2)
    (h1 : Map.find g.user_to_items u1 = some r1) (h2 : Map.find g.user_to_items u2 = some r2)
    (hnd1 : (r1.map Prod.fst).Nodup) (hnd2 : (r2.map Prod.fst).Nodup) :
    (-1 ≤ Collaborative.calculateSimilarity Real.sqrt g u1 u2
        ∧ Collaborative.calculateSimilarity Real.sqrt g u1 u2 ≤ 1)
      ∧ ((∀ e ∈ r1, 0 ≤ e.2) → (∀ e ∈ r2, 0 ≤ e.2) →
          0 ≤ Collaborative.calculateSimilarity Real.sqrt g u1 u2
            ∧ Collaborative.calculateSimilarity Real.sqrt g u1 u2 ≤ 1) := by
  have h := Collaborative.userSimilarity_bounds Real.sqrt
    (fun x hx => ⟨Real.sqrt_pos.mpr hx, Real.mul_self_sqrt hx.le⟩) g u1 u2 r1 r2 hne h1 h2
    hnd1 hnd2
  exact ⟨h.1, fun hn1 hn2 => ⟨h.2 hn1 hn2, h.1.2⟩⟩

/-- C39 on users 1 and 2 of the cosine test graph (rating lists `[(1, 3), (2, 4)]` and
`[(1, 3)]`): the similarity lies in `[-1, 1]`. -/
theorem user_similarity_range_witness :
    Map.find (cosineGraph ℝ).user_to_items 1 = some [(1, 3), (2, 4)]
      ∧ Map.find (cosineGraph ℝ).user_to_items 2 = some [(1, 3)]
      ∧ -1 ≤ Collaborative.calculateSimilarity Real.sqrt (cosineGraph ℝ) 1 2
      ∧ Collaborative.calculateSimilarity Real.sqrt (cosineGraph ℝ) 1 2 ≤ 1 :=
  have hu1 : Map.find (cosineGraph ℝ).user_to_items 1 = some [(1, 3), (2, 4)] := by
    rw [cosineGraph_users]
    simp [Map.find]
  have hu2 : Map.find (cosineGraph ℝ).user_to_items 2 = some [(1, 3)] := by
    rw [cosineGraph_users]
    simp [Map.find]
  have h := (user_similarity_range (cosineGraph ℝ) 1 2 [(1, 3), (2, 4)] [(1, 3)] (by decide)
    hu1 hu2 (by decide) (by decide)).1
  ⟨hu1, hu2, h.1, h.2⟩

theorem pairsPerThread_ceil (L T : Nat) (hT : 1 ≤ T) :
    L ≤ T * pairsPerThread L T ∧ (0 < L → T * (pairsPerThread L T - 1) < L)
      ∧ (0 < L → 0 < pairsPerThread L T) := by
  unfold pairsPerThread
  have h1 : (L + T - 1) % T < T := Nat.mod_lt _ (by omega)
  have h2 := Nat.div_add_mod (L + T - 1) T
  have hpos : 0 < L → 0 < (L + T - 1) / T := by
    intro hL
    apply Nat.div_pos
    · omega
    · omega
  refine ⟨?_, ?_, hpos⟩
  · generalize T * ((L + T - 1) / T) = m at h2 ⊢
    generalize (L + T - 1) % T = r at h1 h2
    omega
  · intro hL
    have h3 := hpos hL
    have h4 : T * ((L + T - 1) / T - 1) = T * ((L + T - 1) / T) - T := by
      rw [Nat.mul_sub, Nat.mul_one]
    rw [h4]
    generalize T * ((L + T - 1) / T) = m at h2 ⊢
    generalize (L + T - 1) % T = r at h1 h2
    omega

theorem threadSlices_eq (pairs : List (Int × Int)) (numThreads : Nat) :
    threadSlices pairs numThreads
      = ((List.range numThreads).filter
            (fun i =>
              decide (i * pairsPerThread pairs.length numThreads
                < min (i * pairsPerThread pairs.length numThreads
                    + pairsPerThread pairs.length numThreads) pairs.length))).map
          (fun i =>
            pairSlice pairs (i * pairsPerThread pairs.length numThreads)
              (min (i * pairsPerThread pairs.length numThreads
                + pairsPerThread pairs.length numThreads) pairs.length)) := by
  have h := foldl_push_map_filter
    (fun i =>
      decide (i * pairsPerThread pairs.length numThreads
        < min (i * pairsPerThread pairs.length numThreads
            + pairsPerThread pairs.length numThreads) pairs.length))
    (fun i =>
      pairSlice pairs (i * pairsPerThread pairs.length numThreads)
        (min (i * pairsPerThread pairs.length numThreads
          + pairsPerThread pairs.length numThreads) pairs.length))
    (List.range numThreads) []
  simp only [decide_eq_true_eq, List.nil_append] at h
  rw [← h]
  rfl

theorem range_index_unique (L T c : Nat) (hcover : L ≤ T * c) (k : Nat) (hk : k < L) :
    ∃! i, i < T ∧ i * c ≤ k ∧ k < min (i * c + c) L := by
  have hc : 0 < c := by
    rcases Nat.eq_zero_or_pos c with h | h
    · rw [h] at hcover
      omega
    · exact h
  refine ⟨k / c, ⟨?_, ?_, ?_⟩, ?_⟩
  · rw [Nat.div_lt_iff_lt_mul hc]
    calc k < L := hk
      _ ≤ T * c := hcover
  · exact Nat.div_mul_le_self k c
  · rw [lt_min_iff]
    refine ⟨?_, hk⟩
    have h2 : c * (k / c + 1) = k / c * c + c := by ring
    have h3 := Nat.lt_mul_div_succ k hc
    rw [h2] at h3
    exact h3
  · rintro i ⟨_, hlo, hhi⟩
    rw [lt_min_iff] at hhi
    symm
    apply Nat.div_eq_of_lt_le
    · exact hlo
    · have h2 : (i + 1) * c = i * c + c := by ring
      rw [h2]
      exact hhi.1

/-- C33: work partitioning in `preComputeSimilarities`. For every pair list of length `L`
and every thread count `T ≥ 1`, with `c = (L + T - 1) / T = ceil (L / T)`: the workers are
started on the index ranges `[i·c, min (i·c + c, L))`, `i = 0 .. T - 1`, that are not empty,
in that order; a range is non-empty exactly when `i·c < L`, a non-empty range ends where the
next one starts, every index `k < L` lies in exactly one range, and the slices one after
another are the pair list itself, so every enumerated pair is handed to exactly one worker.
The divisor `T` is not zero. -/
theorem work_partitioning (pairs : List (Int × Int)) (numThreads : Nat)
    (hT : 1 ≤ numThreads) :
    (pairs.length ≤ numThreads * pairsPerThread pairs.length numThreads
        ∧ (0 < pairs.length →
            numThreads * (pairsPerThread pairs.length numThreads - 1) < pairs.length))
      ∧ threadSlices pairs numThreads
        = ((List.range numThreads).filter
              (fun i =>
                decide (i * pairsPerThread pairs.length numThreads
                  < min (i * pairsPerThread pairs.length numThreads
                      + pairsPerThread pairs.length numThreads) pairs.length))).map
            (fun i =>
              pairSlice pairs (i * pairsPerThread pairs.length numThreads)
                (min (i * pairsPerThread pairs.length numThreads
                  + pairsPerThread pairs.length numThreads) pairs.length))
      ∧ (∀ i, i * pairsPerThread pairs.length numThreads
            < min (i * pairsPerThread pairs.length numThreads
                + pairsPerThread pairs.length numThreads) pairs.length
          ↔ i * pairsPerThread pairs.length numThreads < pairs.length)
      ∧ (∀ i, (i + 1) * pairsPerThread pairs.length numThreads < pairs.length →
          min (i * pairsPerThread pairs.length numThreads
              + pairsPerThread pairs.length numThreads) pairs.length
            = (i + 1) * pairsPerThread pairs.length numThreads)
      ∧ (∀ k, k < pairs.length →
          ∃! i, i < numThreads ∧ i * pairsPerThread pairs.length numThreads ≤ k
            ∧ k < min (i * pairsPerThread pairs.length numThreads
                + pairsPerThread pairs.length numThreads) pairs.length)
      ∧ (threadSlices pairs numThreads).flatten = pairs
      ∧ numThreads ≠ 0 := by
  obtain ⟨hcover, hceil, hpos⟩ := pairsPerThread_ceil pairs.length numThreads hT
  refine ⟨⟨hcover, hceil⟩, threadSlices_eq pairs numThreads, ?_, ?_, ?_,
    threadSlices_flatten pairs numThreads hT, by omega⟩
  · intro i
    rw [lt_min_iff]
    constructor
    · intro h
      exact h.2
    · intro h
      have hc := hpos (by omega)
      exact ⟨by omega, h⟩
  · intro i h
    have h2 : (i + 1) * pairsPerThread pairs.length numThreads
        = i * pairsPerThread pairs.length numThreads
          + pairsPerThread pairs.length numThreads := by ring
    rw [h2] at h ⊢
    exact Nat.min_eq_left h.le
  · intro k hk
    exact range_index_unique pairs.length numThreads _ hcover k hk

/-- C33 on five pairs and two threads: the chunk size is 3, the workers get the ranges
`[0, 3)` and `[3, 5)`, and the two slices together are the pair list. -/
theorem work_partitioning_witness :
    pairsPerThread 5 2 = 3
      ∧ threadSlices [(1, 2), (1, 3), (1, 4), (2, 3), (2, 4)] 2
        = [[(1, 2), (1, 3), (1, 4)], [(2, 3), (2, 4)]]
      ∧ (threadSlices [(1, 2), (1, 3), (1, 4), (2, 3), (2, 4)] 2).flatten
        = [(1, 2), (1, 3), (1, 4), (2, 3), (2, 4)] :=
  ⟨by decide, by decide,
    (work_partitioning [(1, 2), (1, 3), (1, 4), (2, 3), (2, 4)] 2 (by decide)).2.2.2.2.2.1⟩

section RankRound

variable {F : Type} [LinearOrderedField F]

theorem foldl_max_length_ge {G : Type} (users : List (Int × List (Int × G))) :
    ∀ m : Nat, m ≤ users.foldl (fun m u => max m u.2.length) m
      ∧ ∀ u ∈ users, u.2.length ≤ users.foldl (fun m u => max m u.2.length) m := by
  induction users with
  | nil =>
    intro m
    simp
  | cons x t ih =>
    intro m
    simp only [List.foldl]
    obtain ⟨h1, h2⟩ := ih (max m x.2.length)
    refine ⟨le_trans (le_max_left _ _) h1, ?_⟩
    intro u hu
    rcases List.mem_cons.mp hu with hu | hu
    · rw [hu]
      exact le_trans (le_max_right _ _) h1
    · exact h2 u hu

theorem PageRank.activity_eq_spec (exp : F → F) (numRatings maxRatings : Nat)
    (hm : maxRatings ≠ 0) :
    PageRank.calculateActivityScore exp numRatings maxRatings
      = activitySpec exp numRatings maxRatings := by
  unfold PageRank.calculateActivityScore activitySpec PageRank.CORE_ACTIVITY_THRESHOLD
    PageRank.ACTIVITY_BOOST
  simp only [hm, if_false]
  split_ifs
  · rfl
  · norm_num

theorem PageRank.shared_eq_commonCount (g : BipartiteGraph F) (rU rO : List (Int × F))
    (hexist : ∀ e ∈ rU, (Map.find g.items e.1).isSome) :
    PageRank.sharedMovies (PageRank.userMoviesOf g rU) rO = (commonCount rU rO : Int) := by
  rw [PageRank.sharedMovies_eq_length]
  unfold commonCount
  congr 2
  apply List.filter_congr
  intro e _
  rw [decide_eq_decide, PageRank.mem_userMoviesOf]
  constructor
  · intro h
    exact h.1
  · intro h
    obtain ⟨x, hx, hx1⟩ := List.mem_map.mp h
    refine ⟨h, ?_⟩
    rw [← hx1]
    exact hexist x hx

theorem commonCount_of_empty {G : Type} (rU : List (Int × G)) : commonCount rU [] = 0 := rfl

theorem contributionOf_eq_term (ranks : Map Int F) (U : Int × List (Int × F))
    (g : BipartiteGraph F) (hexist : ∀ e ∈ U.2, (Map.find g.items e.1).isSome)
    (activityScore : F) (o : Int × List (Int × F)) :
    contributionOf ranks U.1 (PageRank.userMoviesOf g U.2) activityScore o
      = if o.1 ≠ U.1 then
          85 / 100 * activityScore
            * (rankOf ranks o.1 * (commonCount U.2 o.2 : F) / (o.2.length : F))
        else 0 := by
  unfold contributionOf
  rw [PageRank.shared_eq_commonCount g U.2 o.2 hexist]
  by_cases ho : o.1 = U.1
  · simp [ho]
  · simp only [ho, if_false, ne_eq, not_false_eq_true, if_true, PageRank.DAMPING, rankOf]
    by_cases hs : (commonCount U.2 o.2 : Int) > 0
    · simp only [hs, if_true, Int.cast_natCast]
    · have h0 : commonCount U.2 o.2 = 0 := by omega
      simp [h0]

theorem sum_contributions (ranks : Map Int F) (U : Int × List (Int × F))
    (g : BipartiteGraph F) (hexist : ∀ e ∈ U.2, (Map.find g.items e.1).isSome)
    (activityScore : F) (users : List (Int × List (Int × F))) :
    (users.map (contributionOf ranks U.1 (PageRank.userMoviesOf g U.2) activityScore)).sum
      = 85 / 100 * activityScore
        * ((users.filter (fun O => decide (O.1 ≠ U.1))).map
            (fun O => rankOf ranks O.1 * (commonCount U.2 O.2 : F) / (O.2.length : F))).sum := by
  induction users with
  | nil => simp
  | cons o t ih =>
    rw [List.map_cons, List.sum_cons, ih, contributionOf_eq_term ranks U g hexist]
    by_cases ho : o.1 = U.1
    · simp [ho, List.filter_cons]
    · simp only [ne_eq, ho, not_false_eq_true, if_true, List.filter_cons, decide_True,
        List.map_cons, List.sum_cons]
      ring

/-- The value one round computes for a user is the specified new rank. -/
theorem PageRank.newRankOf_eq_spec (exp : F → F) (g : BipartiteGraph F) (R : Map Int F)
    (U : Int × List (Int × F))
    (hexist : ∀ e ∈ U.2, (Map.find g.items e.1).isSome) :
    PageRank.newRankOf exp g R (maxRatingsOf g) U = newRankPerRating exp g R U := by
  rw [PageRank.newRankOf_eq, sum_contributions R U g hexist]
  unfold newRankPerRating PageRank.DAMPING
  by_cases hm : maxRatingsOf g = 0
  · have hzero : ((g.user_to_items.filter (fun O => decide (O.1 ≠ U.1))).map
        (fun O => rankOf R O.1 * (commonCount U.2 O.2 : F) / (O.2.length : F))).sum = 0 := by
      apply List.sum_eq_zero
      intro x hx
      obtain ⟨O, hO, rfl⟩ := List.mem_map.mp hx
      have hlen := (foldl_max_length_ge g.user_to_items 0).2 O (List.mem_filter.mp hO).1
      have hO2 : O.2 = [] := by
        apply List.eq_nil_of_length_eq_zero
        unfold maxRatingsOf at hm
        omega
      rw [hO2]
      simp [commonCount_of_empty]
    rw [hzero]
    simp
  · rw [PageRank.activity_eq_spec exp U.2.length (maxRatingsOf g) hm]

theorem PageRank.round_eq_map (exp : F → F) (g : BipartiteGraph F) (R : Map Int F)
    (maxRatings : Nat) (hkeys : (g.user_to_items.map Prod.fst).Nodup) :
    (g.user_to_items.foldl (PageRank.rankStep exp g R maxRatings) ([], 0)).1
      = g.user_to_items.map (fun u => (u.1, PageRank.newRankOf exp g R maxRatings u)) := by
  rw [PageRank.round_fst]
  have h := Map.foldl_insert_map
    (fun e : Int × F => e.2)
    (g.user_to_items.map (fun u => (u.1, PageRank.newRankOf exp g R maxRatings u))) []
    (by
      rw [List.map_map]
      simpa using hkeys)
  simp only [List.nil_append, List.map_map] at h
  rw [h]
  rfl

theorem commonCount_eq_card {G : Type} (rU rO : List (Int × G))
    (hnd : (rO.map Prod.fst).Nodup) :
    commonCount rU rO = (ratedItems rU ∩ ratedItems rO).card := by
  unfold commonCount ratedItems
  have h1 : (rO.filter (fun e => decide (e.1 ∈ rU.map Prod.fst))).length
      = ((rO.map Prod.fst).filter (fun i => decide (i ∈ rU.map Prod.fst))).length := by
    rw [List.filter_map, List.length_map]
    rfl
  rw [h1, ← List.toFinset_card_of_nodup (hnd.filter _)]
  congr 1
  ext i
  simp only [List.mem_toFinset, List.mem_filter, decide_eq_true_eq, Finset.mem_inter]
  tauto

end RankRound

/-- With duplicate-free rating lists of the other users, counting the stored ratings of `O`
whose item `U` rated is counting the items rated by both. -/
theorem newRankPerRating_eq_spec {F : Type} [LinearOrderedField F] (exp : F → F)
    (g : BipartiteGraph F) (R : Map Int F) (U : Int × List (Int × F))
    (hnd : ∀ O ∈ g.user_to_items, O.1 ≠ U.1 → (O.2.map Prod.fst).Nodup) :
    newRankPerRating exp g R U = newRankSpec exp g R U := by
  unfold newRankPerRating newRankSpec
  congr 3
  apply List.map_congr_left
  intro O hO
  obtain ⟨hmem, hne⟩ := List.mem_filter.mp hO
  rw [commonCount_eq_card U.2 O.2 (hnd O hmem (of_decide_eq_true hne))]

theorem repeatGraph_maxRatings (F : Type) [LinearOrderedField F] :
    maxRatingsOf (repeatGraph F) = 6 := by
  unfold maxRatingsOf
  rw [repeatGraph_users]
  rfl

theorem repeatGraph_newRankSpec {F : Type} [LinearOrderedField F] (exp : F → F) :
    newRankSpec exp (repeatGraph F) [(1, 1 / 2), (2, 1 / 2)] (1, [(1, 5), (4, 5), (6, 5)])
      = 23 / 80 := by
  have hcard : (ratedItems ([(1, 5), (4, 5), (6, 5)] : List (Int × F))
      ∩ ratedItems ([(1, 5), (1, 4), (1, 3), (2, 5), (3, 5), (5, 5)] : List (Int × F))).card
      = 1 := by
    simp [ratedItems]
  unfold newRankSpec
  rw [repeatGraph_maxRatings, repeatGraph_users]
  simp only [List.filter_cons, List.filter_nil, ne_eq, not_true_eq_false, decide_False,
    Bool.false_eq_true, if_false, List.map_cons, List.map_nil, List.sum_cons, List.sum_nil,
    List.length_cons, List.length_nil]
  norm_num [activitySpec, rankOf, Map.find]
  rw [hcard]
  norm_num

/-- C31 as stated fails: in the graph where user 1 rated items 1, 4 and 6 and the stored
list of user 2 holds item 1 three times (and items 2, 3, 5), exactly one item is rated by
both, but the round counts the three stored ratings of item 1: from the initial table
`1/2, 1/2` it computes `3/40 + 0.85 · 3 · (1/2 · 3/6) = 57/80` for user 1, where the stated
formula gives `3/40 + 0.85 · 3 · (1/2 · 1/6) = 23/80`. -/
theorem rank_round_counts_repeated_ratings :
    (repeatGraph ℝ).user_to_items
        = [(1, [(1, 5), (4, 5), (6, 5)]),
           (2, [(1, 5), (1, 4), (1, 3), (2, 5), (3, 5), (5, 5)])]
      ∧ (PageRank.initializeRanks (repeatGraph ℝ) { ranks := [] }).ranks
          = [(1, 1 / 2), (2, 1 / 2)]
      ∧ maxRatingsOf (repeatGraph ℝ) = 6
      ∧ (ratedItems ([(1, 5), (4, 5), (6, 5)] : List (Int × ℝ))
          ∩ ratedItems ([(1, 5), (1, 4), (1, 3), (2, 5), (3, 5), (5, 5)] :
              List (Int × ℝ))).card = 1
      ∧ Map.find
          ((repeatGraph ℝ).user_to_items.foldl
            (PageRank.rankStep Real.exp (repeatGraph ℝ) [(1, 1 / 2), (2, 1 / 2)] 6)
            ([], 0)).1 1
          = some (57 / 80)
      ∧ newRankSpec Real.exp (repeatGraph ℝ) [(1, 1 / 2), (2, 1 / 2)]
          (1, [(1, 5), (4, 5), (6, 5)]) = 23 / 80 := by
  refine ⟨repeatGraph_users ℝ, ?_, repeatGraph_maxRatings ℝ, ?_, ?_,
    repeatGraph_newRankSpec Real.exp⟩
  · simp only [PageRank.initializeRanks, repeatGraph_users]
    norm_num [List.foldl, Map.insert]
  · simp [ratedItems]
  · have hkeys : ((repeatGraph ℝ).user_to_items.map Prod.fst).Nodup := by
      rw [repeatGraph_users]
      decide
    have hU : ((1 : Int), [((1 : Int), (5 : ℝ)), (4, 5), (6, 5)])
        ∈ (repeatGraph ℝ).user_to_items := by
      rw [repeatGraph_users]
      simp
    rw [PageRank.find_round Real.exp (repeatGraph ℝ) _ 6 hkeys _ hU,
      (repeatGraph_newRank Real.exp _).1]
    norm_num [Map.find]

/-- C31, amended: one round of the Rank Engine, on a graph built by `addItem` and `addUser`
calls and a rank table `R` without negative entries (in the first round every user has rank
`1 / |Users|`). For every user `U` the round computes
`new_rank (U) = (1 - d) / |Users| + d · activity (U) · Σ_O rank (O) · shared (U, O) / |ratings (O)|`
over all other users `O`, with `d = 0.85`, `activity (U) = 3.0` when
`|ratings (U)| / maxRatings ≥ 0.5` and `1.0 + 2.0 / (1 + e ^ (-10·(ratio - 0.5)))` otherwise,
and `shared (U, O)` the number of stored ratings of `O` whose item `U` has rated, which is
the number of items rated by both when the list of `O` holds no item twice. The rank stored
after the round is `max (MIN_RANK, new_rank (U) / Σ_V new_rank (V))` with `MIN_RANK = 0.0001`.
When no rating list of the graph holds an item twice, the new ranks are those of the formula
with `shared (U, O)` the number of items rated by both `U` and `O`.
The round is the body of the loop that the constructor runs from the initial table.
Here `exp` is any positive function standing for `std::exp`. -/
theorem rank_round_formula {F : Type} [LinearOrderedField F] (exp : F → F)
    (hexp : ∀ x, 0 < exp x) (ops : List (BipartiteGraph.Op F)) (R : Map Int F)
    (hR : ∀ e ∈ R, 0 ≤ e.2) (U : Int × List (Int × F))
    (hU : U ∈ (BipartiteGraph.run ops).user_to_items) :
    Map.find
        ((BipartiteGraph.run ops).user_to_items.foldl
          (PageRank.rankStep exp (BipartiteGraph.run ops) R
            (maxRatingsOf (BipartiteGraph.run ops))) ([], 0)).1 U.1
        = some (newRankPerRating exp (BipartiteGraph.run ops) R U)
      ∧ Map.find
          (PageRank.normalizeRanks
            ((BipartiteGraph.run ops).user_to_items.foldl
              (PageRank.rankStep exp (BipartiteGraph.run ops) R
                (maxRatingsOf (BipartiteGraph.run ops))) ([], 0)).1) U.1
        = some (max (1 / 10000)
            (newRankPerRating exp (BipartiteGraph.run ops) R U
              / ((BipartiteGraph.run ops).user_to_items.map
                  (newRankPerRating exp (BipartiteGraph.run ops) R)).sum))
      ∧ (∀ k, PageRank.iterate exp (BipartiteGraph.run ops)
            (maxRatingsOf (BipartiteGraph.run ops)) (k + 1) R
          = PageRank.normalizeRanks
              ((BipartiteGraph.run ops).user_to_items.foldl
                (PageRank.rankStep exp (BipartiteGraph.run ops) R
                  (maxRatingsOf (BipartiteGraph.run ops))) ([], 0)).1
          ∨ PageRank.iterate exp (BipartiteGraph.run ops)
              (maxRatingsOf (BipartiteGraph.run ops)) (k + 1) R
            = PageRank.iterate exp (BipartiteGraph.run ops)
                (maxRatingsOf (BipartiteGraph.run ops)) k
                (PageRank.normalizeRanks
                  ((BipartiteGraph.run ops).user_to_items.foldl
                    (PageRank.rankStep exp (BipartiteGraph.run ops) R
                      (maxRatingsOf (BipartiteGraph.run ops))) ([], 0)).1))
      ∧ ((BipartiteGraph.run ops).items ≠ [] →
          (PageRank.construct exp (BipartiteGraph.run ops)).ranks
            = PageRank.iterate exp (BipartiteGraph.run ops)
                (maxRatingsOf (BipartiteGraph.run ops)) PageRank.MAX_ITERATIONS
                (PageRank.initializeRanks (BipartiteGraph.run ops) { ranks := [] }).ranks)
      ∧ (∀ O ∈ (BipartiteGraph.run ops).user_to_items,
          rankOf (PageRank.initializeRanks (BipartiteGraph.run ops) { ranks := [] }).ranks O.1
            = 1 / ((BipartiteGraph.run ops).user_to_items.length : F))
      ∧ (∀ O : Int × List (Int × F), (O.2.map Prod.fst).Nodup →
          commonCount U.2 O.2 = (ratedItems U.2 ∩ ratedItems O.2).card)
      ∧ ((∀ O ∈ (BipartiteGraph.run ops).user_to_items, (O.2.map Prod.fst).Nodup) →
          newRankPerRating exp (BipartiteGraph.run ops) R U
              = newRankSpec exp (BipartiteGraph.run ops) R U
            ∧ (BipartiteGraph.run ops).user_to_items.map
                (newRankPerRating exp (BipartiteGraph.run ops) R)
              = (BipartiteGraph.run ops).user_to_items.map
                (newRankSpec exp (BipartiteGraph.run ops) R)) := by
  have hkeys := BipartiteGraph.run_users_nodup ops
  have hexistAll : ∀ V ∈ (BipartiteGraph.run ops).user_to_items,
      ∀ e ∈ V.2, (Map.find (BipartiteGraph.run ops).items e.1).isSome := by
    intro V hV
    exact BipartiteGraph.run_ratings_exist ops V.1 V.2
      (Map.find_of_mem_nodup _ hkeys V.1 V.2 hV)
  have hne : (BipartiteGraph.run ops).user_to_items ≠ [] := by
    intro h
    rw [h] at hU
    simp at hU
  have hraw := PageRank.round_eq_map exp (BipartiteGraph.run ops) R
    (maxRatingsOf (BipartiteGraph.run ops)) hkeys
  have hspec : (BipartiteGraph.run ops).user_to_items.map
      (fun u => (u.1, PageRank.newRankOf exp (BipartiteGraph.run ops) R
        (maxRatingsOf (BipartiteGraph.run ops)) u))
      = (BipartiteGraph.run ops).user_to_items.map
        (fun u => (u.1, newRankPerRating exp (BipartiteGraph.run ops) R u)) := by
    apply List.map_congr_left
    intro V hV
    rw [PageRank.newRankOf_eq_spec exp _ R V (hexistAll V hV)]
  have hfind : Map.find
      ((BipartiteGraph.run ops).user_to_items.map
        (fun u => (u.1, newRankPerRating exp (BipartiteGraph.run ops) R u))) U.1
      = some (newRankPerRating exp (BipartiteGraph.run ops) R U) := by
    apply Map.find_of_mem_nodup
    · rw [List.map_map]
      exact hkeys
    · exact List.mem_map.mpr ⟨U, hU, rfl⟩
  obtain ⟨hpos, hne2, _⟩ := PageRank.round_raw exp hexp (BipartiteGraph.run ops) R hR
    (maxRatingsOf (BipartiteGraph.run ops)) hne
  refine ⟨?_, ?_, ?_, ?_, ?_, fun O hO => commonCount_eq_card U.2 O.2 hO,
    fun hnd => ⟨newRankPerRating_eq_spec exp _ R U (fun O hO _ => hnd O hO),
      List.map_congr_left (fun V _ =>
        newRankPerRating_eq_spec exp _ R V (fun O hO _ => hnd O hO))⟩⟩
  · rw [hraw, hspec]
    exact hfind
  · rw [PageRank.normalizeRanks_eq _ hpos hne2, hraw, hspec]
    have hsum : rankSum ((BipartiteGraph.run ops).user_to_items.map
        (fun u => (u.1, newRankPerRating exp (BipartiteGraph.run ops) R u)))
        = ((BipartiteGraph.run ops).user_to_items.map
            (newRankPerRating exp (BipartiteGraph.run ops) R)).sum := by
      unfold rankSum
      rw [List.map_map]
      rfl
    rw [hsum]
    rw [Map.find_map_value _
      (fun v => max PageRank.MIN_RANK (v / ((BipartiteGraph.run ops).user_to_items.map
        (newRankPerRating exp (BipartiteGraph.run ops) R)).sum)) U.1, hfind]
    simp [PageRank.MIN_RANK]
  · intro k
    by_cases hconv : ((BipartiteGraph.run ops).user_to_items.foldl
        (PageRank.rankStep exp (BipartiteGraph.run ops) R
          (maxRatingsOf (BipartiteGraph.run ops))) ([], 0)).2 < PageRank.CONVERGENCE_THRESHOLD
    · left
      rw [PageRank.iterate]
      simp only [hconv, if_true]
    · right
      rw [PageRank.iterate]
      simp only [hconv, if_false]
  · intro hitems
    have hcond : ¬ ((BipartiteGraph.run ops).user_to_items.isEmpty = true
        ∨ (BipartiteGraph.run ops).items.isEmpty = true) := by
      rw [List.isEmpty_iff, List.isEmpty_iff]
      exact not_or.mpr ⟨hne, hitems⟩
    unfold PageRank.construct PageRank.calculatePageRanks
    rw [if_neg hcond]
    rfl
  · intro O hO
    unfold rankOf
    rw [PageRank.find_initializeRanks (BipartiteGraph.run ops) _ O hO]
    rfl

/-- C31 on the graph of `test_PageRank_HandlesIsolatedUsers` with the initial table
`1/2, 1/2`: user 1 gets the specified new rank and stored rank. -/
theorem rank_round_formula_witness :
    (1, [(1, 5)]) ∈ (isolatedGraph ℝ).user_to_items
    ∧ Map.find
        ((isolatedGraph ℝ).user_to_items.foldl
          (PageRank.rankStep Real.exp (isolatedGraph ℝ) [(1, 1 / 2), (2, 1 / 2)]
            (maxRatingsOf (isolatedGraph ℝ))) ([], 0)).1 1
        = some (newRankPerRating Real.exp (isolatedGraph ℝ) [(1, 1 / 2), (2, 1 / 2)] (1, [(1, 5)]))
    ∧ Map.find
        (PageRank.normalizeRanks
          ((isolatedGraph ℝ).user_to_items.foldl
            (PageRank.rankStep Real.exp (isolatedGraph ℝ) [(1, 1 / 2), (2, 1 / 2)]
              (maxRatingsOf (isolatedGraph ℝ))) ([], 0)).1) 1
        = some (max (1 / 10000)
            (newRankPerRating Real.exp (isolatedGraph ℝ) [(1, 1 / 2), (2, 1 / 2)] (1, [(1, 5)])
              / ((isolatedGraph ℝ).user_to_items.map
                  (newRankPerRating Real.exp (isolatedGraph ℝ) [(1, 1 / 2), (2, 1 / 2)])).sum)) :=
  have hU : ((1 : Int), [((1 : Int), (5 : ℝ))]) ∈ (isolatedGraph ℝ).user_to_items := by
    rw [isolatedGraph_users]
    simp
  have h := rank_round_formula Real.exp Real.exp_pos
    [BipartiteGraph.Op.addItem 1 ["Action"] 120 8 2020,
     BipartiteGraph.Op.addItem 2 ["Drama"] 115 (15 / 2) 2020,
     BipartiteGraph.Op.addUser 1 [(1, 5)],
     BipartiteGraph.Op.addUser 2 [(2, 4)]]
    [(1, 1 / 2), (2, 1 / 2)]
    (by
      intro e he
      simp only [List.mem_cons, List.mem_singleton, List.not_mem_nil, or_false] at he
      rcases he with rfl | rfl <;> norm_num)
    (1, [(1, 5)]) hU
  ⟨hU, h.1, h.2.1⟩

section RankRounds

variable {F : Type} [LinearOrderedField F]

theorem PageRank.round_snd (exp : F → F) (g : BipartiteGraph F) (R : Map Int F)
    (maxRatings : Nat) (users : List (Int × List (Int × F))) :
    ∀ acc : Map Int F × F,
      (users.foldl (PageRank.rankStep exp g R maxRatings) acc).2
        = acc.2 + (users.map
            (fun u => |PageRank.newRankOf exp g R maxRatings u - rankOf R u.1|)).sum := by
  induction users with
  | nil =>
    intro acc
    simp
  | cons u t ih =>
    intro acc
    simp only [List.foldl, List.map_cons, List.sum_cons]
    rw [ih]
    simp only [PageRank.rankStep, rankOf]
    ring

/-- The value `totalDiff` at the end of a round is the change between the stored ranks and
the new ranks before normalisation. -/
theorem PageRank.totalDiff_eq (exp : F → F) (g : BipartiteGraph F) (maxRatings : Nat)
    (R : Map Int F) :
    (g.user_to_items.foldl (PageRank.rankStep exp g R maxRatings) ([], 0)).2
      = rawChange exp g maxRatings R := by
  rw [PageRank.round_snd]
  unfold rawChange
  simp

theorem PageRank.roundsRun_le (exp : F → F) (g : BipartiteGraph F) (maxRatings : Nat) :
    ∀ (n : Nat) (R : Map Int F), PageRank.roundsRun exp g maxRatings n R ≤ n := by
  intro n
  induction n with
  | zero =>
    intro R
    simp [PageRank.roundsRun]
  | succ k ih =>
    intro R
    by_cases hconv : (g.user_to_items.foldl (PageRank.rankStep exp g R maxRatings) ([], 0)).2
        < PageRank.CONVERGENCE_THRESHOLD
    · rw [PageRank.roundsRun]
      simp only [hconv, if_true]
      omega
    · rw [PageRank.roundsRun]
      simp only [hconv, if_false]
      have h := ih (PageRank.normalizeRanks
        (g.user_to_items.foldl (PageRank.rankStep exp g R maxRatings) ([], 0)).1)
      omega

theorem PageRank.roundsRun_full (exp : F → F) (g : BipartiteGraph F) (maxRatings : Nat) :
    ∀ (n : Nat) (R : Map Int F),
      (∀ j, j < n → ¬ rawChange exp g maxRatings (tableAfter exp g maxRatings j R)
          < PageRank.CONVERGENCE_THRESHOLD) →
      PageRank.roundsRun exp g maxRatings n R = n := by
  intro n
  induction n with
  | zero =>
    intro R _
    simp [PageRank.roundsRun]
  | succ k ih =>
    intro R h
    have h0 : ¬ (g.user_to_items.foldl (PageRank.rankStep exp g R maxRatings) ([], 0)).2
        < PageRank.CONVERGENCE_THRESHOLD := by
      rw [PageRank.totalDiff_eq]
      exact h 0 (Nat.succ_pos k)
    rw [PageRank.roundsRun]
    simp only [h0, if_false]
    rw [ih _ (fun j hj => h (j + 1) (Nat.succ_lt_succ hj))]
    omega

theorem PageRank.roundsRun_early (exp : F → F) (g : BipartiteGraph F) (maxRatings : Nat) :
    ∀ (n : Nat) (R : Map Int F) (k : Nat), k < n →
      (∀ j, j < k → ¬ rawChange exp g maxRatings (tableAfter exp g maxRatings j R)
          < PageRank.CONVERGENCE_THRESHOLD) →
      rawChange exp g maxRatings (tableAfter exp g maxRatings k R)
          < PageRank.CONVERGENCE_THRESHOLD →
      PageRank.roundsRun exp g maxRatings n R = k + 1 := by
  intro n
  induction n with
  | zero =>
    intro R k hk
    omega
  | succ m ih =>
    intro R k hk hbefore hat
    cases k with
    | zero =>
      have h0 : (g.user_to_items.foldl (PageRank.rankStep exp g R maxRatings) ([], 0)).2
          < PageRank.CONVERGENCE_THRESHOLD := by
        rw [PageRank.totalDiff_eq]
        exact hat
      rw [PageRank.roundsRun]
      simp only [h0, if_true]
    | succ k2 =>
      have h0 : ¬ (g.user_to_items.foldl (PageRank.rankStep exp g R maxRatings) ([], 0)).2
          < PageRank.CONVERGENCE_THRESHOLD := by
        rw [PageRank.totalDiff_eq]
        exact hbefore 0 (Nat.succ_pos k2)
      rw [PageRank.roundsRun]
      simp only [h0, if_false]
      rw [ih _ k2 (Nat.lt_of_succ_lt_succ hk)
        (fun j hj => hbefore (j + 1) (Nat.succ_lt_succ hj)) hat]
      omega

theorem PageRank.iterate_eq_tableAfter (exp : F → F) (g : BipartiteGraph F)
    (maxRatings : Nat) :
    ∀ (n : Nat) (R : Map Int F),
      PageRank.iterate exp g maxRatings n R
        = tableAfter exp g maxRatings (PageRank.roundsRun exp g maxRatings n R) R := by
  intro n
  induction n with
  | zero =>
    intro R
    rfl
  | succ k ih =>
    intro R
    by_cases hconv : (g.user_to_items.foldl (PageRank.rankStep exp g R maxRatings) ([], 0)).2
        < PageRank.CONVERGENCE_THRESHOLD
    · rw [PageRank.iterate, PageRank.roundsRun]
      simp only [hconv, if_true]
      rfl
    · rw [PageRank.iterate, PageRank.roundsRun]
      simp only [hconv, if_false]
      rw [ih, Nat.add_comm 1]
      rfl

theorem tableAfter_fixed (exp : F → F) (g : BipartiteGraph F) (maxRatings : Nat)
    (R : Map Int F)
    (hround : PageRank.normalizeRanks
      (g.user_to_items.foldl (PageRank.rankStep exp g R maxRatings) ([], 0)).1 = R) :
    ∀ k, tableAfter exp g maxRatings k R = R := by
  intro k
  induction k with
  | zero => rfl
  | succ k ih =>
    rw [tableAfter, hround, ih]

theorem isolatedGraph_rawChange (exp : F → F) :
    rawChange exp (isolatedGraph F) 1 [(1, 1 / 2), (2, 1 / 2)] = 17 / 20 := by
  unfold rawChange
  rw [isolatedGraph_users]
  simp only [List.map_cons, List.map_nil, List.sum_cons, List.sum_nil, PageRank.newRankOf,
    isolatedGraph_users, List.foldl, PageRank.addContribution, PageRank.sharedMovies,
    PageRank.userMoviesOf, isolatedGraph_items, Map.find, rankOf]
  norm_num [USet.insert, USet.count, PageRank.calculateActivityScore,
    PageRank.DAMPING, PageRank.CORE_ACTIVITY_THRESHOLD,
    PageRank.ACTIVITY_BOOST, List.foldl, abs_of_neg]

end RankRounds

section OverlapGraph

variable {F : Type} [LinearOrderedField F]

theorem overlapGraph_users (F : Type) [LinearOrderedField F] :
    (overlapGraph F).user_to_items
      = [(1, [(1, 5), (2, 4), (3, 3)]), (2, [(1, 4), (4, 5), (5, 3)])] := by
  simp [overlapGraph, BipartiteGraph.run, BipartiteGraph.step, BipartiteGraph.addItem,
    BipartiteGraph.addUser, BipartiteGraph.empty, Map.insert, Map.find, Map.modify]

theorem overlapGraph_items (F : Type) [LinearOrderedField F] :
    (overlapGraph F).items
      = [(1, { id := 1, genres := ["Action"], length := 120, imdb := 8, rating := 2020 }),
         (2, { id := 2, genres := ["Drama"], length := 115, imdb := 15 / 2, rating := 2020 }),
         (3, { id := 3, genres := ["Comedy"], length := 100, imdb := 7, rating := 2019 }),
         (4, { id := 4, genres := ["Action"], length := 110, imdb := 6, rating := 2018 }),
         (5, { id := 5, genres := ["Drama"], length := 95, imdb := 9, rating := 2021 })] := by
  simp [overlapGraph, BipartiteGraph.run, BipartiteGraph.step, BipartiteGraph.addItem,
    BipartiteGraph.addUser, BipartiteGraph.empty, Map.insert, Map.find, Map.modify]

theorem overlapGraph_rawChange (exp : F → F) :
    rawChange exp (overlapGraph F) 3 [(1, 1 / 2), (2, 1 / 2)] = 0 := by
  unfold rawChange
  rw [overlapGraph_users]
  simp only [List.map_cons, List.map_nil, List.sum_cons, List.sum_nil, PageRank.newRankOf,
    overlapGraph_users, List.foldl, PageRank.addContribution, PageRank.sharedMovies,
    PageRank.userMoviesOf, overlapGraph_items, Map.find, rankOf]
  norm_num [USet.insert, USet.count, PageRank.calculateActivityScore,
    PageRank.DAMPING, PageRank.CORE_ACTIVITY_THRESHOLD,
    PageRank.ACTIVITY_BOOST, List.foldl]

end OverlapGraph

/-- C32, the run that misses convergence: on the graph of
`test_PageRank_HandlesIsolatedUsers` the initial table is `1/2, 1/2` and the first round
stores `1/2, 1/2` again, so the change between the ranks stored before and after the round
is `0 < 0.0001`; the new ranks before normalisation are `0.075` each, the value `totalDiff`
that the loop compares with the threshold is `0.85`, and all 50 rounds run. -/
theorem rank_loop_ignores_stored_change :
    (PageRank.initializeRanks (isolatedGraph ℝ) { ranks := [] }).ranks
        = [(1, 1 / 2), (2, 1 / 2)]
      ∧ maxRatingsOf (isolatedGraph ℝ) = 1
      ∧ storedChange Real.exp (isolatedGraph ℝ) 1 [(1, 1 / 2), (2, 1 / 2)] = 0
      ∧ ((isolatedGraph ℝ).user_to_items.foldl
          (PageRank.rankStep Real.exp (isolatedGraph ℝ) [(1, 1 / 2), (2, 1 / 2)] 1)
          ([], 0)).2 = 17 / 20
      ∧ PageRank.roundsRun Real.exp (isolatedGraph ℝ) 1 PageRank.MAX_ITERATIONS
          [(1, 1 / 2), (2, 1 / 2)] = 50 := by
  refine ⟨?_, ?_, ?_, ?_, ?_⟩
  · simp only [PageRank.initializeRanks, isolatedGraph_users]
    norm_num [List.foldl, Map.insert]
  · unfold maxRatingsOf
    rw [isolatedGraph_users]
    rfl
  · unfold storedChange
    rw [tableAfter_fixed Real.exp (isolatedGraph ℝ) 1 _ (isolatedGraph_round Real.exp) 1]
    simp
  · rw [PageRank.totalDiff_eq, isolatedGraph_rawChange]
  · apply PageRank.roundsRun_full
    intro j _
    rw [tableAfter_fixed Real.exp (isolatedGraph ℝ) 1 _ (isolatedGraph_round Real.exp) j,
      isolatedGraph_rawChange]
    norm_num [PageRank.CONVERGENCE_THRESHOLD]

/-- What the loop of the rank computation does: it runs at most 50 rounds and its result is
the table after the rounds it ran. The value it compares with `0.0001` is the summed
absolute change across all users between the ranks stored before the round and the new ranks
computed in the round before they are normalised and floored. It stops after round `k + 1`
when that round is the first in which this change is below `0.0001`, and runs exactly 50
rounds when no round has such a change. -/
theorem rank_rounds_stop_rule {F : Type} [LinearOrderedField F] (exp : F → F)
    (g : BipartiteGraph F) (maxRatings : Nat) (R : Map Int F) :
    PageRank.roundsRun exp g maxRatings PageRank.MAX_ITERATIONS R ≤ 50
      ∧ PageRank.iterate exp g maxRatings PageRank.MAX_ITERATIONS R
          = tableAfter exp g maxRatings
              (PageRank.roundsRun exp g maxRatings PageRank.MAX_ITERATIONS R) R
      ∧ (∀ T : Map Int F,
          (g.user_to_items.foldl (PageRank.rankStep exp g T maxRatings) ([], 0)).2
            = rawChange exp g maxRatings T)
      ∧ (∀ k, k < 50 →
          (∀ j, j < k →
            ¬ rawChange exp g maxRatings (tableAfter exp g maxRatings j R) < 1 / 10000) →
          rawChange exp g maxRatings (tableAfter exp g maxRatings k R) < 1 / 10000 →
          PageRank.roundsRun exp g maxRatings PageRank.MAX_ITERATIONS R = k + 1)
      ∧ ((∀ j, j < 50 →
            ¬ rawChange exp g maxRatings (tableAfter exp g maxRatings j R) < 1 / 10000) →
          PageRank.roundsRun exp g maxRatings PageRank.MAX_ITERATIONS R = 50) := by
  refine ⟨PageRank.roundsRun_le exp g maxRatings _ R,
    PageRank.iterate_eq_tableAfter exp g maxRatings _ R,
    fun T => PageRank.totalDiff_eq exp g maxRatings T, ?_, ?_⟩
  · intro k hk hbefore hat
    exact PageRank.roundsRun_early exp g maxRatings PageRank.MAX_ITERATIONS R k hk hbefore hat
  · intro h
    exact PageRank.roundsRun_full exp g maxRatings PageRank.MAX_ITERATIONS R h

/-- The stop rule on two users who share one of their three items: the new ranks of the
first round are `1/2` each before normalisation, the change is `0`, and the loop stops after
one round. -/
theorem rank_rounds_stop_rule_witness :
    rawChange Real.exp (overlapGraph ℝ) 3
        (tableAfter Real.exp (overlapGraph ℝ) 3 0 [(1, 1 / 2), (2, 1 / 2)]) < 1 / 10000
      ∧ PageRank.roundsRun Real.exp (overlapGraph ℝ) 3 PageRank.MAX_ITERATIONS
          [(1, 1 / 2), (2, 1 / 2)] = 0 + 1 :=
  have hat : rawChange Real.exp (overlapGraph ℝ) 3
      (tableAfter Real.exp (overlapGraph ℝ) 3 0 [(1, 1 / 2), (2, 1 / 2)]) < 1 / 10000 := by
    rw [tableAfter, overlapGraph_rawChange]
    norm_num
  ⟨hat, (rank_rounds_stop_rule Real.exp (overlapGraph ℝ) 3 [(1, 1 / 2), (2, 1 / 2)]).2.2.2.1 0
    (by norm_num) (fun j hj => absurd hj (Nat.not_lt_zero j)) hat⟩
